import Mathlib

/-!
# Verification development for the 802.11 MAC high/low framework (liu-chao/dcf)

Shallow embedding of

* `wlan_mac_shared/wlan_mac_common/wlan_mac_ipc_util.c`
  (mailbox transport, packet-buffer mutexes), and
* `wlan_mac_shared/wlan_mac_high_framework/wlan_mac_high.c`
  (transmit-buffer allocator, association table, statistics table, message
  dispatcher, frame hand-over to CPU Low).

Machine integers are natural numbers with explicit truncation where a store
into a narrower field can wrap.  Hardware cores (mailbox, mutex, interrupt
controller) are explicit state that is passed through the functions.

The list library `wlan_mac_dl_list` is not part of the sources.  A table is
the sequence of its entries in the order of the walk from `first`; the
association table is given a second time as a doubly linked list in memory
(namespace `Linked`), with the operations of the usual doubly linked list, for
the calls that pass one entry to `dl_entry_insertBefore` more than once.
-/

namespace Dcf

/-! ## Part 1. Definitions -/

/-! ### 1.1 Constants and types of `wlan_mac_ipc_util.h` -/

/-- Constants defined in `wlan_mac_ipc_util.h`; that header is not part of the
sources at hand, so every function takes them as a parameter. -/
structure wlan_mac_ipc_util_h where
  IPC_MBOX_MSG_ID_DELIM : Nat
  IPC_BUFFER_MAX_NUM_WORDS : Nat
  NUM_TX_PKT_BUFS : Nat
  NUM_RX_PKT_BUFS : Nat
  PKT_BUF_MUTEX_TX_BASE : Nat
  PKT_BUF_MUTEX_RX_BASE : Nat

/-- Return codes of the mailbox functions (`IPC_MBOX_*`). -/
inductive ipc_mbox_status where
  | IPC_MBOX_SUCCESS
  | IPC_MBOX_INVALID_MSG
  | IPC_MBOX_NO_MSG_AVAIL
  deriving DecidableEq, Repr

/-- Return codes of the packet-buffer mutex functions (`PKT_BUF_MUTEX_*`). -/
inductive pkt_buf_mutex_status where
  | PKT_BUF_MUTEX_SUCCESS
  | PKT_BUF_MUTEX_FAIL_INVALID_BUF
  | PKT_BUF_MUTEX_FAIL_ALREADY_LOCKED
  | PKT_BUF_MUTEX_FAIL_NOT_LOCK_OWNER
  deriving DecidableEq, Repr

/-- Modelled from the spec: the type `wlan_ipc_msg` is declared in
`wlan_mac_ipc_util.h`, which is missing.  The sources use the fields `msg_id`,
`num_payload_words`, `arg0` and `payload_ptr`.  The header is sent and received
as the first 32-bit word of the struct (`(u32*)msg`, 4 bytes), and the receiver
reads `msg_id`, `num_payload_words` and `arg0` from it, so these three fields
share that word: `msg_id` is taken as a 16-bit field and the two others as
8-bit fields.  `payload_ptr` is represented by the contents of the word buffer
it points to. -/
structure wlan_ipc_msg where
  msg_id : Nat
  num_payload_words : Nat
  arg0 : Nat
  payload_ptr : List Nat
  deriving DecidableEq, Repr

/-- The first 32-bit word of a `wlan_ipc_msg`, as `(u32*)msg` reads it: the
three header fields side by side, each truncated to its width. -/
def ipc_msg_header_word (msg : wlan_ipc_msg) : Nat :=
  msg.msg_id % 65536 + 65536 * (msg.num_payload_words % 256)
    + 16777216 * (msg.arg0 % 256)

/-- Storing one 32-bit word over the first word of a `wlan_ipc_msg`, as a read
through `(u32*)msg` does: the three header fields are replaced, `payload_ptr`
is untouched. -/
def ipc_msg_store_header (msg : wlan_ipc_msg) (w : Nat) : wlan_ipc_msg :=
  { msg with
    msg_id := w % 65536
    num_payload_words := (w / 65536) % 256
    arg0 := (w / 16777216) % 256 }

/-- Storing `words` at the start of the buffer `buf`. -/
def store_words (buf words : List Nat) : List Nat :=
  words ++ buf.drop words.length

/-! ### 1.2 The mailbox core (`XMbox`) -/

/-- Modelled from the spec: the mailbox core and its driver (`XMbox_*`) are
not part of the sources.  The mailbox is a strictly ordered, word-granular
queue: the words written and not yet read, oldest first. -/
abbrev XMbox := List Nat

/-- `XST_SUCCESS` of `xstatus.h`. -/
def XST_SUCCESS : Nat := 0

/-- `XST_NO_DATA` of `xstatus.h`. -/
def XST_NO_DATA : Nat := 13

/-- `XST_DEVICE_BUSY` of `xstatus.h`. -/
def XST_DEVICE_BUSY : Nat := 21

/-- `XST_FAILURE` of `xstatus.h`. -/
def XST_FAILURE : Nat := 1

/-- `XMbox_IsEmpty`. -/
def XMbox_IsEmpty (mbox : XMbox) : Bool := mbox.isEmpty

/-- `XMbox_WriteBlocking`: appends the first `nbytes / 4` words of the buffer. -/
def XMbox_WriteBlocking (mbox : XMbox) (buf : List Nat) (nbytes : Nat) : XMbox :=
  mbox ++ buf.take (nbytes / 4)

/-- `XMbox_Read`: non-blocking read of up to `nbytes / 4` words.  Returns the
status, the words read (`bytes_read` is four times their number) and the
mailbox left. -/
def XMbox_Read (mbox : XMbox) (nbytes : Nat) : Nat × List Nat × XMbox :=
  if mbox.isEmpty then (XST_NO_DATA, [], mbox)
  else (XST_SUCCESS, mbox.take (nbytes / 4), mbox.drop (nbytes / 4))

/-- `XMbox_ReadBlocking`: waits until `nbytes / 4` words have been read.  In a
mailbox that no one writes to meanwhile the call returns only if the words are
there; `none` stands for a call that never returns. -/
def XMbox_ReadBlocking (mbox : XMbox) (nbytes : Nat) : Option (List Nat × XMbox) :=
  if nbytes / 4 ≤ mbox.length then some (mbox.take (nbytes / 4), mbox.drop (nbytes / 4))
  else none

/-- `XMbox_Flush`: discards everything that is in the mailbox. -/
def XMbox_Flush (_mbox : XMbox) : XMbox := []

/-! ### 1.3 Interrupt state of CPU High -/

/-- Values of `interrupt_state_t`. -/
inductive interrupt_state_t where
  | INTERRUPTS_DISABLED
  | INTERRUPTS_ENABLED
  deriving DecidableEq, Repr

/-- The variables of `wlan_mac_high.c` that the interrupt helpers touch: the
static `interrupt_state` and the `IsReady` / `IsStarted` fields of
`InterruptController`. -/
structure intc_state where
  interrupt_state : interrupt_state_t
  IsReady : Bool
  IsStarted : Bool
  deriving DecidableEq, Repr

/-- `wlan_mac_high_interrupt_stop` (wlan_mac_high.c:504). -/
def wlan_mac_high_interrupt_stop (s : intc_state) : interrupt_state_t × intc_state :=
  let curr_state := s.interrupt_state
  let s1 := if s.IsReady && s.IsStarted then { s with IsStarted := false } else s
  (curr_state, { s1 with interrupt_state := interrupt_state_t.INTERRUPTS_DISABLED })

/-- `wlan_mac_high_interrupt_restore_state` (wlan_mac_high.c:474);
`XIntc_Start` is taken to succeed (return 0) and to set `IsStarted`. -/
def wlan_mac_high_interrupt_restore_state (s : intc_state)
    (new_interrupt_state : interrupt_state_t) : Int × intc_state :=
  let s1 := { s with interrupt_state := new_interrupt_state }
  if s1.interrupt_state = interrupt_state_t.INTERRUPTS_ENABLED then
    if s1.IsReady && (s1.IsStarted == false) then (0, { s1 with IsStarted := true })
    else (-1, s1)
  else (0, s1)

/-! ### 1.4 Mailbox transport -/

/-- `ipc_mailbox_write_msg` (wlan_mac_ipc_util.c:305), CPU High build
(`XPAR_INTC_0_DEVICE_ID` defined). -/
def ipc_mailbox_write_msg (h : wlan_mac_ipc_util_h) (ic : intc_state) (ipc_mailbox : XMbox)
    (msg : wlan_ipc_msg) : ipc_mbox_status × intc_state × XMbox :=
  if msg.msg_id &&& h.IPC_MBOX_MSG_ID_DELIM ≠ h.IPC_MBOX_MSG_ID_DELIM then
    (ipc_mbox_status.IPC_MBOX_INVALID_MSG, ic, ipc_mailbox)
  else if msg.num_payload_words > h.IPC_BUFFER_MAX_NUM_WORDS then
    (ipc_mbox_status.IPC_MBOX_INVALID_MSG, ic, ipc_mailbox)
  else
    let (prev_interrupt_state, ic1) := wlan_mac_high_interrupt_stop ic
    let mbox1 := XMbox_WriteBlocking ipc_mailbox [ipc_msg_header_word msg] 4
    let mbox2 :=
      if msg.num_payload_words > 0 then
        XMbox_WriteBlocking mbox1 msg.payload_ptr (4 * msg.num_payload_words)
      else mbox1
    let ic2 := (wlan_mac_high_interrupt_restore_state ic1 prev_interrupt_state).2
    (ipc_mbox_status.IPC_MBOX_SUCCESS, ic2, mbox2)

/-- The loop `for(i=0;i<msg->num_payload_words;i++) XMbox_ReadBlocking(.., &trash_bin, 4)`
of `ipc_mailbox_read_msg`: `n` blocking reads of one word each. -/
def ipc_mailbox_trash : Nat → XMbox → Option XMbox
  | 0, mbox => some mbox
  | n + 1, mbox =>
    match XMbox_ReadBlocking mbox 4 with
    | none => none
    | some (_, mbox1) => ipc_mailbox_trash n mbox1

/-- `ipc_mailbox_read_msg` (wlan_mac_ipc_util.c:345).  The result is the
status, the mailbox left and the caller's message struct; `none` stands for a
call that never returns (a blocking read of words that are not there). -/
def ipc_mailbox_read_msg (h : wlan_mac_ipc_util_h) (ipc_mailbox : XMbox) (msg : wlan_ipc_msg) :
    Option (ipc_mbox_status × XMbox × wlan_ipc_msg) :=
  if XMbox_IsEmpty ipc_mailbox then
    some (ipc_mbox_status.IPC_MBOX_INVALID_MSG, ipc_mailbox, msg)
  else
    let (status, words, mbox1) := XMbox_Read ipc_mailbox 4
    let bytes_read := 4 * words.length
    if status ≠ XST_SUCCESS ∨ bytes_read ≠ 4 then
      some (ipc_mbox_status.IPC_MBOX_NO_MSG_AVAIL, mbox1, msg)
    else
      let msg1 := ipc_msg_store_header msg (words.headD 0)
      if msg1.msg_id &&& h.IPC_MBOX_MSG_ID_DELIM ≠ h.IPC_MBOX_MSG_ID_DELIM then
        some (ipc_mbox_status.IPC_MBOX_INVALID_MSG, XMbox_Flush mbox1, msg1)
      else if msg1.num_payload_words > h.IPC_BUFFER_MAX_NUM_WORDS then
        match ipc_mailbox_trash msg1.num_payload_words mbox1 with
        | none => none
        | some mbox2 => some (ipc_mbox_status.IPC_MBOX_INVALID_MSG, mbox2, msg1)
      else if msg1.num_payload_words > 0 then
        match XMbox_ReadBlocking mbox1 (4 * msg1.num_payload_words) with
        | none => none
        | some (payload, mbox2) =>
          some (ipc_mbox_status.IPC_MBOX_SUCCESS, mbox2,
            { msg1 with payload_ptr := store_words msg1.payload_ptr payload })
      else
        some (ipc_mbox_status.IPC_MBOX_SUCCESS, mbox1, msg1)

/-- A message struct whose fields fit their C types (`u16`, `u8`, `u8`) and
whose payload buffer holds at least `num_payload_words` words. -/
def wlan_ipc_msg_wf (msg : wlan_ipc_msg) : Prop :=
  msg.msg_id < 65536 ∧ msg.num_payload_words < 256 ∧ msg.arg0 < 256
    ∧ msg.num_payload_words ≤ msg.payload_ptr.length

instance (msg : wlan_ipc_msg) : Decidable (wlan_ipc_msg_wf msg) := by
  unfold wlan_ipc_msg_wf; infer_instance

/-! ### 1.5 The mutex core (`XMutex`) and the packet-buffer locks -/

/-- A call made to the mutex core, as the core sees it: which CPU asked and
for which mutex number. -/
inductive XMutex_call where
  | Trylock (cpu n : Nat)
  | Unlock (cpu n : Nat)
  | GetStatus (n : Nat)
  deriving DecidableEq, Repr

/-- Modelled from the spec: the hardware mutex core and its driver
(`XMutex_*`) are not part of the sources.  Each mutex number has at most one
owner, the CPU that holds it (`none`: free).  `calls` records every call the
core has received, oldest first. -/
structure XMutex where
  owner : Nat → Option Nat
  calls : List XMutex_call

/-- Modelled from the spec: `XMutex_Trylock` is a non-blocking exclusive
acquire.  It succeeds exactly when the mutex is free, and then the calling CPU
becomes the owner. -/
def XMutex_Trylock (m : XMutex) (cpu n : Nat) : Nat × XMutex :=
  match m.owner n with
  | none =>
    (XST_SUCCESS,
      { owner := fun k => if k = n then some cpu else m.owner k
        calls := m.calls ++ [XMutex_call.Trylock cpu n] })
  | some _ => (XST_DEVICE_BUSY, { m with calls := m.calls ++ [XMutex_call.Trylock cpu n] })

/-- Modelled from the spec: `XMutex_Unlock` releases the mutex exactly when
the calling CPU owns it; an unlock by a non-owner, or of a free mutex, fails. -/
def XMutex_Unlock (m : XMutex) (cpu n : Nat) : Nat × XMutex :=
  if m.owner n = some cpu then
    (XST_SUCCESS,
      { owner := fun k => if k = n then none else m.owner k
        calls := m.calls ++ [XMutex_call.Unlock cpu n] })
  else (XST_FAILURE, { m with calls := m.calls ++ [XMutex_call.Unlock cpu n] })

/-- Modelled from the spec: `XMutex_GetStatus` reports the lock flag and the
owner (0 when the mutex is free) and changes no lock. -/
def XMutex_GetStatus (m : XMutex) (n : Nat) : Nat × Nat × XMutex :=
  match m.owner n with
  | none => (0, 0, { m with calls := m.calls ++ [XMutex_call.GetStatus n] })
  | some c => (1, c, { m with calls := m.calls ++ [XMutex_call.GetStatus n] })

/-- `lock_pkt_buf_tx` (wlan_mac_ipc_util.c:219), executed by CPU `cpu`. -/
def lock_pkt_buf_tx (h : wlan_mac_ipc_util_h) (cpu : Nat) (pkt_buf_mutex : XMutex)
    (pkt_buf_ind : Nat) : pkt_buf_mutex_status × XMutex :=
  if pkt_buf_ind ≥ h.NUM_TX_PKT_BUFS then
    (pkt_buf_mutex_status.PKT_BUF_MUTEX_FAIL_INVALID_BUF, pkt_buf_mutex)
  else
    let (status, m1) := XMutex_Trylock pkt_buf_mutex cpu (pkt_buf_ind + h.PKT_BUF_MUTEX_TX_BASE)
    if status = XST_SUCCESS then (pkt_buf_mutex_status.PKT_BUF_MUTEX_SUCCESS, m1)
    else (pkt_buf_mutex_status.PKT_BUF_MUTEX_FAIL_ALREADY_LOCKED, m1)

/-- `lock_pkt_buf_rx` (wlan_mac_ipc_util.c:234), executed by CPU `cpu`. -/
def lock_pkt_buf_rx (h : wlan_mac_ipc_util_h) (cpu : Nat) (pkt_buf_mutex : XMutex)
    (pkt_buf_ind : Nat) : pkt_buf_mutex_status × XMutex :=
  if pkt_buf_ind ≥ h.NUM_RX_PKT_BUFS then
    (pkt_buf_mutex_status.PKT_BUF_MUTEX_FAIL_INVALID_BUF, pkt_buf_mutex)
  else
    let (status, m1) := XMutex_Trylock pkt_buf_mutex cpu (pkt_buf_ind + h.PKT_BUF_MUTEX_RX_BASE)
    if status = XST_SUCCESS then (pkt_buf_mutex_status.PKT_BUF_MUTEX_SUCCESS, m1)
    else (pkt_buf_mutex_status.PKT_BUF_MUTEX_FAIL_ALREADY_LOCKED, m1)

/-- `unlock_pkt_buf_tx` (wlan_mac_ipc_util.c:250), executed by CPU `cpu`. -/
def unlock_pkt_buf_tx (h : wlan_mac_ipc_util_h) (cpu : Nat) (pkt_buf_mutex : XMutex)
    (pkt_buf_ind : Nat) : pkt_buf_mutex_status × XMutex :=
  if pkt_buf_ind ≥ h.NUM_TX_PKT_BUFS then
    (pkt_buf_mutex_status.PKT_BUF_MUTEX_FAIL_INVALID_BUF, pkt_buf_mutex)
  else
    let (status, m1) := XMutex_Unlock pkt_buf_mutex cpu (pkt_buf_ind + h.PKT_BUF_MUTEX_TX_BASE)
    if status = XST_SUCCESS then (pkt_buf_mutex_status.PKT_BUF_MUTEX_SUCCESS, m1)
    else (pkt_buf_mutex_status.PKT_BUF_MUTEX_FAIL_NOT_LOCK_OWNER, m1)

/-- `unlock_pkt_buf_rx` (wlan_mac_ipc_util.c:265), executed by CPU `cpu`. -/
def unlock_pkt_buf_rx (h : wlan_mac_ipc_util_h) (cpu : Nat) (pkt_buf_mutex : XMutex)
    (pkt_buf_ind : Nat) : pkt_buf_mutex_status × XMutex :=
  if pkt_buf_ind ≥ h.NUM_RX_PKT_BUFS then
    (pkt_buf_mutex_status.PKT_BUF_MUTEX_FAIL_INVALID_BUF, pkt_buf_mutex)
  else
    let (status, m1) := XMutex_Unlock pkt_buf_mutex cpu (pkt_buf_ind + h.PKT_BUF_MUTEX_RX_BASE)
    if status = XST_SUCCESS then (pkt_buf_mutex_status.PKT_BUF_MUTEX_SUCCESS, m1)
    else (pkt_buf_mutex_status.PKT_BUF_MUTEX_FAIL_NOT_LOCK_OWNER, m1)

/-- `status_pkt_buf_tx` (wlan_mac_ipc_util.c:280): status, `*Locked`, `*Owner`
(both `none` when the call stores nothing) and the mutex core. -/
def status_pkt_buf_tx (h : wlan_mac_ipc_util_h) (pkt_buf_mutex : XMutex) (pkt_buf_ind : Nat) :
    pkt_buf_mutex_status × Option Nat × Option Nat × XMutex :=
  if pkt_buf_ind ≥ h.NUM_TX_PKT_BUFS then
    (pkt_buf_mutex_status.PKT_BUF_MUTEX_FAIL_INVALID_BUF, none, none, pkt_buf_mutex)
  else
    let (locked, own, m1) := XMutex_GetStatus pkt_buf_mutex (pkt_buf_ind + h.PKT_BUF_MUTEX_TX_BASE)
    (pkt_buf_mutex_status.PKT_BUF_MUTEX_SUCCESS, some locked, some own, m1)

/-- `status_pkt_buf_rx` (wlan_mac_ipc_util.c:291). -/
def status_pkt_buf_rx (h : wlan_mac_ipc_util_h) (pkt_buf_mutex : XMutex) (pkt_buf_ind : Nat) :
    pkt_buf_mutex_status × Option Nat × Option Nat × XMutex :=
  if pkt_buf_ind ≥ h.NUM_RX_PKT_BUFS then
    (pkt_buf_mutex_status.PKT_BUF_MUTEX_FAIL_INVALID_BUF, none, none, pkt_buf_mutex)
  else
    let (locked, own, m1) := XMutex_GetStatus pkt_buf_mutex (pkt_buf_ind + h.PKT_BUF_MUTEX_RX_BASE)
    (pkt_buf_mutex_status.PKT_BUF_MUTEX_SUCCESS, some locked, some own, m1)

/-- The two roles of a packet buffer. -/
inductive pkt_buf_role where
  | tx
  | rx
  deriving DecidableEq, Repr

/-- A call of the lock layer: which function, by which CPU, on which index. -/
inductive pkt_buf_call where
  | lock (role : pkt_buf_role) (cpu ind : Nat)
  | unlock (role : pkt_buf_role) (cpu ind : Nat)
  | status (role : pkt_buf_role) (ind : Nat)
  deriving DecidableEq, Repr

/-- The lock function of a role. -/
def lock_pkt_buf (h : wlan_mac_ipc_util_h) (role : pkt_buf_role) (cpu : Nat) (m : XMutex)
    (ind : Nat) : pkt_buf_mutex_status × XMutex :=
  match role with
  | pkt_buf_role.tx => lock_pkt_buf_tx h cpu m ind
  | pkt_buf_role.rx => lock_pkt_buf_rx h cpu m ind

/-- The unlock function of a role. -/
def unlock_pkt_buf (h : wlan_mac_ipc_util_h) (role : pkt_buf_role) (cpu : Nat) (m : XMutex)
    (ind : Nat) : pkt_buf_mutex_status × XMutex :=
  match role with
  | pkt_buf_role.tx => unlock_pkt_buf_tx h cpu m ind
  | pkt_buf_role.rx => unlock_pkt_buf_rx h cpu m ind

/-- The status function of a role. -/
def status_pkt_buf (h : wlan_mac_ipc_util_h) (role : pkt_buf_role) (m : XMutex) (ind : Nat) :
    pkt_buf_mutex_status × Option Nat × Option Nat × XMutex :=
  match role with
  | pkt_buf_role.tx => status_pkt_buf_tx h m ind
  | pkt_buf_role.rx => status_pkt_buf_rx h m ind

/-- One call of the lock layer: its return code and the mutex core after it. -/
def pkt_buf_step (h : wlan_mac_ipc_util_h) (m : XMutex) : pkt_buf_call → pkt_buf_mutex_status × XMutex
  | pkt_buf_call.lock role cpu ind => lock_pkt_buf h role cpu m ind
  | pkt_buf_call.unlock role cpu ind => unlock_pkt_buf h role cpu m ind
  | pkt_buf_call.status role ind =>
    ((status_pkt_buf h role m ind).1, (status_pkt_buf h role m ind).2.2.2)

/-- The mutex core after a sequence of calls of the lock layer. -/
def pkt_buf_run (h : wlan_mac_ipc_util_h) (m : XMutex) : List pkt_buf_call → XMutex
  | [] => m
  | c :: cs => pkt_buf_run h (pkt_buf_step h m c).2 cs

/-- The call `c` is an unlock of buffer `(role, ind)` made by CPU `cpu`. -/
def is_unlock_by (role : pkt_buf_role) (cpu ind : Nat) (c : pkt_buf_call) : Bool :=
  c == pkt_buf_call.unlock role cpu ind

/-- The mutex number of buffer `(role, ind)`. -/
def pkt_buf_mutex_num (h : wlan_mac_ipc_util_h) (role : pkt_buf_role) (ind : Nat) : Nat :=
  match role with
  | pkt_buf_role.tx => ind + h.PKT_BUF_MUTEX_TX_BASE
  | pkt_buf_role.rx => ind + h.PKT_BUF_MUTEX_RX_BASE

/-- The number of buffers of a role. -/
def pkt_buf_count (h : wlan_mac_ipc_util_h) (role : pkt_buf_role) : Nat :=
  match role with
  | pkt_buf_role.tx => h.NUM_TX_PKT_BUFS
  | pkt_buf_role.rx => h.NUM_RX_PKT_BUFS

/-- The lock namespaces of the two roles do not overlap: no in-range transmit
buffer shares its mutex number with an in-range receive buffer. -/
def pkt_buf_namespaces_disjoint (h : wlan_mac_ipc_util_h) : Prop :=
  ∀ i j, i < h.NUM_TX_PKT_BUFS → j < h.NUM_RX_PKT_BUFS →
    i + h.PKT_BUF_MUTEX_TX_BASE ≠ j + h.PKT_BUF_MUTEX_RX_BASE

/-! ### 1.6 Transmit-buffer allocator (`wlan_mac_high.c`) -/

/-- `wlan_mac_high_is_ready_for_tx` (wlan_mac_high.c:2282). -/
def wlan_mac_high_is_ready_for_tx (tx_pkt_buf_busy_state : Nat) : Int :=
  if tx_pkt_buf_busy_state ≠ 3 then 1 else 0

/-- `wlan_mac_high_lock_new_tx_packet_buffer` (wlan_mac_high.c:2296), executed
by CPU `cpu`: the return value, the new `tx_pkt_buf_busy_state` and the mutex
core. -/
def wlan_mac_high_lock_new_tx_packet_buffer (h : wlan_mac_ipc_util_h) (cpu : Nat)
    (tx_pkt_buf_busy_state : Nat) (pkt_buf_mutex : XMutex) : Int × Nat × XMutex :=
  let (pkt_buf_sel, busy1) : Int × Nat :=
    match tx_pkt_buf_busy_state with
    | 1 => (1, (tx_pkt_buf_busy_state ||| 2) % 256)
    | 0 => (0, (tx_pkt_buf_busy_state ||| 1) % 256)
    | 2 => (0, (tx_pkt_buf_busy_state ||| 1) % 256)
    | 3 => (-1, tx_pkt_buf_busy_state)
    | _ => (-1, tx_pkt_buf_busy_state)
  if pkt_buf_sel ≠ -1 then
    let (st, m1) := lock_pkt_buf_tx h cpu pkt_buf_mutex (pkt_buf_sel.toNat % 256)
    if st ≠ pkt_buf_mutex_status.PKT_BUF_MUTEX_SUCCESS then (-1, busy1, m1)
    else (pkt_buf_sel, busy1, m1)
  else (pkt_buf_sel, busy1, pkt_buf_mutex)

/-- `wlan_mac_high_release_tx_packet_buffer` (wlan_mac_high.c:2332), executed
by CPU `cpu`. -/
def wlan_mac_high_release_tx_packet_buffer (h : wlan_mac_ipc_util_h) (cpu : Nat)
    (tx_pkt_buf_busy_state : Nat) (pkt_buf_mutex : XMutex) (pkt_buf : Int) : Int × Nat × XMutex :=
  let busy1 : Option Nat :=
    if pkt_buf = 0 then some (tx_pkt_buf_busy_state &&& 254)
    else if pkt_buf = 1 then some (tx_pkt_buf_busy_state &&& 253)
    else none
  match busy1 with
  | none => (-1, tx_pkt_buf_busy_state, pkt_buf_mutex)
  | some b =>
    let (st, m1) := unlock_pkt_buf_tx h cpu pkt_buf_mutex (pkt_buf.toNat % 256)
    if st ≠ pkt_buf_mutex_status.PKT_BUF_MUTEX_SUCCESS then (-1, b, m1) else (0, b, m1)

/-- The slot that `wlan_mac_high_lock_new_tx_packet_buffer` selects for a busy
mask, before the lock is attempted (`pkt_buf_sel` after the `switch`). -/
def tx_pkt_buf_sel (tx_pkt_buf_busy_state : Nat) : Int :=
  match tx_pkt_buf_busy_state with
  | 1 => 1
  | 0 => 0
  | 2 => 0
  | _ => -1

/-- A call of the allocator. -/
inductive tx_alloc_call where
  | allocate
  | release (pkt_buf : Int)
  deriving DecidableEq, Repr

/-- One call of the allocator by CPU `cpu`. -/
def tx_alloc_step (h : wlan_mac_ipc_util_h) (cpu : Nat) (st : Nat × XMutex) :
    tx_alloc_call → Int × Nat × XMutex
  | tx_alloc_call.allocate => wlan_mac_high_lock_new_tx_packet_buffer h cpu st.1 st.2
  | tx_alloc_call.release i => wlan_mac_high_release_tx_packet_buffer h cpu st.1 st.2 i

/-- A sequence of calls of the allocator by CPU `cpu`: the return values in
order and the final busy mask and mutex core. -/
def tx_alloc_run (h : wlan_mac_ipc_util_h) (cpu : Nat) (st : Nat × XMutex) :
    List tx_alloc_call → List Int × Nat × XMutex
  | [] => ([], st)
  | c :: cs =>
    let r := tx_alloc_step h cpu st c
    let rs := tx_alloc_run h cpu r.2 cs
    (r.1 :: rs.1, rs.2)

/-- The mutex core with every mutex free and no call received yet. -/
def XMutex_free : XMutex := { owner := fun _ => none, calls := [] }

/-! ### 1.7 Association table and statistics table (`wlan_mac_high.c`) -/

/-- Constants and helpers that `wlan_mac_high.c` takes from headers and files
that are not part of the sources at hand (`wlan_mac_high.h`,
`wlan_mac_misc_util.h`, `wlan_mac_addr_filter.c`); every function takes them
as a parameter. -/
structure wlan_mac_high_h where
  ADD_ASSOCIATION_ANY_AID : Nat
  WLAN_MAC_HIGH_MAX_ASSOCIATONS : Nat
  WLAN_MAC_HIGH_MAX_PROMISC_STATS : Nat
  STATION_INFO_DO_NOT_REMOVE : Nat
  STATION_INFO_FLAG_DISABLE_ASSOC_CHECK : Nat
  RATE_SELECTION_SCHEME_STATIC : Nat
  wlan_mac_addr_is_warp : Nat → Bool

/-- Modelled from the spec: `frame_statistics_txrx` (declared in a missing
header): one counter group of a statistics entry.  The transmit counters are
the fields `wlan_mac_high_update_tx_statistics` writes; the receive counters
are the fields of the same group that this file only zeroes. -/
structure frame_statistics_txrx where
  rx_num_bytes : Nat
  rx_num_packets : Nat
  tx_num_bytes_success : Nat
  tx_num_bytes_total : Nat
  tx_num_packets_success : Nat
  tx_num_packets_total : Nat
  tx_num_packets_low : Nat
  deriving DecidableEq, Repr

/-- A counter group after `bzero`. -/
def frame_statistics_txrx_zero : frame_statistics_txrx :=
  { rx_num_bytes := 0, rx_num_packets := 0, tx_num_bytes_success := 0, tx_num_bytes_total := 0,
    tx_num_packets_success := 0, tx_num_packets_total := 0, tx_num_packets_low := 0 }

/-- Modelled from the spec: `statistics_txrx` (declared in a missing header),
with the fields the sources use.  A 6-byte hardware address is a number
(`addr`). -/
structure statistics_txrx where
  addr : Nat
  is_associated : Nat
  latest_txrx_timestamp : Nat
  data : frame_statistics_txrx
  mgmt : frame_statistics_txrx
  deriving DecidableEq, Repr

/-- Modelled from the spec: `station_info` (declared in a missing header),
with the fields `wlan_mac_high_add_association` assigns.  `stats` is the
address of the statistics structure, `tx` stands for the whole `tx_params`
value, `rate_selection_scheme` for `rate_info` (zeroed but for that field),
`rx_last_seq` for `rx.last_seq`, `hostname0` for `hostname[0]`. -/
structure station_info where
  AID : Nat
  addr : Nat
  hostname0 : Nat
  flags : Nat
  rx_last_seq : Nat
  tx : Nat
  rate_selection_scheme : Nat
  stats : Nat
  deriving DecidableEq, Repr

/-- Modelled from the spec: the list library `wlan_mac_dl_list` is not part of
the sources.  An entry of a list is its `data` pointer together with the
structure that pointer refers to (`obj`); `next` and `prev` are given by the
position in the sequence. -/
structure dl_entry (α : Type) where
  data : Nat
  obj : α
  deriving DecidableEq, Repr

/-- Modelled from the spec: a `dl_list` is the ordered sequence of its entries
as the walk from `first` along the `next` pointers reads them; a `dl_entry*`
that is in the list is a position of the sequence.  As long as every entry has
been linked in once, the `length` field is the length of the sequence.  The
loop of `wlan_mac_high_add_association` for a requested AID can link one entry
in several times; the sequence is then still the walk from `first`, and the
`length` field and the `prev` pointers are those of the list in memory
(`Linked.dl_list`, section 1.16). -/
abbrev dl_list (α : Type) := List (dl_entry α)

/-- Modelled from the spec: `dl_entry_insertEnd` appends the entry at the
end. -/
def dl_entry_insertEnd {α : Type} (list : dl_list α) (entry : dl_entry α) : dl_list α :=
  list ++ [entry]

/-- Modelled from the spec: `dl_entry_insertBeginning` puts the entry first. -/
def dl_entry_insertBeginning {α : Type} (list : dl_list α) (entry : dl_entry α) : dl_list α :=
  entry :: list

/-- Modelled from the spec: `dl_entry_remove` detaches the entry at the given
position. -/
def dl_entry_remove {α : Type} (list : dl_list α) (pos : Nat) : dl_list α :=
  list.eraseIdx pos

/-- Modelled from the spec: `wlan_addr_eq` compares two 6-byte hardware
addresses. -/
def wlan_addr_eq (addr1 addr2 : Nat) : Bool := addr1 == addr2

/-- The loop shared by the `find` functions: the position and the entry of the
first entry, from `list->first` on, that satisfies the test. -/
def dl_find {α : Type} (p : dl_entry α → Bool) : dl_list α → Option (Nat × dl_entry α)
  | [] => none
  | c :: rest =>
    if p c then some (0, c)
    else match dl_find p rest with
      | none => none
      | some (i, e) => some (i + 1, e)

/-- `wlan_mac_high_find_station_info_AID` (wlan_mac_high.c:558). -/
def wlan_mac_high_find_station_info_AID (list : dl_list station_info) (aid : Nat) :
    Option (Nat × dl_entry station_info) :=
  dl_find (fun c => c.obj.AID == aid) list

/-- `wlan_mac_high_find_station_info_ADDR` (wlan_mac_high.c:597). -/
def wlan_mac_high_find_station_info_ADDR (list : dl_list station_info) (addr : Nat) :
    Option (Nat × dl_entry station_info) :=
  dl_find (fun c => wlan_addr_eq c.obj.addr addr) list

/-- `wlan_mac_high_find_statistics_ADDR` (wlan_mac_high.c:636): the entry
found and the list, in which that entry has been moved to the front. -/
def wlan_mac_high_find_statistics_ADDR (list : dl_list statistics_txrx) (addr : Nat) :
    Option (dl_entry statistics_txrx) × dl_list statistics_txrx :=
  match dl_find (fun c => wlan_addr_eq c.obj.addr addr) list with
  | none => (none, list)
  | some (i, e) => (some e, dl_entry_insertBeginning (dl_entry_remove list i) e)

/-- The heap as the functions see it: the results of the coming `malloc`
calls, in order (`none`: the call returns NULL).  An exhausted sequence
returns NULL. -/
abbrev heap_t := List (Option Nat)

/-- `wlan_mac_high_malloc` (wlan_mac_high.c:956). -/
def wlan_mac_high_malloc (heap : heap_t) : Option Nat × heap_t :=
  match heap with
  | [] => (none, [])
  | r :: rest => (r, rest)

/-- `wlan_mac_high_calloc` (wlan_mac_high.c:989). -/
def wlan_mac_high_calloc (heap : heap_t) : Option Nat × heap_t :=
  wlan_mac_high_malloc heap

/-- The global variables and tables the association and statistics functions
work on. -/
structure mac_high_state where
  max_num_associations : Nat
  promiscuous_stats_enabled : Nat
  default_unicast_data_tx_params : Nat
  heap : heap_t
  assoc_tbl : dl_list station_info
  stat_tbl : dl_list statistics_txrx
  deriving DecidableEq, Repr

/-- The scan of `wlan_mac_high_add_statistics` for the oldest entry that is not
associated (wlan_mac_high.c:2893): `pos` is the position of the current entry,
`oldest` the position and structure found so far. -/
def oldest_statistics_scan : Nat → dl_list statistics_txrx →
    Option (Nat × statistics_txrx) → Option (Nat × statistics_txrx)
  | _, [], oldest => oldest
  | pos, c :: rest, none =>
    if c.obj.is_associated = 0 then oldest_statistics_scan (pos + 1) rest (some (pos, c.obj))
    else oldest_statistics_scan (pos + 1) rest none
  | pos, c :: rest, some (opos, o) =>
    if c.obj.latest_txrx_timestamp < o.latest_txrx_timestamp then
      if c.obj.is_associated = 0 then
        oldest_statistics_scan (pos + 1) rest (some (pos, c.obj))
      else oldest_statistics_scan (pos + 1) rest (some (opos, o))
    else oldest_statistics_scan (pos + 1) rest (some (opos, o))

/-- `wlan_mac_high_add_statistics` (wlan_mac_high.c:2864).  `station` is the
structure the `station` pointer refers to (`none`: NULL).  Returns the pointer
to the statistics structure (`none`: NULL), the station structure after the
call, and the state. -/
def wlan_mac_high_add_statistics (h : wlan_mac_high_h) (s : mac_high_state)
    (station : Option station_info) (addr : Nat) :
    Option Nat × Option station_info × mac_high_state :=
  if station.isNone ∧ s.promiscuous_stats_enabled = 0 then (none, station, s)
  else
    match wlan_mac_high_find_statistics_ADDR s.stat_tbl addr with
    | (some e, tbl1) =>
      (some e.data, station.map (fun st => { st with stats := e.data }),
        { s with stat_tbl := tbl1 })
    | (none, tbl1) =>
      let tbl2 :=
        if tbl1.length ≥ h.WLAN_MAC_HIGH_MAX_PROMISC_STATS then
          match oldest_statistics_scan 0 tbl1 none with
          | none => tbl1
          | some (opos, _) => dl_entry_remove tbl1 opos
        else tbl1
      match wlan_mac_high_malloc s.heap with
      | (none, heap1) => (none, station, { s with stat_tbl := tbl2, heap := heap1 })
      | (some _, heap1) =>
        match wlan_mac_high_calloc heap1 with
        | (none, heap2) => (none, station, { s with stat_tbl := tbl2, heap := heap2 })
        | (some p, heap2) =>
          let station_stats : statistics_txrx :=
            { addr := addr, is_associated := 0, latest_txrx_timestamp := 0,
              data := frame_statistics_txrx_zero, mgmt := frame_statistics_txrx_zero }
          (some p, station.map (fun st => { st with stats := p }),
            { s with stat_tbl := dl_entry_insertEnd tbl2 { data := p, obj := station_stats },
                     heap := heap2 })

/-- The store `station->stats->is_associated = v` through the pointer `p`: it
changes the statistics structure at address `p`. -/
def stats_set_is_associated (tbl : dl_list statistics_txrx) (p v : Nat) :
    dl_list statistics_txrx :=
  tbl.map (fun e => if e.data = p then { e with obj := { e.obj with is_associated := v } } else e)

/-- The loop of `wlan_mac_high_add_association` for `ADD_ASSOCIATION_ANY_AID`
(wlan_mac_high.c:2615), from the current entry on: the station structure at
address `p` and the part of the list from the current entry on, after the
loop.  On the first hole the station gets its AID, is inserted before the
current entry and the loop ends (`break`). -/
def add_association_any_loop (p : Nat) (station : station_info) :
    dl_list station_info → Nat → station_info × dl_list station_info
  | [], _ => (station, [])
  | c :: rest, curr_AID =>
    if ((c.obj.AID : Int) - (curr_AID : Int)) > 1 then
      let station1 := { station with AID := (c.obj.AID - 1) % 65536 }
      (station1, { data := p, obj := station1 } :: c :: rest)
    else
      let r := add_association_any_loop p station rest c.obj.AID
      (r.1, c :: r.2)

/-- Modelled from the spec: `dl_entry_insertBefore` of the list library, which
is not part of the sources, when it is called for an entry that is linked into
the list already, as the usual doubly linked list does it.  The call does not
unlink the entry first: the entry in front of it keeps pointing at it, and its
`next` pointer is set to the entry it is now put before.  The walk from
`first` then goes from the entry straight on to that entry, and the entries
that were between the two are no longer reached.

This is the rest of the loop of `wlan_mac_high_add_association` for a
requested AID once the station has been linked in: `succ` is the part of the
list that follows the station, the second argument the entries the loop has
still to visit.  The result is the part of the list that follows the station
after the loop. -/
def add_association_requested_relink (requested_AID : Nat) :
    dl_list station_info → dl_list station_info → dl_list station_info
  | succ, [] => succ
  | succ, c :: rest =>
    if c.obj.AID > requested_AID then
      add_association_requested_relink requested_AID (c :: rest) rest
    else
      add_association_requested_relink requested_AID succ rest

/-- The loop of `wlan_mac_high_add_association` for a requested AID
(wlan_mac_high.c:2653), from the current entry on.  Before every entry with a
larger AID the station gets its AID and `dl_entry_insertBefore` is called with
the one entry allocated at line 2562; the loop has no `break` and goes on to
the end of the list.  The first call links the station in before the current
entry; every later call links the same entry again
(`add_association_requested_relink`).  The table is the walk from `first`; the
`length` field, which every call increments, is not part of it.  That the
loop on the list in memory, with the `dl_entry_insertBefore` of the usual
doubly linked list, leaves this walk is proved as
`Linked.requested_loop_refines`. -/
def add_association_requested_loop (p requested_AID : Nat) :
    station_info → dl_list station_info → station_info × dl_list station_info
  | station, [] => (station, [])
  | station, c :: rest =>
    if c.obj.AID > requested_AID then
      let station1 := { station with AID := requested_AID }
      (station1, { data := p, obj := station1 } ::
        add_association_requested_relink requested_AID (c :: rest) rest)
    else
      let r := add_association_requested_loop p requested_AID station rest
      (r.1, c :: r.2)

/-- The entries that the loop for a requested AID passes before it links the
station in: those in front of the first entry with a larger AID. -/
def add_association_requested_front (requested_AID : Nat) (assoc_tbl : dl_list station_info) :
    dl_list station_info :=
  assoc_tbl.takeWhile (fun c => !decide (c.obj.AID > requested_AID))

/-- The part of `wlan_mac_high_add_association` that sets up the AID and links
the entry into the table (wlan_mac_high.c:2610-2673).  For a requested AID the
test `station->AID == 0` after the loop holds when the loop has not linked the
station in, and also when it has and the requested AID is 0; in that case
`dl_entry_insertEnd` links the same entry once more, behind the last entry, so
that its `next` pointer is NULL and the walk from `first` ends at it: the walk
is the entries in front of the first entry with a larger AID, then the
station.  When the loop has not linked the station in these are all entries of
the table. -/
def add_association_place (h : wlan_mac_high_h) (assoc_tbl : dl_list station_info) (p : Nat)
    (station : station_info) (requested_AID : Nat) : dl_list station_info :=
  if requested_AID = h.ADD_ASSOCIATION_ANY_AID then
    let r := add_association_any_loop p station assoc_tbl 0
    if r.1.AID = 0 then
      let station1 :=
        if r.2.length = 0 then { r.1 with AID := 1 }
        else
          match r.2.getLast? with
          | some last => { r.1 with AID := (last.obj.AID + 1) % 65536 }
          | none => r.1
      dl_entry_insertEnd r.2 { data := p, obj := station1 }
    else r.2
  else
    let r := add_association_requested_loop p requested_AID station assoc_tbl
    if r.1.AID = 0 then
      dl_entry_insertEnd (add_association_requested_front requested_AID assoc_tbl)
        { data := p, obj := { r.1 with AID := requested_AID } }
    else r.2

/-- `wlan_mac_high_add_association` (wlan_mac_high.c:2517): the pointer
returned (`none`: NULL) and the state after the call. -/
def wlan_mac_high_add_association (h : wlan_mac_high_h) (s : mac_high_state)
    (addr requested_AID : Nat) : Option Nat × mac_high_state :=
  let by_AID :=
    if requested_AID ≠ h.ADD_ASSOCIATION_ANY_AID then
      wlan_mac_high_find_station_info_AID s.assoc_tbl requested_AID
    else none
  match by_AID with
  | some (_, entry) =>
    if wlan_addr_eq entry.obj.addr addr then (some entry.data, s) else (none, s)
  | none =>
    match wlan_mac_high_find_station_info_ADDR s.assoc_tbl addr with
    | some (_, entry) => (some entry.data, s)
    | none =>
      if s.assoc_tbl.length ≥ s.max_num_associations then (none, s)
      else
        match wlan_mac_high_malloc s.heap with
        | (none, heap1) => (none, { s with heap := heap1 })
        | (some _, heap1) =>
          match wlan_mac_high_malloc heap1 with
          | (none, heap2) => (none, { s with heap := heap2 })
          | (some p, heap2) =>
            let station0 : station_info :=
              { AID := 0, addr := 0, hostname0 := 0, flags := 0, rx_last_seq := 0, tx := 0,
                rate_selection_scheme := 0, stats := 0 }
            match wlan_mac_high_add_statistics h { s with heap := heap2 } (some station0) addr with
            | (none, _, s1) => (none, s1)
            | (some station_stats, _, s1) =>
              let flags :=
                if h.wlan_mac_addr_is_warp addr then
                  0 ||| h.STATION_INFO_FLAG_DISABLE_ASSOC_CHECK
                else 0
              let station : station_info :=
                { AID := 0, addr := addr, hostname0 := 0, flags := flags, rx_last_seq := 65535,
                  tx := s.default_unicast_data_tx_params,
                  rate_selection_scheme := h.RATE_SELECTION_SCHEME_STATIC,
                  stats := station_stats }
              (some p,
                { s1 with
                  stat_tbl := stats_set_is_associated s1.stat_tbl station_stats 1
                  assoc_tbl := add_association_place h s1.assoc_tbl p station requested_AID })

/-- `wlan_mac_high_remove_association` (wlan_mac_high.c:2698): the return value
and the state after the call. -/
def wlan_mac_high_remove_association (h : wlan_mac_high_h) (s : mac_high_state) (addr : Nat) :
    Int × mac_high_state :=
  match wlan_mac_high_find_station_info_ADDR s.assoc_tbl addr with
  | none => (-1, s)
  | some (pos, entry) =>
    let station := entry.obj
    if station.flags &&& h.STATION_INFO_DO_NOT_REMOVE ≠ h.STATION_INFO_DO_NOT_REMOVE then
      let assoc1 := dl_entry_remove s.assoc_tbl pos
      if s.promiscuous_stats_enabled ≠ 0 then
        (0, { s with assoc_tbl := assoc1
                     stat_tbl := stats_set_is_associated s.stat_tbl station.stats 0 })
      else
        match wlan_mac_high_find_statistics_ADDR s.stat_tbl addr with
        | (none, tbl1) => (0, { s with assoc_tbl := assoc1, stat_tbl := tbl1 })
        | (some _, tbl1) => (0, { s with assoc_tbl := assoc1, stat_tbl := dl_entry_remove tbl1 0 })
    else (0, s)

/-- `wlan_mac_high_set_max_associations` (wlan_mac_high.c:2788). -/
def wlan_mac_high_set_max_associations (h : wlan_mac_high_h) (s : mac_high_state)
    (num_associations : Nat) : Nat × mac_high_state :=
  if num_associations < h.WLAN_MAC_HIGH_MAX_ASSOCIATONS then
    (num_associations, { s with max_num_associations := num_associations })
  else
    (h.WLAN_MAC_HIGH_MAX_ASSOCIATONS,
      { s with max_num_associations := h.WLAN_MAC_HIGH_MAX_ASSOCIATONS })

/-- `wlan_mac_high_get_max_associations` (wlan_mac_high.c:2809). -/
def wlan_mac_high_get_max_associations (s : mac_high_state) : Nat :=
  s.max_num_associations

/-- The AIDs of a table, by position. -/
def assoc_AIDs (tbl : dl_list station_info) : List Nat := tbl.map (fun e => e.obj.AID)

/-- The addresses of a table, by position. -/
def assoc_addrs (tbl : dl_list station_info) : List Nat := tbl.map (fun e => e.obj.addr)

/-- The AIDs of the table are strictly increasing by position. -/
def assoc_sorted (tbl : dl_list station_info) : Prop := (assoc_AIDs tbl).Pairwise (· < ·)

instance (tbl : dl_list station_info) : Decidable (assoc_sorted tbl) := by
  unfold assoc_sorted; infer_instance

/-- The station structure that `wlan_mac_high_add_association` has filled in
for a new address when it reaches the AID set-up (wlan_mac_high.c:2581-2608):
`AID` is still 0. -/
def new_station_info (h : wlan_mac_high_h) (s : mac_high_state) (addr station_stats : Nat) :
    station_info :=
  { AID := 0, addr := addr, hostname0 := 0,
    flags := if h.wlan_mac_addr_is_warp addr then 0 ||| h.STATION_INFO_FLAG_DISABLE_ASSOC_CHECK
             else 0,
    rx_last_seq := 65535, tx := s.default_unicast_data_tx_params,
    rate_selection_scheme := h.RATE_SELECTION_SCHEME_STATIC, stats := station_stats }

/-! ### 1.8 `wlan_mac_high_is_valid_association` -/

/-- The loop of `wlan_mac_high_is_valid_association` (wlan_mac_high.c:2761),
from the current entry on: the return value and the number of times the loop
reads `curr_station_info_entry->data` while `curr_station_info_entry` is NULL.
After `dl_entry_next` the loop body reads the `data` field of the next entry
(line 2770) before the loop condition tests that entry against NULL. -/
def is_valid_association_loop (station : Nat) : dl_list station_info → Nat × Nat
  | [] => (0, 0)
  | c :: rest =>
    if station = c.data then (1, 0)
    else
      let null_read := if rest.isEmpty then 1 else 0
      let r := is_valid_association_loop station rest
      (r.1, null_read + r.2)

/-- `wlan_mac_high_is_valid_association` (wlan_mac_high.c:2755): the return
value and the number of reads of `data` through a NULL entry pointer. -/
def wlan_mac_high_is_valid_association (assoc_tbl : dl_list station_info) (station : Nat) :
    Nat × Nat :=
  is_valid_association_loop station assoc_tbl

/-! ### 1.9 `wlan_mac_high_reset_statistics` -/

/-- The loop of `wlan_mac_high_reset_statistics` (wlan_mac_high.c:2972), from
the current entry on: both counter groups of the entry are zeroed, and the
entry is removed if it is not associated. -/
def reset_statistics_loop : dl_list statistics_txrx → dl_list statistics_txrx
  | [] => []
  | c :: rest =>
    let curr_statistics : statistics_txrx :=
      { c.obj with data := frame_statistics_txrx_zero, mgmt := frame_statistics_txrx_zero }
    if curr_statistics.is_associated = 0 then reset_statistics_loop rest
    else { c with obj := curr_statistics } :: reset_statistics_loop rest

/-- `wlan_mac_high_reset_statistics` (wlan_mac_high.c:2961). -/
def wlan_mac_high_reset_statistics (s : mac_high_state) : mac_high_state :=
  { s with stat_tbl := reset_statistics_loop s.stat_tbl }

/-! ### 1.10 Packet type and transmit statistics -/

/-- Constants and sizes that `wlan_mac_high_pkt_type` and
`wlan_mac_high_update_tx_statistics` take from headers that are not part of
the sources at hand (`wlan_mac_802_11_defs.h`, `wlan_mac_misc_util.h`); every
function takes them as a parameter. -/
structure wlan_mac_802_11_defs_h where
  MAC_FRAME_CTRL1_TYPE_MGMT : Nat
  MAC_FRAME_CTRL1_SUBTYPE_ACK : Nat
  MAC_FRAME_CTRL1_SUBTYPE_CTS : Nat
  MAC_FRAME_CTRL1_SUBTYPE_RTS : Nat
  MAC_FRAME_CTRL1_TYPE_DATA : Nat
  MAC_FRAME_CTRL2_FLAG_PROTECTED : Nat
  sizeof_mac_header_80211 : Nat
  sizeof_llc_header : Nat
  WLAN_PHY_FCS_NBYTES : Nat
  LLC_TYPE_ARP : Nat
  LLC_TYPE_IP : Nat
  LLC_TYPE_WLAN_LTG : Nat
  TX_MPDU_RESULT_SUCCESS : Nat

/-- The values `wlan_mac_high_pkt_type` returns: the `PKT_TYPE_*` constants
(of a missing header) and `NULL`. -/
inductive pkt_type_t where
  | NULL
  | PKT_TYPE_MGMT
  | PKT_TYPE_CONTROL_ACK
  | PKT_TYPE_CONTROL_CTS
  | PKT_TYPE_CONTROL_RTS
  | PKT_TYPE_DATA_PROTECTED
  | PKT_TYPE_DATA_OTHER
  | PKT_TYPE_DATA_ENCAP_ETH
  | PKT_TYPE_DATA_ENCAP_LTG
  deriving DecidableEq, Repr

/-- Modelled from the spec: the bytes of an MPDU that the sources read, by
field of `mac_header_80211` (`frame_control_1`, `frame_control_2`,
`sequence_control`) and of the `llc_header` that follows it (`type`). -/
structure mpdu_t where
  frame_control_1 : Nat
  frame_control_2 : Nat
  sequence_control : Nat
  llc_type : Nat
  deriving DecidableEq, Repr

/-- Modelled from the spec: `tx_frame_info` (declared in a missing header),
with the fields the sources use, and the MPDU that follows it in the packet
buffer at `PHY_TX_PKT_BUF_MPDU_OFFSET`. -/
structure tx_frame_info where
  length : Nat
  short_retry_count : Nat
  long_retry_count : Nat
  tx_result : Nat
  unique_seq : Nat
  params : Nat
  mpdu : mpdu_t
  deriving DecidableEq, Repr

/-- `wlan_mac_high_pkt_type` (wlan_mac_high.c:2365). -/
def wlan_mac_high_pkt_type (d : wlan_mac_802_11_defs_h) (mpdu : mpdu_t) (length : Nat) :
    pkt_type_t :=
  if mpdu.frame_control_1 &&& 15 = d.MAC_FRAME_CTRL1_TYPE_MGMT then pkt_type_t.PKT_TYPE_MGMT
  else if mpdu.frame_control_1 = d.MAC_FRAME_CTRL1_SUBTYPE_ACK then
    pkt_type_t.PKT_TYPE_CONTROL_ACK
  else if mpdu.frame_control_1 = d.MAC_FRAME_CTRL1_SUBTYPE_CTS then
    pkt_type_t.PKT_TYPE_CONTROL_CTS
  else if mpdu.frame_control_1 = d.MAC_FRAME_CTRL1_SUBTYPE_RTS then
    pkt_type_t.PKT_TYPE_CONTROL_RTS
  else if mpdu.frame_control_1 &&& 15 = d.MAC_FRAME_CTRL1_TYPE_DATA then
    if mpdu.frame_control_2 &&& d.MAC_FRAME_CTRL2_FLAG_PROTECTED ≠ 0 then
      pkt_type_t.PKT_TYPE_DATA_PROTECTED
    else if length < d.sizeof_mac_header_80211 + d.sizeof_llc_header + d.WLAN_PHY_FCS_NBYTES then
      pkt_type_t.PKT_TYPE_DATA_OTHER
    else if mpdu.llc_type = d.LLC_TYPE_ARP ∨ mpdu.llc_type = d.LLC_TYPE_IP then
      pkt_type_t.PKT_TYPE_DATA_ENCAP_ETH
    else if mpdu.llc_type = d.LLC_TYPE_WLAN_LTG then pkt_type_t.PKT_TYPE_DATA_ENCAP_LTG
    else pkt_type_t.PKT_TYPE_DATA_OTHER
  else pkt_type_t.NULL

/-- The counter group that `wlan_mac_high_update_tx_statistics` selects
(`frame_stats` after the `switch`, wlan_mac_high.c:3012): the `data` group,
the `mgmt` group, or none (NULL). -/
inductive frame_stats_sel where
  | data
  | mgmt
  deriving DecidableEq, Repr

/-- The statements of `wlan_mac_high_update_tx_statistics` on the selected
counter group (wlan_mac_high.c:3026-3034).  The C types of the counters are
declared in a missing header; the counters are naturals here and an increment
is not truncated. -/
def update_frame_stats (d : wlan_mac_802_11_defs_h) (tx_mpdu : tx_frame_info)
    (frame_stats : frame_statistics_txrx) : frame_statistics_txrx :=
  let f1 := { frame_stats with tx_num_packets_total := frame_stats.tx_num_packets_total + 1 }
  let f2 := { f1 with tx_num_bytes_total := f1.tx_num_bytes_total + tx_mpdu.length }
  let f3 := { f2 with tx_num_packets_low := f2.tx_num_packets_low + tx_mpdu.short_retry_count }
  if tx_mpdu.tx_result = d.TX_MPDU_RESULT_SUCCESS then
    let f4 := { f3 with tx_num_packets_success := f3.tx_num_packets_success + 1 }
    { f4 with tx_num_bytes_success := f4.tx_num_bytes_success + tx_mpdu.length }
  else f3

/-- A store through the pointer `p` into the statistics structure at that
address: the structure is replaced by its image under `f`. -/
def stats_store (tbl : dl_list statistics_txrx) (p : Nat)
    (f : statistics_txrx → statistics_txrx) : dl_list statistics_txrx :=
  tbl.map (fun e => if e.data = p then { e with obj := f e.obj } else e)

/-- `wlan_mac_high_update_tx_statistics` (wlan_mac_high.c:3002).  `station` is
the structure the `station` pointer refers to (`none`: NULL); the statistics
structures are those of the statistics table. -/
def wlan_mac_high_update_tx_statistics (d : wlan_mac_802_11_defs_h)
    (stat_tbl : dl_list statistics_txrx) (tx_mpdu : tx_frame_info)
    (station : Option station_info) : dl_list statistics_txrx :=
  match station with
  | none => stat_tbl
  | some st =>
    let pkt_type := wlan_mac_high_pkt_type d tx_mpdu.mpdu tx_mpdu.length
    let frame_stats : Option frame_stats_sel :=
      match pkt_type with
      | pkt_type_t.PKT_TYPE_DATA_ENCAP_ETH => some frame_stats_sel.data
      | pkt_type_t.PKT_TYPE_DATA_ENCAP_LTG => some frame_stats_sel.data
      | pkt_type_t.PKT_TYPE_MGMT => some frame_stats_sel.mgmt
      | _ => none
    match frame_stats with
    | none => stat_tbl
    | some frame_stats_sel.data =>
      stats_store stat_tbl st.stats
        (fun x => { x with data := update_frame_stats d tx_mpdu x.data })
    | some frame_stats_sel.mgmt =>
      stats_store stat_tbl st.stats
        (fun x => { x with mgmt := update_frame_stats d tx_mpdu x.mgmt })

/-! ### 1.11 Sequences of calls on the association table -/

/-- A call on the association table. -/
inductive assoc_call where
  | add (addr requested_AID : Nat)
  | remove (addr : Nat)
  | set_max (num_associations : Nat)
  deriving DecidableEq, Repr

/-- The state after one call on the association table. -/
def assoc_step (h : wlan_mac_high_h) (s : mac_high_state) : assoc_call → mac_high_state
  | assoc_call.add addr requested_AID => (wlan_mac_high_add_association h s addr requested_AID).2
  | assoc_call.remove addr => (wlan_mac_high_remove_association h s addr).2
  | assoc_call.set_max n => (wlan_mac_high_set_max_associations h s n).2

/-- The state after a sequence of calls on the association table. -/
def assoc_run (h : wlan_mac_high_h) (s : mac_high_state) : List assoc_call → mac_high_state
  | [] => s
  | c :: cs => assoc_run h (assoc_step h s c) cs

/-- The number of entries of the table whose AID is larger than `a`. -/
def assoc_count_larger (tbl : dl_list station_info) (a : Nat) : Nat :=
  tbl.countP (fun e => decide (e.obj.AID > a))

/-- The calls that the bound invariant of the table is stated for, in the
state they are made in: an add with `ADD_ASSOCIATION_ANY_AID`, or with a
requested 16-bit AID other than 0 that is smaller than the AID of at most one
entry; any remove; a set of the maximum to a value that is not below the
length of the table. -/
def assoc_call_bounded (h : wlan_mac_high_h) (s : mac_high_state) : assoc_call → Prop
  | assoc_call.add _ requested_AID =>
    requested_AID = h.ADD_ASSOCIATION_ANY_AID ∨
      (requested_AID ≠ 0 ∧ requested_AID < 65536 ∧
        assoc_count_larger s.assoc_tbl requested_AID ≤ 1)
  | assoc_call.remove _ => True
  | assoc_call.set_max n => s.assoc_tbl.length ≤ n

instance (h : wlan_mac_high_h) (s : mac_high_state) (c : assoc_call) :
    Decidable (assoc_call_bounded h s c) := by
  cases c <;> unfold assoc_call_bounded <;> infer_instance

/-- Every call of the sequence is one of the calls of `assoc_call_bounded`, in
the state it is made in. -/
def assoc_run_bounded (h : wlan_mac_high_h) (s : mac_high_state) : List assoc_call → Prop
  | [] => True
  | c :: cs => assoc_call_bounded h s c ∧ assoc_run_bounded h (assoc_step h s c) cs

instance assoc_run_bounded_decidable (h : wlan_mac_high_h) :
    ∀ (cs : List assoc_call) (s : mac_high_state), Decidable (assoc_run_bounded h s cs)
  | [], _ => isTrue trivial
  | c :: cs, s =>
    have := assoc_run_bounded_decidable h cs (assoc_step h s c)
    by unfold assoc_run_bounded; infer_instance

/-- The call is an add with `ADD_ASSOCIATION_ANY_AID` or a remove. -/
def assoc_call_any_or_remove (h : wlan_mac_high_h) : assoc_call → Prop
  | assoc_call.add _ requested_AID => requested_AID = h.ADD_ASSOCIATION_ANY_AID
  | assoc_call.remove _ => True
  | assoc_call.set_max _ => False

instance (h : wlan_mac_high_h) (c : assoc_call) : Decidable (assoc_call_any_or_remove h c) := by
  cases c <;> unfold assoc_call_any_or_remove <;> infer_instance

/-! ### 1.12 The dispatcher loop `wlan_mac_high_ipc_rx` -/

/-- The `while` loop of `wlan_mac_high_ipc_rx` (wlan_mac_high.c:1726) with at
most `fuel` iterations.  `process` stands for
`wlan_mac_high_process_ipc_msg` acting on the rest of the state (`none`: it
does not return); `passed` is the list of the messages passed to it so far.
The result is the mailbox, the struct `ipc_msg_from_low`, the state and the
messages passed; `none` stands for a call that does not return within the
iterations given. -/
def wlan_mac_high_ipc_rx_loop {σ : Type} (h : wlan_mac_ipc_util_h)
    (process : wlan_ipc_msg → σ → Option σ) :
    Nat → XMbox → wlan_ipc_msg → σ → List wlan_ipc_msg →
      Option (XMbox × wlan_ipc_msg × σ × List wlan_ipc_msg)
  | 0, _, _, _, _ => none
  | fuel + 1, ipc_mailbox, ipc_msg_from_low, st, passed =>
    match ipc_mailbox_read_msg h ipc_mailbox ipc_msg_from_low with
    | none => none
    | some (status, mbox1, msg1) =>
      if status = ipc_mbox_status.IPC_MBOX_SUCCESS then
        match process msg1 st with
        | none => none
        | some st1 => wlan_mac_high_ipc_rx_loop h process fuel mbox1 msg1 st1 (passed ++ [msg1])
      else some (mbox1, msg1, st, passed)

/-- `wlan_mac_high_ipc_rx` (wlan_mac_high.c:1719).  Every iteration but the
last takes at least one word out of the mailbox, so one more iteration than
there are words is enough. -/
def wlan_mac_high_ipc_rx {σ : Type} (h : wlan_mac_ipc_util_h)
    (process : wlan_ipc_msg → σ → Option σ) (ipc_mailbox : XMbox)
    (ipc_msg_from_low : wlan_ipc_msg) (st : σ) :
    Option (XMbox × wlan_ipc_msg × σ × List wlan_ipc_msg) :=
  wlan_mac_high_ipc_rx_loop h process (ipc_mailbox.length + 1) ipc_mailbox ipc_msg_from_low st []

/-- The words of a message in the mailbox: the header word, then the payload
words. -/
def ipc_msg_words (msg : wlan_ipc_msg) : List Nat :=
  ipc_msg_header_word msg :: msg.payload_ptr.take msg.num_payload_words

/-- The mailbox content made of the messages, in order. -/
def ipc_msgs_words : List wlan_ipc_msg → List Nat
  | [] => []
  | m :: ms => ipc_msg_words m ++ ipc_msgs_words ms

/-- A valid message: well-formed, with the delimiter pattern and with at most
`IPC_BUFFER_MAX_NUM_WORDS` payload words. -/
def ipc_msg_valid (h : wlan_mac_ipc_util_h) (msg : wlan_ipc_msg) : Prop :=
  wlan_ipc_msg_wf msg ∧
    msg.msg_id &&& h.IPC_MBOX_MSG_ID_DELIM = h.IPC_MBOX_MSG_ID_DELIM ∧
    msg.num_payload_words ≤ h.IPC_BUFFER_MAX_NUM_WORDS

instance (h : wlan_mac_ipc_util_h) (msg : wlan_ipc_msg) : Decidable (ipc_msg_valid h msg) := by
  unfold ipc_msg_valid; infer_instance

/-- What a message carries: `msg_id`, `num_payload_words`, `arg0` and the
payload words. -/
def ipc_msg_view (msg : wlan_ipc_msg) : Nat × Nat × Nat × List Nat :=
  (msg.msg_id, msg.num_payload_words, msg.arg0, msg.payload_ptr.take msg.num_payload_words)

/-! ### 1.13 The cross-link between the two tables -/

/-- Every station of the association table references a statistics structure
that is in the statistics table, has the address of the station and has
`is_associated` set. -/
def assoc_stats_linked (s : mac_high_state) : Prop :=
  ∀ e ∈ s.assoc_tbl, ∃ x ∈ s.stat_tbl,
    x.data = e.obj.stats ∧ x.obj.addr = e.obj.addr ∧ x.obj.is_associated ≠ 0

instance (s : mac_high_state) : Decidable (assoc_stats_linked s) := by
  unfold assoc_stats_linked; infer_instance

/-- A call that works on the two tables: an add or a remove of an association,
`wlan_mac_high_add_statistics` without a station (the tracking of an
unassociated peer), `wlan_mac_high_reset_statistics`, or a store to
`promiscuous_stats_enabled`. -/
inductive table_call where
  | add_association (addr requested_AID : Nat)
  | remove_association (addr : Nat)
  | add_statistics (addr : Nat)
  | reset_statistics
  | set_promiscuous_stats_enabled (v : Nat)
  deriving DecidableEq, Repr

/-- The state after one call on the tables. -/
def table_step (h : wlan_mac_high_h) (s : mac_high_state) : table_call → mac_high_state
  | table_call.add_association addr requested_AID =>
    (wlan_mac_high_add_association h s addr requested_AID).2
  | table_call.remove_association addr => (wlan_mac_high_remove_association h s addr).2
  | table_call.add_statistics addr => (wlan_mac_high_add_statistics h s none addr).2.2
  | table_call.reset_statistics => wlan_mac_high_reset_statistics s
  | table_call.set_promiscuous_stats_enabled v => { s with promiscuous_stats_enabled := v % 256 }

/-- The state after a sequence of calls on the tables. -/
def table_run (h : wlan_mac_high_h) (s : mac_high_state) : List table_call → mac_high_state
  | [] => s
  | c :: cs => table_run h (table_step h s c) cs

/-- The pointers that the coming `malloc` calls return and the pointers to the
statistics structures of the table are pairwise distinct: `malloc` does not
return a block that is in use. -/
def stat_ptrs_fresh (s : mac_high_state) : Prop :=
  (s.heap.filterMap id ++ s.stat_tbl.map (fun x => x.data)).Nodup

instance (s : mac_high_state) : Decidable (stat_ptrs_fresh s) := by
  unfold stat_ptrs_fresh; infer_instance

/-- The calls on the tables without an add that links the new station in more
than once: an add is made with `ADD_ASSOCIATION_ANY_AID` or with a requested
16-bit AID other than 0 that is smaller than the AID of at most one entry. -/
def table_call_single (h : wlan_mac_high_h) (s : mac_high_state) : table_call → Prop
  | table_call.add_association _ requested_AID =>
    requested_AID = h.ADD_ASSOCIATION_ANY_AID ∨
      (requested_AID ≠ 0 ∧ requested_AID < 65536 ∧
        assoc_count_larger s.assoc_tbl requested_AID ≤ 1)
  | _ => True

instance (h : wlan_mac_high_h) (s : mac_high_state) (c : table_call) :
    Decidable (table_call_single h s c) := by
  cases c <;> unfold table_call_single <;> infer_instance

/-- Every call of the sequence is one of the calls of `table_call_single`, in
the state it is made in. -/
def table_run_single (h : wlan_mac_high_h) (s : mac_high_state) : List table_call → Prop
  | [] => True
  | c :: cs => table_call_single h s c ∧ table_run_single h (table_step h s c) cs

instance table_run_single_decidable (h : wlan_mac_high_h) :
    ∀ (cs : List table_call) (s : mac_high_state), Decidable (table_run_single h s cs)
  | [], _ => isTrue trivial
  | c :: cs, s =>
    have := table_run_single_decidable h cs (table_step h s c)
    by unfold table_run_single; infer_instance

/-- The invariant of the two tables: the cross-link, distinct pointers,
distinct addresses in the association table, and 16-bit AIDs. -/
def tables_inv (s : mac_high_state) : Prop :=
  assoc_stats_linked s ∧ stat_ptrs_fresh s ∧ (assoc_addrs s.assoc_tbl).Nodup ∧
    ∀ a ∈ assoc_AIDs s.assoc_tbl, a < 65536

/-! ### 1.14 The dispatcher `wlan_mac_high_process_ipc_msg` -/

/-- Modelled from the spec: `wlan_mac_hw_info` is declared in a header that is
not part of the sources.  The fields are those the sources name: `type`,
`serial_number`, `fpga_dna`, `wn_eth_device`, `hw_addr_wn` and
`hw_addr_wlan`. -/
structure wlan_mac_hw_info where
  type : Nat
  serial_number : Nat
  fpga_dna : List Nat
  wn_eth_device : Nat
  hw_addr_wn : List Nat
  hw_addr_wlan : List Nat
  deriving DecidableEq, Repr

/-- Constants, macros and layouts that the dispatcher and
`wlan_mac_high_mpdu_transmit` take from headers that are not part of the
sources; every function takes them as a parameter.  `IPC_MBOX_MSG_ID_TO_MSG`
and `IPC_MBOX_MSG_ID` are the two macros on message ids; `hw_info_of_words`
is the layout of `wlan_mac_hw_info`: the struct that `memcpy` makes of the
first `sizeof(wlan_mac_hw_info)` bytes of a word buffer. -/
structure wlan_mac_high_ipc_h where
  IPC_MBOX_MSG_ID_TO_MSG : Nat → Nat
  IPC_MBOX_MSG_ID : Nat → Nat
  IPC_MBOX_RX_MPDU_READY : Nat
  IPC_MBOX_TX_MPDU_DONE : Nat
  IPC_MBOX_HW_INFO : Nat
  IPC_MBOX_CPU_STATUS : Nat
  IPC_MBOX_MEM_READ_WRITE : Nat
  IPC_MBOX_LOW_PARAM : Nat
  IPC_MBOX_TX_MPDU_READY : Nat
  WARPNET_TYPE_80211_CPU_LOW_MASK : Nat
  CPU_STATUS_EXCEPTION : Nat
  RX_MPDU_STATE_EMPTY : Nat
  sizeof_wlan_mac_low_tx_details : Nat
  CPU_LOW_REG_READ_BUFFER_STATUS_READY : Nat
  CPU_LOW_PARAM_READ_BUFFER_STATUS_READY : Nat
  QUEUE_METADATA_TYPE_IGNORE : Nat
  QUEUE_METADATA_TYPE_STATION_INFO : Nat
  QUEUE_METADATA_TYPE_TX_PARAMS : Nat
  hw_info_of_words : List Nat → wlan_mac_hw_info

/-- Modelled from the spec: `tx_queue_buffer` (declared in a missing header),
the `data` of a `tx_queue_element`.  `frame_info` stands for the fields
`frame_info` and `frame` (the MPDU, whose header `wlan_mac_high_mpdu_transmit`
writes to); `metadata_station_tx` is the `tx` field of the station that
`metadata.metadata_ptr` points to when the metadata is a station, and
`metadata_tx_params` the `tx_params` it points to when the metadata is a set
of parameters. -/
structure tx_queue_buffer where
  metadata_type : Nat
  metadata_station_tx : Nat
  metadata_tx_params : Nat
  frame_info : tx_frame_info
  deriving DecidableEq, Repr

/-- A call that the dispatcher or `wlan_mac_high_mpdu_transmit` makes, with its
arguments and, for the calls into the lock layer and the allocator, its return
value.  The callbacks are function pointers set by the application and
`bss_info_rx_process` is in a file that is not part of the sources: the model
records that they are called and takes them to leave the variables of the
framework alone. -/
inductive dispatch_event where
  | lock_pkt_buf_rx (pkt_buf_ind : Nat) (ret : pkt_buf_mutex_status)
  | unlock_pkt_buf_rx (pkt_buf_ind : Nat) (ret : pkt_buf_mutex_status)
  | lock_pkt_buf_tx (pkt_buf_ind : Nat) (ret : pkt_buf_mutex_status)
  | unlock_pkt_buf_tx (pkt_buf_ind : Nat) (ret : pkt_buf_mutex_status)
  | release_tx_packet_buffer (pkt_buf : Int) (ret : Int)
  | bss_info_rx_process (rx_pkt_buf : Nat)
  | mpdu_rx_callback (rx_pkt_buf : Nat)
  | mpdu_tx_done_callback (tx_pkt_buf : Nat) (tx_low_details : List Nat)
      (num_tx_low_details : Nat)
  | tx_poll_callback
  | mpdu_tx_dequeue_callback (packet : tx_queue_buffer)
  deriving DecidableEq, Repr

/-- The variables of `wlan_mac_high.c` and the shared memory that the
dispatcher and `wlan_mac_high_mpdu_transmit` work on.  `rx_mpdu_state b` is the
`state` field of the `rx_frame_info` at `RX_PKT_BUF_TO_ADDR(b)`,
`tx_pkt_buf_mem i` the contents of the transmit buffer at
`TX_PKT_BUF_TO_ADDR(i)`, `ipc_mailbox_to_low` the direction of the mailbox that
CPU High writes to, `cpu_low_reg_read_buffer` and `cpu_low_param_read_buffer`
the buffers these pointers point to (`none`: NULL), and `trace` the calls made
so far, oldest first. -/
structure cpu_high_state where
  pkt_buf_mutex : XMutex
  tx_pkt_buf_busy_state : Nat
  rx_mpdu_state : Nat → Nat
  tx_pkt_buf_mem : Int → tx_frame_info
  hw_info : wlan_mac_hw_info
  cpu_low_status : Nat
  ipc_msg_from_low_payload : List Nat
  cpu_low_reg_read_buffer : Option (List Nat)
  cpu_low_reg_read_buffer_status : Nat
  cpu_low_param_read_buffer : Option (List Nat)
  cpu_low_param_read_buffer_size : Nat
  cpu_low_param_read_buffer_status : Nat
  unique_seq : Nat
  mpdu_tx_dequeue_callback_is_NULL : Bool
  intc : intc_state
  ipc_mailbox_to_low : XMbox
  trace : List dispatch_event

/-- The 32-bit complement `~x` of a 32-bit constant. -/
def not32 (x : Nat) : Nat := 4294967295 - x % 4294967296

/-- `wlan_mac_high_process_ipc_msg` (wlan_mac_high.c:1750), executed by CPU
`cpu`; `none` stands for a call that does not return (`while(1){}` after an
exception of CPU Low).  The messages that `warp_printf` and `xil_printf` print
are not modelled. -/
def wlan_mac_high_process_ipc_msg (d : wlan_mac_high_ipc_h) (h : wlan_mac_ipc_util_h)
    (cpu : Nat) (msg : wlan_ipc_msg) (s : cpu_high_state) : Option cpu_high_state :=
  let id := d.IPC_MBOX_MSG_ID_TO_MSG msg.msg_id
  if id = d.IPC_MBOX_RX_MPDU_READY then
    let rx_pkt_buf := msg.arg0 % 256
    let (st, m1) := lock_pkt_buf_rx h cpu s.pkt_buf_mutex rx_pkt_buf
    if st ≠ pkt_buf_mutex_status.PKT_BUF_MUTEX_SUCCESS then
      some { s with pkt_buf_mutex := m1
                    trace := s.trace ++ [dispatch_event.lock_pkt_buf_rx rx_pkt_buf st] }
    else
      let (st2, m2) := unlock_pkt_buf_rx h cpu m1 rx_pkt_buf
      some { s with
        pkt_buf_mutex := m2
        rx_mpdu_state := fun b => if b = rx_pkt_buf then d.RX_MPDU_STATE_EMPTY
                                  else s.rx_mpdu_state b
        trace := s.trace ++ [dispatch_event.lock_pkt_buf_rx rx_pkt_buf st,
                             dispatch_event.bss_info_rx_process rx_pkt_buf,
                             dispatch_event.mpdu_rx_callback rx_pkt_buf,
                             dispatch_event.unlock_pkt_buf_rx rx_pkt_buf st2] }
  else if id = d.IPC_MBOX_TX_MPDU_DONE then
    let tx_pkt_buf := msg.arg0 % 256
    let (st, m1) := lock_pkt_buf_tx h cpu s.pkt_buf_mutex tx_pkt_buf
    if st ≠ pkt_buf_mutex_status.PKT_BUF_MUTEX_SUCCESS then
      some { s with pkt_buf_mutex := m1
                    trace := s.trace ++ [dispatch_event.lock_pkt_buf_tx tx_pkt_buf st] }
    else
      let temp_1 := ((4 * msg.num_payload_words) % 4294967296) / d.sizeof_wlan_mac_low_tx_details
      let (ret, busy1, m2) :=
        wlan_mac_high_release_tx_packet_buffer h cpu s.tx_pkt_buf_busy_state m1 (tx_pkt_buf : Int)
      some { s with
        pkt_buf_mutex := m2
        tx_pkt_buf_busy_state := busy1
        trace := s.trace ++ [dispatch_event.lock_pkt_buf_tx tx_pkt_buf st,
                             dispatch_event.mpdu_tx_done_callback tx_pkt_buf msg.payload_ptr
                               temp_1,
                             dispatch_event.release_tx_packet_buffer (tx_pkt_buf : Int) ret,
                             dispatch_event.tx_poll_callback] }
  else if id = d.IPC_MBOX_HW_INFO then
    let temp_1 := s.hw_info.type
    let temp_2 := s.hw_info.wn_eth_device
    let hw1 := d.hw_info_of_words s.ipc_msg_from_low_payload
    let hw2 := { hw1 with
      type := ((hw1.type &&& d.WARPNET_TYPE_80211_CPU_LOW_MASK)
                + (temp_1 &&& not32 d.WARPNET_TYPE_80211_CPU_LOW_MASK)) % 4294967296 }
    some { s with hw_info := { hw2 with wn_eth_device := temp_2 } }
  else if id = d.IPC_MBOX_CPU_STATUS then
    let cpu_low_status := s.ipc_msg_from_low_payload.getD 0 0
    if cpu_low_status &&& d.CPU_STATUS_EXCEPTION ≠ 0 then none
    else some { s with cpu_low_status := cpu_low_status }
  else if id = d.IPC_MBOX_MEM_READ_WRITE then
    match s.cpu_low_reg_read_buffer with
    | some buf =>
      some { s with
        cpu_low_reg_read_buffer :=
          some (store_words buf (s.ipc_msg_from_low_payload.take msg.num_payload_words))
        cpu_low_reg_read_buffer_status := d.CPU_LOW_REG_READ_BUFFER_STATUS_READY }
    | none => some s
  else if id = d.IPC_MBOX_LOW_PARAM then
    match s.cpu_low_param_read_buffer with
    | some buf =>
      some { s with
        cpu_low_param_read_buffer :=
          some (store_words buf (s.ipc_msg_from_low_payload.take msg.num_payload_words))
        cpu_low_param_read_buffer_size := msg.num_payload_words
        cpu_low_param_read_buffer_status := d.CPU_LOW_PARAM_READ_BUFFER_STATUS_READY }
    | none => some s
  else some s

/-! ### 1.15 `wlan_mac_high_mpdu_transmit` -/

/-- `wlan_mac_high_mpdu_transmit` (wlan_mac_high.c:1484), executed by CPU
`cpu`: the state and the queue buffer of `packet` after the call.  The CDMA
transfer (`wlan_mac_high_cdma_start_transfer`, not part of the sources) is
taken to copy `frame_info` and the frame that follows it from the queue buffer
into the transmit buffer; `unique_seq` is a `u64`. -/
def wlan_mac_high_mpdu_transmit (d : wlan_mac_high_ipc_h) (h : wlan_mac_ipc_util_h)
    (cpu : Nat) (s : cpu_high_state) (packet : tx_queue_buffer) (tx_pkt_buf : Int) :
    cpu_high_state × tx_queue_buffer :=
  let header := packet.frame_info.mpdu
  let header1 := { header with
    sequence_control :=
      ((header.sequence_control &&& 15) ||| ((s.unique_seq &&& 4095) <<< 4)) % 65536 }
  let packet1 := { packet with frame_info := { packet.frame_info with mpdu := header1 } }
  let trace1 :=
    if s.mpdu_tx_dequeue_callback_is_NULL then s.trace
    else s.trace ++ [dispatch_event.mpdu_tx_dequeue_callback packet1]
  let tx_mpdu1 := packet1.frame_info
  let tx_mpdu2 := { tx_mpdu1 with unique_seq := s.unique_seq }
  let unique_seq1 := (s.unique_seq + 1) % 18446744073709551616
  let tx_mpdu3 :=
    if packet1.metadata_type = d.QUEUE_METADATA_TYPE_IGNORE then tx_mpdu2
    else if packet1.metadata_type = d.QUEUE_METADATA_TYPE_STATION_INFO then
      { tx_mpdu2 with params := packet1.metadata_station_tx }
    else if packet1.metadata_type = d.QUEUE_METADATA_TYPE_TX_PARAMS then
      { tx_mpdu2 with params := packet1.metadata_tx_params }
    else tx_mpdu2
  let tx_mpdu4 := { tx_mpdu3 with short_retry_count := 0, long_retry_count := 0 }
  let ipc_msg_to_low : wlan_ipc_msg :=
    { msg_id := d.IPC_MBOX_MSG_ID d.IPC_MBOX_TX_MPDU_READY % 65536
      arg0 := (tx_pkt_buf % 256).toNat
      num_payload_words := 0
      payload_ptr := [] }
  let (st, m1) := unlock_pkt_buf_tx h cpu s.pkt_buf_mutex (tx_pkt_buf % 256).toNat
  let s1 := { s with
    unique_seq := unique_seq1
    tx_pkt_buf_mem := fun i => if i = tx_pkt_buf then tx_mpdu4 else s.tx_pkt_buf_mem i
    pkt_buf_mutex := m1
    trace := trace1 ++ [dispatch_event.unlock_pkt_buf_tx (tx_pkt_buf % 256).toNat st] }
  if st ≠ pkt_buf_mutex_status.PKT_BUF_MUTEX_SUCCESS then (s1, packet1)
  else
    let w := ipc_mailbox_write_msg h s1.intc s1.ipc_mailbox_to_low ipc_msg_to_low
    ({ s1 with
        tx_pkt_buf_busy_state :=
          (s1.tx_pkt_buf_busy_state ||| (1 <<< tx_pkt_buf.toNat)) % 256
        intc := w.2.1
        ipc_mailbox_to_low := w.2.2 }, packet1)

/-- A sequence of calls of `wlan_mac_high_mpdu_transmit`: the state after the
calls and, for each call in order, the `unique_seq` field of the transmit
buffer of the call right after it. -/
def mpdu_transmit_run (d : wlan_mac_high_ipc_h) (h : wlan_mac_ipc_util_h) (cpu : Nat)
    (s : cpu_high_state) : List (tx_queue_buffer × Int) → cpu_high_state × List Nat
  | [] => (s, [])
  | (packet, tx_pkt_buf) :: rest =>
    let s1 := (wlan_mac_high_mpdu_transmit d h cpu s packet tx_pkt_buf).1
    let r := mpdu_transmit_run d h cpu s1 rest
    (r.1, (s1.tx_pkt_buf_mem tx_pkt_buf).unique_seq :: r.2)

/-! ### 1.16 The association table as a linked list in memory -/

namespace Linked

/-- A memory of structures of type `α`, by address: the blocks that `malloc`
has returned, with their contents. -/
abbrev mem_t (α : Type) := List (Nat × α)

/-- The structure at address `a` (`none`: no block has this address). -/
def mem_read {α : Type} (m : mem_t α) (a : Nat) : Option α :=
  match m.find? (fun x => x.1 == a) with
  | some x => some x.2
  | none => none

/-- The memory after a store of `v` to address `a`. -/
def mem_write {α : Type} (m : mem_t α) (a : Nat) (v : α) : mem_t α :=
  (a, v) :: m.filter (fun x => x.1 != a)

/-- Modelled from the spec: a `dl_entry` of the list library
`wlan_mac_dl_list`, which is not part of the sources, as it lies in memory:
the `next` and `prev` pointers (`none`: NULL) and the `data` pointer. -/
structure dl_entry where
  next : Option Nat
  prev : Option Nat
  data : Nat
  deriving DecidableEq, Repr

/-- Modelled from the spec: a `dl_list` as it lies in memory: the `first` and
`last` pointers, the `length` field, and the memory that holds the entries. -/
structure dl_list where
  first : Option Nat
  last : Option Nat
  length : Nat
  mem : mem_t dl_entry
  deriving DecidableEq, Repr

/-- The entry at address `x`; an address that holds no entry reads as NULL
pointers. -/
def dl_entry_at (list : dl_list) (x : Nat) : dl_entry :=
  match mem_read list.mem x with
  | some e => e
  | none => { next := none, prev := none, data := 0 }

/-- The macro `dl_entry_next(x)`, read. -/
def dl_entry_next (list : dl_list) (x : Nat) : Option Nat := (dl_entry_at list x).next

/-- The macro `dl_entry_prev(x)`, read. -/
def dl_entry_prev (list : dl_list) (x : Nat) : Option Nat := (dl_entry_at list x).prev

/-- The field `x->data`, read. -/
def dl_entry_data (list : dl_list) (x : Nat) : Nat := (dl_entry_at list x).data

/-- The store `dl_entry_next(x) = v`. -/
def dl_entry_set_next (list : dl_list) (x : Nat) (v : Option Nat) : dl_list :=
  { list with mem := mem_write list.mem x { dl_entry_at list x with next := v } }

/-- The store `dl_entry_prev(x) = v`. -/
def dl_entry_set_prev (list : dl_list) (x : Nat) (v : Option Nat) : dl_list :=
  { list with mem := mem_write list.mem x { dl_entry_at list x with prev := v } }

/-- Modelled from the spec: `dl_entry_insertBefore(list, entry, entry_new)` as
the usual doubly linked list does it, statement by statement:
`prev(entry_new) = prev(entry)`; `next(entry_new) = entry`; if `prev(entry)`
is NULL, `list->first = entry_new`, else `next(prev(entry)) = entry_new`;
`prev(entry) = entry_new`; `list->length++`.  It does not look whether
`entry_new` is in the list already. -/
def dl_entry_insertBefore (list : dl_list) (entry entry_new : Nat) : dl_list :=
  let l1 := dl_entry_set_prev list entry_new (dl_entry_prev list entry)
  let l2 := dl_entry_set_next l1 entry_new (some entry)
  let l3 :=
    match dl_entry_prev l2 entry with
    | none => { l2 with first := some entry_new }
    | some q => dl_entry_set_next l2 q (some entry_new)
  let l4 := dl_entry_set_prev l3 entry (some entry_new)
  { l4 with length := l4.length + 1 }

/-- Modelled from the spec: `dl_entry_insertAfter(list, entry, entry_new)` as
the usual doubly linked list does it: `prev(entry_new) = entry`;
`next(entry_new) = next(entry)`; if `next(entry)` is NULL,
`list->last = entry_new`, else `prev(next(entry)) = entry_new`;
`next(entry) = entry_new`; `list->length++`. -/
def dl_entry_insertAfter (list : dl_list) (entry entry_new : Nat) : dl_list :=
  let l1 := dl_entry_set_prev list entry_new (some entry)
  let l2 := dl_entry_set_next l1 entry_new (dl_entry_next l1 entry)
  let l3 :=
    match dl_entry_next l2 entry with
    | none => { l2 with last := some entry_new }
    | some q => dl_entry_set_prev l2 q (some entry_new)
  let l4 := dl_entry_set_next l3 entry (some entry_new)
  { l4 with length := l4.length + 1 }

/-- Modelled from the spec: `dl_entry_insertBeginning(list, entry_new)`: into
an empty list the entry is put as first and last entry, with NULL `prev` and
`next`; otherwise it is inserted before `list->first`. -/
def dl_entry_insertBeginning (list : dl_list) (entry_new : Nat) : dl_list :=
  match list.first with
  | none =>
    let l1 := { list with first := some entry_new, last := some entry_new }
    let l2 := dl_entry_set_prev l1 entry_new none
    let l3 := dl_entry_set_next l2 entry_new none
    { l3 with length := l3.length + 1 }
  | some f => dl_entry_insertBefore list f entry_new

/-- Modelled from the spec: `dl_entry_insertEnd(list, entry_new)`: into an
empty list as `dl_entry_insertBeginning`, otherwise after `list->last`. -/
def dl_entry_insertEnd (list : dl_list) (entry_new : Nat) : dl_list :=
  match list.last with
  | none => dl_entry_insertBeginning list entry_new
  | some l => dl_entry_insertAfter list l entry_new

/-- Modelled from the spec: `dl_entry_remove(list, entry)` as the usual doubly
linked list does it, for a list of positive `length`: if `prev(entry)` is
NULL, `list->first = next(entry)`, else `next(prev(entry)) = next(entry)`; if
`next(entry)` is NULL, `list->last = prev(entry)`, else
`prev(next(entry)) = prev(entry)`; `list->length--`. -/
def dl_entry_remove (list : dl_list) (entry : Nat) : dl_list :=
  if list.length > 0 then
    let l1 :=
      match dl_entry_prev list entry with
      | none => { list with first := dl_entry_next list entry }
      | some q => dl_entry_set_next list q (dl_entry_next list entry)
    let l2 :=
      match dl_entry_next l1 entry with
      | none => { l1 with last := dl_entry_prev l1 entry }
      | some q => dl_entry_set_prev l1 q (dl_entry_prev l1 entry)
    { l2 with length := l2.length - 1 }
  else list

/-- The entries reached from `curr` along the `next` pointers, in order
(`none`: the walk has not reached NULL after `fuel` entries). -/
def dl_walk (list : dl_list) : Nat → Option Nat → Option (List Nat)
  | _, none => some []
  | 0, some _ => none
  | fuel + 1, some c =>
    match dl_walk list fuel (dl_entry_next list c) with
    | none => none
    | some l => some (c :: l)

/-- The global variables and tables the association functions work on, with
the association table as a linked list in memory.  `station_mem` holds the
`station_info` structures; `freed` are the blocks that have been passed to
`wlan_mac_high_free`, whose contents stay as they are.  The statistics table
is the sequence of its entries as before: no entry of it is linked in
twice. -/
structure mac_high_state where
  max_num_associations : Nat
  promiscuous_stats_enabled : Nat
  default_unicast_data_tx_params : Nat
  heap : heap_t
  assoc_tbl : dl_list
  station_mem : mem_t station_info
  stat_tbl : Dcf.dl_list statistics_txrx
  freed : List Nat
  deriving DecidableEq, Repr

/-- The structure `station` points to; an address that holds no structure reads
as zeros. -/
def station_at (s : mac_high_state) (station : Nat) : station_info :=
  match mem_read s.station_mem station with
  | some st => st
  | none =>
    { AID := 0, addr := 0, hostname0 := 0, flags := 0, rx_last_seq := 0, tx := 0,
      rate_selection_scheme := 0, stats := 0 }

/-- The loop of `wlan_mac_high_find_station_info_AID` and
`wlan_mac_high_find_station_info_ADDR` (wlan_mac_high.c:564, 603), from the
entry `curr` on: the entry found (`some none`: NULL; `none`: the loop has not
ended after `fuel` entries). -/
def find_station_info_loop (s : mac_high_state) (p : station_info → Bool) :
    Nat → Option Nat → Option (Option Nat)
  | _, none => some none
  | 0, some _ => none
  | fuel + 1, some curr =>
    if p (station_at s (dl_entry_data s.assoc_tbl curr)) then some (some curr)
    else find_station_info_loop s p fuel (dl_entry_next s.assoc_tbl curr)

/-- The number of entries after which a walk is given up: one more than there
are entries in memory, so that a walk that has not ended by then has come to
an entry for the second time and never ends. -/
def walk_fuel (s : mac_high_state) : Nat := s.assoc_tbl.mem.length + 1

/-- `wlan_mac_high_find_station_info_AID` (wlan_mac_high.c:558). -/
def wlan_mac_high_find_station_info_AID (s : mac_high_state) (aid : Nat) :
    Option (Option Nat) :=
  find_station_info_loop s (fun st => st.AID == aid) (walk_fuel s) s.assoc_tbl.first

/-- `wlan_mac_high_find_station_info_ADDR` (wlan_mac_high.c:597). -/
def wlan_mac_high_find_station_info_ADDR (s : mac_high_state) (addr : Nat) :
    Option (Option Nat) :=
  find_station_info_loop s (fun st => wlan_addr_eq st.addr addr) (walk_fuel s)
    s.assoc_tbl.first

/-- The store `station->AID = v`. -/
def station_set_AID (s : mac_high_state) (station v : Nat) : mac_high_state :=
  { s with station_mem := mem_write s.station_mem station { station_at s station with AID := v } }

/-- The loop of `wlan_mac_high_add_association` for `ADD_ASSOCIATION_ANY_AID`
(wlan_mac_high.c:2615), from the entry `curr` on, with the `break` after
`dl_entry_insertBefore`. -/
def add_association_any_loop (entry station : Nat) :
    Nat → mac_high_state → Option Nat → Nat → Option mac_high_state
  | _, s, none, _ => some s
  | 0, _, some _, _ => none
  | fuel + 1, s, some curr, curr_AID =>
    let curr_station_info := station_at s (dl_entry_data s.assoc_tbl curr)
    if ((curr_station_info.AID : Int) - (curr_AID : Int)) > 1 then
      let s1 := station_set_AID s station ((curr_station_info.AID - 1) % 65536)
      some { s1 with assoc_tbl := dl_entry_insertBefore s1.assoc_tbl curr entry }
    else
      add_association_any_loop entry station fuel s (dl_entry_next s.assoc_tbl curr)
        curr_station_info.AID

/-- The loop of `wlan_mac_high_add_association` for a requested AID
(wlan_mac_high.c:2653), from the entry `curr` on: before every entry with a
larger AID, `station->AID = requested_AID` and
`dl_entry_insertBefore(assoc_tbl, curr_station_info_entry, entry)`; there is
no `break`. -/
def add_association_requested_loop (entry station requested_AID : Nat) :
    Nat → mac_high_state → Option Nat → Option mac_high_state
  | _, s, none => some s
  | 0, _, some _ => none
  | fuel + 1, s, some curr =>
    let curr_station_info := station_at s (dl_entry_data s.assoc_tbl curr)
    let s2 :=
      if curr_station_info.AID > requested_AID then
        let s1 := station_set_AID s station requested_AID
        { s1 with assoc_tbl := dl_entry_insertBefore s1.assoc_tbl curr entry }
      else s
    add_association_requested_loop entry station requested_AID fuel s2
      (dl_entry_next s2.assoc_tbl curr)

/-- The part of `wlan_mac_high_add_association` that sets up the AID and links
the entry into the table (wlan_mac_high.c:2610-2673). -/
def add_association_place (h : wlan_mac_high_h) (s : mac_high_state)
    (entry station requested_AID : Nat) : Option mac_high_state :=
  if requested_AID = h.ADD_ASSOCIATION_ANY_AID then
    match add_association_any_loop entry station (walk_fuel s) s s.assoc_tbl.first 0 with
    | none => none
    | some s1 =>
      if (station_at s1 station).AID = 0 then
        let s2 :=
          if s1.assoc_tbl.length = 0 then station_set_AID s1 station 1
          else
            match s1.assoc_tbl.last with
            | some last =>
              station_set_AID s1 station
                (((station_at s1 (dl_entry_data s1.assoc_tbl last)).AID + 1) % 65536)
            | none => s1
        some { s2 with assoc_tbl := dl_entry_insertEnd s2.assoc_tbl entry }
      else some s1
  else
    match add_association_requested_loop entry station requested_AID (walk_fuel s) s
        s.assoc_tbl.first with
    | none => none
    | some s1 =>
      if (station_at s1 station).AID = 0 then
        let s2 := station_set_AID s1 station requested_AID
        some { s2 with assoc_tbl := dl_entry_insertEnd s2.assoc_tbl entry }
      else some s1

/-- The globals and the statistics table as `wlan_mac_high_add_statistics`
sees them; it does not use the association table. -/
def stat_state (s : mac_high_state) : Dcf.mac_high_state :=
  { max_num_associations := s.max_num_associations,
    promiscuous_stats_enabled := s.promiscuous_stats_enabled,
    default_unicast_data_tx_params := s.default_unicast_data_tx_params,
    heap := s.heap, assoc_tbl := [], stat_tbl := s.stat_tbl }

/-- `wlan_mac_high_add_association` (wlan_mac_high.c:2517): the pointer
returned (`some none`: NULL) and the state after the call; `none`: a walk of
the table does not end. -/
def wlan_mac_high_add_association (h : wlan_mac_high_h) (s : mac_high_state)
    (addr requested_AID : Nat) : Option (Option Nat × mac_high_state) :=
  let by_AID :=
    if requested_AID ≠ h.ADD_ASSOCIATION_ANY_AID then
      wlan_mac_high_find_station_info_AID s requested_AID
    else some none
  match by_AID with
  | none => none
  | some (some entry) =>
    let station := dl_entry_data s.assoc_tbl entry
    if wlan_addr_eq (station_at s station).addr addr then some (some station, s)
    else some (none, s)
  | some none =>
    match wlan_mac_high_find_station_info_ADDR s addr with
    | none => none
    | some (some entry) => some (some (dl_entry_data s.assoc_tbl entry), s)
    | some none =>
      if s.assoc_tbl.length ≥ s.max_num_associations then some (none, s)
      else
        match wlan_mac_high_malloc s.heap with
        | (none, heap1) => some (none, { s with heap := heap1 })
        | (some entry, heap1) =>
          match wlan_mac_high_malloc heap1 with
          | (none, heap2) => some (none, { s with heap := heap2, freed := entry :: s.freed })
          | (some station, heap2) =>
            let station0 : station_info :=
              { AID := 0, addr := 0, hostname0 := 0, flags := 0, rx_last_seq := 0, tx := 0,
                rate_selection_scheme := 0, stats := 0 }
            match Dcf.wlan_mac_high_add_statistics h (stat_state { s with heap := heap2 })
                (some station0) addr with
            | (none, _, t) =>
              some (none, { s with heap := t.heap, stat_tbl := t.stat_tbl,
                                   freed := station :: entry :: s.freed })
            | (some station_stats, _, t) =>
              let s1 : mac_high_state :=
                { s with
                  heap := t.heap
                  stat_tbl := stats_set_is_associated t.stat_tbl station_stats 1
                  assoc_tbl :=
                    { s.assoc_tbl with
                      mem := mem_write s.assoc_tbl.mem entry
                        { next := none, prev := none, data := station } }
                  station_mem := mem_write s.station_mem station
                    (new_station_info h (stat_state s) addr station_stats) }
              match add_association_place h s1 entry station requested_AID with
              | none => none
              | some s2 => some (some station, s2)

/-- `wlan_mac_high_remove_association` (wlan_mac_high.c:2698): the return value
and the state after the call; `none`: the walk of the table does not end. -/
def wlan_mac_high_remove_association (h : wlan_mac_high_h) (s : mac_high_state) (addr : Nat) :
    Option (Int × mac_high_state) :=
  match wlan_mac_high_find_station_info_ADDR s addr with
  | none => none
  | some none => some (-1, s)
  | some (some entry) =>
    let station := dl_entry_data s.assoc_tbl entry
    let st := station_at s station
    if st.flags &&& h.STATION_INFO_DO_NOT_REMOVE ≠ h.STATION_INFO_DO_NOT_REMOVE then
      let assoc1 := dl_entry_remove s.assoc_tbl entry
      if s.promiscuous_stats_enabled ≠ 0 then
        some (0, { s with assoc_tbl := assoc1
                          stat_tbl := stats_set_is_associated s.stat_tbl st.stats 0
                          freed := station :: entry :: s.freed })
      else
        match wlan_mac_high_find_statistics_ADDR s.stat_tbl addr with
        | (none, tbl1) =>
          some (0, { s with assoc_tbl := assoc1, stat_tbl := tbl1
                            freed := station :: entry :: st.stats :: s.freed })
        | (some _, tbl1) =>
          some (0, { s with assoc_tbl := assoc1, stat_tbl := Dcf.dl_entry_remove tbl1 0
                            freed := station :: entry :: st.stats :: s.freed })
    else some (0, s)

/-- The association table as the walk from `first` reads it: the `data`
pointer of every entry with the structure it points to (`none`: the walk does
not end). -/
def assoc_tbl_walk (s : mac_high_state) : Option (Dcf.dl_list station_info) :=
  match dl_walk s.assoc_tbl (walk_fuel s) s.assoc_tbl.first with
  | none => none
  | some l =>
    some (l.map (fun e =>
      { data := dl_entry_data s.assoc_tbl e,
        obj := station_at s (dl_entry_data s.assoc_tbl e) }))

/-- The state with the heap and the statistics table that a function working
on the statistics table has left. -/
def with_stat_state (s : mac_high_state) (t : Dcf.mac_high_state) : mac_high_state :=
  { s with heap := t.heap, stat_tbl := t.stat_tbl }

/-- The state after one call on the tables (`none`: a walk of the association
table does not end). -/
def table_step (h : wlan_mac_high_h) (s : mac_high_state) : table_call → Option mac_high_state
  | table_call.add_association addr requested_AID =>
    match wlan_mac_high_add_association h s addr requested_AID with
    | none => none
    | some r => some r.2
  | table_call.remove_association addr =>
    match wlan_mac_high_remove_association h s addr with
    | none => none
    | some r => some r.2
  | table_call.add_statistics addr =>
    some (with_stat_state s (Dcf.wlan_mac_high_add_statistics h (stat_state s) none addr).2.2)
  | table_call.reset_statistics =>
    some (with_stat_state s (wlan_mac_high_reset_statistics (stat_state s)))
  | table_call.set_promiscuous_stats_enabled v =>
    some { s with promiscuous_stats_enabled := v % 256 }

/-- The state after a sequence of calls on the tables. -/
def table_run (h : wlan_mac_high_h) : mac_high_state → List table_call → Option mac_high_state
  | s, [] => some s
  | s, c :: cs =>
    match table_step h s c with
    | none => none
    | some s1 => table_run h s1 cs

/-- The linked state read as a state of the sequence model: the association
table is the walk from `first` (`none`: the walk does not end). -/
def to_seq (s : mac_high_state) : Option Dcf.mac_high_state :=
  match assoc_tbl_walk s with
  | none => none
  | some tbl =>
    some { max_num_associations := s.max_num_associations,
           promiscuous_stats_enabled := s.promiscuous_stats_enabled,
           default_unicast_data_tx_params := s.default_unicast_data_tx_params,
           heap := s.heap, assoc_tbl := tbl, stat_tbl := s.stat_tbl }

/-- The list in memory and the sequence of entries give the same state after a
sequence of calls: every walk ends, and the state in memory, read by the walk
from `first`, is the state of the sequence model. -/
def models_agree (h : wlan_mac_high_h) (s : mac_high_state) (t : Dcf.mac_high_state)
    (calls : List table_call) : Prop :=
  (table_run h s calls).bind to_seq = some (Dcf.table_run h t calls)

instance (h : wlan_mac_high_h) (s : mac_high_state) (t : Dcf.mac_high_state)
    (calls : List table_call) : Decidable (models_agree h s t calls) := by
  unfold models_agree; infer_instance

/-- The cross-link between the two tables, for the stations that the walk of
the association table reads. -/
def assoc_stats_linked (s : mac_high_state) : Prop :=
  match to_seq s with
  | none => False
  | some t => Dcf.assoc_stats_linked t

instance (s : mac_high_state) : Decidable (assoc_stats_linked s) := by
  unfold assoc_stats_linked
  cases to_seq s <;> infer_instance

/-- The walk from `start` along the `next` pointers reads the entries `xs`, in
order, and then comes to `stop`. -/
def linked_to (L : dl_list) : Option Nat → List Nat → Option Nat → Prop
  | start, [], stop => start = stop
  | start, x :: xs, stop => start = some x ∧ linked_to L (dl_entry_next L x) xs stop

/-- The `prev` pointers of the entries `xs`: that of the first entry is `p`,
that of every other entry points at the entry before it. -/
def prev_from (L : dl_list) : Option Nat → List Nat → Prop
  | _, [] => True
  | p, x :: xs => dl_entry_prev L x = p ∧ prev_from L (some x) xs

/-- The entries behind the new entry after the rest of the loop for a
requested AID, by address (`add_association_requested_relink`). -/
def relink_entries (larger : Nat → Bool) : List Nat → List Nat → List Nat
  | succ, [] => succ
  | succ, c :: rest =>
    if larger c then relink_entries larger (c :: rest) rest
    else relink_entries larger succ rest

/-- The walk after the loop for a requested AID, by address
(`add_association_requested_loop`). -/
def requested_walk (larger : Nat → Bool) (entry : Nat) : List Nat → List Nat
  | [] => []
  | c :: rest =>
    if larger c then entry :: relink_entries larger (c :: rest) rest
    else c :: requested_walk larger entry rest

/-- What a call has left alone: the `data` pointers, the stations other than
the new one, `last`, the globals, the statistics table, and the entries in
memory. -/
def frame (station : Nat) (s s2 : mac_high_state) : Prop :=
  (∀ y, dl_entry_data s2.assoc_tbl y = dl_entry_data s.assoc_tbl y) ∧
  (∀ q, q ≠ station → station_at s2 q = station_at s q) ∧
  s2.assoc_tbl.last = s.assoc_tbl.last ∧
  (∀ y, (mem_read s.assoc_tbl.mem y).isSome → (mem_read s2.assoc_tbl.mem y).isSome) ∧
  s2.max_num_associations = s.max_num_associations ∧
  s2.promiscuous_stats_enabled = s.promiscuous_stats_enabled ∧
  s2.default_unicast_data_tx_params = s.default_unicast_data_tx_params ∧
  s2.heap = s.heap ∧ s2.stat_tbl = s.stat_tbl ∧ s2.freed = s.freed

/-- One pass of the loop for a requested AID at the entry `curr`. -/
def requested_step (entry station requested_AID : Nat) (s : mac_high_state) (curr : Nat) :
    mac_high_state :=
  if (station_at s (dl_entry_data s.assoc_tbl curr)).AID > requested_AID then
    { station_set_AID s station requested_AID with
      assoc_tbl := dl_entry_insertBefore s.assoc_tbl curr entry }
  else s

/-- The list in memory is a doubly linked list of the entries `es`, every one
linked in once. -/
def list_wf (L : dl_list) (es : List Nat) : Prop :=
  es.Nodup ∧ linked_to L L.first es none ∧ prev_from L none es ∧ L.last = es.getLast? ∧
    L.length = es.length ∧ ∀ e ∈ es, (mem_read L.mem e).isSome

/-- What the walk reads at the entry `e`: its `data` pointer and the station it
points to. -/
def entry_view (s : mac_high_state) (e : Nat) : Dcf.dl_entry station_info :=
  { data := dl_entry_data s.assoc_tbl e, obj := station_at s (dl_entry_data s.assoc_tbl e) }

/-- The state after `station->AID = requested_AID` and
`dl_entry_insertEnd(assoc_tbl, entry)` (wlan_mac_high.c:2666-2671). -/
def place_end (s1 : mac_high_state) (entry station requested_AID : Nat) : mac_high_state :=
  { station_set_AID s1 station requested_AID with
    assoc_tbl := dl_entry_insertEnd s1.assoc_tbl entry }

instance linked_to_decidable (L : dl_list) :
    ∀ (xs : List Nat) (start stop : Option Nat), Decidable (linked_to L start xs stop)
  | [], start, stop => by unfold linked_to; infer_instance
  | x :: xs, start, stop =>
    have := linked_to_decidable L xs (dl_entry_next L x) stop
    by unfold linked_to; infer_instance

instance prev_from_decidable (L : dl_list) :
    ∀ (xs : List Nat) (p : Option Nat), Decidable (prev_from L p xs)
  | [], _ => isTrue trivial
  | x :: xs, p =>
    have := prev_from_decidable L xs (some x)
    by unfold prev_from; infer_instance

instance (L : dl_list) (es : List Nat) : Decidable (list_wf L es) := by
  unfold list_wf; infer_instance

end Linked

/-! ### 1.17 Concrete values for the instances -/

/-- Values of the `wlan_mac_ipc_util.h` constants used for the concrete
instances below: delimiter `0xF000`, at most 100 payload words, 16 transmit
and 16 receive buffers, mutex numbers 0..15 and 16..31. -/
def ipc_util_h_inst : wlan_mac_ipc_util_h :=
  { IPC_MBOX_MSG_ID_DELIM := 61440, IPC_BUFFER_MAX_NUM_WORDS := 100,
    NUM_TX_PKT_BUFS := 16, NUM_RX_PKT_BUFS := 16,
    PKT_BUF_MUTEX_TX_BASE := 0, PKT_BUF_MUTEX_RX_BASE := 16 }

/-- Values of the `wlan_mac_high.h` constants used for the concrete instances
below. -/
def mac_high_h_inst : wlan_mac_high_h :=
  { ADD_ASSOCIATION_ANY_AID := 0, WLAN_MAC_HIGH_MAX_ASSOCIATONS := 8,
    WLAN_MAC_HIGH_MAX_PROMISC_STATS := 50, STATION_INFO_DO_NOT_REMOVE := 2,
    STATION_INFO_FLAG_DISABLE_ASSOC_CHECK := 1, RATE_SELECTION_SCHEME_STATIC := 0,
    wlan_mac_addr_is_warp := fun _ => false }

/-- An interrupt state for the concrete instances: interrupts enabled, the
controller ready and started. -/
def intc_state_inst : intc_state :=
  { interrupt_state := interrupt_state_t.INTERRUPTS_ENABLED, IsReady := true, IsStarted := true }

/-- The interrupt state inside `MailboxIntrHandler`
(wlan_mac_ipc_util.c:131-142) after its `XIntc_Stop`: the controller is ready
and stopped, the variable `interrupt_state` still says enabled. -/
def intc_state_isr_inst : intc_state :=
  { interrupt_state := interrupt_state_t.INTERRUPTS_ENABLED, IsReady := true, IsStarted := false }

/-- A receive-side message struct with a three-word payload buffer. -/
def ipc_msg_rx_inst : wlan_ipc_msg :=
  { msg_id := 0, num_payload_words := 0, arg0 := 0, payload_ptr := [0, 0, 0] }

/-- A message with the delimiter, `arg0 = 7` and two payload words. -/
def ipc_msg_tx_inst : wlan_ipc_msg :=
  { msg_id := 61441, num_payload_words := 2, arg0 := 7, payload_ptr := [11, 22] }

/-- A sequence of calls of the lock layer for the concrete instances: other
CPUs (1) and other buffers, but no unlock of transmit buffer 3 by CPU 0. -/
def pkt_buf_calls_inst : List pkt_buf_call :=
  [pkt_buf_call.lock pkt_buf_role.tx 1 3, pkt_buf_call.unlock pkt_buf_role.tx 1 3,
   pkt_buf_call.lock pkt_buf_role.rx 1 3, pkt_buf_call.unlock pkt_buf_role.rx 0 3,
   pkt_buf_call.status pkt_buf_role.tx 3, pkt_buf_call.lock pkt_buf_role.tx 0 4,
   pkt_buf_call.unlock pkt_buf_role.tx 0 4]

/-- A mutex core in which transmit buffer 0 (mutex number 0) is held by
CPU 1. -/
def XMutex_tx0_held_inst : XMutex :=
  { owner := fun k => if k = 0 then some 1 else none, calls := [] }

/-- A sequence of allocator calls without a release of slot 0. -/
def tx_alloc_calls_inst : List tx_alloc_call :=
  [tx_alloc_call.allocate, tx_alloc_call.release 1, tx_alloc_call.allocate]

/-- The state with empty tables used for the concrete instances: at most 8
associations, promiscuous statistics enabled, and a heap whose next twelve
`malloc` calls succeed. -/
def mac_high_state_empty_inst : mac_high_state :=
  { max_num_associations := 8, promiscuous_stats_enabled := 1,
    default_unicast_data_tx_params := 5,
    heap := [some 1000, some 1001, some 1002, some 1003, some 1004, some 1005, some 1006,
             some 1007, some 1008, some 1009, some 1010, some 1011],
    assoc_tbl := [], stat_tbl := [] }

/-- The empty state after `add(A, ANY)` and `add(B, ANY)`, with A = 10 and
B = 11. -/
def mac_high_state_AB_inst : mac_high_state :=
  (wlan_mac_high_add_association mac_high_h_inst
    (wlan_mac_high_add_association mac_high_h_inst mac_high_state_empty_inst 10
      mac_high_h_inst.ADD_ASSOCIATION_ANY_AID).2 11 mac_high_h_inst.ADD_ASSOCIATION_ANY_AID).2

/-- The entry of station A in `mac_high_state_AB_inst`. -/
def station_A_inst : dl_entry station_info :=
  { data := 1001,
    obj := { AID := 1, addr := 10, hostname0 := 0, flags := 0, rx_last_seq := 65535, tx := 5,
             rate_selection_scheme := 0, stats := 1003 } }

/-- The AID and address of every entry of a table, by position. -/
def assoc_view (tbl : dl_list station_info) : List (Nat × Nat) :=
  tbl.map (fun e => (e.obj.AID, e.obj.addr))

/-- The empty state after `add(B, 2)` and `add(C, 3)`, with B = 11 and C = 12:
a table with the AIDs 2, 3. -/
def mac_high_state_23_inst : mac_high_state :=
  (wlan_mac_high_add_association mac_high_h_inst
    (wlan_mac_high_add_association mac_high_h_inst mac_high_state_empty_inst 11 2).2 12 3).2

/-- The empty state after `add(B, 1)` and `add(C, 4)`, with B = 11 and C = 12:
a table with the AIDs 1, 4, as it is also left by four adds with
`ADD_ASSOCIATION_ANY_AID` and the removal of the stations with AID 2 and 3. -/
def mac_high_state_14_inst : mac_high_state :=
  (wlan_mac_high_add_association mac_high_h_inst
    (wlan_mac_high_add_association mac_high_h_inst mac_high_state_empty_inst 11 1).2 12 4).2

/-- The empty state after four adds with `ADD_ASSOCIATION_ANY_AID` (addresses
21, 22, 23, 24) and the removal of the second and the third station. -/
def mac_high_state_holes_inst : mac_high_state :=
  (wlan_mac_high_remove_association mac_high_h_inst
    (wlan_mac_high_remove_association mac_high_h_inst
      (wlan_mac_high_add_association mac_high_h_inst
        (wlan_mac_high_add_association mac_high_h_inst
          (wlan_mac_high_add_association mac_high_h_inst
            (wlan_mac_high_add_association mac_high_h_inst
              { mac_high_state_empty_inst with
                heap := (List.range 20).map (fun i => some (2000 + i)) } 21 0).2 22 0).2 23 0).2 24 0).2
      22).2 23).2

/-- The table A@1, B@2 of `mac_high_state_AB_inst` in which the application
has set `STATION_INFO_DO_NOT_REMOVE` in the flags of station A. -/
def mac_high_state_pinned_inst : mac_high_state :=
  { mac_high_state_AB_inst with
    assoc_tbl := mac_high_state_AB_inst.assoc_tbl.map (fun e =>
      if e.obj.addr = 10 then
        { e with obj := { e.obj with
            flags := e.obj.flags ||| mac_high_h_inst.STATION_INFO_DO_NOT_REMOVE } }
      else e) }

/-- The state `mac_high_state_AB_inst` with the maximum number of associations
set to 2, the length of its table. -/
def mac_high_state_full_inst : mac_high_state :=
  { mac_high_state_AB_inst with max_num_associations := 2 }

/-- The statistics structure that `wlan_mac_high_add_statistics` creates for
an address: zero-initialized but for the address. -/
def new_statistics_txrx (addr : Nat) : statistics_txrx :=
  { addr := addr, is_associated := 0, latest_txrx_timestamp := 0,
    data := frame_statistics_txrx_zero, mgmt := frame_statistics_txrx_zero }

/-- A statistics entry for the concrete instances. -/
def stats_entry_inst (p addr is_associated ts : Nat) : dl_entry statistics_txrx :=
  { data := p,
    obj := { addr := addr, is_associated := is_associated, latest_txrx_timestamp := ts,
             data := { frame_statistics_txrx_zero with tx_num_packets_total := 7 },
             mgmt := { frame_statistics_txrx_zero with rx_num_packets := 3 } } }

/-- Constants for the concrete instances of the statistics table: a capacity
of 3 entries. -/
def mac_high_h_small_inst : wlan_mac_high_h :=
  { mac_high_h_inst with WLAN_MAC_HIGH_MAX_PROMISC_STATS := 3 }

/-- A state with a full statistics table: one associated entry and two
entries that are not associated, of which the one with address 32 has the
oldest timestamp. -/
def mac_high_state_stats_inst : mac_high_state :=
  { mac_high_state_empty_inst with
    stat_tbl := [stats_entry_inst 500 31 1 10, stats_entry_inst 501 32 0 20,
                 stats_entry_inst 502 33 0 30] }

/-- A state with a full statistics table in which every entry is
associated. -/
def mac_high_state_stats_assoc_inst : mac_high_state :=
  { mac_high_state_empty_inst with
    stat_tbl := [stats_entry_inst 500 31 1 10, stats_entry_inst 501 32 1 20,
                 stats_entry_inst 502 33 1 30] }

/-- Values of the frame constants for the concrete instances. -/
def defs_h_inst : wlan_mac_802_11_defs_h :=
  { MAC_FRAME_CTRL1_TYPE_MGMT := 0, MAC_FRAME_CTRL1_SUBTYPE_ACK := 212,
    MAC_FRAME_CTRL1_SUBTYPE_CTS := 196, MAC_FRAME_CTRL1_SUBTYPE_RTS := 180,
    MAC_FRAME_CTRL1_TYPE_DATA := 8, MAC_FRAME_CTRL2_FLAG_PROTECTED := 64,
    sizeof_mac_header_80211 := 24, sizeof_llc_header := 8, WLAN_PHY_FCS_NBYTES := 4,
    LLC_TYPE_ARP := 1544, LLC_TYPE_IP := 8, LLC_TYPE_WLAN_LTG := 37008,
    TX_MPDU_RESULT_SUCCESS := 0 }

/-- A transmitted data frame (IP payload) of 100 bytes with two short retries
and a successful result. -/
def tx_mpdu_data_inst : tx_frame_info :=
  { length := 100, short_retry_count := 2, long_retry_count := 0, tx_result := 0,
    unique_seq := 0, params := 0,
    mpdu := { frame_control_1 := 8, frame_control_2 := 0, sequence_control := 0,
              llc_type := 8 } }

/-- A valid message without payload, with `arg0 = 1`. -/
def ipc_msg_tx2_inst : wlan_ipc_msg :=
  { msg_id := 61442, num_payload_words := 0, arg0 := 1, payload_ptr := [] }

/-- A `wlan_mac_high_process_ipc_msg` for the concrete instances: the state is
the list of the `msg_id`s processed so far. -/
def process_ipc_msg_inst (msg : wlan_ipc_msg) (st : List Nat) : Option (List Nat) :=
  some (st ++ [msg.msg_id])

/-- Values of the constants of `wlan_mac_high_ipc_h` used for the concrete
instances: message ids in the low 12 bits under the delimiter `0xF000`, the
CPU Low part of the node type in bits 8..15, detail records of 24 bytes, and a
`wlan_mac_hw_info` laid out word by word. -/
def ipc_h_inst : wlan_mac_high_ipc_h :=
  { IPC_MBOX_MSG_ID_TO_MSG := fun id => id &&& 4095
    IPC_MBOX_MSG_ID := fun m => 61440 ||| (m &&& 4095)
    IPC_MBOX_RX_MPDU_READY := 0
    IPC_MBOX_TX_MPDU_READY := 1
    IPC_MBOX_TX_MPDU_DONE := 3
    IPC_MBOX_HW_INFO := 4
    IPC_MBOX_CPU_STATUS := 5
    IPC_MBOX_MEM_READ_WRITE := 11
    IPC_MBOX_LOW_PARAM := 12
    WARPNET_TYPE_80211_CPU_LOW_MASK := 65280
    CPU_STATUS_EXCEPTION := 2147483648
    RX_MPDU_STATE_EMPTY := 0
    sizeof_wlan_mac_low_tx_details := 24
    CPU_LOW_REG_READ_BUFFER_STATUS_READY := 1
    CPU_LOW_PARAM_READ_BUFFER_STATUS_READY := 1
    QUEUE_METADATA_TYPE_IGNORE := 0
    QUEUE_METADATA_TYPE_STATION_INFO := 1
    QUEUE_METADATA_TYPE_TX_PARAMS := 2
    hw_info_of_words := fun ws =>
      { type := ws.getD 0 0, serial_number := ws.getD 1 0,
        fpga_dna := [ws.getD 2 0, ws.getD 3 0], wn_eth_device := ws.getD 4 0,
        hw_addr_wn := [ws.getD 5 0, ws.getD 6 0], hw_addr_wlan := [ws.getD 7 0, ws.getD 8 0] } }

/-- A transmit buffer for the concrete instances. -/
def tx_frame_info_inst : tx_frame_info :=
  { length := 0, short_retry_count := 0, long_retry_count := 0, tx_result := 0,
    unique_seq := 0, params := 0,
    mpdu := { frame_control_1 := 0, frame_control_2 := 0, sequence_control := 0,
              llc_type := 0 } }

/-- A state of CPU High for the concrete instances: every packet buffer free,
no transmit slot busy, receive buffers in frame state 7, a hardware-info
record with node type `0x00010203` and Ethernet device 1, the payload of a
hardware-info message in the receive buffer of the mailbox, and
`unique_seq = 4100`. -/
def cpu_high_state_inst : cpu_high_state :=
  { pkt_buf_mutex := XMutex_free
    tx_pkt_buf_busy_state := 0
    rx_mpdu_state := fun _ => 7
    tx_pkt_buf_mem := fun _ => tx_frame_info_inst
    hw_info := { type := 66051, serial_number := 0, fpga_dna := [0, 0], wn_eth_device := 1,
                 hw_addr_wn := [0, 0], hw_addr_wlan := [0, 0] }
    cpu_low_status := 0
    ipc_msg_from_low_payload := [2864434397, 1234, 11, 12, 0, 21, 22, 31, 32]
    cpu_low_reg_read_buffer := none
    cpu_low_reg_read_buffer_status := 0
    cpu_low_param_read_buffer := none
    cpu_low_param_read_buffer_size := 0
    cpu_low_param_read_buffer_status := 0
    unique_seq := 4100
    mpdu_tx_dequeue_callback_is_NULL := false
    intc := intc_state_inst
    ipc_mailbox_to_low := []
    trace := [] }

/-- A message of the given type for buffer `arg0`, with `n` payload words. -/
def ipc_msg_from_low_inst (id arg0 n : Nat) : wlan_ipc_msg :=
  { msg_id := 61440 ||| id, num_payload_words := n, arg0 := arg0,
    payload_ptr := List.replicate n 0 }

/-- A queue buffer for the concrete instances: station metadata, a frame of 100
bytes whose `sequence_control` is `0xABC5`. -/
def tx_queue_buffer_inst : tx_queue_buffer :=
  { metadata_type := 1, metadata_station_tx := 9, metadata_tx_params := 8,
    frame_info := { tx_frame_info_inst with
      length := 100, short_retry_count := 3,
      mpdu := { tx_frame_info_inst.mpdu with sequence_control := 43973 } } }

/-- The empty tables as linked lists in memory, with the globals and the heap
of `mac_high_state_empty_inst`. -/
def mac_high_linked_empty_inst : Linked.mac_high_state :=
  { max_num_associations := 8, promiscuous_stats_enabled := 1,
    default_unicast_data_tx_params := 5,
    heap := [some 1000, some 1001, some 1002, some 1003, some 1004, some 1005, some 1006,
             some 1007, some 1008, some 1009, some 1010, some 1011],
    assoc_tbl := { first := none, last := none, length := 0, mem := [] },
    station_mem := [], stat_tbl := [], freed := [] }

/-- The linked table B@2, C@3 (addresses 11 and 12), built by two adds on the
empty table. -/
def mac_high_linked_23_inst : Option Linked.mac_high_state :=
  Linked.table_run mac_high_h_inst mac_high_linked_empty_inst
    [table_call.add_association 11 2, table_call.add_association 12 3]

/-- The constants of `mac_high_h_inst` with `ADD_ASSOCIATION_ANY_AID = 65535`,
so that 0 can be requested as an AID. -/
def mac_high_h_any_inst : wlan_mac_high_h :=
  { mac_high_h_inst with ADD_ASSOCIATION_ANY_AID := 65535 }

/-- The empty tables with a heap of 24 blocks, as sequences. -/
def mac_high_state_heap_inst : mac_high_state :=
  { mac_high_state_empty_inst with heap := (List.range 24).map (fun i => some (1000 + i)) }

/-- The empty tables with a heap of 24 blocks, as linked lists in memory. -/
def mac_high_linked_heap_inst : Linked.mac_high_state :=
  { mac_high_linked_empty_inst with heap := (List.range 24).map (fun i => some (1000 + i)) }

/-- Sequences of calls for the comparison of the two representations of the
association table: requested AIDs smaller than the AIDs of two and of three
entries, of one entry and of none; adds with `ADD_ASSOCIATION_ANY_AID` (0)
with and without a hole; removes of other stations and adds after a call that
has linked an entry in twice. -/
def table_calls_agree_inst : List (List table_call) :=
  [[table_call.add_association 11 2, table_call.add_association 12 3,
    table_call.add_association 10 1],
   [table_call.add_association 11 2, table_call.add_association 12 3,
    table_call.add_association 13 4, table_call.add_association 10 1],
   [table_call.add_association 11 2, table_call.add_association 12 5,
    table_call.add_association 13 7, table_call.add_association 10 3],
   [table_call.add_association 11 2, table_call.add_association 12 5,
    table_call.add_association 13 7, table_call.add_association 10 9],
   [table_call.add_association 11 0, table_call.add_association 12 0,
    table_call.remove_association 11, table_call.add_association 13 0,
    table_call.add_association 14 7, table_call.add_association 15 0],
   [table_call.add_association 11 2, table_call.add_association 12 3,
    table_call.add_association 10 1, table_call.remove_association 12],
   [table_call.add_association 11 2, table_call.add_association 12 3,
    table_call.add_association 10 1, table_call.remove_association 11],
   [table_call.add_association 11 2, table_call.add_association 12 3,
    table_call.add_association 10 1, table_call.add_association 13 0],
   [table_call.add_association 11 2, table_call.add_association 12 3,
    table_call.add_association 10 1, table_call.add_association 13 2]]

/-- Sequences of calls for the comparison with `ADD_ASSOCIATION_ANY_AID =
65535`: the AID 0 requested with two entries in the table, which links the
entry in before both and once more at the end; and an add with
`ADD_ASSOCIATION_ANY_AID`. -/
def table_calls_agree_any_inst : List (List table_call) :=
  [[table_call.add_association 11 2, table_call.add_association 12 3,
    table_call.add_association 10 0],
   [table_call.add_association 11 2, table_call.add_association 12 3,
    table_call.add_association 10 65535, table_call.add_association 9 1]]

/-- The linked table B@2, C@3 (entries at 1000 and 1004) in the middle of an
add of station 10: the new entry (at 1008) and the new station (at 1009, with
AID 0) are in memory, and the entry is not linked in yet. -/
def mac_high_linked_mid_inst : Linked.mac_high_state :=
  { max_num_associations := 8, promiscuous_stats_enabled := 1,
    default_unicast_data_tx_params := 5, heap := [],
    assoc_tbl :=
      { first := some 1000, last := some 1004, length := 2,
        mem := [(1008, { next := none, prev := none, data := 1009 }),
                (1000, { next := some 1004, prev := none, data := 1001 }),
                (1004, { next := none, prev := some 1000, data := 1005 })] },
    station_mem :=
      [(1009, { AID := 0, addr := 10, hostname0 := 0, flags := 0, rx_last_seq := 65535,
                tx := 5, rate_selection_scheme := 0, stats := 1011 }),
       (1005, { AID := 3, addr := 12, hostname0 := 0, flags := 0, rx_last_seq := 65535,
                tx := 5, rate_selection_scheme := 0, stats := 1007 }),
       (1001, { AID := 2, addr := 11, hostname0 := 0, flags := 0, rx_last_seq := 65535,
                tx := 5, rate_selection_scheme := 0, stats := 1003 })],
    stat_tbl := [], freed := [] }

/-- The linked table after station 10 has been added to B@2, C@3 with the
requested AID 1: the value returned and the state. -/
def mac_high_linked_add_inst : Option (Option Nat × Linked.mac_high_state) :=
  mac_high_linked_23_inst.bind
    (fun s => Linked.wlan_mac_high_add_association mac_high_h_inst s 10 1)

/-- The calls that add the stations 11, 12 and 10 with the requested AIDs 2, 3
and 1 and then remove station 10. -/
def table_calls_relink_inst : List table_call :=
  [table_call.add_association 11 2, table_call.add_association 12 3,
   table_call.add_association 10 1, table_call.remove_association 10]

/-- The same calls with promiscuous statistics disabled before the remove. -/
def table_calls_relink_off_inst : List table_call :=
  [table_call.add_association 11 2, table_call.add_association 12 3,
   table_call.add_association 10 1, table_call.set_promiscuous_stats_enabled 0,
   table_call.remove_association 10]

/-! ## Part 2. Theorems -/

/-! ### Mailbox transport -/

theorem ipc_msg_store_header_word (m0 m : wlan_ipc_msg) (hm : wlan_ipc_msg_wf m) :
    ipc_msg_store_header m0 (ipc_msg_header_word m)
      = { m0 with msg_id := m.msg_id, num_payload_words := m.num_payload_words,
                  arg0 := m.arg0 } := by
  obtain ⟨h1, h2, h3, _⟩ := hm
  unfold ipc_msg_store_header ipc_msg_header_word
  have e1 : (m.msg_id % 65536 + 65536 * (m.num_payload_words % 256)
      + 16777216 * (m.arg0 % 256)) % 65536 = m.msg_id := by omega
  have e2 : (m.msg_id % 65536 + 65536 * (m.num_payload_words % 256)
      + 16777216 * (m.arg0 % 256)) / 65536 % 256 = m.num_payload_words := by omega
  have e3 : (m.msg_id % 65536 + 65536 * (m.num_payload_words % 256)
      + 16777216 * (m.arg0 % 256)) / 16777216 % 256 = m.arg0 := by omega
  rw [e1, e2, e3]

theorem XMbox_ReadBlocking_append (ws rest : List Nat) (n : Nat) (hn : ws.length = n) :
    XMbox_ReadBlocking (ws ++ rest) (4 * n) = some (ws, rest) := by
  unfold XMbox_ReadBlocking
  have h4 : 4 * n / 4 = n := by omega
  rw [h4]
  have hle : n ≤ (ws ++ rest).length := by simp [List.length_append]; omega
  rw [if_pos hle]
  subst hn
  simp

theorem store_words_take (buf words : List Nat) :
    (store_words buf words).take words.length = words := by
  unfold store_words
  simp

/-- C1. Round trip of the mailbox transport: a well-formed message that carries
the delimiter pattern and at most `IPC_BUFFER_MAX_NUM_WORDS` payload words is
written into an empty mailbox with `IPC_MBOX_SUCCESS`, and the read that follows
returns `IPC_MBOX_SUCCESS` with the same `msg_id`, `arg0`, `num_payload_words`
and payload words, and leaves the mailbox empty. -/
theorem ipc_mailbox_round_trip (h : wlan_mac_ipc_util_h) (ic : intc_state)
    (msg m0 : wlan_ipc_msg) (hwf : wlan_ipc_msg_wf msg)
    (hdelim : msg.msg_id &&& h.IPC_MBOX_MSG_ID_DELIM = h.IPC_MBOX_MSG_ID_DELIM)
    (hlen : msg.num_payload_words ≤ h.IPC_BUFFER_MAX_NUM_WORDS) :
    (ipc_mailbox_write_msg h ic [] msg).1 = ipc_mbox_status.IPC_MBOX_SUCCESS ∧
    ∃ m1, ipc_mailbox_read_msg h (ipc_mailbox_write_msg h ic [] msg).2.2 m0
        = some (ipc_mbox_status.IPC_MBOX_SUCCESS, [], m1) ∧
      m1.msg_id = msg.msg_id ∧ m1.arg0 = msg.arg0 ∧
      m1.num_payload_words = msg.num_payload_words ∧
      m1.payload_ptr.take msg.num_payload_words
        = msg.payload_ptr.take msg.num_payload_words := by
  have hw : ipc_mailbox_write_msg h ic [] msg
      = (ipc_mbox_status.IPC_MBOX_SUCCESS,
          (wlan_mac_high_interrupt_restore_state (wlan_mac_high_interrupt_stop ic).2
            (wlan_mac_high_interrupt_stop ic).1).2,
          ipc_msg_header_word msg :: msg.payload_ptr.take msg.num_payload_words) := by
    unfold ipc_mailbox_write_msg
    rw [if_neg (by simpa using hdelim), if_neg (by omega)]
    by_cases h0 : msg.num_payload_words > 0
    · simp [XMbox_WriteBlocking, h0]
    · have hz : msg.num_payload_words = 0 := by omega
      simp [XMbox_WriteBlocking, hz]
  rw [hw]
  refine ⟨rfl, ?_⟩
  have hst := ipc_msg_store_header_word m0 msg hwf
  have hlen2 : (msg.payload_ptr.take msg.num_payload_words).length = msg.num_payload_words := by
    simp [List.length_take]; exact hwf.2.2.2
  by_cases h0 : msg.num_payload_words > 0
  · refine ⟨{ m0 with msg_id := msg.msg_id, num_payload_words := msg.num_payload_words,
                      arg0 := msg.arg0,
                      payload_ptr := store_words m0.payload_ptr
                        (msg.payload_ptr.take msg.num_payload_words) }, ?_, rfl, rfl, rfl, ?_⟩
    · have hrb := XMbox_ReadBlocking_append (msg.payload_ptr.take msg.num_payload_words) []
        msg.num_payload_words hlen2
      simp only [List.append_nil] at hrb
      simp [ipc_mailbox_read_msg, XMbox_IsEmpty, XMbox_Read, XST_SUCCESS, hst, hdelim,
        Nat.not_lt.mpr hlen, h0, hrb]
    · have := store_words_take m0.payload_ptr (msg.payload_ptr.take msg.num_payload_words)
      rw [hlen2] at this
      simpa using this
  · have hz : msg.num_payload_words = 0 := by omega
    refine ⟨{ m0 with msg_id := msg.msg_id, num_payload_words := msg.num_payload_words,
                      arg0 := msg.arg0 }, ?_, rfl, rfl, rfl, ?_⟩
    · simp [ipc_mailbox_read_msg, XMbox_IsEmpty, XMbox_Read, XST_SUCCESS, hst, hdelim, hz]
    · simp [hz]

/-- Witness of C1: the round trip of a message with two payload words. -/
theorem ipc_mailbox_round_trip_witness :
    wlan_ipc_msg_wf ipc_msg_tx_inst ∧
    ipc_msg_tx_inst.msg_id &&& ipc_util_h_inst.IPC_MBOX_MSG_ID_DELIM
      = ipc_util_h_inst.IPC_MBOX_MSG_ID_DELIM ∧
    ipc_msg_tx_inst.num_payload_words ≤ ipc_util_h_inst.IPC_BUFFER_MAX_NUM_WORDS ∧
    ((ipc_mailbox_write_msg ipc_util_h_inst intc_state_inst [] ipc_msg_tx_inst).1
        = ipc_mbox_status.IPC_MBOX_SUCCESS ∧
      ∃ m1, ipc_mailbox_read_msg ipc_util_h_inst
          (ipc_mailbox_write_msg ipc_util_h_inst intc_state_inst [] ipc_msg_tx_inst).2.2
          ipc_msg_rx_inst
          = some (ipc_mbox_status.IPC_MBOX_SUCCESS, [], m1) ∧
        m1.msg_id = ipc_msg_tx_inst.msg_id ∧ m1.arg0 = ipc_msg_tx_inst.arg0 ∧
        m1.num_payload_words = ipc_msg_tx_inst.num_payload_words ∧
        m1.payload_ptr.take ipc_msg_tx_inst.num_payload_words
          = ipc_msg_tx_inst.payload_ptr.take ipc_msg_tx_inst.num_payload_words) :=
  ⟨by decide, by decide, by decide,
    ipc_mailbox_round_trip ipc_util_h_inst intc_state_inst ipc_msg_tx_inst ipc_msg_rx_inst
      (by decide) (by decide) (by decide)⟩

/-- C2, as stated, fails: the mailbox holds a header word without the delimiter
(`0`) followed by a complete valid message (header `0xF001`, no payload).  The
first read returns `IPC_MBOX_INVALID_MSG`; the read that follows does not return
`IPC_MBOX_SUCCESS` (the valid message is gone with the flush). -/
theorem ipc_mailbox_read_bad_delim_loses_next :
    (ipc_mailbox_read_msg ipc_util_h_inst [0, 61441] ipc_msg_rx_inst).map (fun r => r.1)
      = some ipc_mbox_status.IPC_MBOX_INVALID_MSG ∧
    ((ipc_mailbox_read_msg ipc_util_h_inst [0, 61441] ipc_msg_rx_inst).bind
        (fun r => ipc_mailbox_read_msg ipc_util_h_inst r.2.1 r.2.2)).map (fun r => r.1)
      ≠ some ipc_mbox_status.IPC_MBOX_SUCCESS := by
  decide

/-- C2, amended: when the mailbox starts with a header word whose `msg_id` lacks
the delimiter pattern, `ipc_mailbox_read_msg` returns `IPC_MBOX_INVALID_MSG` and
flushes the mailbox: every word queued behind the corrupted header, a complete
valid message included, is discarded, and the read that follows finds the
mailbox empty and returns `IPC_MBOX_INVALID_MSG`. -/
theorem ipc_mailbox_read_bad_delim_flushes (h : wlan_mac_ipc_util_h) (w : Nat) (rest : XMbox)
    (m0 : wlan_ipc_msg)
    (hbad : (w % 65536) &&& h.IPC_MBOX_MSG_ID_DELIM ≠ h.IPC_MBOX_MSG_ID_DELIM) :
    ipc_mailbox_read_msg h (w :: rest) m0
      = some (ipc_mbox_status.IPC_MBOX_INVALID_MSG, [], ipc_msg_store_header m0 w) ∧
    ipc_mailbox_read_msg h [] (ipc_msg_store_header m0 w)
      = some (ipc_mbox_status.IPC_MBOX_INVALID_MSG, [], ipc_msg_store_header m0 w) := by
  constructor
  · have hbad2 : (ipc_msg_store_header m0 w).msg_id &&& h.IPC_MBOX_MSG_ID_DELIM
        ≠ h.IPC_MBOX_MSG_ID_DELIM := hbad
    simp [ipc_mailbox_read_msg, XMbox_IsEmpty, XMbox_Read, XST_SUCCESS, XMbox_Flush, hbad2]
  · simp [ipc_mailbox_read_msg, XMbox_IsEmpty]

/-- Witness of the amended C2: the corrupted header `0` followed by the valid
message `0xF001`. -/
theorem ipc_mailbox_read_bad_delim_flushes_witness :
    (0 % 65536) &&& ipc_util_h_inst.IPC_MBOX_MSG_ID_DELIM
      ≠ ipc_util_h_inst.IPC_MBOX_MSG_ID_DELIM ∧
    (ipc_mailbox_read_msg ipc_util_h_inst (0 :: [61441]) ipc_msg_rx_inst
      = some (ipc_mbox_status.IPC_MBOX_INVALID_MSG, [], ipc_msg_store_header ipc_msg_rx_inst 0) ∧
    ipc_mailbox_read_msg ipc_util_h_inst [] (ipc_msg_store_header ipc_msg_rx_inst 0)
      = some (ipc_mbox_status.IPC_MBOX_INVALID_MSG, [],
          ipc_msg_store_header ipc_msg_rx_inst 0)) :=
  ⟨by decide, ipc_mailbox_read_bad_delim_flushes ipc_util_h_inst 0 [61441] ipc_msg_rx_inst
    (by decide)⟩

/-! ### Packet-buffer locks -/

theorem lock_pkt_buf_eq (h : wlan_mac_ipc_util_h) (role : pkt_buf_role) (cpu : Nat) (m : XMutex)
    (ind : Nat) :
    lock_pkt_buf h role cpu m ind =
      if ind ≥ pkt_buf_count h role then
        (pkt_buf_mutex_status.PKT_BUF_MUTEX_FAIL_INVALID_BUF, m)
      else if (XMutex_Trylock m cpu (pkt_buf_mutex_num h role ind)).1 = XST_SUCCESS then
        (pkt_buf_mutex_status.PKT_BUF_MUTEX_SUCCESS,
          (XMutex_Trylock m cpu (pkt_buf_mutex_num h role ind)).2)
      else (pkt_buf_mutex_status.PKT_BUF_MUTEX_FAIL_ALREADY_LOCKED,
          (XMutex_Trylock m cpu (pkt_buf_mutex_num h role ind)).2) := by
  cases role <;> rfl

theorem unlock_pkt_buf_eq (h : wlan_mac_ipc_util_h) (role : pkt_buf_role) (cpu : Nat) (m : XMutex)
    (ind : Nat) :
    unlock_pkt_buf h role cpu m ind =
      if ind ≥ pkt_buf_count h role then
        (pkt_buf_mutex_status.PKT_BUF_MUTEX_FAIL_INVALID_BUF, m)
      else if (XMutex_Unlock m cpu (pkt_buf_mutex_num h role ind)).1 = XST_SUCCESS then
        (pkt_buf_mutex_status.PKT_BUF_MUTEX_SUCCESS,
          (XMutex_Unlock m cpu (pkt_buf_mutex_num h role ind)).2)
      else (pkt_buf_mutex_status.PKT_BUF_MUTEX_FAIL_NOT_LOCK_OWNER,
          (XMutex_Unlock m cpu (pkt_buf_mutex_num h role ind)).2) := by
  cases role <;> rfl

theorem status_pkt_buf_owner (h : wlan_mac_ipc_util_h) (role : pkt_buf_role) (m : XMutex)
    (ind : Nat) : (status_pkt_buf h role m ind).2.2.2.owner = m.owner := by
  have hg : ∀ n, (XMutex_GetStatus m n).2.2.owner = m.owner := by
    intro n
    unfold XMutex_GetStatus
    cases m.owner n <;> rfl
  cases role <;>
    simp only [status_pkt_buf, status_pkt_buf_tx, status_pkt_buf_rx] <;>
    split <;> first | rfl | exact hg _

theorem XMutex_Trylock_fst (m : XMutex) (cpu n : Nat) :
    (XMutex_Trylock m cpu n).1 = XST_SUCCESS ↔ m.owner n = none := by
  unfold XMutex_Trylock
  cases hn : m.owner n <;> simp [XST_SUCCESS, XST_DEVICE_BUSY]

theorem XMutex_Trylock_owner (m : XMutex) (cpu n k : Nat) :
    (XMutex_Trylock m cpu n).2.owner k
      = if k = n ∧ m.owner n = none then some cpu else m.owner k := by
  unfold XMutex_Trylock
  cases hn : m.owner n <;> simp

theorem XMutex_Unlock_fst (m : XMutex) (cpu n : Nat) :
    (XMutex_Unlock m cpu n).1 = XST_SUCCESS ↔ m.owner n = some cpu := by
  unfold XMutex_Unlock
  by_cases hn : m.owner n = some cpu <;> simp [hn, XST_SUCCESS, XST_FAILURE]

theorem XMutex_Unlock_owner (m : XMutex) (cpu n k : Nat) :
    (XMutex_Unlock m cpu n).2.owner k
      = if k = n ∧ m.owner n = some cpu then none else m.owner k := by
  unfold XMutex_Unlock
  by_cases hn : m.owner n = some cpu <;> simp [hn]

theorem pkt_buf_mutex_num_inj (h : wlan_mac_ipc_util_h) (hd : pkt_buf_namespaces_disjoint h)
    (r1 r2 : pkt_buf_role) (i j : Nat) (hi : i < pkt_buf_count h r1) (hj : j < pkt_buf_count h r2)
    (he : pkt_buf_mutex_num h r1 i = pkt_buf_mutex_num h r2 j) : r1 = r2 ∧ i = j := by
  cases r1 <;> cases r2 <;> simp only [pkt_buf_mutex_num, pkt_buf_count] at *
  · exact ⟨trivial, by omega⟩
  · exact absurd he (hd i j hi hj)
  · exact absurd he.symm (hd j i hj hi)
  · exact ⟨trivial, by omega⟩

/-- One call of the lock layer that is not an unlock of `(role, ind)` by its
owner leaves `(role, ind)` with that owner. -/
theorem pkt_buf_step_keeps_owner (h : wlan_mac_ipc_util_h) (hd : pkt_buf_namespaces_disjoint h)
    (role : pkt_buf_role) (cpu ind : Nat) (hi : ind < pkt_buf_count h role) (m : XMutex)
    (hown : m.owner (pkt_buf_mutex_num h role ind) = some cpu) (c : pkt_buf_call)
    (hc : is_unlock_by role cpu ind c = false) :
    (pkt_buf_step h m c).2.owner (pkt_buf_mutex_num h role ind) = some cpu := by
  cases c with
  | lock r c2 j =>
    simp only [pkt_buf_step, lock_pkt_buf_eq]
    split
    · exact hown
    · split <;> (rw [XMutex_Trylock_owner]; split)
      all_goals first
        | exact hown
        | (rename_i hh; rw [← hh.1] at hh; rw [hown] at hh; exact absurd hh.2 (by simp))
  | unlock r c2 j =>
    simp only [pkt_buf_step, unlock_pkt_buf_eq]
    split
    · exact hown
    · rename_i hj
      have hj2 : j < pkt_buf_count h r := by omega
      have key : ¬ (pkt_buf_mutex_num h role ind = pkt_buf_mutex_num h r j
          ∧ m.owner (pkt_buf_mutex_num h r j) = some c2) := by
        rintro ⟨he, ho⟩
        obtain ⟨hr, hij⟩ := pkt_buf_mutex_num_inj h hd role r ind j hi hj2 he
        subst hr; subst hij
        rw [hown] at ho
        have hcc : cpu = c2 := Option.some.inj ho
        subst hcc
        simp [is_unlock_by] at hc
      split <;> (rw [XMutex_Unlock_owner, if_neg key]; exact hown)
  | status r j =>
    simp only [pkt_buf_step]
    rw [status_pkt_buf_owner]
    exact hown

theorem pkt_buf_run_keeps_owner (h : wlan_mac_ipc_util_h) (hd : pkt_buf_namespaces_disjoint h)
    (role : pkt_buf_role) (cpu ind : Nat) (hi : ind < pkt_buf_count h role)
    (tr : List pkt_buf_call) :
    ∀ m : XMutex, m.owner (pkt_buf_mutex_num h role ind) = some cpu →
      (∀ c ∈ tr, is_unlock_by role cpu ind c = false) →
      (pkt_buf_run h m tr).owner (pkt_buf_mutex_num h role ind) = some cpu := by
  induction tr with
  | nil => intro m hown _; exact hown
  | cons c cs ih =>
    intro m hown hall
    simp only [pkt_buf_run]
    apply ih
    · exact pkt_buf_step_keeps_owner h hd role cpu ind hi m hown c
        (hall c (List.mem_cons_self _ _))
    · intro c2 hc2
      exact hall c2 (List.mem_cons_of_mem _ hc2)

/-- C3. Buffer lock exclusivity: once `lock_pkt_buf_tx(i)` / `lock_pkt_buf_rx(i)`
has returned `PKT_BUF_MUTEX_SUCCESS` for CPU `cpu`, then after any sequence of
calls of the lock layer that contains no unlock of `(role, i)` by that owner,
the buffer is still held by `cpu`, a lock call on `(role, i)` by any caller
returns `PKT_BUF_MUTEX_FAIL_ALREADY_LOCKED`, an unlock by any other caller
returns `PKT_BUF_MUTEX_FAIL_NOT_LOCK_OWNER`, and the owner's unlock returns
`PKT_BUF_MUTEX_SUCCESS`. -/
theorem pkt_buf_lock_exclusive (h : wlan_mac_ipc_util_h) (hd : pkt_buf_namespaces_disjoint h)
    (role : pkt_buf_role) (cpu i : Nat) (m : XMutex) (tr : List pkt_buf_call)
    (hlock : (lock_pkt_buf h role cpu m i).1 = pkt_buf_mutex_status.PKT_BUF_MUTEX_SUCCESS)
    (htr : ∀ c ∈ tr, is_unlock_by role cpu i c = false) :
    (pkt_buf_run h (lock_pkt_buf h role cpu m i).2 tr).owner (pkt_buf_mutex_num h role i)
      = some cpu ∧
    (∀ caller, (lock_pkt_buf h role caller (pkt_buf_run h (lock_pkt_buf h role cpu m i).2 tr) i).1
      = pkt_buf_mutex_status.PKT_BUF_MUTEX_FAIL_ALREADY_LOCKED) ∧
    (∀ caller, caller ≠ cpu →
      (unlock_pkt_buf h role caller (pkt_buf_run h (lock_pkt_buf h role cpu m i).2 tr) i).1
        = pkt_buf_mutex_status.PKT_BUF_MUTEX_FAIL_NOT_LOCK_OWNER) ∧
    (unlock_pkt_buf h role cpu (pkt_buf_run h (lock_pkt_buf h role cpu m i).2 tr) i).1
      = pkt_buf_mutex_status.PKT_BUF_MUTEX_SUCCESS := by
  have hrange : i < pkt_buf_count h role := by
    by_contra hge
    rw [lock_pkt_buf_eq, if_pos (by omega)] at hlock
    cases hlock
  have hfree : m.owner (pkt_buf_mutex_num h role i) = none := by
    rw [lock_pkt_buf_eq, if_neg (by omega)] at hlock
    by_contra hne
    rw [if_neg (by rw [XMutex_Trylock_fst]; exact hne)] at hlock
    cases hlock
  have hown0 : (lock_pkt_buf h role cpu m i).2.owner (pkt_buf_mutex_num h role i) = some cpu := by
    rw [lock_pkt_buf_eq, if_neg (by omega), if_pos ((XMutex_Trylock_fst _ _ _).2 hfree),
      XMutex_Trylock_owner, if_pos ⟨rfl, hfree⟩]
  have hown := pkt_buf_run_keeps_owner h hd role cpu i hrange tr _ hown0 htr
  refine ⟨hown, ?_, ?_, ?_⟩
  · intro caller
    rw [lock_pkt_buf_eq, if_neg (by omega),
      if_neg (by rw [XMutex_Trylock_fst, hown]; simp)]
  · intro caller hne
    rw [unlock_pkt_buf_eq, if_neg (by omega),
      if_neg (by rw [XMutex_Unlock_fst, hown]; simpa using fun e => hne e.symm)]
  · rw [unlock_pkt_buf_eq, if_neg (by omega), if_pos (by rw [XMutex_Unlock_fst, hown])]

theorem pkt_buf_namespaces_disjoint_inst : pkt_buf_namespaces_disjoint ipc_util_h_inst := by
  intro i j hi hj
  simp only [ipc_util_h_inst] at *
  omega

/-- Witness of C3: transmit buffer 3 locked by CPU 0 on a free mutex core, then
calls by CPU 1 and on other buffers. -/
theorem pkt_buf_lock_exclusive_witness :
    pkt_buf_namespaces_disjoint ipc_util_h_inst ∧
    (lock_pkt_buf ipc_util_h_inst pkt_buf_role.tx 0 XMutex_free 3).1
      = pkt_buf_mutex_status.PKT_BUF_MUTEX_SUCCESS ∧
    (∀ c ∈ pkt_buf_calls_inst, is_unlock_by pkt_buf_role.tx 0 3 c = false) ∧
    ((pkt_buf_run ipc_util_h_inst
        (lock_pkt_buf ipc_util_h_inst pkt_buf_role.tx 0 XMutex_free 3).2
        pkt_buf_calls_inst).owner (pkt_buf_mutex_num ipc_util_h_inst pkt_buf_role.tx 3)
      = some 0 ∧
    (∀ caller, (lock_pkt_buf ipc_util_h_inst pkt_buf_role.tx caller
        (pkt_buf_run ipc_util_h_inst
          (lock_pkt_buf ipc_util_h_inst pkt_buf_role.tx 0 XMutex_free 3).2
          pkt_buf_calls_inst) 3).1
      = pkt_buf_mutex_status.PKT_BUF_MUTEX_FAIL_ALREADY_LOCKED) ∧
    (∀ caller, caller ≠ 0 →
      (unlock_pkt_buf ipc_util_h_inst pkt_buf_role.tx caller
        (pkt_buf_run ipc_util_h_inst
          (lock_pkt_buf ipc_util_h_inst pkt_buf_role.tx 0 XMutex_free 3).2
          pkt_buf_calls_inst) 3).1
        = pkt_buf_mutex_status.PKT_BUF_MUTEX_FAIL_NOT_LOCK_OWNER) ∧
    (unlock_pkt_buf ipc_util_h_inst pkt_buf_role.tx 0
        (pkt_buf_run ipc_util_h_inst
          (lock_pkt_buf ipc_util_h_inst pkt_buf_role.tx 0 XMutex_free 3).2
          pkt_buf_calls_inst) 3).1
      = pkt_buf_mutex_status.PKT_BUF_MUTEX_SUCCESS) :=
  ⟨pkt_buf_namespaces_disjoint_inst, by decide, by decide,
    pkt_buf_lock_exclusive ipc_util_h_inst pkt_buf_namespaces_disjoint_inst pkt_buf_role.tx 0 3
      XMutex_free pkt_buf_calls_inst (by decide) (by decide)⟩

/-! ### Transmit-buffer allocator -/

/-- C4. Transition table of the transmit allocator: when the underlying
`lock_pkt_buf_tx` succeeds, `wlan_mac_high_lock_new_tx_packet_buffer` returns
slot 0 with new mask 1 from mask 0, slot 1 with new mask 3 from mask 1, slot 0
with new mask 3 from mask 2; from mask 3 it returns -1 with the mask and the
mutex core unchanged (no call reaches the core).  With at least two transmit
buffers and a free mutex core, the sequence allocate, allocate, allocate,
release(0), allocate from mask 0 returns 0, 1, -1, 0 (mask 2 after the
release), 0, and the final mask is 3. -/
theorem tx_alloc_transition_table (h : wlan_mac_ipc_util_h) (cpu : Nat) (m : XMutex) :
    ((lock_pkt_buf_tx h cpu m 0).1 = pkt_buf_mutex_status.PKT_BUF_MUTEX_SUCCESS →
      wlan_mac_high_lock_new_tx_packet_buffer h cpu 0 m = (0, 1, (lock_pkt_buf_tx h cpu m 0).2)) ∧
    ((lock_pkt_buf_tx h cpu m 1).1 = pkt_buf_mutex_status.PKT_BUF_MUTEX_SUCCESS →
      wlan_mac_high_lock_new_tx_packet_buffer h cpu 1 m = (1, 3, (lock_pkt_buf_tx h cpu m 1).2)) ∧
    ((lock_pkt_buf_tx h cpu m 0).1 = pkt_buf_mutex_status.PKT_BUF_MUTEX_SUCCESS →
      wlan_mac_high_lock_new_tx_packet_buffer h cpu 2 m = (0, 3, (lock_pkt_buf_tx h cpu m 0).2)) ∧
    wlan_mac_high_lock_new_tx_packet_buffer h cpu 3 m = (-1, 3, m) ∧
    (2 ≤ h.NUM_TX_PKT_BUFS →
      (tx_alloc_run h cpu (0, XMutex_free)
          [tx_alloc_call.allocate, tx_alloc_call.allocate, tx_alloc_call.allocate,
           tx_alloc_call.release 0]).1 = [0, 1, -1, 0] ∧
      (tx_alloc_run h cpu (0, XMutex_free)
          [tx_alloc_call.allocate, tx_alloc_call.allocate, tx_alloc_call.allocate,
           tx_alloc_call.release 0]).2.1 = 2 ∧
      (tx_alloc_run h cpu (0, XMutex_free)
          [tx_alloc_call.allocate, tx_alloc_call.allocate, tx_alloc_call.allocate,
           tx_alloc_call.release 0, tx_alloc_call.allocate]).1 = [0, 1, -1, 0, 0] ∧
      (tx_alloc_run h cpu (0, XMutex_free)
          [tx_alloc_call.allocate, tx_alloc_call.allocate, tx_alloc_call.allocate,
           tx_alloc_call.release 0, tx_alloc_call.allocate]).2.1 = 3) := by
  refine ⟨?_, ?_, ?_, ?_, ?_⟩
  · intro hl
    simp [wlan_mac_high_lock_new_tx_packet_buffer, hl]
  · intro hl
    simp [wlan_mac_high_lock_new_tx_packet_buffer, hl]
  · intro hl
    simp [wlan_mac_high_lock_new_tx_packet_buffer, hl]
  · simp [wlan_mac_high_lock_new_tx_packet_buffer]
  · intro h2
    have h0 : ¬ (h.NUM_TX_PKT_BUFS ≤ 0) := by omega
    have h1 : ¬ (h.NUM_TX_PKT_BUFS ≤ 1) := by omega
    simp [tx_alloc_run, tx_alloc_step, wlan_mac_high_lock_new_tx_packet_buffer,
      wlan_mac_high_release_tx_packet_buffer, lock_pkt_buf_tx, unlock_pkt_buf_tx,
      XMutex_Trylock, XMutex_Unlock, XMutex_free, XST_SUCCESS, XST_DEVICE_BUSY, XST_FAILURE,
      h0, h1]
    decide

/-- Witness of C4: CPU 0 on a free mutex core with 16 transmit buffers. -/
theorem tx_alloc_transition_table_witness :
    (lock_pkt_buf_tx ipc_util_h_inst 0 XMutex_free 0).1
      = pkt_buf_mutex_status.PKT_BUF_MUTEX_SUCCESS ∧
    (lock_pkt_buf_tx ipc_util_h_inst 0 XMutex_free 1).1
      = pkt_buf_mutex_status.PKT_BUF_MUTEX_SUCCESS ∧
    2 ≤ ipc_util_h_inst.NUM_TX_PKT_BUFS ∧
    wlan_mac_high_lock_new_tx_packet_buffer ipc_util_h_inst 0 0 XMutex_free
      = (0, 1, (lock_pkt_buf_tx ipc_util_h_inst 0 XMutex_free 0).2) ∧
    wlan_mac_high_lock_new_tx_packet_buffer ipc_util_h_inst 0 1 XMutex_free
      = (1, 3, (lock_pkt_buf_tx ipc_util_h_inst 0 XMutex_free 1).2) ∧
    wlan_mac_high_lock_new_tx_packet_buffer ipc_util_h_inst 0 2 XMutex_free
      = (0, 3, (lock_pkt_buf_tx ipc_util_h_inst 0 XMutex_free 0).2) ∧
    (tx_alloc_run ipc_util_h_inst 0 (0, XMutex_free)
        [tx_alloc_call.allocate, tx_alloc_call.allocate, tx_alloc_call.allocate,
         tx_alloc_call.release 0, tx_alloc_call.allocate]).1 = [0, 1, -1, 0, 0] :=
  ⟨by decide, by decide, by decide,
    (tx_alloc_transition_table ipc_util_h_inst 0 XMutex_free).1 (by decide),
    (tx_alloc_transition_table ipc_util_h_inst 0 XMutex_free).2.1 (by decide),
    (tx_alloc_transition_table ipc_util_h_inst 0 XMutex_free).2.2.1 (by decide),
    ((tx_alloc_transition_table ipc_util_h_inst 0 XMutex_free).2.2.2.2 (by decide)).2.2.1⟩

theorem tx_alloc_mask (h : wlan_mac_ipc_util_h) (cpu busy : Nat) (m : XMutex) :
    (wlan_mac_high_lock_new_tx_packet_buffer h cpu busy m).2.1
      = if busy = 0 then 1 else if busy = 1 then 3 else if busy = 2 then 3 else busy := by
  match busy with
  | 0 =>
    simp only [wlan_mac_high_lock_new_tx_packet_buffer]
    generalize lock_pkt_buf_tx h cpu m _ = r
    obtain ⟨st, m1⟩ := r
    by_cases hst : st = pkt_buf_mutex_status.PKT_BUF_MUTEX_SUCCESS <;> simp [hst]
  | 1 =>
    simp only [wlan_mac_high_lock_new_tx_packet_buffer]
    generalize lock_pkt_buf_tx h cpu m _ = r
    obtain ⟨st, m1⟩ := r
    by_cases hst : st = pkt_buf_mutex_status.PKT_BUF_MUTEX_SUCCESS <;> simp [hst]
  | 2 =>
    simp only [wlan_mac_high_lock_new_tx_packet_buffer]
    generalize lock_pkt_buf_tx h cpu m _ = r
    obtain ⟨st, m1⟩ := r
    by_cases hst : st = pkt_buf_mutex_status.PKT_BUF_MUTEX_SUCCESS <;> simp [hst]
  | 3 => simp [wlan_mac_high_lock_new_tx_packet_buffer]
  | n + 4 => simp [wlan_mac_high_lock_new_tx_packet_buffer]

theorem tx_alloc_ret (h : wlan_mac_ipc_util_h) (cpu busy : Nat) (m : XMutex) :
    (wlan_mac_high_lock_new_tx_packet_buffer h cpu busy m).1 = -1 ∨
    (wlan_mac_high_lock_new_tx_packet_buffer h cpu busy m).1 = tx_pkt_buf_sel busy := by
  match busy with
  | 0 =>
    simp only [wlan_mac_high_lock_new_tx_packet_buffer, tx_pkt_buf_sel]
    generalize lock_pkt_buf_tx h cpu m _ = r
    obtain ⟨st, m1⟩ := r
    by_cases hst : st = pkt_buf_mutex_status.PKT_BUF_MUTEX_SUCCESS <;> simp [hst]
  | 1 =>
    simp only [wlan_mac_high_lock_new_tx_packet_buffer, tx_pkt_buf_sel]
    generalize lock_pkt_buf_tx h cpu m _ = r
    obtain ⟨st, m1⟩ := r
    by_cases hst : st = pkt_buf_mutex_status.PKT_BUF_MUTEX_SUCCESS <;> simp [hst]
  | 2 =>
    simp only [wlan_mac_high_lock_new_tx_packet_buffer, tx_pkt_buf_sel]
    generalize lock_pkt_buf_tx h cpu m _ = r
    obtain ⟨st, m1⟩ := r
    by_cases hst : st = pkt_buf_mutex_status.PKT_BUF_MUTEX_SUCCESS <;> simp [hst]
  | 3 => simp [wlan_mac_high_lock_new_tx_packet_buffer]
  | n + 4 => simp [wlan_mac_high_lock_new_tx_packet_buffer]

theorem tx_release_mask (h : wlan_mac_ipc_util_h) (cpu busy : Nat) (m : XMutex) (i : Int) :
    (wlan_mac_high_release_tx_packet_buffer h cpu busy m i).2.1
      = if i = 0 then busy &&& 254 else if i = 1 then busy &&& 253 else busy := by
  unfold wlan_mac_high_release_tx_packet_buffer
  by_cases h0 : i = 0
  · subst h0
    simp only [if_true]
    generalize unlock_pkt_buf_tx h cpu m _ = r
    obtain ⟨st, m1⟩ := r
    by_cases hst : st = pkt_buf_mutex_status.PKT_BUF_MUTEX_SUCCESS <;> simp [hst]
  · by_cases h1 : i = 1
    · subst h1
      simp only [if_neg h0, if_true]
      generalize unlock_pkt_buf_tx h cpu m _ = r
      obtain ⟨st, m1⟩ := r
      by_cases hst : st = pkt_buf_mutex_status.PKT_BUF_MUTEX_SUCCESS <;> simp [hst]
    · simp [h0, h1]

theorem tx_alloc_step_keeps_busy (h : wlan_mac_ipc_util_h) (cpu slot : Nat) (hslot : slot < 2)
    (mask : Nat) (m : XMutex) (hm : mask < 4) (hbit : mask.testBit slot = true)
    (c : tx_alloc_call) (hc : c ≠ tx_alloc_call.release (slot : Int)) :
    (tx_alloc_step h cpu (mask, m) c).2.1 < 4 ∧
    (tx_alloc_step h cpu (mask, m) c).2.1.testBit slot = true := by
  cases c with
  | allocate =>
    simp only [tx_alloc_step]
    rw [tx_alloc_mask]
    revert hbit
    interval_cases mask <;> interval_cases slot <;> decide
  | release i =>
    simp only [tx_alloc_step]
    rw [tx_release_mask]
    by_cases h0 : i = 0
    · subst h0
      have hs0 : slot ≠ 0 := by
        intro he; subst he; exact hc rfl
      have hs1 : slot = 1 := by omega
      subst hs1
      simp only [if_true]
      revert hbit
      interval_cases mask <;> decide
    · by_cases h1 : i = 1
      · subst h1
        have hs1 : slot ≠ 1 := by
          intro he; subst he; exact hc rfl
        have hs0 : slot = 0 := by omega
        subst hs0
        simp only [if_neg h0, if_true]
        revert hbit
        interval_cases mask <;> decide
      · simp only [if_neg h0, if_neg h1]
        exact ⟨hm, hbit⟩

theorem tx_alloc_run_keeps_busy (h : wlan_mac_ipc_util_h) (cpu slot : Nat) (hslot : slot < 2)
    (tr : List tx_alloc_call) :
    ∀ (mask : Nat) (m : XMutex), mask < 4 → mask.testBit slot = true →
      (∀ c ∈ tr, c ≠ tx_alloc_call.release (slot : Int)) →
      (tx_alloc_run h cpu (mask, m) tr).2.1 < 4 ∧
      (tx_alloc_run h cpu (mask, m) tr).2.1.testBit slot = true := by
  induction tr with
  | nil => intro mask m hm hbit _; exact ⟨hm, hbit⟩
  | cons c cs ih =>
    intro mask m hm hbit hall
    have hstep := tx_alloc_step_keeps_busy h cpu slot hslot mask m hm hbit c
      (hall c (List.mem_cons_self _ _))
    simp only [tx_alloc_run]
    exact ih _ _ hstep.1 hstep.2 (fun c2 hc2 => hall c2 (List.mem_cons_of_mem _ hc2))

theorem tx_pkt_buf_sel_busy (slot mask : Nat) (hslot : slot < 2) (hm : mask < 4)
    (hbit : mask.testBit slot = true) : tx_pkt_buf_sel mask ≠ (slot : Int) := by
  revert hbit
  interval_cases mask <;> interval_cases slot <;> decide

/-- C5. Allocator state/lock ordering: for every busy mask other than 3 (0, 1,
2), if `lock_pkt_buf_tx` of the selected slot fails,
`wlan_mac_high_lock_new_tx_packet_buffer` returns -1, the selected slot's bit
is set in the busy mask although the failed attempt has locked nothing, and
after any later sequence of allocator calls without a release of that slot the
bit is still set and an allocate does not select or return that slot. -/
theorem tx_alloc_lock_failure_leaves_busy (h : wlan_mac_ipc_util_h) (cpu busy : Nat) (m : XMutex)
    (tr : List tx_alloc_call) (hbusy : busy < 3)
    (hfail : (lock_pkt_buf_tx h cpu m ((tx_pkt_buf_sel busy).toNat % 256)).1
      ≠ pkt_buf_mutex_status.PKT_BUF_MUTEX_SUCCESS)
    (htr : ∀ c ∈ tr, c ≠ tx_alloc_call.release (tx_pkt_buf_sel busy)) :
    (wlan_mac_high_lock_new_tx_packet_buffer h cpu busy m).1 = -1 ∧
    (wlan_mac_high_lock_new_tx_packet_buffer h cpu busy m).2.1.testBit
      (tx_pkt_buf_sel busy).toNat = true ∧
    (wlan_mac_high_lock_new_tx_packet_buffer h cpu busy m).2.2.owner = m.owner ∧
    (tx_alloc_run h cpu (wlan_mac_high_lock_new_tx_packet_buffer h cpu busy m).2 tr).2.1.testBit
      (tx_pkt_buf_sel busy).toNat = true ∧
    tx_pkt_buf_sel (tx_alloc_run h cpu
      (wlan_mac_high_lock_new_tx_packet_buffer h cpu busy m).2 tr).2.1 ≠ tx_pkt_buf_sel busy ∧
    (wlan_mac_high_lock_new_tx_packet_buffer h cpu
      (tx_alloc_run h cpu (wlan_mac_high_lock_new_tx_packet_buffer h cpu busy m).2 tr).2.1
      (tx_alloc_run h cpu (wlan_mac_high_lock_new_tx_packet_buffer h cpu busy m).2 tr).2.2).1
      ≠ tx_pkt_buf_sel busy := by
  have hsel : ∃ slot : Nat, slot < 2 ∧ tx_pkt_buf_sel busy = (slot : Int) := by
    interval_cases busy
    · exact ⟨0, by omega, rfl⟩
    · exact ⟨1, by omega, rfl⟩
    · exact ⟨0, by omega, rfl⟩
  obtain ⟨slot, hslot, hs⟩ := hsel
  have hret : (wlan_mac_high_lock_new_tx_packet_buffer h cpu busy m).1 = -1 := by
    interval_cases busy <;>
      (simp only [wlan_mac_high_lock_new_tx_packet_buffer, tx_pkt_buf_sel] at hfail ⊢
       revert hfail
       generalize lock_pkt_buf_tx h cpu m _ = r
       obtain ⟨st, m1⟩ := r
       intro hfail
       simp at hfail
       simp [hfail])
  have hown : (wlan_mac_high_lock_new_tx_packet_buffer h cpu busy m).2.2.owner = m.owner := by
    have hl : ∀ i, (lock_pkt_buf_tx h cpu m i).1 ≠ pkt_buf_mutex_status.PKT_BUF_MUTEX_SUCCESS →
        (lock_pkt_buf_tx h cpu m i).2.owner = m.owner := by
      intro i hi
      have := lock_pkt_buf_eq h pkt_buf_role.tx cpu m i
      simp only [lock_pkt_buf] at this
      rw [this] at hi ⊢
      split
      · rfl
      · rename_i hr
        rw [if_neg hr] at hi
        split
        · rename_i hs2
          rw [if_pos hs2] at hi
          exact absurd rfl hi
        · rename_i hs2
          funext k
          rw [XMutex_Trylock_owner]
          rw [XMutex_Trylock_fst] at hs2
          simp [hs2]
    interval_cases busy <;>
      (simp only [wlan_mac_high_lock_new_tx_packet_buffer, tx_pkt_buf_sel] at hfail ⊢
       have hl2 := hl _ hfail
       revert hfail hl2
       generalize lock_pkt_buf_tx h cpu m _ = r
       obtain ⟨st, m1⟩ := r
       intro hfail hl2
       simp at hfail hl2
       simp [hfail, hl2])
  have hmask : (wlan_mac_high_lock_new_tx_packet_buffer h cpu busy m).2.1 < 4 ∧
      (wlan_mac_high_lock_new_tx_packet_buffer h cpu busy m).2.1.testBit slot = true := by
    rw [tx_alloc_mask]
    interval_cases busy <;> simp only [tx_pkt_buf_sel] at hs
    · have : slot = 0 := by omega
      subst this; decide
    · have : slot = 1 := by omega
      subst this; decide
    · have : slot = 0 := by omega
      subst this; decide
  rw [hs] at htr
  have hrun := tx_alloc_run_keeps_busy h cpu slot hslot tr
    (wlan_mac_high_lock_new_tx_packet_buffer h cpu busy m).2.1
    (wlan_mac_high_lock_new_tx_packet_buffer h cpu busy m).2.2 hmask.1 hmask.2 htr
  have hselfin := tx_pkt_buf_sel_busy slot _ hslot hrun.1 hrun.2
  rw [hs]
  simp only [Int.toNat_ofNat]
  refine ⟨hret, hmask.2, hown, hrun.2, hselfin, ?_⟩
  rcases tx_alloc_ret h cpu
    (tx_alloc_run h cpu (wlan_mac_high_lock_new_tx_packet_buffer h cpu busy m).2 tr).2.1
    (tx_alloc_run h cpu (wlan_mac_high_lock_new_tx_packet_buffer h cpu busy m).2 tr).2.2
    with hr | hr
  · rw [hr]; omega
  · rw [hr]; exact hselfin

/-- Witness of C5: mask 0, transmit buffer 0 held by the other CPU. -/
theorem tx_alloc_lock_failure_leaves_busy_witness :
    (0 : Nat) < 3 ∧
    (lock_pkt_buf_tx ipc_util_h_inst 0 XMutex_tx0_held_inst ((tx_pkt_buf_sel 0).toNat % 256)).1
      ≠ pkt_buf_mutex_status.PKT_BUF_MUTEX_SUCCESS ∧
    (∀ c ∈ tx_alloc_calls_inst, c ≠ tx_alloc_call.release (tx_pkt_buf_sel 0)) ∧
    (wlan_mac_high_lock_new_tx_packet_buffer ipc_util_h_inst 0 0 XMutex_tx0_held_inst).1 = -1 ∧
    (wlan_mac_high_lock_new_tx_packet_buffer ipc_util_h_inst 0 0
      XMutex_tx0_held_inst).2.1.testBit (tx_pkt_buf_sel 0).toNat = true ∧
    (wlan_mac_high_lock_new_tx_packet_buffer ipc_util_h_inst 0
      (tx_alloc_run ipc_util_h_inst 0
        (wlan_mac_high_lock_new_tx_packet_buffer ipc_util_h_inst 0 0 XMutex_tx0_held_inst).2
        tx_alloc_calls_inst).2.1
      (tx_alloc_run ipc_util_h_inst 0
        (wlan_mac_high_lock_new_tx_packet_buffer ipc_util_h_inst 0 0 XMutex_tx0_held_inst).2
        tx_alloc_calls_inst).2.2).1 ≠ tx_pkt_buf_sel 0 :=
  ⟨by decide, by decide, by decide,
    (tx_alloc_lock_failure_leaves_busy ipc_util_h_inst 0 0 XMutex_tx0_held_inst
      tx_alloc_calls_inst (by decide) (by decide) (by decide)).1,
    (tx_alloc_lock_failure_leaves_busy ipc_util_h_inst 0 0 XMutex_tx0_held_inst
      tx_alloc_calls_inst (by decide) (by decide) (by decide)).2.1,
    (tx_alloc_lock_failure_leaves_busy ipc_util_h_inst 0 0 XMutex_tx0_held_inst
      tx_alloc_calls_inst (by decide) (by decide) (by decide)).2.2.2.2.2⟩

/-! ### Association table -/

theorem dl_find_none {α : Type} (p : dl_entry α → Bool) (l : dl_list α) :
    dl_find p l = none ↔ ∀ e ∈ l, p e = false := by
  induction l with
  | nil => simp [dl_find]
  | cons c rest ih =>
    unfold dl_find
    by_cases hc : p c = true
    · simp [hc]
    · have hc2 : p c = false := by simpa using hc
      simp only [hc2, Bool.false_eq_true, if_false, List.mem_cons, forall_eq_or_imp, true_and]
      rw [← ih]
      cases dl_find p rest with
      | none => simp
      | some r => simp

theorem dl_find_some {α : Type} (p : dl_entry α → Bool) (l : dl_list α) (i : Nat)
    (e : dl_entry α) (hf : dl_find p l = some (i, e)) :
    e ∈ l ∧ p e = true ∧ l[i]? = some e := by
  induction l generalizing i with
  | nil => simp [dl_find] at hf
  | cons c rest ih =>
    unfold dl_find at hf
    by_cases hc : p c = true
    · rw [if_pos hc] at hf
      injection hf with hf
      injection hf with hi he
      subst hi; subst he
      simp [hc]
    · rw [if_neg hc] at hf
      cases hr : dl_find p rest with
      | none => rw [hr] at hf; simp at hf
      | some r =>
        obtain ⟨j, e2⟩ := r
        rw [hr] at hf
        injection hf with hf
        injection hf with hi he
        subst hi; subst he
        obtain ⟨h1, h2, h3⟩ := ih j hr
        exact ⟨List.mem_cons_of_mem _ h1, h2, by simpa using h3⟩

theorem dl_find_append {α : Type} (p : dl_entry α → Bool) (l1 : dl_list α) (e : dl_entry α)
    (l2 : dl_list α) (h1 : ∀ x ∈ l1, p x = false) (he : p e = true) :
    dl_find p (l1 ++ e :: l2) = some (l1.length, e) := by
  induction l1 with
  | nil => simp [dl_find, he]
  | cons c rest ih =>
    have hc : p c = false := h1 c (List.mem_cons_self _ _)
    have ih2 := ih (fun x hx => h1 x (List.mem_cons_of_mem _ hx))
    rw [List.cons_append, dl_find, ih2]
    simp [hc]

theorem eraseIdx_append_length {α : Type} (l1 : List α) (e : α) (l2 : List α) :
    (l1 ++ e :: l2).eraseIdx l1.length = l1 ++ l2 := by
  induction l1 with
  | nil => rfl
  | cons c rest ih => simp [List.eraseIdx, ih]

theorem add_association_any_loop_nogap (p : Nat) (st : station_info) :
    ∀ (l : dl_list station_info) (curr : Nat),
      assoc_AIDs l = List.range' (curr + 1) l.length →
      add_association_any_loop p st l curr = (st, l) := by
  intro l
  induction l with
  | nil => intro curr _; rfl
  | cons c rest ih =>
    intro curr hA
    simp only [assoc_AIDs, List.map_cons, List.length_cons, List.range'_succ,
      List.cons.injEq] at hA
    obtain ⟨hc, hrest⟩ := hA
    have hng : ¬ (((c.obj.AID : Int) - (curr : Int)) > 1) := by omega
    have ih2 := ih c.obj.AID (by rw [hc]; exact hrest)
    rw [add_association_any_loop, if_neg hng, ih2]

theorem add_association_any_loop_gap (p : Nat) (st : station_info) (c : dl_entry station_info)
    (rest : dl_list station_info) :
    ∀ (l1 : dl_list station_info) (curr : Nat),
      assoc_AIDs l1 = List.range' (curr + 1) l1.length →
      c.obj.AID > curr + l1.length + 1 →
      add_association_any_loop p st (l1 ++ c :: rest) curr
        = ({ st with AID := (c.obj.AID - 1) % 65536 },
            l1 ++ { data := p, obj := { st with AID := (c.obj.AID - 1) % 65536 } } :: c :: rest) := by
  intro l1
  induction l1 with
  | nil =>
    intro curr _ hgap
    have hg : ((c.obj.AID : Int) - (curr : Int)) > 1 := by
      simp only [List.length_nil] at hgap; omega
    simp only [List.nil_append, add_association_any_loop, if_pos hg]
  | cons d l1 ih =>
    intro curr hA hgap
    simp only [assoc_AIDs, List.map_cons, List.length_cons, List.range'_succ,
      List.cons.injEq] at hA
    obtain ⟨hd, hrest⟩ := hA
    have hng : ¬ (((d.obj.AID : Int) - (curr : Int)) > 1) := by omega
    have ih2 := ih d.obj.AID (by rw [hd]; exact hrest)
      (by rw [hd]; simp only [List.length_cons] at hgap; omega)
    rw [List.cons_append, add_association_any_loop, if_neg hng, ih2]
    rfl

theorem assoc_AIDs_getLast (l : dl_list station_info) (last : dl_entry station_info)
    (hA : assoc_AIDs l = List.range' 1 l.length) (hl : l.getLast? = some last) :
    last.obj.AID = l.length := by
  obtain ⟨ys, hys⟩ := List.getLast?_eq_some_iff.mp hl
  subst hys
  simp only [assoc_AIDs, List.map_append, List.map_cons, List.map_nil, List.length_append,
    List.length_cons, List.length_nil, List.range'_1_concat] at hA
  have := (List.append_inj' hA rfl).2
  simp only [List.cons.injEq, and_true] at this
  simp only [List.length_append, List.length_cons, List.length_nil]
  omega

theorem add_association_place_any_consecutive (h : wlan_mac_high_h)
    (l1 l2 : dl_list station_info) (p : Nat) (st : station_info) (hst : st.AID = 0)
    (h1 : assoc_AIDs l1 = List.range' 1 l1.length)
    (h2 : assoc_AIDs l2 = List.range' (l1.length + 2) l2.length)
    (hn : l1.length + 1 < 65536) :
    add_association_place h (l1 ++ l2) p st h.ADD_ASSOCIATION_ANY_AID
      = l1 ++ { data := p, obj := { st with AID := l1.length + 1 } } :: l2 := by
  unfold add_association_place
  rw [if_pos rfl]
  cases l2 with
  | nil =>
    have hloop := add_association_any_loop_nogap p st l1 0 (by simpa using h1)
    simp only [List.append_nil, hloop, hst, if_true, dl_entry_insertEnd]
    by_cases hz : l1.length = 0
    · have : l1 = [] := List.length_eq_zero.mp hz
      subst this
      simp
    · rw [if_neg hz]
      cases hl : l1.getLast? with
      | none =>
        rw [List.getLast?_eq_none_iff] at hl
        subst hl
        simp at hz
      | some last =>
        have hA := assoc_AIDs_getLast l1 last h1 hl
        simp only [hA]
        rw [Nat.mod_eq_of_lt hn]
  | cons c rest =>
    simp only [assoc_AIDs, List.map_cons, List.length_cons, List.range'_succ,
      List.cons.injEq] at h2
    obtain ⟨hc, _⟩ := h2
    have hloop := add_association_any_loop_gap p st c rest l1 0 (by simpa using h1) (by omega)
    have hA : (c.obj.AID - 1) % 65536 = l1.length + 1 := by
      rw [hc]
      have : l1.length + 2 - 1 = l1.length + 1 := by omega
      rw [this]
      exact Nat.mod_eq_of_lt hn
    rw [hA] at hloop
    simp only [hloop]
    rw [if_neg (by simp)]

/-- What the repeated `dl_entry_insertBefore` calls leave behind the station:
without a larger AID among the entries still to visit, what followed the
station before; otherwise the part of the list from the last entry with a
larger AID on. -/
theorem add_association_requested_relink_spec (requested_AID : Nat) :
    ∀ (rest succ : dl_list station_info),
      ((∀ x ∈ rest, ¬ x.obj.AID > requested_AID) ∧
        add_association_requested_relink requested_AID succ rest = succ) ∨
      (∃ (m : dl_list station_info) (c : dl_entry station_info) (l : dl_list station_info),
        rest = m ++ c :: l ∧ c.obj.AID > requested_AID ∧
        (∀ x ∈ l, ¬ x.obj.AID > requested_AID) ∧
        add_association_requested_relink requested_AID succ rest = c :: l) := by
  intro rest
  induction rest with
  | nil =>
    intro succ
    left
    exact ⟨fun x hx => absurd hx (List.not_mem_nil x), rfl⟩
  | cons c rest ih =>
    intro succ
    by_cases hg : c.obj.AID > requested_AID
    · right
      rw [add_association_requested_relink, if_pos hg]
      rcases ih (c :: rest) with ⟨hall, heq⟩ | ⟨m, d, l, hrest, hd, hl, heq⟩
      · exact ⟨[], c, rest, rfl, hg, hall, heq⟩
      · exact ⟨c :: m, d, l, by rw [hrest]; rfl, hd, hl, heq⟩
    · rw [add_association_requested_relink, if_neg hg]
      rcases ih succ with ⟨hall, heq⟩ | ⟨m, d, l, hrest, hd, hl, heq⟩
      · left
        refine ⟨?_, heq⟩
        intro x hx
        rcases List.mem_cons.mp hx with hx | hx
        · subst hx; exact hg
        · exact hall x hx
      · right
        exact ⟨c :: m, d, l, by rw [hrest]; rfl, hd, hl, heq⟩

theorem add_association_requested_relink_none (requested_AID : Nat)
    (rest succ : dl_list station_info) (hall : ∀ x ∈ rest, ¬ x.obj.AID > requested_AID) :
    add_association_requested_relink requested_AID succ rest = succ := by
  rcases add_association_requested_relink_spec requested_AID rest succ with
    ⟨_, heq⟩ | ⟨m, c, l, hrest, hc, _, _⟩
  · exact heq
  · exact absurd hc (hall c (by rw [hrest]; exact List.mem_append_right _ (List.mem_cons_self _ _)))

/-- The shape of the table after the loop for a requested AID: without an entry
of larger AID nothing has changed; otherwise the station has its AID and
stands behind the entries in front of the first entry with a larger AID, and
the last entry with a larger AID follows it.  The entries from the first to
the one before the last entry with a larger AID (`m`) are no longer in the
walk. -/
theorem add_association_requested_loop_walk (p requested_AID : Nat) :
    ∀ (l : dl_list station_info) (st : station_info),
      ((∀ x ∈ l, ¬ x.obj.AID > requested_AID) ∧
        add_association_requested_loop p requested_AID st l = (st, l)) ∨
      (∃ (l1 m : dl_list station_info) (c : dl_entry station_info) (l2 : dl_list station_info),
        l = l1 ++ m ++ c :: l2 ∧ (∀ x ∈ l1, ¬ x.obj.AID > requested_AID) ∧
        (∀ x, m.head? = some x → x.obj.AID > requested_AID) ∧
        c.obj.AID > requested_AID ∧ (∀ x ∈ l2, ¬ x.obj.AID > requested_AID) ∧
        add_association_requested_loop p requested_AID st l
          = ({ st with AID := requested_AID },
              l1 ++ { data := p, obj := { st with AID := requested_AID } } :: c :: l2)) := by
  intro l
  induction l with
  | nil =>
    intro st
    left
    exact ⟨fun x hx => absurd hx (List.not_mem_nil x), rfl⟩
  | cons c rest ih =>
    intro st
    by_cases hg : c.obj.AID > requested_AID
    · right
      rw [add_association_requested_loop, if_pos hg]
      rcases add_association_requested_relink_spec requested_AID rest (c :: rest) with
        ⟨hall, heq⟩ | ⟨m, d, l2, hrest, hd, hl2, heq⟩
      · refine ⟨[], [], c, rest, rfl, fun x hx => absurd hx (List.not_mem_nil x), ?_, hg, hall, ?_⟩
        · intro x hx; cases hx
        · simp only [heq, List.nil_append]
      · refine ⟨[], c :: m, d, l2, by rw [hrest]; rfl,
          fun x hx => absurd hx (List.not_mem_nil x), ?_, hd, hl2, ?_⟩
        · intro x hx
          simp only [List.head?_cons, Option.some.injEq] at hx
          subst hx; exact hg
        · simp only [heq, List.nil_append]
    · rw [add_association_requested_loop, if_neg hg]
      rcases ih st with ⟨hall, heq⟩ | ⟨l1, m, d, l2, hl, hl1, hm, hd, hl2, heq⟩
      · left
        refine ⟨?_, by rw [heq]⟩
        intro x hx
        rcases List.mem_cons.mp hx with hx | hx
        · subst hx; exact hg
        · exact hall x hx
      · right
        refine ⟨c :: l1, m, d, l2, by rw [hl]; rfl, ?_, hm, hd, hl2, by rw [heq]; rfl⟩
        intro x hx
        rcases List.mem_cons.mp hx with hx | hx
        · subst hx; exact hg
        · exact hl1 x hx

theorem add_association_requested_front_none (requested_AID : Nat)
    (l : dl_list station_info) (hall : ∀ x ∈ l, ¬ x.obj.AID > requested_AID) :
    add_association_requested_front requested_AID l = l := by
  unfold add_association_requested_front
  induction l with
  | nil => rfl
  | cons c rest ih =>
    have hc : ¬ c.obj.AID > requested_AID := hall c (List.mem_cons_self _ _)
    rw [List.takeWhile_cons]
    simp only [hc, decide_False, Bool.not_false, if_true]
    rw [ih (fun x hx => hall x (List.mem_cons_of_mem _ hx))]

theorem add_statistics_assoc_tbl (h : wlan_mac_high_h) (s : mac_high_state)
    (station : Option station_info) (addr : Nat) :
    (wlan_mac_high_add_statistics h s station addr).2.2.assoc_tbl = s.assoc_tbl := by
  unfold wlan_mac_high_add_statistics
  split
  · rfl
  · cases wlan_mac_high_find_statistics_ADDR s.stat_tbl addr with
    | mk found tbl1 =>
      cases found with
      | some e => rfl
      | none =>
        cases hm : wlan_mac_high_malloc s.heap with
        | mk r1 heap1 =>
          cases r1 with
          | none => rfl
          | some a =>
            cases hc : wlan_mac_high_calloc heap1 with
            | mk r2 heap2 =>
              cases r2 with
              | none => simp only [hc]
              | some b => simp only [hc]

/-- C8 at the failing input: in the table B@1, C@4 (strictly increasing positive
AIDs, below the maximum) neither 2 nor 3 is held, so the smallest AID that can
be issued is 2; `wlan_mac_high_add_association` with the new address 10 and
`ADD_ASSOCIATION_ANY_AID` issues 3.  The same table of AIDs is left by four
adds with `ADD_ASSOCIATION_ANY_AID` and two removals, and there too the add
issues 3. -/
theorem add_association_any_not_minimum :
    assoc_view mac_high_state_14_inst.assoc_tbl = [(1, 11), (4, 12)] ∧
    assoc_sorted mac_high_state_14_inst.assoc_tbl ∧
    10 ∉ assoc_addrs mac_high_state_14_inst.assoc_tbl ∧
    mac_high_state_14_inst.assoc_tbl.length < mac_high_state_14_inst.max_num_associations ∧
    2 ∉ assoc_AIDs mac_high_state_14_inst.assoc_tbl ∧
    assoc_view (wlan_mac_high_add_association mac_high_h_inst mac_high_state_14_inst 10
      mac_high_h_inst.ADD_ASSOCIATION_ANY_AID).2.assoc_tbl = [(1, 11), (3, 10), (4, 12)] ∧
    assoc_view mac_high_state_holes_inst.assoc_tbl = [(1, 21), (4, 24)] ∧
    assoc_view (wlan_mac_high_add_association mac_high_h_inst mac_high_state_holes_inst 10
      mac_high_h_inst.ADD_ASSOCIATION_ANY_AID).2.assoc_tbl = [(1, 21), (3, 10), (4, 24)] := by
  decide

/-! ### What the AID set-up does to the order of the table -/

/-- The association table after `wlan_mac_high_add_association`: the old table,
or the old table with a new station linked in by the AID set-up; the latter
only below the maximum, for an address no entry has and, with a requested AID,
an AID no entry has. -/
theorem add_association_tbl_cases (h : wlan_mac_high_h) (s : mac_high_state)
    (addr requested_AID : Nat) :
    (wlan_mac_high_add_association h s addr requested_AID).2.assoc_tbl = s.assoc_tbl ∨
    ∃ p station_stats,
      (wlan_mac_high_add_association h s addr requested_AID).1 = some p ∧
      (wlan_mac_high_add_association h s addr requested_AID).2.assoc_tbl
        = add_association_place h s.assoc_tbl p (new_station_info h s addr station_stats)
            requested_AID ∧
      s.assoc_tbl.length < s.max_num_associations ∧
      wlan_mac_high_find_station_info_ADDR s.assoc_tbl addr = none ∧
      (requested_AID = h.ADD_ASSOCIATION_ANY_AID ∨
        wlan_mac_high_find_station_info_AID s.assoc_tbl requested_AID = none) := by
  unfold wlan_mac_high_add_association
  cases hby : (if requested_AID ≠ h.ADD_ASSOCIATION_ANY_AID then
      wlan_mac_high_find_station_info_AID s.assoc_tbl requested_AID else none) with
  | some r =>
    obtain ⟨i, entry⟩ := r
    left
    simp only []
    split <;> rfl
  | none =>
    have hAID : requested_AID = h.ADD_ASSOCIATION_ANY_AID ∨
        wlan_mac_high_find_station_info_AID s.assoc_tbl requested_AID = none := by
      by_cases hany : requested_AID = h.ADD_ASSOCIATION_ANY_AID
      · left; exact hany
      · right; rw [if_pos hany] at hby; exact hby
    simp only []
    cases hfa : wlan_mac_high_find_station_info_ADDR s.assoc_tbl addr with
    | some r =>
      obtain ⟨i, entry⟩ := r
      left; rfl
    | none =>
      simp only []
      by_cases hlen : s.assoc_tbl.length ≥ s.max_num_associations
      · left; rw [if_pos hlen]
      · rw [if_neg hlen]
        cases hm1 : wlan_mac_high_malloc s.heap with
        | mk r1 heap1 =>
          cases r1 with
          | none => left; rfl
          | some a =>
            simp only []
            cases hm2 : wlan_mac_high_malloc heap1 with
            | mk r2 heap2 =>
              cases r2 with
              | none => left; rfl
              | some p =>
                simp only []
                have hat := add_statistics_assoc_tbl h { s with heap := heap2 }
                  (some { AID := 0, addr := 0, hostname0 := 0, flags := 0, rx_last_seq := 0,
                          tx := 0, rate_selection_scheme := 0, stats := 0 }) addr
                cases hs : wlan_mac_high_add_statistics h { s with heap := heap2 }
                  (some { AID := 0, addr := 0, hostname0 := 0, flags := 0, rx_last_seq := 0,
                          tx := 0, rate_selection_scheme := 0, stats := 0 }) addr with
                | mk r3 rest3 =>
                  obtain ⟨st3, s1⟩ := rest3
                  rw [hs] at hat
                  cases r3 with
                  | none => left; exact hat
                  | some station_stats =>
                    right
                    refine ⟨p, station_stats, rfl, ?_, by omega, trivial, hAID⟩
                    simp only [] at hat
                    simp only [hat]
                    rfl

/-- A table with strictly increasing AIDs, all above `curr`, either has the
AIDs `curr + 1, curr + 2, ...` without a hole, or splits at its first hole. -/
theorem assoc_first_hole (l : dl_list station_info) :
    ∀ curr : Nat, (∀ a ∈ assoc_AIDs l, curr < a) → assoc_sorted l →
      assoc_AIDs l = List.range' (curr + 1) l.length ∨
      ∃ l1 c rest, l = l1 ++ c :: rest ∧
        assoc_AIDs l1 = List.range' (curr + 1) l1.length ∧
        c.obj.AID > curr + l1.length + 1 := by
  induction l with
  | nil => intro curr _ _; left; rfl
  | cons c rest ih =>
    intro curr hlow hs
    have hc : curr < c.obj.AID := hlow _ (by simp [assoc_AIDs])
    unfold assoc_sorted assoc_AIDs at hs
    rw [List.map_cons, List.pairwise_cons] at hs
    by_cases hgap : c.obj.AID > curr + 1
    · right
      exact ⟨[], c, rest, rfl, rfl, by simpa using hgap⟩
    · have hceq : c.obj.AID = curr + 1 := by omega
      rcases ih c.obj.AID (fun a ha => hs.1 a ha) hs.2 with hno | ⟨l1, c2, rest2, hl, hA, hg⟩
      · left
        simp only [assoc_AIDs, List.map_cons, List.length_cons, List.range'_succ]
        rw [hceq] at hno
        rw [hceq]
        exact congrArg _ hno
      · right
        refine ⟨c :: l1, c2, rest2, by rw [hl]; rfl, ?_, ?_⟩
        · simp only [assoc_AIDs, List.map_cons, List.length_cons, List.range'_succ]
          rw [hceq] at hA
          rw [hceq]
          exact congrArg _ hA
        · simp only [List.length_cons]; omega

/-- What the AID set-up does for `ADD_ASSOCIATION_ANY_AID` on a table with
strictly increasing positive 16-bit AIDs and fewer than 65535 entries: without
a hole the new station is appended with the AID `length + 1`; otherwise it is
inserted before the first entry `c` that follows a hole, with the AID of `c`
minus 1. -/
theorem add_association_place_any (h : wlan_mac_high_h) (tbl : dl_list station_info)
    (p : Nat) (st : station_info) (hst : st.AID = 0) (hs : assoc_sorted tbl)
    (hpos : ∀ a ∈ assoc_AIDs tbl, 0 < a ∧ a < 65536) (hlen : tbl.length < 65535) :
    (assoc_AIDs tbl = List.range' 1 tbl.length ∧
      add_association_place h tbl p st h.ADD_ASSOCIATION_ANY_AID
        = tbl ++ [{ data := p, obj := { st with AID := tbl.length + 1 } }]) ∨
    ∃ l1 c rest, tbl = l1 ++ c :: rest ∧
      assoc_AIDs l1 = List.range' 1 l1.length ∧ c.obj.AID > l1.length + 1 ∧
      add_association_place h tbl p st h.ADD_ASSOCIATION_ANY_AID
        = l1 ++ { data := p, obj := { st with AID := c.obj.AID - 1 } } :: c :: rest := by
  rcases assoc_first_hole tbl 0 (fun a ha => (hpos a ha).1) hs with hno | ⟨l1, c, rest, hl, hA, hg⟩
  · left
    refine ⟨by simpa using hno, ?_⟩
    have := add_association_place_any_consecutive h tbl [] p st hst (by simpa using hno) rfl
      (by omega)
    simpa using this
  · right
    refine ⟨l1, c, rest, hl, by simpa using hA, by omega, ?_⟩
    have hcu : c.obj.AID < 65536 := by
      apply (hpos c.obj.AID _).2
      rw [hl]; simp [assoc_AIDs]
    have hloop := add_association_any_loop_gap p st c rest l1 0 hA (by omega)
    have hmod : (c.obj.AID - 1) % 65536 = c.obj.AID - 1 := Nat.mod_eq_of_lt (by omega)
    rw [hmod] at hloop
    unfold add_association_place
    rw [if_pos rfl, hl]
    simp only [hloop]
    rw [if_neg (by show ¬ (c.obj.AID - 1 = 0); omega)]

/-- Adding with `ADD_ASSOCIATION_ANY_AID` keeps the AIDs strictly increasing,
positive and 16-bit, when the maximum number of associations is at most
65535. -/
theorem add_association_any_keeps_sorted (h : wlan_mac_high_h) (s : mac_high_state)
    (addr : Nat) (hs : assoc_sorted s.assoc_tbl)
    (hpos : ∀ a ∈ assoc_AIDs s.assoc_tbl, 0 < a ∧ a < 65536)
    (hmax : s.max_num_associations ≤ 65535) :
    assoc_sorted (wlan_mac_high_add_association h s addr h.ADD_ASSOCIATION_ANY_AID).2.assoc_tbl ∧
    ∀ a ∈ assoc_AIDs
        (wlan_mac_high_add_association h s addr h.ADD_ASSOCIATION_ANY_AID).2.assoc_tbl,
      0 < a ∧ a < 65536 := by
  rcases add_association_tbl_cases h s addr h.ADD_ASSOCIATION_ANY_AID with hsame | hnew
  · rw [hsame]; exact ⟨hs, hpos⟩
  · obtain ⟨p, stats, _, htab, hlen, _, _⟩ := hnew
    rw [htab]
    rcases add_association_place_any h s.assoc_tbl p (new_station_info h s addr stats) rfl hs
      hpos (by omega) with ⟨hA, hpl⟩ | ⟨l1, c, rest, hl, hA1, hg, hpl⟩
    · rw [hpl]
      unfold assoc_sorted assoc_AIDs at *
      simp only [List.map_append, List.map_cons, List.map_nil]
      constructor
      · rw [List.pairwise_append]
        refine ⟨hs, List.pairwise_singleton _ _, ?_⟩
        intro a ha b hb
        rw [List.mem_singleton] at hb
        rw [hA, List.mem_range'_1] at ha
        subst hb
        show a < s.assoc_tbl.length + 1
        omega
      · intro a ha
        rcases List.mem_append.mp ha with ha | ha
        · exact hpos a ha
        · rw [List.mem_singleton] at ha
          subst ha
          show 0 < s.assoc_tbl.length + 1 ∧ s.assoc_tbl.length + 1 < 65536
          omega
    · rw [hpl]
      have hcu : c.obj.AID < 65536 := by
        apply (hpos c.obj.AID _).2
        rw [hl]; simp [assoc_AIDs]
      unfold assoc_sorted assoc_AIDs at *
      rw [hl] at hs hpos
      simp only [List.map_append, List.map_cons] at hs hpos ⊢
      rw [List.pairwise_append] at hs ⊢
      obtain ⟨hs1, hs2, hs3⟩ := hs
      rw [List.pairwise_cons] at hs2
      constructor
      · refine ⟨hs1, ?_, ?_⟩
        · rw [List.pairwise_cons, List.pairwise_cons]
          refine ⟨?_, hs2⟩
          intro b hb
          show c.obj.AID - 1 < b
          rcases List.mem_cons.mp hb with hb | hb
          · subst hb; omega
          · have := hs2.1 b hb; omega
        · intro a ha b hb
          rcases List.mem_cons.mp hb with hb | hb
          · subst hb
            rw [hA1, List.mem_range'_1] at ha
            show a < c.obj.AID - 1
            omega
          · exact hs3 a ha b hb
      · intro a ha
        rcases List.mem_append.mp ha with ha | ha
        · exact hpos a (List.mem_append_left _ ha)
        · rcases List.mem_cons.mp ha with ha | ha
          · subst ha
            show 0 < c.obj.AID - 1 ∧ c.obj.AID - 1 < 65536
            omega
          · exact hpos a (List.mem_append_right _ ha)

/-- Removing an association keeps the AIDs strictly increasing. -/
theorem remove_association_keeps_sorted (h : wlan_mac_high_h) (s : mac_high_state) (addr : Nat)
    (hs : assoc_sorted s.assoc_tbl) :
    assoc_sorted (wlan_mac_high_remove_association h s addr).2.assoc_tbl := by
  have hsub : ∀ pos, assoc_sorted (dl_entry_remove s.assoc_tbl pos) := by
    intro pos
    unfold assoc_sorted assoc_AIDs dl_entry_remove at *
    exact hs.sublist ((List.eraseIdx_sublist _ _).map _)
  unfold wlan_mac_high_remove_association
  cases hf : wlan_mac_high_find_station_info_ADDR s.assoc_tbl addr with
  | none => exact hs
  | some r =>
    obtain ⟨pos, entry⟩ := r
    simp only []
    split
    · split
      · exact hsub pos
      · cases wlan_mac_high_find_statistics_ADDR s.stat_tbl addr with
        | mk found tbl1 =>
          cases found with
          | none => exact hsub pos
          | some f => exact hsub pos
    · exact hs

theorem add_association_requested_loop_none (p requested_AID : Nat) :
    ∀ (l : dl_list station_info) (st : station_info),
      (∀ x ∈ l, ¬ x.obj.AID > requested_AID) →
      add_association_requested_loop p requested_AID st l = (st, l) := by
  intro l
  induction l with
  | nil => intro st _; rfl
  | cons c rest ih =>
    intro st hall
    have hc : ¬ c.obj.AID > requested_AID := hall c (List.mem_cons_self _ _)
    rw [add_association_requested_loop, if_neg hc,
      ih st (fun x hx => hall x (List.mem_cons_of_mem _ hx))]

theorem add_association_requested_loop_one (p requested_AID : Nat) (c : dl_entry station_info)
    (hc : c.obj.AID > requested_AID) :
    ∀ (l1 : dl_list station_info) (st : station_info),
      (∀ x ∈ l1, ¬ x.obj.AID > requested_AID) →
      add_association_requested_loop p requested_AID st (l1 ++ [c])
        = ({ st with AID := requested_AID },
            l1 ++ [{ data := p, obj := { st with AID := requested_AID } }, c]) := by
  intro l1
  induction l1 with
  | nil =>
    intro st _
    rw [List.nil_append, add_association_requested_loop, if_pos hc]
    rfl
  | cons d rest ih =>
    intro st hall
    have hd : ¬ d.obj.AID > requested_AID := hall d (List.mem_cons_self _ _)
    rw [List.cons_append, add_association_requested_loop, if_neg hd,
      ih st (fun x hx => hall x (List.mem_cons_of_mem _ hx))]
    rfl

/-- What the AID set-up does for a requested AID (not 0, the value that marks a
station without AID, and not `ADD_ASSOCIATION_ANY_AID`) when at most one entry
has a larger AID: without such an entry the new station is appended, and with
one such entry, the last of the table, it is inserted once, before it. -/
theorem add_association_place_requested_single (h : wlan_mac_high_h) (p : Nat)
    (st : station_info) (requested_AID : Nat) (hst : st.AID = 0) (hr0 : requested_AID ≠ 0)
    (hany : requested_AID ≠ h.ADD_ASSOCIATION_ANY_AID) :
    (∀ tbl : dl_list station_info, (∀ x ∈ tbl, ¬ x.obj.AID > requested_AID) →
      add_association_place h tbl p st requested_AID
        = tbl ++ [{ data := p, obj := { st with AID := requested_AID } }]) ∧
    (∀ (l1 : dl_list station_info) (c : dl_entry station_info),
      (∀ x ∈ l1, ¬ x.obj.AID > requested_AID) → c.obj.AID > requested_AID →
      add_association_place h (l1 ++ [c]) p st requested_AID
        = l1 ++ [{ data := p, obj := { st with AID := requested_AID } }, c]) := by
  constructor
  · intro tbl hall
    unfold add_association_place
    rw [if_neg hany]
    simp only [add_association_requested_loop_none p requested_AID tbl st hall, hst, if_true,
      dl_entry_insertEnd, add_association_requested_front_none requested_AID tbl hall]
  · intro l1 c hall hc
    unfold add_association_place
    rw [if_neg hany]
    simp only [add_association_requested_loop_one p requested_AID c hc l1 st hall]
    rw [if_neg hr0]

/-! ### Failure of add, return value and effect of remove -/

/-- C11. Failure of add is atomic: `wlan_mac_high_add_association` returns NULL
and leaves the state, the association table and the statistics table included,
unchanged (a) when the requested AID, not `ADD_ASSOCIATION_ANY_AID`, is held by
an entry and every entry that holds it has a different address, and (b) when
there is no AID conflict (`ADD_ASSOCIATION_ANY_AID`, or an AID no entry holds),
no entry has the address and the table length is at least
`max_num_associations`. -/
theorem add_association_failure_atomic (h : wlan_mac_high_h) (s : mac_high_state)
    (addr requested_AID : Nat) :
    (requested_AID ≠ h.ADD_ASSOCIATION_ANY_AID →
      (∃ e ∈ s.assoc_tbl, e.obj.AID = requested_AID) →
      (∀ x ∈ s.assoc_tbl, x.obj.AID = requested_AID → x.obj.addr ≠ addr) →
      wlan_mac_high_add_association h s addr requested_AID = (none, s)) ∧
    ((requested_AID = h.ADD_ASSOCIATION_ANY_AID ∨ requested_AID ∉ assoc_AIDs s.assoc_tbl) →
      addr ∉ assoc_addrs s.assoc_tbl →
      s.assoc_tbl.length ≥ s.max_num_associations →
      wlan_mac_high_add_association h s addr requested_AID = (none, s)) := by
  constructor
  · intro hany hex hdiff
    unfold wlan_mac_high_add_association
    rw [if_pos hany]
    cases hf : wlan_mac_high_find_station_info_AID s.assoc_tbl requested_AID with
    | none =>
      unfold wlan_mac_high_find_station_info_AID at hf
      obtain ⟨e, he, hA⟩ := hex
      have := (dl_find_none _ _).mp hf e he
      simp [hA] at this
    | some r =>
      obtain ⟨i, f⟩ := r
      unfold wlan_mac_high_find_station_info_AID at hf
      obtain ⟨hfm, hfp, _⟩ := dl_find_some _ _ _ _ hf
      have hfa : f.obj.addr ≠ addr := hdiff f hfm (by simpa using hfp)
      simp only []
      rw [if_neg (by simpa [wlan_addr_eq] using hfa)]
  · intro hreq haddr hlen
    have hby : (if requested_AID ≠ h.ADD_ASSOCIATION_ANY_AID then
        wlan_mac_high_find_station_info_AID s.assoc_tbl requested_AID else none) = none := by
      by_cases hany : requested_AID = h.ADD_ASSOCIATION_ANY_AID
      · rw [if_neg (by simpa using hany)]
      · rw [if_pos hany]
        have hnot : requested_AID ∉ assoc_AIDs s.assoc_tbl := by
          rcases hreq with hr | hr
          · exact absurd hr hany
          · exact hr
        unfold wlan_mac_high_find_station_info_AID
        rw [dl_find_none]
        intro x hx
        have : x.obj.AID ≠ requested_AID := by
          intro heq
          apply hnot
          unfold assoc_AIDs
          rw [← heq]
          exact List.mem_map_of_mem (fun e => e.obj.AID) hx
        simpa using this
    have hADDR : wlan_mac_high_find_station_info_ADDR s.assoc_tbl addr = none := by
      unfold wlan_mac_high_find_station_info_ADDR
      rw [dl_find_none]
      intro x hx
      have : x.obj.addr ≠ addr := by
        intro heq
        apply haddr
        unfold assoc_addrs
        rw [← heq]
        exact List.mem_map_of_mem (fun e => e.obj.addr) hx
      simpa [wlan_addr_eq] using this
    unfold wlan_mac_high_add_association
    simp only [hby, hADDR]
    rw [if_pos hlen]

/-- Witness of C11: in the table A@1, B@2 (addresses 10, 11), (a) the new
address 12 with the requested AID 2, held by B, and (b) the new address 12 with
`ADD_ASSOCIATION_ANY_AID` when the maximum number of associations is 2. -/
theorem add_association_failure_atomic_witness :
    (2 ≠ mac_high_h_inst.ADD_ASSOCIATION_ANY_AID ∧
      (∃ e ∈ mac_high_state_AB_inst.assoc_tbl, e.obj.AID = 2) ∧
      (∀ x ∈ mac_high_state_AB_inst.assoc_tbl, x.obj.AID = 2 → x.obj.addr ≠ 12) ∧
      wlan_mac_high_add_association mac_high_h_inst mac_high_state_AB_inst 12 2
        = (none, mac_high_state_AB_inst)) ∧
    ((mac_high_h_inst.ADD_ASSOCIATION_ANY_AID = mac_high_h_inst.ADD_ASSOCIATION_ANY_AID ∨
        mac_high_h_inst.ADD_ASSOCIATION_ANY_AID ∉ assoc_AIDs mac_high_state_full_inst.assoc_tbl) ∧
      12 ∉ assoc_addrs mac_high_state_full_inst.assoc_tbl ∧
      mac_high_state_full_inst.assoc_tbl.length ≥ mac_high_state_full_inst.max_num_associations ∧
      wlan_mac_high_add_association mac_high_h_inst mac_high_state_full_inst 12
        mac_high_h_inst.ADD_ASSOCIATION_ANY_AID = (none, mac_high_state_full_inst)) :=
  ⟨⟨by decide, by decide, by decide,
    (add_association_failure_atomic mac_high_h_inst mac_high_state_AB_inst 12 2).1
      (by decide) (by decide) (by decide)⟩,
   ⟨by decide, by decide, by decide,
    (add_association_failure_atomic mac_high_h_inst mac_high_state_full_inst 12
      mac_high_h_inst.ADD_ASSOCIATION_ANY_AID).2 (by decide) (by decide) (by decide)⟩⟩

/-- What `wlan_mac_high_remove_association` returns: -1 with the state
unchanged when no entry has the address; 0 with the state unchanged when the
first entry with the address carries `STATION_INFO_DO_NOT_REMOVE`. -/
theorem remove_association_not_removed (h : wlan_mac_high_h) (s : mac_high_state) (addr : Nat) :
    ((∀ x ∈ s.assoc_tbl, x.obj.addr ≠ addr) →
      wlan_mac_high_remove_association h s addr = (-1, s)) ∧
    (∀ (l1 l2 : dl_list station_info) (e : dl_entry station_info),
      s.assoc_tbl = l1 ++ e :: l2 → (∀ x ∈ l1, x.obj.addr ≠ addr) → e.obj.addr = addr →
      e.obj.flags &&& h.STATION_INFO_DO_NOT_REMOVE = h.STATION_INFO_DO_NOT_REMOVE →
      wlan_mac_high_remove_association h s addr = (0, s)) := by
  constructor
  · intro hno
    have hf : wlan_mac_high_find_station_info_ADDR s.assoc_tbl addr = none := by
      unfold wlan_mac_high_find_station_info_ADDR
      rw [dl_find_none]
      intro x hx
      simpa [wlan_addr_eq] using hno x hx
    unfold wlan_mac_high_remove_association
    simp only [hf]
  · intro l1 l2 e htbl hl1 he hflag
    have hf : wlan_mac_high_find_station_info_ADDR s.assoc_tbl addr = some (l1.length, e) := by
      rw [htbl]
      unfold wlan_mac_high_find_station_info_ADDR
      apply dl_find_append
      · intro x hx
        simpa [wlan_addr_eq] using hl1 x hx
      · simp [wlan_addr_eq, he]
    unfold wlan_mac_high_remove_association
    simp only [hf]
    rw [if_neg (by simpa using hflag)]

/-- C12 at the failing input: in the table A@1, B@2 station A (address 10)
carries `STATION_INFO_DO_NOT_REMOVE`; `wlan_mac_high_remove_association` for
address 10 leaves the state unchanged, the entry of A is still in the table,
and the return value is 0, the value documented for a successful removal, not
-1. -/
theorem remove_association_returns_0_not_removed :
    (∃ e ∈ mac_high_state_pinned_inst.assoc_tbl, e.obj.addr = 10 ∧
      e.obj.flags &&& mac_high_h_inst.STATION_INFO_DO_NOT_REMOVE
        = mac_high_h_inst.STATION_INFO_DO_NOT_REMOVE) ∧
    (wlan_mac_high_remove_association mac_high_h_inst mac_high_state_pinned_inst 10).2
      = mac_high_state_pinned_inst ∧
    assoc_view (wlan_mac_high_remove_association mac_high_h_inst
      mac_high_state_pinned_inst 10).2.assoc_tbl = [(1, 10), (2, 11)] ∧
    (wlan_mac_high_remove_association mac_high_h_inst mac_high_state_pinned_inst 10).1 = 0 ∧
    (wlan_mac_high_remove_association mac_high_h_inst mac_high_state_pinned_inst 10).1 ≠ -1 := by
  decide

theorem oldest_statistics_scan_some (l : dl_list statistics_txrx) :
    ∀ (pos opos : Nat) (o : statistics_txrx), o.is_associated = 0 →
      ∃ p2 o2, oldest_statistics_scan pos l (some (opos, o)) = some (p2, o2) ∧
        o2.is_associated = 0 ∧ o2.latest_txrx_timestamp ≤ o.latest_txrx_timestamp ∧
        (∀ x ∈ l, x.obj.is_associated = 0 →
          o2.latest_txrx_timestamp ≤ x.obj.latest_txrx_timestamp) ∧
        ((p2 = opos ∧ o2 = o) ∨ ∃ k e, p2 = pos + k ∧ l[k]? = some e ∧ e.obj = o2) := by
  induction l with
  | nil =>
    intro pos opos o ho
    exact ⟨opos, o, rfl, ho, Nat.le_refl _, by simp, Or.inl ⟨rfl, rfl⟩⟩
  | cons c rest ih =>
    intro pos opos o ho
    by_cases hlt : c.obj.latest_txrx_timestamp < o.latest_txrx_timestamp
    · by_cases hc : c.obj.is_associated = 0
      · obtain ⟨p2, o2, hr, h1, h2, h3, h4⟩ := ih (pos + 1) pos c.obj hc
        refine ⟨p2, o2, ?_, h1, by omega, ?_, ?_⟩
        · rw [oldest_statistics_scan, if_pos hlt, if_pos hc]; exact hr
        · intro x hx hx0
          rcases List.mem_cons.mp hx with hx | hx
          · subst hx; exact h2
          · exact h3 x hx hx0
        · right
          rcases h4 with ⟨hp, ho2⟩ | ⟨k, e, hp, hk, he⟩
          · exact ⟨0, c, by omega, by simp, ho2.symm⟩
          · exact ⟨k + 1, e, by omega, by simpa using hk, he⟩
      · obtain ⟨p2, o2, hr, h1, h2, h3, h4⟩ := ih (pos + 1) opos o ho
        refine ⟨p2, o2, ?_, h1, h2, ?_, ?_⟩
        · rw [oldest_statistics_scan, if_pos hlt, if_neg hc]; exact hr
        · intro x hx hx0
          rcases List.mem_cons.mp hx with hx | hx
          · subst hx; exact absurd hx0 hc
          · exact h3 x hx hx0
        · rcases h4 with hh | ⟨k, e, hp, hk, he⟩
          · left; exact hh
          · right; exact ⟨k + 1, e, by omega, by simpa using hk, he⟩
    · obtain ⟨p2, o2, hr, h1, h2, h3, h4⟩ := ih (pos + 1) opos o ho
      refine ⟨p2, o2, ?_, h1, h2, ?_, ?_⟩
      · rw [oldest_statistics_scan, if_neg hlt]; exact hr
      · intro x hx hx0
        rcases List.mem_cons.mp hx with hx | hx
        · subst hx; omega
        · exact h3 x hx hx0
      · rcases h4 with hh | ⟨k, e, hp, hk, he⟩
        · left; exact hh
        · right; exact ⟨k + 1, e, by omega, by simpa using hk, he⟩

/-- The scan for the oldest entry that is not associated: it finds nothing
exactly when every entry is associated, and otherwise the position of an
entry that is not associated and whose timestamp is minimal among the entries
that are not associated. -/
theorem oldest_statistics_scan_none (l : dl_list statistics_txrx) :
    ∀ pos : Nat,
      ((∀ x ∈ l, x.obj.is_associated ≠ 0) → oldest_statistics_scan pos l none = none) ∧
      ((∃ x ∈ l, x.obj.is_associated = 0) →
        ∃ k e, oldest_statistics_scan pos l none = some (pos + k, e.obj) ∧ l[k]? = some e ∧
          e.obj.is_associated = 0 ∧
          ∀ x ∈ l, x.obj.is_associated = 0 →
            e.obj.latest_txrx_timestamp ≤ x.obj.latest_txrx_timestamp) := by
  induction l with
  | nil =>
    intro pos
    exact ⟨fun _ => rfl, fun ⟨x, hx, _⟩ => absurd hx (List.not_mem_nil x)⟩
  | cons c rest ih =>
    intro pos
    by_cases hc : c.obj.is_associated = 0
    · constructor
      · intro hall
        exact absurd hc (hall c (List.mem_cons_self _ _))
      · intro _
        obtain ⟨p2, o2, hr, h1, h2, h3, h4⟩ := oldest_statistics_scan_some rest (pos + 1) pos
          c.obj hc
        rcases h4 with ⟨hp, ho2⟩ | ⟨k, e, hp, hk, he⟩
        · refine ⟨0, c, ?_, by simp, hc, ?_⟩
          · rw [oldest_statistics_scan, if_pos hc, hr, hp, ho2]; rfl
          · intro x hx hx0
            rcases List.mem_cons.mp hx with hx | hx
            · subst hx; exact Nat.le_refl _
            · rw [← ho2]; exact h3 x hx hx0
        · refine ⟨k + 1, e, ?_, by simpa using hk, by rw [he]; exact h1, ?_⟩
          · rw [oldest_statistics_scan, if_pos hc, hr, hp, he]
            have : pos + 1 + k = pos + (k + 1) := by omega
            rw [this]
          · intro x hx hx0
            rw [he]
            rcases List.mem_cons.mp hx with hx | hx
            · subst hx; exact h2
            · exact h3 x hx hx0
    · constructor
      · intro hall
        rw [oldest_statistics_scan, if_neg hc]
        exact (ih (pos + 1)).1 (fun x hx => hall x (List.mem_cons_of_mem _ hx))
      · intro ⟨x, hx, hx0⟩
        have hxr : x ∈ rest := by
          rcases List.mem_cons.mp hx with hx | hx
          · subst hx; exact absurd hx0 hc
          · exact hx
        obtain ⟨k, e, hr, hk, he0, hmin⟩ := (ih (pos + 1)).2 ⟨x, hxr, hx0⟩
        refine ⟨k + 1, e, ?_, by simpa using hk, he0, ?_⟩
        · rw [oldest_statistics_scan, if_neg hc, hr]
          have : pos + 1 + k = pos + (k + 1) := by omega
          rw [this]
        · intro y hy hy0
          rcases List.mem_cons.mp hy with hy | hy
          · subst hy; exact absurd hy0 hc
          · exact hmin y hy hy0

/-- C14. Eviction policy of the statistics table: when
`wlan_mac_high_add_statistics` creates an entry (the two `malloc` calls
succeed) for an address that is not in the table and the table length is at
least `WLAN_MAC_HIGH_MAX_PROMISC_STATS`, then, if every entry is associated,
nothing is removed and the new entry is appended, the table growing by one
beyond the capacity; otherwise exactly one entry is removed before the new one
is appended, an entry with `is_associated = 0` whose `latest_txrx_timestamp` is
minimal among the entries with `is_associated = 0`. -/
theorem add_statistics_eviction (h : wlan_mac_high_h) (s : mac_high_state)
    (station : Option station_info) (addr a q : Nat) (rest : heap_t)
    (hen : station.isSome ∨ s.promiscuous_stats_enabled ≠ 0)
    (hnew : ∀ x ∈ s.stat_tbl, x.obj.addr ≠ addr)
    (hfull : s.stat_tbl.length ≥ h.WLAN_MAC_HIGH_MAX_PROMISC_STATS)
    (hheap : s.heap = some a :: some q :: rest) :
    (wlan_mac_high_add_statistics h s station addr).1 = some q ∧
    ((∀ x ∈ s.stat_tbl, x.obj.is_associated ≠ 0) →
      (wlan_mac_high_add_statistics h s station addr).2.2.stat_tbl
        = s.stat_tbl ++ [{ data := q, obj := new_statistics_txrx addr }]) ∧
    ((∃ x ∈ s.stat_tbl, x.obj.is_associated = 0) →
      ∃ pos victim, s.stat_tbl[pos]? = some victim ∧ victim.obj.is_associated = 0 ∧
        (∀ x ∈ s.stat_tbl, x.obj.is_associated = 0 →
          victim.obj.latest_txrx_timestamp ≤ x.obj.latest_txrx_timestamp) ∧
        (wlan_mac_high_add_statistics h s station addr).2.2.stat_tbl
          = s.stat_tbl.eraseIdx pos ++ [{ data := q, obj := new_statistics_txrx addr }]) := by
  have hcond : ¬ (station.isNone ∧ s.promiscuous_stats_enabled = 0) := by
    rintro ⟨h1, h2⟩
    rcases hen with hh | hh
    · cases station <;> simp at h1 hh
    · exact hh h2
  have hfind : wlan_mac_high_find_statistics_ADDR s.stat_tbl addr = (none, s.stat_tbl) := by
    unfold wlan_mac_high_find_statistics_ADDR
    have : dl_find (fun c : dl_entry statistics_txrx => wlan_addr_eq c.obj.addr addr) s.stat_tbl
        = none := by
      rw [dl_find_none]
      intro x hx
      simpa [wlan_addr_eq] using hnew x hx
    rw [this]
  have hscan := oldest_statistics_scan_none s.stat_tbl 0
  unfold wlan_mac_high_add_statistics
  rw [if_neg hcond]
  simp only [hfind, hheap, wlan_mac_high_malloc, wlan_mac_high_calloc]
  rw [if_pos hfull]
  refine ⟨trivial, ?_, ?_⟩
  · intro hall
    simp only [hscan.1 hall, dl_entry_insertEnd, new_statistics_txrx]
  · intro hex
    obtain ⟨k, e, hr, hk, he0, hmin⟩ := hscan.2 hex
    refine ⟨k, e, hk, he0, hmin, ?_⟩
    simp only [hr, Nat.zero_add, dl_entry_insertEnd, dl_entry_remove, new_statistics_txrx]

/-- Witness of C14: a full table (capacity 3) with one associated entry and two
entries that are not associated; the new address 40 evicts the entry with the
older timestamp of the two (address 32).  In the full table whose entries are
all associated nothing is evicted and the table has four entries. -/
theorem add_statistics_eviction_witness :
    ((none : Option station_info).isSome ∨
      mac_high_state_stats_inst.promiscuous_stats_enabled ≠ 0) ∧
    (∀ x ∈ mac_high_state_stats_inst.stat_tbl, x.obj.addr ≠ 40) ∧
    mac_high_state_stats_inst.stat_tbl.length
      ≥ mac_high_h_small_inst.WLAN_MAC_HIGH_MAX_PROMISC_STATS ∧
    mac_high_state_stats_inst.heap = some 1000 :: some 1001 ::
      [some 1002, some 1003, some 1004, some 1005, some 1006, some 1007, some 1008, some 1009,
       some 1010, some 1011] ∧
    (wlan_mac_high_add_statistics mac_high_h_small_inst mac_high_state_stats_inst none 40).1
      = some 1001 ∧
    (wlan_mac_high_add_statistics mac_high_h_small_inst mac_high_state_stats_inst none
      40).2.2.stat_tbl.map (fun x => (x.obj.addr, x.obj.is_associated, x.obj.latest_txrx_timestamp))
      = [(31, 1, 10), (33, 0, 30), (40, 0, 0)] ∧
    (wlan_mac_high_add_statistics mac_high_h_small_inst mac_high_state_stats_assoc_inst none
      40).2.2.stat_tbl.map (fun x => (x.obj.addr, x.obj.is_associated, x.obj.latest_txrx_timestamp))
      = [(31, 1, 10), (32, 1, 20), (33, 1, 30), (40, 0, 0)] :=
  ⟨by decide, by decide, by decide, by decide,
    (add_statistics_eviction mac_high_h_small_inst mac_high_state_stats_inst none 40 1000 1001
      [some 1002, some 1003, some 1004, some 1005, some 1006, some 1007, some 1008, some 1009,
       some 1010, some 1011] (by decide) (by decide) (by decide) (by decide)).1,
    by decide, by decide⟩

/-- C15. Effect of reset: after `wlan_mac_high_reset_statistics` the statistics
table consists of exactly the entries that had `is_associated` set before the
call, in their previous order, each with its `data` and `mgmt` counter groups
all zero and with its address, `is_associated` flag, timestamp and pointer
unchanged; every entry with `is_associated = 0` has been removed, and nothing
else of the state has changed. -/
theorem reset_statistics_effect (s : mac_high_state) :
    (wlan_mac_high_reset_statistics s).stat_tbl
      = (s.stat_tbl.filter (fun c => decide (c.obj.is_associated ≠ 0))).map
          (fun c => { data := c.data,
                      obj := { addr := c.obj.addr, is_associated := c.obj.is_associated,
                               latest_txrx_timestamp := c.obj.latest_txrx_timestamp,
                               data := frame_statistics_txrx_zero,
                               mgmt := frame_statistics_txrx_zero } }) ∧
    (∀ x ∈ (wlan_mac_high_reset_statistics s).stat_tbl, x.obj.is_associated ≠ 0 ∧
      x.obj.data = frame_statistics_txrx_zero ∧ x.obj.mgmt = frame_statistics_txrx_zero) ∧
    (wlan_mac_high_reset_statistics s).assoc_tbl = s.assoc_tbl ∧
    (wlan_mac_high_reset_statistics s).heap = s.heap ∧
    (wlan_mac_high_reset_statistics s).max_num_associations = s.max_num_associations ∧
    (wlan_mac_high_reset_statistics s).promiscuous_stats_enabled
      = s.promiscuous_stats_enabled := by
  have hloop : ∀ l : dl_list statistics_txrx, reset_statistics_loop l
      = (l.filter (fun c => decide (c.obj.is_associated ≠ 0))).map
          (fun c => { data := c.data,
                      obj := { addr := c.obj.addr, is_associated := c.obj.is_associated,
                               latest_txrx_timestamp := c.obj.latest_txrx_timestamp,
                               data := frame_statistics_txrx_zero,
                               mgmt := frame_statistics_txrx_zero } }) := by
    intro l
    induction l with
    | nil => rfl
    | cons c rest ih =>
      by_cases hc : c.obj.is_associated = 0
      · rw [reset_statistics_loop]
        simp only [hc, if_true, ih]
        rw [List.filter_cons]
        simp [hc]
      · rw [reset_statistics_loop]
        simp only [hc, if_false, ih]
        rw [List.filter_cons]
        simp [hc]
  refine ⟨hloop s.stat_tbl, ?_, rfl, rfl, rfl, rfl⟩
  intro x hx
  have hx2 : x ∈ reset_statistics_loop s.stat_tbl := hx
  rw [hloop] at hx2
  obtain ⟨c, hc, hcx⟩ := List.mem_map.mp hx2
  rw [List.mem_filter] at hc
  subst hcx
  exact ⟨by simpa using hc.2, rfl, rfl⟩

/-- C16. Transmit statistics update: `wlan_mac_high_update_tx_statistics`
changes nothing when `station` is NULL or when `wlan_mac_high_pkt_type` returns
anything other than `PKT_TYPE_DATA_ENCAP_ETH`, `PKT_TYPE_DATA_ENCAP_LTG` or
`PKT_TYPE_MGMT`.  For the two data types it changes only the `data` group, and
for management only the `mgmt` group, of the statistics structure the station
points to: `tx_num_packets_total + 1`, `tx_num_bytes_total + length`,
`tx_num_packets_low + short_retry_count`, and, if and only if `tx_result` is
`TX_MPDU_RESULT_SUCCESS`, `tx_num_packets_success + 1` and
`tx_num_bytes_success + length`; the receive counters of the group, the other
group and the other fields are unchanged. -/
theorem update_tx_statistics_effect (d : wlan_mac_802_11_defs_h)
    (stat_tbl : dl_list statistics_txrx) (tx_mpdu : tx_frame_info) (st : station_info) :
    wlan_mac_high_update_tx_statistics d stat_tbl tx_mpdu none = stat_tbl ∧
    (wlan_mac_high_pkt_type d tx_mpdu.mpdu tx_mpdu.length ≠ pkt_type_t.PKT_TYPE_DATA_ENCAP_ETH →
      wlan_mac_high_pkt_type d tx_mpdu.mpdu tx_mpdu.length ≠ pkt_type_t.PKT_TYPE_DATA_ENCAP_LTG →
      wlan_mac_high_pkt_type d tx_mpdu.mpdu tx_mpdu.length ≠ pkt_type_t.PKT_TYPE_MGMT →
      wlan_mac_high_update_tx_statistics d stat_tbl tx_mpdu (some st) = stat_tbl) ∧
    (wlan_mac_high_pkt_type d tx_mpdu.mpdu tx_mpdu.length = pkt_type_t.PKT_TYPE_DATA_ENCAP_ETH ∨
      wlan_mac_high_pkt_type d tx_mpdu.mpdu tx_mpdu.length = pkt_type_t.PKT_TYPE_DATA_ENCAP_LTG →
      wlan_mac_high_update_tx_statistics d stat_tbl tx_mpdu (some st)
        = stat_tbl.map (fun e =>
            if e.data = st.stats then
              { e with obj := { e.obj with data :=
                { rx_num_bytes := e.obj.data.rx_num_bytes,
                  rx_num_packets := e.obj.data.rx_num_packets,
                  tx_num_bytes_success :=
                    if tx_mpdu.tx_result = d.TX_MPDU_RESULT_SUCCESS then
                      e.obj.data.tx_num_bytes_success + tx_mpdu.length
                    else e.obj.data.tx_num_bytes_success,
                  tx_num_bytes_total := e.obj.data.tx_num_bytes_total + tx_mpdu.length,
                  tx_num_packets_success :=
                    if tx_mpdu.tx_result = d.TX_MPDU_RESULT_SUCCESS then
                      e.obj.data.tx_num_packets_success + 1
                    else e.obj.data.tx_num_packets_success,
                  tx_num_packets_total := e.obj.data.tx_num_packets_total + 1,
                  tx_num_packets_low :=
                    e.obj.data.tx_num_packets_low + tx_mpdu.short_retry_count } } }
            else e)) ∧
    (wlan_mac_high_pkt_type d tx_mpdu.mpdu tx_mpdu.length = pkt_type_t.PKT_TYPE_MGMT →
      wlan_mac_high_update_tx_statistics d stat_tbl tx_mpdu (some st)
        = stat_tbl.map (fun e =>
            if e.data = st.stats then
              { e with obj := { e.obj with mgmt :=
                { rx_num_bytes := e.obj.mgmt.rx_num_bytes,
                  rx_num_packets := e.obj.mgmt.rx_num_packets,
                  tx_num_bytes_success :=
                    if tx_mpdu.tx_result = d.TX_MPDU_RESULT_SUCCESS then
                      e.obj.mgmt.tx_num_bytes_success + tx_mpdu.length
                    else e.obj.mgmt.tx_num_bytes_success,
                  tx_num_bytes_total := e.obj.mgmt.tx_num_bytes_total + tx_mpdu.length,
                  tx_num_packets_success :=
                    if tx_mpdu.tx_result = d.TX_MPDU_RESULT_SUCCESS then
                      e.obj.mgmt.tx_num_packets_success + 1
                    else e.obj.mgmt.tx_num_packets_success,
                  tx_num_packets_total := e.obj.mgmt.tx_num_packets_total + 1,
                  tx_num_packets_low :=
                    e.obj.mgmt.tx_num_packets_low + tx_mpdu.short_retry_count } } }
            else e)) := by
  have hupd : ∀ fs : frame_statistics_txrx, update_frame_stats d tx_mpdu fs
      = { rx_num_bytes := fs.rx_num_bytes,
          rx_num_packets := fs.rx_num_packets,
          tx_num_bytes_success :=
            if tx_mpdu.tx_result = d.TX_MPDU_RESULT_SUCCESS then
              fs.tx_num_bytes_success + tx_mpdu.length
            else fs.tx_num_bytes_success,
          tx_num_bytes_total := fs.tx_num_bytes_total + tx_mpdu.length,
          tx_num_packets_success :=
            if tx_mpdu.tx_result = d.TX_MPDU_RESULT_SUCCESS then fs.tx_num_packets_success + 1
            else fs.tx_num_packets_success,
          tx_num_packets_total := fs.tx_num_packets_total + 1,
          tx_num_packets_low := fs.tx_num_packets_low + tx_mpdu.short_retry_count } := by
    intro fs
    unfold update_frame_stats
    by_cases hr : tx_mpdu.tx_result = d.TX_MPDU_RESULT_SUCCESS <;> simp [hr]
  refine ⟨rfl, ?_, ?_, ?_⟩
  · intro h1 h2 h3
    unfold wlan_mac_high_update_tx_statistics
    cases hp : wlan_mac_high_pkt_type d tx_mpdu.mpdu tx_mpdu.length <;>
      first
        | rfl
        | exact absurd hp h1
        | exact absurd hp h2
        | exact absurd hp h3
  · intro hp
    unfold wlan_mac_high_update_tx_statistics
    rcases hp with hp | hp <;>
      (simp only [hp, stats_store]
       apply List.map_congr_left
       intro e _
       rw [hupd])
  · intro hp
    unfold wlan_mac_high_update_tx_statistics
    simp only [hp, stats_store]
    apply List.map_congr_left
    intro e _
    rw [hupd]

/-- Witness of C15: the table with one associated entry and two entries that
are not associated; after the reset only the associated entry is left, with
its counters zeroed. -/
theorem reset_statistics_effect_witness :
    (wlan_mac_high_reset_statistics mac_high_state_stats_inst).stat_tbl
      = [{ data := 500, obj := { addr := 31, is_associated := 1, latest_txrx_timestamp := 10,
                                 data := frame_statistics_txrx_zero,
                                 mgmt := frame_statistics_txrx_zero } }] ∧
    (wlan_mac_high_reset_statistics mac_high_state_stats_inst).stat_tbl
      = (mac_high_state_stats_inst.stat_tbl.filter
          (fun c => decide (c.obj.is_associated ≠ 0))).map
          (fun c => { data := c.data,
                      obj := { addr := c.obj.addr, is_associated := c.obj.is_associated,
                               latest_txrx_timestamp := c.obj.latest_txrx_timestamp,
                               data := frame_statistics_txrx_zero,
                               mgmt := frame_statistics_txrx_zero } }) :=
  ⟨by decide, (reset_statistics_effect mac_high_state_stats_inst).1⟩

/-- Witness of C16: a successful data frame (IP payload) of 100 bytes with two
short retries, for the station whose statistics structure is at address 501:
only the `data` group of that structure changes. -/
theorem update_tx_statistics_effect_witness :
    (wlan_mac_high_pkt_type defs_h_inst tx_mpdu_data_inst.mpdu tx_mpdu_data_inst.length
        = pkt_type_t.PKT_TYPE_DATA_ENCAP_ETH ∨
      wlan_mac_high_pkt_type defs_h_inst tx_mpdu_data_inst.mpdu tx_mpdu_data_inst.length
        = pkt_type_t.PKT_TYPE_DATA_ENCAP_LTG) ∧
    wlan_mac_high_update_tx_statistics defs_h_inst mac_high_state_stats_inst.stat_tbl
        tx_mpdu_data_inst (some { station_A_inst.obj with stats := 501 })
      = mac_high_state_stats_inst.stat_tbl.map (fun e =>
          if e.data = 501 then
            { e with obj := { e.obj with data :=
              { rx_num_bytes := e.obj.data.rx_num_bytes,
                rx_num_packets := e.obj.data.rx_num_packets,
                tx_num_bytes_success :=
                  if tx_mpdu_data_inst.tx_result = defs_h_inst.TX_MPDU_RESULT_SUCCESS then
                    e.obj.data.tx_num_bytes_success + tx_mpdu_data_inst.length
                  else e.obj.data.tx_num_bytes_success,
                tx_num_bytes_total := e.obj.data.tx_num_bytes_total + tx_mpdu_data_inst.length,
                tx_num_packets_success :=
                  if tx_mpdu_data_inst.tx_result = defs_h_inst.TX_MPDU_RESULT_SUCCESS then
                    e.obj.data.tx_num_packets_success + 1
                  else e.obj.data.tx_num_packets_success,
                tx_num_packets_total := e.obj.data.tx_num_packets_total + 1,
                tx_num_packets_low :=
                  e.obj.data.tx_num_packets_low + tx_mpdu_data_inst.short_retry_count } } }
          else e) ∧
    (wlan_mac_high_update_tx_statistics defs_h_inst mac_high_state_stats_inst.stat_tbl
        tx_mpdu_data_inst (some { station_A_inst.obj with stats := 501 })).map
        (fun e => (e.obj.addr, e.obj.data.tx_num_packets_total, e.obj.data.tx_num_bytes_total,
          e.obj.data.tx_num_packets_low, e.obj.data.tx_num_packets_success,
          e.obj.data.tx_num_bytes_success, e.obj.mgmt.rx_num_packets))
      = [(31, 7, 0, 0, 0, 0, 3), (32, 8, 100, 2, 1, 100, 3), (33, 7, 0, 0, 0, 0, 3)] :=
  ⟨by decide,
    (update_tx_statistics_effect defs_h_inst mac_high_state_stats_inst.stat_tbl
      tx_mpdu_data_inst { station_A_inst.obj with stats := 501 }).2.2.1 (by decide),
    rfl⟩

/-! ### `wlan_mac_high_is_valid_association` -/

/-- The return value of `wlan_mac_high_is_valid_association` is exact: 1 if
an entry of the table holds the station pointer, 0 otherwise; and the loop
reads `data` through a NULL entry pointer, once, exactly when the table is not
empty and no entry holds the station pointer. -/
theorem is_valid_association_spec (tbl : dl_list station_info) (station : Nat) :
    ((∃ e ∈ tbl, e.data = station) →
      wlan_mac_high_is_valid_association tbl station = (1, 0)) ∧
    ((∀ e ∈ tbl, e.data ≠ station) →
      wlan_mac_high_is_valid_association tbl station = (0, if tbl.isEmpty then 0 else 1)) := by
  unfold wlan_mac_high_is_valid_association
  induction tbl with
  | nil =>
    constructor
    · rintro ⟨e, he, _⟩; exact absurd he (List.not_mem_nil e)
    · intro _; rfl
  | cons c rest ih =>
    by_cases hc : station = c.data
    · constructor
      · intro _
        rw [is_valid_association_loop, if_pos hc]
      · intro hall
        exact absurd hc.symm (hall c (List.mem_cons_self _ _))
    · constructor
      · rintro ⟨e, he, hes⟩
        have her : e ∈ rest := by
          rcases List.mem_cons.mp he with he | he
          · subst he; exact absurd hes.symm hc
          · exact he
        rw [is_valid_association_loop, if_neg hc, ih.1 ⟨e, her, hes⟩]
        have hne : rest.isEmpty = false := by
          cases rest with
          | nil => exact absurd her (List.not_mem_nil e)
          | cons _ _ => rfl
        simp [hne]
      · intro hall
        rw [is_valid_association_loop, if_neg hc,
          ih.2 (fun e he => hall e (List.mem_cons_of_mem _ he))]
        cases rest with
        | nil => rfl
        | cons _ _ => rfl

/-- C17 at the failing input: for the table A@1, B@2 (station structures at
1001 and 1005) and the station pointer 7777, which no entry holds,
`wlan_mac_high_is_valid_association` returns 0 after it has read `data`
through the NULL entry pointer that follows the last entry; for a station
pointer that an entry holds (1005) it returns 1 without such a read, and so it
does, returning 0, on the empty table. -/
theorem is_valid_association_reads_past_end :
    mac_high_state_AB_inst.assoc_tbl.map (fun e => e.data) = [1001, 1005] ∧
    wlan_mac_high_is_valid_association mac_high_state_AB_inst.assoc_tbl 7777 = (0, 1) ∧
    (wlan_mac_high_is_valid_association mac_high_state_AB_inst.assoc_tbl 7777).2 ≠ 0 ∧
    wlan_mac_high_is_valid_association mac_high_state_AB_inst.assoc_tbl 1005 = (1, 0) ∧
    wlan_mac_high_is_valid_association [] 7777 = (0, 0) := by
  decide

/-! ### The bound invariant of the association table -/

theorem add_statistics_max (h : wlan_mac_high_h) (s : mac_high_state)
    (station : Option station_info) (addr : Nat) :
    (wlan_mac_high_add_statistics h s station addr).2.2.max_num_associations
      = s.max_num_associations := by
  unfold wlan_mac_high_add_statistics
  split
  · rfl
  · cases wlan_mac_high_find_statistics_ADDR s.stat_tbl addr with
    | mk found tbl1 =>
      cases found with
      | some e => rfl
      | none =>
        cases hm : wlan_mac_high_malloc s.heap with
        | mk r1 heap1 =>
          cases r1 with
          | none => rfl
          | some a =>
            cases hc : wlan_mac_high_calloc heap1 with
            | mk r2 heap2 =>
              cases r2 with
              | none => simp only [hc]
              | some b => simp only [hc]

/-- `wlan_mac_high_add_association` does not change `max_num_associations`. -/
theorem add_association_max (h : wlan_mac_high_h) (s : mac_high_state)
    (addr requested_AID : Nat) :
    (wlan_mac_high_add_association h s addr requested_AID).2.max_num_associations
      = s.max_num_associations := by
  unfold wlan_mac_high_add_association
  cases hby : (if requested_AID ≠ h.ADD_ASSOCIATION_ANY_AID then
      wlan_mac_high_find_station_info_AID s.assoc_tbl requested_AID else none) with
  | some r =>
    obtain ⟨i, entry⟩ := r
    simp only []
    split <;> rfl
  | none =>
    simp only []
    cases hfa : wlan_mac_high_find_station_info_ADDR s.assoc_tbl addr with
    | some r =>
      obtain ⟨i, entry⟩ := r
      rfl
    | none =>
      simp only []
      by_cases hlen : s.assoc_tbl.length ≥ s.max_num_associations
      · rw [if_pos hlen]
      · rw [if_neg hlen]
        cases hm1 : wlan_mac_high_malloc s.heap with
        | mk r1 heap1 =>
          cases r1 with
          | none => rfl
          | some a =>
            simp only []
            cases hm2 : wlan_mac_high_malloc heap1 with
            | mk r2 heap2 =>
              cases r2 with
              | none => rfl
              | some p =>
                simp only []
                have hat := add_statistics_max h { s with heap := heap2 }
                  (some { AID := 0, addr := 0, hostname0 := 0, flags := 0, rx_last_seq := 0,
                          tx := 0, rate_selection_scheme := 0, stats := 0 }) addr
                cases hs : wlan_mac_high_add_statistics h { s with heap := heap2 }
                  (some { AID := 0, addr := 0, hostname0 := 0, flags := 0, rx_last_seq := 0,
                          tx := 0, rate_selection_scheme := 0, stats := 0 }) addr with
                | mk r3 rest3 =>
                  obtain ⟨st3, s1⟩ := rest3
                  rw [hs] at hat
                  cases r3 with
                  | none => exact hat
                  | some station_stats => exact hat

/-- `wlan_mac_high_remove_association` does not change `max_num_associations`,
and the table after it is the old table or the old table without one entry. -/
theorem remove_association_frame (h : wlan_mac_high_h) (s : mac_high_state) (addr : Nat) :
    (wlan_mac_high_remove_association h s addr).2.max_num_associations
      = s.max_num_associations ∧
    List.Sublist (wlan_mac_high_remove_association h s addr).2.assoc_tbl s.assoc_tbl := by
  have hsub : ∀ pos, List.Sublist (dl_entry_remove s.assoc_tbl pos) s.assoc_tbl := by
    intro pos
    unfold dl_entry_remove
    exact List.eraseIdx_sublist _ _
  unfold wlan_mac_high_remove_association
  cases hf : wlan_mac_high_find_station_info_ADDR s.assoc_tbl addr with
  | none => exact ⟨rfl, List.Sublist.refl _⟩
  | some r =>
    obtain ⟨pos, entry⟩ := r
    simp only []
    split
    · split
      · exact ⟨rfl, hsub pos⟩
      · cases wlan_mac_high_find_statistics_ADDR s.stat_tbl addr with
        | mk found tbl1 =>
          cases found with
          | none => exact ⟨rfl, hsub pos⟩
          | some f => exact ⟨rfl, hsub pos⟩
    · exact ⟨rfl, List.Sublist.refl _⟩

theorem assoc_AIDs_cons (c : dl_entry station_info) (l : dl_list station_info) :
    assoc_AIDs (c :: l) = c.obj.AID :: assoc_AIDs l := rfl

theorem assoc_AIDs_append (l1 l2 : dl_list station_info) :
    assoc_AIDs (l1 ++ l2) = assoc_AIDs l1 ++ assoc_AIDs l2 := by
  unfold assoc_AIDs
  exact List.map_append _ _ _

/-- The loop for `ADD_ASSOCIATION_ANY_AID` on a table of 16-bit AIDs: it leaves
the station and the list as they are, or gives the station an AID other than 0
and inserts it once. -/
theorem add_association_any_loop_length (p : Nat) (st : station_info) :
    ∀ (l : dl_list station_info) (curr : Nat), (∀ a ∈ assoc_AIDs l, a < 65536) →
      add_association_any_loop p st l curr = (st, l) ∨
      ((add_association_any_loop p st l curr).1.AID ≠ 0 ∧
        (add_association_any_loop p st l curr).2.length = l.length + 1 ∧
        ∀ a ∈ assoc_AIDs (add_association_any_loop p st l curr).2, a < 65536) := by
  intro l
  induction l with
  | nil => intro curr _; left; rfl
  | cons c rest ih =>
    intro curr hb
    rw [assoc_AIDs_cons] at hb
    have hc : c.obj.AID < 65536 := hb _ (List.mem_cons_self _ _)
    have hrest : ∀ a ∈ assoc_AIDs rest, a < 65536 :=
      fun a ha => hb a (List.mem_cons_of_mem _ ha)
    by_cases hgap : ((c.obj.AID : Int) - (curr : Int)) > 1
    · right
      have hloop : add_association_any_loop p st (c :: rest) curr
          = ({ st with AID := (c.obj.AID - 1) % 65536 },
              { data := p, obj := { st with AID := (c.obj.AID - 1) % 65536 } } :: c :: rest) := by
        rw [add_association_any_loop, if_pos hgap]
      rw [hloop]
      have hmod : (c.obj.AID - 1) % 65536 = c.obj.AID - 1 := Nat.mod_eq_of_lt (by omega)
      refine ⟨?_, rfl, ?_⟩
      · show (c.obj.AID - 1) % 65536 ≠ 0
        rw [hmod]; omega
      · intro a ha
        rw [assoc_AIDs_cons, assoc_AIDs_cons] at ha
        rcases List.mem_cons.mp ha with ha | ha
        · rw [ha]
          show (c.obj.AID - 1) % 65536 < 65536
          omega
        · exact hb a ha
    · have hloop : add_association_any_loop p st (c :: rest) curr
          = ((add_association_any_loop p st rest c.obj.AID).1,
              c :: (add_association_any_loop p st rest c.obj.AID).2) := by
        rw [add_association_any_loop, if_neg hgap]
      rw [hloop]
      rcases ih c.obj.AID hrest with heq | ⟨h1, h2, h3⟩
      · left; rw [heq]
      · right
        refine ⟨h1, by rw [List.length_cons, h2, List.length_cons], ?_⟩
        intro a ha
        rw [assoc_AIDs_cons] at ha
        rcases List.mem_cons.mp ha with ha | ha
        · rw [ha]; exact hc
        · exact h3 a ha

/-- The AID set-up for `ADD_ASSOCIATION_ANY_AID` on a table of 16-bit AIDs makes
the table one entry longer and keeps the AIDs 16-bit. -/
theorem add_association_place_any_length (h : wlan_mac_high_h) (tbl : dl_list station_info)
    (p : Nat) (st : station_info) (hst : st.AID = 0)
    (hb : ∀ a ∈ assoc_AIDs tbl, a < 65536) :
    (add_association_place h tbl p st h.ADD_ASSOCIATION_ANY_AID).length = tbl.length + 1 ∧
    ∀ a ∈ assoc_AIDs (add_association_place h tbl p st h.ADD_ASSOCIATION_ANY_AID),
      a < 65536 := by
  unfold add_association_place
  rw [if_pos rfl]
  rcases add_association_any_loop_length p st tbl 0 hb with heq | ⟨h1, h2, h3⟩
  · simp only [heq, hst, if_true, dl_entry_insertEnd]
    refine ⟨by simp, ?_⟩
    intro a ha
    rw [assoc_AIDs_append] at ha
    rcases List.mem_append.mp ha with ha | ha
    · exact hb a ha
    · rw [assoc_AIDs_cons] at ha
      rcases List.mem_cons.mp ha with ha | ha
      · rw [ha]
        split
        · show 1 < 65536
          omega
        · split
          · rename_i last _
            show (last.obj.AID + 1) % 65536 < 65536
            omega
          · show st.AID < 65536
            omega
      · exact absurd ha (List.not_mem_nil a)
  · simp only [if_neg h1]
    exact ⟨h2, h3⟩

theorem assoc_count_larger_cons (c : dl_entry station_info) (l : dl_list station_info)
    (a : Nat) :
    assoc_count_larger (c :: l) a
      = assoc_count_larger l a + (if c.obj.AID > a then 1 else 0) := by
  unfold assoc_count_larger
  rw [List.countP_cons]
  by_cases hc : c.obj.AID > a
  · simp [hc]
  · simp [hc]

theorem assoc_count_larger_none (l : dl_list station_info) (a : Nat)
    (hall : ∀ x ∈ l, ¬ x.obj.AID > a) : assoc_count_larger l a = 0 := by
  unfold assoc_count_larger
  rw [List.countP_eq_zero]
  intro x hx
  simpa using hall x hx

theorem assoc_count_larger_append (l1 l2 : dl_list station_info) (a : Nat) :
    assoc_count_larger (l1 ++ l2) a = assoc_count_larger l1 a + assoc_count_larger l2 a := by
  unfold assoc_count_larger
  rw [List.countP_append]

/-- The loop for a requested 16-bit AID: when at most one entry has a larger
AID it makes the table longer by the number of these entries; the station has
the requested AID afterwards if there is such an entry; the AIDs stay
16-bit. -/
theorem add_association_requested_loop_length (p requested_AID : Nat)
    (hr : requested_AID < 65536) :
    ∀ (l : dl_list station_info) (st : station_info), (∀ a ∈ assoc_AIDs l, a < 65536) →
      (assoc_count_larger l requested_AID ≤ 1 →
        (add_association_requested_loop p requested_AID st l).2.length
          = l.length + assoc_count_larger l requested_AID) ∧
      (add_association_requested_loop p requested_AID st l).1.AID
        = (if assoc_count_larger l requested_AID = 0 then st.AID else requested_AID) ∧
      ∀ a ∈ assoc_AIDs (add_association_requested_loop p requested_AID st l).2,
        a < 65536 := by
  intro l st hb
  rcases add_association_requested_loop_walk p requested_AID l st with
    ⟨hall, heq⟩ | ⟨l1, m, c, l2, hl, hl1, hm, hc, hl2, heq⟩
  · have hcnt := assoc_count_larger_none l requested_AID hall
    rw [heq, hcnt]
    exact ⟨fun _ => rfl, rfl, hb⟩
  · have hcnt : assoc_count_larger l requested_AID
        = assoc_count_larger m requested_AID + 1 := by
      rw [hl, assoc_count_larger_append, assoc_count_larger_append, assoc_count_larger_cons,
        assoc_count_larger_none l1 requested_AID hl1,
        assoc_count_larger_none l2 requested_AID hl2, if_pos hc]
      omega
    rw [heq]
    refine ⟨?_, ?_, ?_⟩
    · intro hle
      have hm0 : m = [] := by
        cases m with
        | nil => rfl
        | cons d m1 =>
          exfalso
          have hd : d.obj.AID > requested_AID := hm d rfl
          rw [hcnt, assoc_count_larger_cons, if_pos hd] at hle
          omega
      subst hm0
      rw [hcnt, hl]
      simp only [List.append_nil, List.length_append, List.length_cons]
      have h0 : assoc_count_larger ([] : dl_list station_info) requested_AID = 0 := rfl
      rw [h0]
      omega
    · rw [hcnt, if_neg (Nat.succ_ne_zero _)]
    · intro a ha
      unfold assoc_AIDs at ha hb
      obtain ⟨x, hx, hxa⟩ := List.mem_map.mp ha
      rcases List.mem_append.mp hx with hx | hx
      · exact hb a (List.mem_map.mpr ⟨x, by
          rw [hl]; exact List.mem_append_left _ (List.mem_append_left _ hx), hxa⟩)
      · rcases List.mem_cons.mp hx with hx | hx
        · rw [← hxa, hx]; exact hr
        · exact hb a (List.mem_map.mpr ⟨x, by
            rw [hl]; exact List.mem_append_right _ hx, hxa⟩)

/-- The AID set-up for a requested 16-bit AID (not 0, not
`ADD_ASSOCIATION_ANY_AID`) that is smaller than the AID of at most one entry
makes the table one entry longer and keeps the AIDs 16-bit. -/
theorem add_association_place_requested_length (h : wlan_mac_high_h)
    (tbl : dl_list station_info) (p : Nat) (st : station_info) (requested_AID : Nat)
    (hst : st.AID = 0) (hr0 : requested_AID ≠ 0)
    (hany : requested_AID ≠ h.ADD_ASSOCIATION_ANY_AID) (hr : requested_AID < 65536)
    (hb : ∀ a ∈ assoc_AIDs tbl, a < 65536)
    (hcnt : assoc_count_larger tbl requested_AID ≤ 1) :
    (add_association_place h tbl p st requested_AID).length = tbl.length + 1 ∧
    ∀ a ∈ assoc_AIDs (add_association_place h tbl p st requested_AID), a < 65536 := by
  obtain ⟨h1, h2, h3⟩ := add_association_requested_loop_length p requested_AID hr tbl st hb
  unfold add_association_place
  rw [if_neg hany]
  by_cases hz : assoc_count_larger tbl requested_AID = 0
  · rw [if_pos hz] at h2
    have hz2 : (add_association_requested_loop p requested_AID st tbl).1.AID = 0 :=
      h2.trans hst
    have hall : ∀ x ∈ tbl, ¬ x.obj.AID > requested_AID := by
      intro x hx
      have := (List.countP_eq_zero.mp hz) x hx
      simpa using this
    simp only [hz2, if_true, dl_entry_insertEnd,
      add_association_requested_front_none requested_AID tbl hall]
    refine ⟨?_, ?_⟩
    · rw [List.length_append]
      rfl
    · intro a ha
      rw [assoc_AIDs_append] at ha
      rcases List.mem_append.mp ha with ha | ha
      · exact hb a ha
      · rw [assoc_AIDs_cons] at ha
        rcases List.mem_cons.mp ha with ha | ha
        · rw [ha]; exact hr
        · exact absurd ha (List.not_mem_nil a)
  · rw [if_neg hz] at h2
    have hz2 : ¬ (add_association_requested_loop p requested_AID st tbl).1.AID = 0 := by
      rw [h2]; exact hr0
    simp only [hz2, if_false]
    exact ⟨by rw [h1 hcnt]; omega, h3⟩

/-- No call raises `max_num_associations` above
`WLAN_MAC_HIGH_MAX_ASSOCIATONS`. -/
theorem assoc_step_max_le_cap (h : wlan_mac_high_h) (s : mac_high_state) (c : assoc_call)
    (hcap : s.max_num_associations ≤ h.WLAN_MAC_HIGH_MAX_ASSOCIATONS) :
    (assoc_step h s c).max_num_associations ≤ h.WLAN_MAC_HIGH_MAX_ASSOCIATONS := by
  cases c with
  | add addr r =>
    show (wlan_mac_high_add_association h s addr r).2.max_num_associations ≤ _
    rw [add_association_max]; exact hcap
  | remove addr =>
    show (wlan_mac_high_remove_association h s addr).2.max_num_associations ≤ _
    rw [(remove_association_frame h s addr).1]; exact hcap
  | set_max n =>
    show (wlan_mac_high_set_max_associations h s n).2.max_num_associations ≤ _
    unfold wlan_mac_high_set_max_associations
    split
    · show n ≤ _
      omega
    · exact Nat.le_refl _

theorem assoc_run_max_le_cap (h : wlan_mac_high_h) (calls : List assoc_call) :
    ∀ s : mac_high_state, s.max_num_associations ≤ h.WLAN_MAC_HIGH_MAX_ASSOCIATONS →
      (assoc_run h s calls).max_num_associations ≤ h.WLAN_MAC_HIGH_MAX_ASSOCIATONS := by
  induction calls with
  | nil => intro s hs; exact hs
  | cons c cs ih =>
    intro s hs
    exact ih _ (assoc_step_max_le_cap h s c hs)

/-- One call of `assoc_call_bounded` keeps the AIDs 16-bit and the length of
the table at most `max_num_associations`. -/
theorem assoc_step_keeps_bound (h : wlan_mac_high_h) (s : mac_high_state) (c : assoc_call)
    (hb : ∀ a ∈ assoc_AIDs s.assoc_tbl, a < 65536)
    (hlen : s.assoc_tbl.length ≤ s.max_num_associations)
    (hcap : s.max_num_associations ≤ h.WLAN_MAC_HIGH_MAX_ASSOCIATONS)
    (hc : assoc_call_bounded h s c) :
    (∀ a ∈ assoc_AIDs (assoc_step h s c).assoc_tbl, a < 65536) ∧
    (assoc_step h s c).assoc_tbl.length ≤ (assoc_step h s c).max_num_associations := by
  cases c with
  | add addr r =>
    show (∀ a ∈ assoc_AIDs (wlan_mac_high_add_association h s addr r).2.assoc_tbl, a < 65536) ∧
      (wlan_mac_high_add_association h s addr r).2.assoc_tbl.length
        ≤ (wlan_mac_high_add_association h s addr r).2.max_num_associations
    rw [add_association_max]
    rcases add_association_tbl_cases h s addr r with hsame | ⟨p, stats, _, htab, hlt, _, _⟩
    · rw [hsame]; exact ⟨hb, hlen⟩
    · rw [htab]
      have hpl : (add_association_place h s.assoc_tbl p (new_station_info h s addr stats)
            r).length = s.assoc_tbl.length + 1 ∧
          ∀ a ∈ assoc_AIDs (add_association_place h s.assoc_tbl p
            (new_station_info h s addr stats) r), a < 65536 := by
        by_cases hany : r = h.ADD_ASSOCIATION_ANY_AID
        · rw [hany]
          exact add_association_place_any_length h s.assoc_tbl p
            (new_station_info h s addr stats) rfl hb
        · have hc2 : r = h.ADD_ASSOCIATION_ANY_AID ∨
              (r ≠ 0 ∧ r < 65536 ∧ assoc_count_larger s.assoc_tbl r ≤ 1) := hc
          rcases hc2 with hc2 | ⟨hr0, hr, hcnt⟩
          · exact absurd hc2 hany
          · exact add_association_place_requested_length h s.assoc_tbl p
              (new_station_info h s addr stats) r rfl hr0 hany hr hb hcnt
      exact ⟨hpl.2, by rw [hpl.1]; omega⟩
  | remove addr =>
    show (∀ a ∈ assoc_AIDs (wlan_mac_high_remove_association h s addr).2.assoc_tbl,
        a < 65536) ∧
      (wlan_mac_high_remove_association h s addr).2.assoc_tbl.length
        ≤ (wlan_mac_high_remove_association h s addr).2.max_num_associations
    obtain ⟨hm, hsub⟩ := remove_association_frame h s addr
    rw [hm]
    refine ⟨?_, Nat.le_trans hsub.length_le hlen⟩
    intro a ha
    exact hb a ((hsub.map _).subset ha)
  | set_max n =>
    have hc2 : s.assoc_tbl.length ≤ n := hc
    show (∀ a ∈ assoc_AIDs (wlan_mac_high_set_max_associations h s n).2.assoc_tbl,
        a < 65536) ∧
      (wlan_mac_high_set_max_associations h s n).2.assoc_tbl.length
        ≤ (wlan_mac_high_set_max_associations h s n).2.max_num_associations
    unfold wlan_mac_high_set_max_associations
    split
    · exact ⟨hb, hc2⟩
    · refine ⟨hb, ?_⟩
      show s.assoc_tbl.length ≤ h.WLAN_MAC_HIGH_MAX_ASSOCIATONS
      omega

theorem assoc_run_keeps_bound (h : wlan_mac_high_h) (calls : List assoc_call) :
    ∀ s : mac_high_state, (∀ a ∈ assoc_AIDs s.assoc_tbl, a < 65536) →
      s.assoc_tbl.length ≤ s.max_num_associations →
      s.max_num_associations ≤ h.WLAN_MAC_HIGH_MAX_ASSOCIATONS →
      assoc_run_bounded h s calls →
      (assoc_run h s calls).assoc_tbl.length ≤ (assoc_run h s calls).max_num_associations := by
  induction calls with
  | nil => intro s _ hlen _ _; exact hlen
  | cons c cs ih =>
    intro s hb hlen hcap hrun
    obtain ⟨hc, hrest⟩ := hrun
    obtain ⟨hb1, hlen1⟩ := assoc_step_keeps_bound h s c hb hlen hcap hc
    exact ih _ hb1 hlen1 (assoc_step_max_le_cap h s c hcap) hrest

/-- C18, as stated, fails: from the empty table with the maximum at the cap
(8), two stations are added and then `wlan_mac_high_set_max_associations(1)`
is called; the state reached has a table of length 2 and
`max_num_associations = 1`. -/
theorem assoc_bound_broken_by_set_max :
    mac_high_state_empty_inst.assoc_tbl = [] ∧
    mac_high_state_empty_inst.max_num_associations
      = mac_high_h_inst.WLAN_MAC_HIGH_MAX_ASSOCIATONS ∧
    (assoc_run mac_high_h_inst mac_high_state_empty_inst
      [assoc_call.add 10 mac_high_h_inst.ADD_ASSOCIATION_ANY_AID,
       assoc_call.add 11 mac_high_h_inst.ADD_ASSOCIATION_ANY_AID,
       assoc_call.set_max 1]).assoc_tbl.length = 2 ∧
    (assoc_run mac_high_h_inst mac_high_state_empty_inst
      [assoc_call.add 10 mac_high_h_inst.ADD_ASSOCIATION_ANY_AID,
       assoc_call.add 11 mac_high_h_inst.ADD_ASSOCIATION_ANY_AID,
       assoc_call.set_max 1]).max_num_associations = 1 ∧
    ¬ ((assoc_run mac_high_h_inst mac_high_state_empty_inst
      [assoc_call.add 10 mac_high_h_inst.ADD_ASSOCIATION_ANY_AID,
       assoc_call.add 11 mac_high_h_inst.ADD_ASSOCIATION_ANY_AID,
       assoc_call.set_max 1]).assoc_tbl.length
      ≤ (assoc_run mac_high_h_inst mac_high_state_empty_inst
      [assoc_call.add 10 mac_high_h_inst.ADD_ASSOCIATION_ANY_AID,
       assoc_call.add 11 mac_high_h_inst.ADD_ASSOCIATION_ANY_AID,
       assoc_call.set_max 1]).max_num_associations) := by
  decide

/-- C18, amended: in every state reached from an empty table, with
`max_num_associations` at most `WLAN_MAC_HIGH_MAX_ASSOCIATONS` at the start, by
a sequence of add, remove and set-max calls, `max_num_associations` is at most
`WLAN_MAC_HIGH_MAX_ASSOCIATONS`; and the length of the table is at most
`max_num_associations` when every set-max call is made with a value that is
not below the length of the table at that moment and every add call is made
with `ADD_ASSOCIATION_ANY_AID` or with a 16-bit AID other than 0 that is
smaller than the AID of at most one entry. -/
theorem assoc_bound_invariant (h : wlan_mac_high_h) (s0 : mac_high_state)
    (calls : List assoc_call) (hempty : s0.assoc_tbl = [])
    (hcap : s0.max_num_associations ≤ h.WLAN_MAC_HIGH_MAX_ASSOCIATONS) :
    (assoc_run h s0 calls).max_num_associations ≤ h.WLAN_MAC_HIGH_MAX_ASSOCIATONS ∧
    (assoc_run_bounded h s0 calls →
      (assoc_run h s0 calls).assoc_tbl.length
        ≤ (assoc_run h s0 calls).max_num_associations) := by
  refine ⟨assoc_run_max_le_cap h calls s0 hcap, ?_⟩
  intro hrun
  apply assoc_run_keeps_bound h calls s0 _ _ hcap hrun
  · intro a ha
    rw [hempty] at ha
    exact absurd ha (List.not_mem_nil a)
  · rw [hempty]
    exact Nat.zero_le _

/-- Witness of the amended C18: from the empty table, three stations are added
(one with the requested AID 5, one with the requested AID 4, smaller than one
AID of the table), one is removed, the maximum is set to 2, the length of the
table at that moment, and a fourth add is refused: the table has 2 entries, the
maximum is 2 and the cap is 8. -/
theorem assoc_bound_invariant_witness :
    mac_high_state_empty_inst.assoc_tbl = [] ∧
    mac_high_state_empty_inst.max_num_associations
      ≤ mac_high_h_inst.WLAN_MAC_HIGH_MAX_ASSOCIATONS ∧
    assoc_run_bounded mac_high_h_inst mac_high_state_empty_inst
      [assoc_call.add 10 0, assoc_call.add 11 5, assoc_call.add 12 4,
       assoc_call.remove 10, assoc_call.set_max 2, assoc_call.add 14 0] ∧
    assoc_AIDs (assoc_run mac_high_h_inst mac_high_state_empty_inst
      [assoc_call.add 10 0, assoc_call.add 11 5, assoc_call.add 12 4,
       assoc_call.remove 10, assoc_call.set_max 2, assoc_call.add 14 0]).assoc_tbl = [4, 5] ∧
    (assoc_run mac_high_h_inst mac_high_state_empty_inst
      [assoc_call.add 10 0, assoc_call.add 11 5, assoc_call.add 12 4,
       assoc_call.remove 10, assoc_call.set_max 2, assoc_call.add 14 0]).max_num_associations
      ≤ mac_high_h_inst.WLAN_MAC_HIGH_MAX_ASSOCIATONS ∧
    (assoc_run mac_high_h_inst mac_high_state_empty_inst
      [assoc_call.add 10 0, assoc_call.add 11 5, assoc_call.add 12 4,
       assoc_call.remove 10, assoc_call.set_max 2, assoc_call.add 14 0]).assoc_tbl.length
      ≤ (assoc_run mac_high_h_inst mac_high_state_empty_inst
      [assoc_call.add 10 0, assoc_call.add 11 5, assoc_call.add 12 4,
       assoc_call.remove 10, assoc_call.set_max 2, assoc_call.add 14 0]).max_num_associations :=
  ⟨by decide, by decide, by decide, by decide,
    (assoc_bound_invariant mac_high_h_inst mac_high_state_empty_inst
      [assoc_call.add 10 0, assoc_call.add 11 5, assoc_call.add 12 4,
       assoc_call.remove 10, assoc_call.set_max 2, assoc_call.add 14 0]
      (by decide) (by decide)).1,
    (assoc_bound_invariant mac_high_h_inst mac_high_state_empty_inst
      [assoc_call.add 10 0, assoc_call.add 11 5, assoc_call.add 12 4,
       assoc_call.remove 10, assoc_call.set_max 2, assoc_call.add 14 0]
      (by decide) (by decide)).2 (by decide)⟩

/-! ### The range of the AIDs -/

/-- Adding with `ADD_ASSOCIATION_ANY_AID` to a table with strictly increasing
AIDs in `1..max_num_associations` keeps the AIDs in that range, when the
maximum is at most 65535. -/
theorem add_association_any_keeps_range (h : wlan_mac_high_h) (s : mac_high_state)
    (addr : Nat) (hs : assoc_sorted s.assoc_tbl)
    (hpos : ∀ a ∈ assoc_AIDs s.assoc_tbl, 0 < a ∧ a ≤ s.max_num_associations)
    (hmax : s.max_num_associations ≤ 65535) :
    ∀ a ∈ assoc_AIDs
        (wlan_mac_high_add_association h s addr h.ADD_ASSOCIATION_ANY_AID).2.assoc_tbl,
      0 < a ∧ a ≤ s.max_num_associations := by
  have hpos16 : ∀ a ∈ assoc_AIDs s.assoc_tbl, 0 < a ∧ a < 65536 := by
    intro a ha
    have := hpos a ha
    omega
  rcases add_association_tbl_cases h s addr h.ADD_ASSOCIATION_ANY_AID with hsame | hnew
  · rw [hsame]; exact hpos
  · obtain ⟨p, stats, _, htab, hlen, _, _⟩ := hnew
    rw [htab]
    rcases add_association_place_any h s.assoc_tbl p (new_station_info h s addr stats) rfl hs
      hpos16 (by omega) with ⟨_, hpl⟩ | ⟨l1, c, rest, hl, _, hg, hpl⟩
    · rw [hpl, assoc_AIDs_append]
      intro a ha
      rcases List.mem_append.mp ha with ha | ha
      · exact hpos a ha
      · rw [assoc_AIDs_cons] at ha
        rcases List.mem_cons.mp ha with ha | ha
        · rw [ha]
          show 0 < s.assoc_tbl.length + 1 ∧ s.assoc_tbl.length + 1 ≤ s.max_num_associations
          omega
        · exact absurd ha (List.not_mem_nil a)
    · have hcm : 0 < c.obj.AID ∧ c.obj.AID ≤ s.max_num_associations := by
        apply hpos
        rw [hl, assoc_AIDs_append, assoc_AIDs_cons]
        exact List.mem_append_right _ (List.mem_cons_self _ _)
      rw [hpl, assoc_AIDs_append, assoc_AIDs_cons]
      intro a ha
      rw [hl, assoc_AIDs_append] at hpos
      rcases List.mem_append.mp ha with ha | ha
      · exact hpos a (List.mem_append_left _ ha)
      · rcases List.mem_cons.mp ha with ha | ha
        · rw [ha]
          show 0 < c.obj.AID - 1 ∧ c.obj.AID - 1 ≤ s.max_num_associations
          omega
        · exact hpos a (List.mem_append_right _ ha)

/-- One add with `ADD_ASSOCIATION_ANY_AID` or one remove keeps the AIDs
strictly increasing and in `1..M`, and keeps the maximum `M`. -/
theorem assoc_step_keeps_range (h : wlan_mac_high_h) (s : mac_high_state) (c : assoc_call)
    (M : Nat) (hM : s.max_num_associations = M) (hM16 : M ≤ 65535)
    (hs : assoc_sorted s.assoc_tbl)
    (hpos : ∀ a ∈ assoc_AIDs s.assoc_tbl, 0 < a ∧ a ≤ M)
    (hc : assoc_call_any_or_remove h c) :
    (assoc_step h s c).max_num_associations = M ∧
    assoc_sorted (assoc_step h s c).assoc_tbl ∧
    ∀ a ∈ assoc_AIDs (assoc_step h s c).assoc_tbl, 0 < a ∧ a ≤ M := by
  cases c with
  | add addr r =>
    have hr : r = h.ADD_ASSOCIATION_ANY_AID := hc
    subst hr
    show (wlan_mac_high_add_association h s addr h.ADD_ASSOCIATION_ANY_AID).2.max_num_associations
        = M ∧
      assoc_sorted
        (wlan_mac_high_add_association h s addr h.ADD_ASSOCIATION_ANY_AID).2.assoc_tbl ∧
      ∀ a ∈ assoc_AIDs
          (wlan_mac_high_add_association h s addr h.ADD_ASSOCIATION_ANY_AID).2.assoc_tbl,
        0 < a ∧ a ≤ M
    refine ⟨by rw [add_association_max]; exact hM, ?_, ?_⟩
    · refine (add_association_any_keeps_sorted h s addr hs ?_ (by omega)).1
      intro a ha
      have := hpos a ha
      omega
    · have := add_association_any_keeps_range h s addr hs (by rw [hM]; exact hpos) (by omega)
      rw [hM] at this
      exact this
  | remove addr =>
    show (wlan_mac_high_remove_association h s addr).2.max_num_associations = M ∧
      assoc_sorted (wlan_mac_high_remove_association h s addr).2.assoc_tbl ∧
      ∀ a ∈ assoc_AIDs (wlan_mac_high_remove_association h s addr).2.assoc_tbl,
        0 < a ∧ a ≤ M
    obtain ⟨hm, hsub⟩ := remove_association_frame h s addr
    refine ⟨by rw [hm]; exact hM, remove_association_keeps_sorted h s addr hs, ?_⟩
    intro a ha
    exact hpos a ((hsub.map _).subset ha)
  | set_max n => exact absurd hc (by unfold assoc_call_any_or_remove; exact not_false)

theorem assoc_run_keeps_range (h : wlan_mac_high_h) (M : Nat) (hM16 : M ≤ 65535)
    (calls : List assoc_call) :
    ∀ s : mac_high_state, s.max_num_associations = M → assoc_sorted s.assoc_tbl →
      (∀ a ∈ assoc_AIDs s.assoc_tbl, 0 < a ∧ a ≤ M) →
      (∀ c ∈ calls, assoc_call_any_or_remove h c) →
      (assoc_run h s calls).max_num_associations = M ∧
      assoc_sorted (assoc_run h s calls).assoc_tbl ∧
      ∀ a ∈ assoc_AIDs (assoc_run h s calls).assoc_tbl, 0 < a ∧ a ≤ M := by
  induction calls with
  | nil => intro s hM hs hpos _; exact ⟨hM, hs, hpos⟩
  | cons c cs ih =>
    intro s hM hs hpos hcalls
    obtain ⟨h1, h2, h3⟩ := assoc_step_keeps_range h s c M hM hM16 hs hpos
      (hcalls c (List.mem_cons_self _ _))
    exact ih _ h1 h2 h3 (fun x hx => hcalls x (List.mem_cons_of_mem _ hx))

/-- C19. AID range: in every state reached from an empty association table by
adds with `ADD_ASSOCIATION_ANY_AID` and removes, with `max_num_associations`
equal to `M` at the start (`M` at most 65535, the largest value of the 16-bit
AID field), the maximum is still `M`, every AID of the table lies in `1..M`,
and no two entries have the same AID (the AIDs are strictly increasing by
position). -/
theorem assoc_AID_range (h : wlan_mac_high_h) (s0 : mac_high_state) (calls : List assoc_call)
    (M : Nat) (hempty : s0.assoc_tbl = []) (hM : s0.max_num_associations = M)
    (hM16 : M ≤ 65535) (hcalls : ∀ c ∈ calls, assoc_call_any_or_remove h c) :
    (assoc_run h s0 calls).max_num_associations = M ∧
    (∀ a ∈ assoc_AIDs (assoc_run h s0 calls).assoc_tbl, 1 ≤ a ∧ a ≤ M) ∧
    (assoc_AIDs (assoc_run h s0 calls).assoc_tbl).Nodup ∧
    assoc_sorted (assoc_run h s0 calls).assoc_tbl := by
  have hs0 : assoc_sorted s0.assoc_tbl := by
    rw [hempty]; exact List.Pairwise.nil
  have hp0 : ∀ a ∈ assoc_AIDs s0.assoc_tbl, 0 < a ∧ a ≤ M := by
    intro a ha
    rw [hempty] at ha
    exact absurd ha (List.not_mem_nil a)
  obtain ⟨h1, h2, h3⟩ := assoc_run_keeps_range h M hM16 calls s0 hM hs0 hp0 hcalls
  refine ⟨h1, h3, ?_, h2⟩
  unfold assoc_sorted at h2
  exact h2.imp (fun hlt => Nat.ne_of_lt hlt)

/-- Witness of C19: from the empty table with the maximum 8, stations 10 and
11 are added, station 10 is removed and station 12 is added: the AIDs of the
table are 1 and 2, in 1..8 and distinct. -/
theorem assoc_AID_range_witness :
    mac_high_state_empty_inst.assoc_tbl = [] ∧
    mac_high_state_empty_inst.max_num_associations = 8 ∧
    (∀ c ∈ [assoc_call.add 10 0, assoc_call.add 11 0, assoc_call.remove 10,
        assoc_call.add 12 0], assoc_call_any_or_remove mac_high_h_inst c) ∧
    assoc_AIDs (assoc_run mac_high_h_inst mac_high_state_empty_inst
      [assoc_call.add 10 0, assoc_call.add 11 0, assoc_call.remove 10,
        assoc_call.add 12 0]).assoc_tbl = [1, 2] ∧
    ((assoc_run mac_high_h_inst mac_high_state_empty_inst
      [assoc_call.add 10 0, assoc_call.add 11 0, assoc_call.remove 10,
        assoc_call.add 12 0]).max_num_associations = 8 ∧
    (∀ a ∈ assoc_AIDs (assoc_run mac_high_h_inst mac_high_state_empty_inst
      [assoc_call.add 10 0, assoc_call.add 11 0, assoc_call.remove 10,
        assoc_call.add 12 0]).assoc_tbl, 1 ≤ a ∧ a ≤ 8) ∧
    (assoc_AIDs (assoc_run mac_high_h_inst mac_high_state_empty_inst
      [assoc_call.add 10 0, assoc_call.add 11 0, assoc_call.remove 10,
        assoc_call.add 12 0]).assoc_tbl).Nodup ∧
    assoc_sorted (assoc_run mac_high_h_inst mac_high_state_empty_inst
      [assoc_call.add 10 0, assoc_call.add 11 0, assoc_call.remove 10,
        assoc_call.add 12 0]).assoc_tbl) :=
  ⟨by decide, by decide, by decide, by decide,
    assoc_AID_range mac_high_h_inst mac_high_state_empty_inst
      [assoc_call.add 10 0, assoc_call.add 11 0, assoc_call.remove 10, assoc_call.add 12 0]
      8 (by decide) (by decide) (by decide) (by decide)⟩

/-! ### The dispatcher loop -/

/-- A read from a mailbox that starts with the words of a valid message
returns `IPC_MBOX_SUCCESS` with that message and leaves the words that
follow. -/
theorem ipc_mailbox_read_msg_valid (h : wlan_mac_ipc_util_h) (m m0 : wlan_ipc_msg)
    (rest : List Nat) (hv : ipc_msg_valid h m) :
    ∃ m1, ipc_mailbox_read_msg h (ipc_msg_words m ++ rest) m0
        = some (ipc_mbox_status.IPC_MBOX_SUCCESS, rest, m1) ∧
      ipc_msg_view m1 = ipc_msg_view m := by
  obtain ⟨hwf, hdelim, hlen⟩ := hv
  have hst := ipc_msg_store_header_word m0 m hwf
  have hlen2 : (m.payload_ptr.take m.num_payload_words).length = m.num_payload_words := by
    simp [List.length_take]; exact hwf.2.2.2
  unfold ipc_msg_words
  by_cases h0 : m.num_payload_words > 0
  · refine ⟨{ m0 with msg_id := m.msg_id, num_payload_words := m.num_payload_words,
                      arg0 := m.arg0,
                      payload_ptr := store_words m0.payload_ptr
                        (m.payload_ptr.take m.num_payload_words) }, ?_, ?_⟩
    · have hrb := XMbox_ReadBlocking_append (m.payload_ptr.take m.num_payload_words) rest
        m.num_payload_words hlen2
      simp [ipc_mailbox_read_msg, XMbox_IsEmpty, XMbox_Read, XST_SUCCESS, hst, hdelim,
        Nat.not_lt.mpr hlen, h0, hrb]
    · have := store_words_take m0.payload_ptr (m.payload_ptr.take m.num_payload_words)
      rw [hlen2] at this
      unfold ipc_msg_view
      simp only [this]
  · have hz : m.num_payload_words = 0 := by omega
    refine ⟨{ m0 with msg_id := m.msg_id, num_payload_words := m.num_payload_words,
                      arg0 := m.arg0 }, ?_, ?_⟩
    · simp [ipc_mailbox_read_msg, XMbox_IsEmpty, XMbox_Read, XST_SUCCESS, hst, hdelim, hz]
    · unfold ipc_msg_view
      simp [hz]

/-- A read from an empty mailbox, or from a mailbox that starts with a header
word without the delimiter pattern, returns `IPC_MBOX_INVALID_MSG` and leaves
the mailbox empty. -/
theorem ipc_mailbox_read_msg_end (h : wlan_mac_ipc_util_h) (tail : List Nat) (m0 : wlan_ipc_msg)
    (htail : tail = [] ∨ ∃ w rest, tail = w :: rest ∧
      (w % 65536) &&& h.IPC_MBOX_MSG_ID_DELIM ≠ h.IPC_MBOX_MSG_ID_DELIM) :
    ∃ m1, ipc_mailbox_read_msg h tail m0
      = some (ipc_mbox_status.IPC_MBOX_INVALID_MSG, [], m1) := by
  rcases htail with hnil | ⟨w, rest, hcons, hbad⟩
  · subst hnil
    exact ⟨m0, by simp [ipc_mailbox_read_msg, XMbox_IsEmpty]⟩
  · subst hcons
    have hbad2 : (ipc_msg_store_header m0 w).msg_id &&& h.IPC_MBOX_MSG_ID_DELIM
        ≠ h.IPC_MBOX_MSG_ID_DELIM := hbad
    exact ⟨ipc_msg_store_header m0 w, by
      simp [ipc_mailbox_read_msg, XMbox_IsEmpty, XMbox_Read, XST_SUCCESS, XMbox_Flush, hbad2]⟩

theorem ipc_msgs_words_length (msgs : List wlan_ipc_msg) :
    msgs.length ≤ (ipc_msgs_words msgs).length := by
  induction msgs with
  | nil => exact Nat.le_refl _
  | cons m ms ih =>
    unfold ipc_msgs_words ipc_msg_words
    simp only [List.length_cons, List.length_append]
    omega

/-- The loop of the dispatcher on a mailbox made of valid messages, followed by
nothing or by a header without the delimiter pattern: with enough iterations it
ends with an empty mailbox after it has passed the messages, in order. -/
theorem ipc_rx_loop_valid {σ : Type} (h : wlan_mac_ipc_util_h)
    (process : wlan_ipc_msg → σ → Option σ)
    (hproc : ∀ m st, ∃ st1, process m st = some st1) (tail : List Nat)
    (htail : tail = [] ∨ ∃ w rest, tail = w :: rest ∧
      (w % 65536) &&& h.IPC_MBOX_MSG_ID_DELIM ≠ h.IPC_MBOX_MSG_ID_DELIM) :
    ∀ (msgs : List wlan_ipc_msg), (∀ m ∈ msgs, ipc_msg_valid h m) →
      ∀ (fuel : Nat) (m0 : wlan_ipc_msg) (st : σ) (passed : List wlan_ipc_msg),
        msgs.length + 1 ≤ fuel →
        ∃ m1 st1 new,
          wlan_mac_high_ipc_rx_loop h process fuel (ipc_msgs_words msgs ++ tail) m0 st passed
            = some ([], m1, st1, passed ++ new) ∧
          new.map ipc_msg_view = msgs.map ipc_msg_view := by
  intro msgs
  induction msgs with
  | nil =>
    intro _ fuel m0 st passed hfuel
    obtain ⟨f, hf⟩ : ∃ f, fuel = f + 1 :=
      ⟨fuel - 1, by simp only [List.length_nil] at hfuel; omega⟩
    subst hf
    obtain ⟨m1, hread⟩ := ipc_mailbox_read_msg_end h tail m0 htail
    refine ⟨m1, st, [], ?_, rfl⟩
    show wlan_mac_high_ipc_rx_loop h process (f + 1) tail m0 st passed = _
    rw [wlan_mac_high_ipc_rx_loop, hread]
    simp
  | cons m ms ih =>
    intro hvalid fuel m0 st passed hfuel
    obtain ⟨f, hf⟩ : ∃ f, fuel = f + 1 :=
      ⟨fuel - 1, by simp only [List.length_cons] at hfuel; omega⟩
    subst hf
    have hmb : ipc_msgs_words (m :: ms) ++ tail
        = ipc_msg_words m ++ (ipc_msgs_words ms ++ tail) := by
      show (ipc_msg_words m ++ ipc_msgs_words ms) ++ tail = _
      rw [List.append_assoc]
    obtain ⟨m1, hread, hview⟩ := ipc_mailbox_read_msg_valid h m m0 (ipc_msgs_words ms ++ tail)
      (hvalid m (List.mem_cons_self _ _))
    obtain ⟨st1, hp⟩ := hproc m1 st
    obtain ⟨m2, st2, new, hloop, hnew⟩ := ih (fun x hx => hvalid x (List.mem_cons_of_mem _ hx))
      f m1 st1 (passed ++ [m1]) (by simp only [List.length_cons] at hfuel; omega)
    refine ⟨m2, st2, m1 :: new, ?_, ?_⟩
    · rw [hmb, wlan_mac_high_ipc_rx_loop, hread]
      simp only [if_true, hp]
      rw [hloop, List.append_assoc]
      rfl
    · rw [List.map_cons, List.map_cons, hview, hnew]

/-- C20, as stated, fails: the mailbox holds a header word without the
delimiter (`0`) followed by a complete valid message (header `0xF001`, no
payload); `wlan_mac_high_ipc_rx` returns with the mailbox empty and has passed
no message to `wlan_mac_high_process_ipc_msg` (the state, a count of the
messages processed, is still 0).  And after a header with the delimiter and
more payload words than `IPC_BUFFER_MAX_NUM_WORDS` (here 101 > 100, with its
101 payload words) the function returns with the valid message that follows
still in the mailbox. -/
theorem ipc_rx_skips_valid_after_bad_delim :
    ipc_msg_valid ipc_util_h_inst
      { msg_id := 61441, num_payload_words := 0, arg0 := 0, payload_ptr := [] } ∧
    ipc_msg_words { msg_id := 61441, num_payload_words := 0, arg0 := 0, payload_ptr := [] }
      = [61441] ∧
    (wlan_mac_high_ipc_rx ipc_util_h_inst (fun _ n => some (n + 1)) [0, 61441]
        ipc_msg_rx_inst 0).map (fun r => (r.1, r.2.2.1, r.2.2.2))
      = some ([], 0, []) ∧
    (wlan_mac_high_ipc_rx ipc_util_h_inst (fun _ n => some (n + 1))
        ((61441 + 65536 * 101) :: (List.replicate 101 0 ++ [61441]))
        ipc_msg_rx_inst 0).map (fun r => (r.1, r.2.2.1, r.2.2.2))
      = some ([61441], 0, []) := by
  decide

/-- C20, amended: for a mailbox content made of valid messages, followed by
nothing or by a header word without the delimiter pattern and any words, and a
`wlan_mac_high_process_ipc_msg` that returns, `wlan_mac_high_ipc_rx` returns
with the mailbox empty after it has passed the valid messages that precede the
header without delimiter to `wlan_mac_high_process_ipc_msg`, each once and in
arrival order; what follows that header is discarded. -/
theorem ipc_rx_drains_valid {σ : Type} (h : wlan_mac_ipc_util_h)
    (process : wlan_ipc_msg → σ → Option σ)
    (hproc : ∀ m st, ∃ st1, process m st = some st1)
    (msgs : List wlan_ipc_msg) (hvalid : ∀ m ∈ msgs, ipc_msg_valid h m) (tail : List Nat)
    (htail : tail = [] ∨ ∃ w rest, tail = w :: rest ∧
      (w % 65536) &&& h.IPC_MBOX_MSG_ID_DELIM ≠ h.IPC_MBOX_MSG_ID_DELIM)
    (m0 : wlan_ipc_msg) (st : σ) :
    ∃ m1 st1 passed,
      wlan_mac_high_ipc_rx h process (ipc_msgs_words msgs ++ tail) m0 st
        = some ([], m1, st1, passed) ∧
      passed.map ipc_msg_view = msgs.map ipc_msg_view := by
  unfold wlan_mac_high_ipc_rx
  obtain ⟨m1, st1, new, hloop, hnew⟩ := ipc_rx_loop_valid h process hproc tail htail msgs hvalid
    ((ipc_msgs_words msgs ++ tail).length + 1) m0 st [] (by
      have := ipc_msgs_words_length msgs
      rw [List.length_append]
      omega)
  exact ⟨m1, st1, new, by rw [hloop, List.nil_append], hnew⟩

/-- Witness of the amended C20: two valid messages (one with two payload
words), then a header without the delimiter (`0`) and a further word; the
dispatcher returns with the mailbox empty and has processed the two valid
messages, in order. -/
theorem ipc_rx_drains_valid_witness :
    (∀ m st, ∃ st1, process_ipc_msg_inst m st = some st1) ∧
    (∀ m ∈ [ipc_msg_tx_inst, ipc_msg_tx2_inst], ipc_msg_valid ipc_util_h_inst m) ∧
    ipc_msgs_words [ipc_msg_tx_inst, ipc_msg_tx2_inst] ++ [0, 61441]
      = [61441 + 65536 * 2 + 16777216 * 7, 11, 22, 61442 + 16777216, 0, 61441] ∧
    (wlan_mac_high_ipc_rx ipc_util_h_inst process_ipc_msg_inst
        (ipc_msgs_words [ipc_msg_tx_inst, ipc_msg_tx2_inst] ++ [0, 61441])
        ipc_msg_rx_inst []).map (fun r => (r.1, r.2.2.1, r.2.2.2.map ipc_msg_view))
      = some ([], [61441, 61442], [(61441, 2, 7, [11, 22]), (61442, 0, 1, [])]) ∧
    ∃ m1 st1 passed,
      wlan_mac_high_ipc_rx ipc_util_h_inst process_ipc_msg_inst
          (ipc_msgs_words [ipc_msg_tx_inst, ipc_msg_tx2_inst] ++ [0, 61441])
          ipc_msg_rx_inst []
        = some ([], m1, st1, passed) ∧
      passed.map ipc_msg_view = [ipc_msg_tx_inst, ipc_msg_tx2_inst].map ipc_msg_view :=
  ⟨fun _ _ => ⟨_, rfl⟩, by decide, by decide, rfl,
    ipc_rx_drains_valid ipc_util_h_inst process_ipc_msg_inst (fun _ _ => ⟨_, rfl⟩)
      [ipc_msg_tx_inst, ipc_msg_tx2_inst] (by decide) [0, 61441]
      (Or.inr ⟨0, [61441], rfl, by decide⟩) ipc_msg_rx_inst []⟩

/-! ### Error handling of the mailbox transport -/

theorem ipc_mailbox_trash_append (ws rest : List Nat) :
    ipc_mailbox_trash ws.length (ws ++ rest) = some rest := by
  induction ws with
  | nil => rfl
  | cons w ws ih =>
    show ipc_mailbox_trash (ws.length + 1) (w :: (ws ++ rest)) = some rest
    rw [ipc_mailbox_trash]
    have hrb : XMbox_ReadBlocking (w :: (ws ++ rest)) 4 = some ([w], ws ++ rest) := by
      unfold XMbox_ReadBlocking
      simp
    rw [hrb]
    exact ih

/-- C21. Resynchronisation after an oversize header: when the mailbox holds a
header word with the delimiter pattern and `num_payload_words = n` greater than
`IPC_BUFFER_MAX_NUM_WORDS`, followed by `n` words and then by `rest`,
`ipc_mailbox_read_msg` returns `IPC_MBOX_INVALID_MSG`, leaves exactly `rest` in
the mailbox, stores only the header into the message struct (the payload
buffer is as before), and if `rest` starts with a valid message the next
`ipc_mailbox_read_msg` returns it with `IPC_MBOX_SUCCESS`. -/
theorem ipc_mailbox_read_oversize_resync (h : wlan_mac_ipc_util_h) (w : Nat)
    (ws rest : List Nat) (m0 : wlan_ipc_msg)
    (hdelim : (w % 65536) &&& h.IPC_MBOX_MSG_ID_DELIM = h.IPC_MBOX_MSG_ID_DELIM)
    (hover : (w / 65536) % 256 > h.IPC_BUFFER_MAX_NUM_WORDS)
    (hws : ws.length = (w / 65536) % 256) :
    ipc_mailbox_read_msg h (w :: (ws ++ rest)) m0
      = some (ipc_mbox_status.IPC_MBOX_INVALID_MSG, rest, ipc_msg_store_header m0 w) ∧
    (ipc_msg_store_header m0 w).payload_ptr = m0.payload_ptr ∧
    ∀ (m : wlan_ipc_msg) (rest2 : List Nat), ipc_msg_valid h m →
      rest = ipc_msg_words m ++ rest2 →
      ∃ m1, ipc_mailbox_read_msg h rest (ipc_msg_store_header m0 w)
          = some (ipc_mbox_status.IPC_MBOX_SUCCESS, rest2, m1) ∧
        ipc_msg_view m1 = ipc_msg_view m := by
  refine ⟨?_, rfl, ?_⟩
  · have hd2 : (ipc_msg_store_header m0 w).msg_id &&& h.IPC_MBOX_MSG_ID_DELIM
        = h.IPC_MBOX_MSG_ID_DELIM := hdelim
    have ho2 : (ipc_msg_store_header m0 w).num_payload_words > h.IPC_BUFFER_MAX_NUM_WORDS :=
      hover
    have hn : (ipc_msg_store_header m0 w).num_payload_words = ws.length := hws.symm
    have htr := ipc_mailbox_trash_append ws rest
    rw [← hn] at htr
    simp [ipc_mailbox_read_msg, XMbox_IsEmpty, XMbox_Read, XST_SUCCESS, hd2, ho2, htr]
  · intro m rest2 hv hrest
    rw [hrest]
    exact ipc_mailbox_read_msg_valid h m (ipc_msg_store_header m0 w) rest2 hv

/-- Witness of C21: a header with the delimiter and 101 payload words (the
maximum is 100), its 101 words, and then the valid message `0xF002`; the first
read returns `IPC_MBOX_INVALID_MSG` and leaves the valid message, the second
read returns it. -/
theorem ipc_mailbox_read_oversize_resync_witness :
    ((61441 + 65536 * 101) % 65536) &&& ipc_util_h_inst.IPC_MBOX_MSG_ID_DELIM
      = ipc_util_h_inst.IPC_MBOX_MSG_ID_DELIM ∧
    ((61441 + 65536 * 101) / 65536) % 256 > ipc_util_h_inst.IPC_BUFFER_MAX_NUM_WORDS ∧
    (List.replicate 101 5).length = ((61441 + 65536 * 101) / 65536) % 256 ∧
    ipc_msg_valid ipc_util_h_inst ipc_msg_tx2_inst ∧
    ipc_mailbox_read_msg ipc_util_h_inst
        ((61441 + 65536 * 101) :: (List.replicate 101 5 ++ ipc_msg_words ipc_msg_tx2_inst))
        ipc_msg_rx_inst
      = some (ipc_mbox_status.IPC_MBOX_INVALID_MSG, ipc_msg_words ipc_msg_tx2_inst,
          ipc_msg_store_header ipc_msg_rx_inst (61441 + 65536 * 101)) ∧
    (ipc_msg_store_header ipc_msg_rx_inst (61441 + 65536 * 101)).payload_ptr
      = ipc_msg_rx_inst.payload_ptr ∧
    ∃ m1, ipc_mailbox_read_msg ipc_util_h_inst (ipc_msg_words ipc_msg_tx2_inst)
          (ipc_msg_store_header ipc_msg_rx_inst (61441 + 65536 * 101))
        = some (ipc_mbox_status.IPC_MBOX_SUCCESS, [], m1) ∧
      ipc_msg_view m1 = ipc_msg_view ipc_msg_tx2_inst :=
  ⟨by decide, by decide, by decide, by decide,
    (ipc_mailbox_read_oversize_resync ipc_util_h_inst (61441 + 65536 * 101)
      (List.replicate 101 5) (ipc_msg_words ipc_msg_tx2_inst) ipc_msg_rx_inst
      (by decide) (by decide) (by decide)).1,
    (ipc_mailbox_read_oversize_resync ipc_util_h_inst (61441 + 65536 * 101)
      (List.replicate 101 5) (ipc_msg_words ipc_msg_tx2_inst) ipc_msg_rx_inst
      (by decide) (by decide) (by decide)).2.1,
    (ipc_mailbox_read_oversize_resync ipc_util_h_inst (61441 + 65536 * 101)
      (List.replicate 101 5) (ipc_msg_words ipc_msg_tx2_inst) ipc_msg_rx_inst
      (by decide) (by decide) (by decide)).2.2 ipc_msg_tx2_inst [] (by decide)
      (List.append_nil _).symm⟩

/-- The controller after `wlan_mac_high_interrupt_stop` followed by
`wlan_mac_high_interrupt_restore_state` with the value the stop returned:
`IsReady` is unchanged, a ready controller is started exactly if
`interrupt_state` said enabled, a controller that is not ready is untouched. -/
theorem interrupt_stop_restore_controller (ic : intc_state) :
    (wlan_mac_high_interrupt_restore_state (wlan_mac_high_interrupt_stop ic).2
        (wlan_mac_high_interrupt_stop ic).1).2.IsReady = ic.IsReady ∧
    (ic.IsReady = true →
      ((wlan_mac_high_interrupt_restore_state (wlan_mac_high_interrupt_stop ic).2
          (wlan_mac_high_interrupt_stop ic).1).2.IsStarted = true ↔
        ic.interrupt_state = interrupt_state_t.INTERRUPTS_ENABLED)) ∧
    (ic.IsReady = false →
      (wlan_mac_high_interrupt_restore_state (wlan_mac_high_interrupt_stop ic).2
          (wlan_mac_high_interrupt_stop ic).1).2.IsStarted = ic.IsStarted) := by
  obtain ⟨st, r, t⟩ := ic
  cases st <;> cases r <;> cases t <;> decide

/-- C22, as stated, fails: inside `MailboxIntrHandler` the controller has been
stopped while the variable `interrupt_state` still says enabled.  A write from
that state returns `IPC_MBOX_SUCCESS` and starts the controller:
`wlan_mac_high_interrupt_stop` finds it stopped and leaves it alone, and
`wlan_mac_high_interrupt_restore_state` calls `XIntc_Start`.  The interrupt
state after the write is not the one the write found. -/
theorem ipc_mailbox_write_restarts_controller :
    (ipc_mailbox_write_msg ipc_util_h_inst intc_state_isr_inst [9] ipc_msg_tx_inst).1
      = ipc_mbox_status.IPC_MBOX_SUCCESS ∧
    intc_state_isr_inst.IsStarted = false ∧
    (ipc_mailbox_write_msg ipc_util_h_inst intc_state_isr_inst [9] ipc_msg_tx_inst).2.1.IsStarted
      = true ∧
    (ipc_mailbox_write_msg ipc_util_h_inst intc_state_isr_inst [9] ipc_msg_tx_inst).2.1
      ≠ intc_state_isr_inst := by
  decide

/-- C22, amended: `ipc_mailbox_write_msg` returns
`IPC_MBOX_INVALID_MSG` if and only if `msg_id` lacks the delimiter pattern or
`num_payload_words` exceeds `IPC_BUFFER_MAX_NUM_WORDS`, and then neither the
mailbox nor the interrupt state changes.  Otherwise it returns
`IPC_MBOX_SUCCESS`, the variable `interrupt_state` has the value it had before,
and the interrupt controller is as before when the variable and the controller
agreed before the call; in every case `IsReady` is unchanged and a ready
controller is started after the call exactly if `interrupt_state` said enabled
before it.  The payload buffer holding `num_payload_words` words, the mailbox
has grown by the header word followed by these payload words in order,
`1 + num_payload_words` words in all. -/
theorem ipc_mailbox_write_validation (h : wlan_mac_ipc_util_h) (ic : intc_state)
    (mbox : XMbox) (msg : wlan_ipc_msg) :
    ((ipc_mailbox_write_msg h ic mbox msg).1 = ipc_mbox_status.IPC_MBOX_INVALID_MSG ↔
      (msg.msg_id &&& h.IPC_MBOX_MSG_ID_DELIM ≠ h.IPC_MBOX_MSG_ID_DELIM ∨
        msg.num_payload_words > h.IPC_BUFFER_MAX_NUM_WORDS)) ∧
    ((ipc_mailbox_write_msg h ic mbox msg).1 = ipc_mbox_status.IPC_MBOX_INVALID_MSG →
      (ipc_mailbox_write_msg h ic mbox msg).2 = (ic, mbox)) ∧
    ((ipc_mailbox_write_msg h ic mbox msg).1 ≠ ipc_mbox_status.IPC_MBOX_INVALID_MSG →
      (ipc_mailbox_write_msg h ic mbox msg).1 = ipc_mbox_status.IPC_MBOX_SUCCESS ∧
      (ipc_mailbox_write_msg h ic mbox msg).2.1.interrupt_state = ic.interrupt_state ∧
      ((ic.IsReady = true →
          (ic.IsStarted = true ↔
            ic.interrupt_state = interrupt_state_t.INTERRUPTS_ENABLED)) →
        (ipc_mailbox_write_msg h ic mbox msg).2.1 = ic) ∧
      ((ipc_mailbox_write_msg h ic mbox msg).2.1.IsReady = ic.IsReady ∧
        (ic.IsReady = true →
          ((ipc_mailbox_write_msg h ic mbox msg).2.1.IsStarted = true ↔
            ic.interrupt_state = interrupt_state_t.INTERRUPTS_ENABLED)) ∧
        (ic.IsReady = false →
          (ipc_mailbox_write_msg h ic mbox msg).2.1.IsStarted = ic.IsStarted)) ∧
      (msg.num_payload_words ≤ msg.payload_ptr.length →
        (ipc_mailbox_write_msg h ic mbox msg).2.2
          = mbox ++ ipc_msg_header_word msg :: msg.payload_ptr.take msg.num_payload_words ∧
        (ipc_mailbox_write_msg h ic mbox msg).2.2.length
          = mbox.length + (1 + msg.num_payload_words))) := by
  by_cases hd : msg.msg_id &&& h.IPC_MBOX_MSG_ID_DELIM ≠ h.IPC_MBOX_MSG_ID_DELIM
  · have hw : ipc_mailbox_write_msg h ic mbox msg
        = (ipc_mbox_status.IPC_MBOX_INVALID_MSG, ic, mbox) := by
      unfold ipc_mailbox_write_msg
      rw [if_pos hd]
    rw [hw]
    exact ⟨⟨fun _ => Or.inl hd, fun _ => rfl⟩, fun _ => rfl, fun hne => absurd rfl hne⟩
  · by_cases hn : msg.num_payload_words > h.IPC_BUFFER_MAX_NUM_WORDS
    · have hw : ipc_mailbox_write_msg h ic mbox msg
          = (ipc_mbox_status.IPC_MBOX_INVALID_MSG, ic, mbox) := by
        unfold ipc_mailbox_write_msg
        rw [if_neg hd, if_pos hn]
      rw [hw]
      exact ⟨⟨fun _ => Or.inr hn, fun _ => rfl⟩, fun _ => rfl, fun hne => absurd rfl hne⟩
    · have hw : ipc_mailbox_write_msg h ic mbox msg
          = (ipc_mbox_status.IPC_MBOX_SUCCESS,
              (wlan_mac_high_interrupt_restore_state (wlan_mac_high_interrupt_stop ic).2
                (wlan_mac_high_interrupt_stop ic).1).2,
              mbox ++ ipc_msg_header_word msg :: msg.payload_ptr.take msg.num_payload_words) := by
        unfold ipc_mailbox_write_msg
        rw [if_neg hd, if_neg hn]
        by_cases h0 : msg.num_payload_words > 0
        · simp [XMbox_WriteBlocking, h0]
        · have hz : msg.num_payload_words = 0 := by omega
          simp [XMbox_WriteBlocking, hz]
      rw [hw]
      refine ⟨⟨fun hi => (by cases hi), fun ho => ?_⟩, fun hi => (by cases hi), fun _ => ?_⟩
      · rcases ho with ho | ho
        · exact absurd ho hd
        · exact absurd ho hn
      · refine ⟨rfl, ?_, ?_, ?_, ?_⟩
        · obtain ⟨st, r, t⟩ := ic
          cases st <;> cases r <;> cases t <;> rfl
        · intro hc
          obtain ⟨st, r, t⟩ := ic
          cases st <;> cases r <;> cases t <;> first | rfl | (exfalso; revert hc; decide)
        · exact interrupt_stop_restore_controller ic
        · intro hlen
          refine ⟨rfl, ?_⟩
          simp only [List.length_append, List.length_cons, List.length_take]
          omega

/-- Witness of C22: a message with the delimiter and two payload words is
written behind one word that is in the mailbox, with interrupts enabled; a
message without the delimiter; and the write from the state inside
`MailboxIntrHandler`, which leaves the ready controller started. -/
theorem ipc_mailbox_write_validation_witness :
    (ipc_mailbox_write_msg ipc_util_h_inst intc_state_inst [9] ipc_msg_tx_inst).1
      ≠ ipc_mbox_status.IPC_MBOX_INVALID_MSG ∧
    (intc_state_inst.IsReady = true →
      (intc_state_inst.IsStarted = true ↔
        intc_state_inst.interrupt_state = interrupt_state_t.INTERRUPTS_ENABLED)) ∧
    ipc_msg_tx_inst.num_payload_words ≤ ipc_msg_tx_inst.payload_ptr.length ∧
    (ipc_mailbox_write_msg ipc_util_h_inst intc_state_inst [9] ipc_msg_tx_inst).1
      = ipc_mbox_status.IPC_MBOX_SUCCESS ∧
    (ipc_mailbox_write_msg ipc_util_h_inst intc_state_inst [9] ipc_msg_tx_inst).2.1
      = intc_state_inst ∧
    (ipc_mailbox_write_msg ipc_util_h_inst intc_state_inst [9] ipc_msg_tx_inst).2.2
      = [9, 61441 + 65536 * 2 + 16777216 * 7, 11, 22] ∧
    ((ipc_mailbox_write_msg ipc_util_h_inst intc_state_inst [9]
        { ipc_msg_tx_inst with msg_id := 1 }).1 = ipc_mbox_status.IPC_MBOX_INVALID_MSG →
      (ipc_mailbox_write_msg ipc_util_h_inst intc_state_inst [9]
        { ipc_msg_tx_inst with msg_id := 1 }).2 = (intc_state_inst, [9])) ∧
    (ipc_mailbox_write_msg ipc_util_h_inst intc_state_isr_inst [9] ipc_msg_tx_inst).1
      ≠ ipc_mbox_status.IPC_MBOX_INVALID_MSG ∧
    intc_state_isr_inst.IsReady = true ∧
    ((ipc_mailbox_write_msg ipc_util_h_inst intc_state_isr_inst [9]
        ipc_msg_tx_inst).2.1.IsStarted = true ↔
      intc_state_isr_inst.interrupt_state = interrupt_state_t.INTERRUPTS_ENABLED) :=
  ⟨by decide, by decide, by decide,
    ((ipc_mailbox_write_validation ipc_util_h_inst intc_state_inst [9] ipc_msg_tx_inst).2.2
      (by decide)).1,
    ((ipc_mailbox_write_validation ipc_util_h_inst intc_state_inst [9] ipc_msg_tx_inst).2.2
      (by decide)).2.2.1 (by decide),
    by decide,
    (ipc_mailbox_write_validation ipc_util_h_inst intc_state_inst [9]
      { ipc_msg_tx_inst with msg_id := 1 }).2.1,
    by decide, by decide,
    ((ipc_mailbox_write_validation ipc_util_h_inst intc_state_isr_inst [9] ipc_msg_tx_inst).2.2
      (by decide)).2.2.2.1.2.1 (by decide)⟩

/-! ### Release of a transmit slot and index validation of the lock layer -/

theorem and_254_testBit (busy : Nat) (hb : busy < 256) :
    (busy &&& 254).testBit 0 = false ∧
    ∀ k, k ≠ 0 → (busy &&& 254).testBit k = busy.testBit k := by
  constructor
  · rw [Nat.testBit_and]
    have : Nat.testBit 254 0 = false := by decide
    rw [this, Bool.and_false]
  · intro k hk
    rw [Nat.testBit_and]
    by_cases h8 : k < 8
    · have : Nat.testBit 254 k = true := by
        interval_cases k
        · exact absurd rfl hk
        all_goals decide
      rw [this, Bool.and_true]
    · have : busy.testBit k = false :=
        Nat.testBit_lt_two_pow (Nat.lt_of_lt_of_le hb
          (by
            have : 2 ^ 8 ≤ 2 ^ k := Nat.pow_le_pow_right (by decide) (by omega)
            simpa using this))
      rw [this, Bool.false_and]

theorem and_253_testBit (busy : Nat) (hb : busy < 256) :
    (busy &&& 253).testBit 1 = false ∧
    ∀ k, k ≠ 1 → (busy &&& 253).testBit k = busy.testBit k := by
  constructor
  · rw [Nat.testBit_and]
    have : Nat.testBit 253 1 = false := by decide
    rw [this, Bool.and_false]
  · intro k hk
    rw [Nat.testBit_and]
    by_cases h8 : k < 8
    · have : Nat.testBit 253 k = true := by
        interval_cases k
        · decide
        · exact absurd rfl hk
        all_goals decide
      rw [this, Bool.and_true]
    · have : busy.testBit k = false :=
        Nat.testBit_lt_two_pow (Nat.lt_of_lt_of_le hb
          (by
            have : 2 ^ 8 ≤ 2 ^ k := Nat.pow_le_pow_right (by decide) (by omega)
            simpa using this))
      rw [this, Bool.false_and]

/-- C23. Release of a transmit slot: for a busy mask that fits its `u8`,
`wlan_mac_high_release_tx_packet_buffer(i)` for `i` in {0, 1} stores the mask
with bit `i` cleared and every other bit as before, calls
`unlock_pkt_buf_tx(i)` and returns 0 if that unlock returns
`PKT_BUF_MUTEX_SUCCESS` and -1 otherwise; for every other `i` it returns -1 and
changes neither the mask nor the mutex core.  After a release of slot 0 or 1
`wlan_mac_high_is_ready_for_tx` returns 1. -/
theorem tx_release_effect (h : wlan_mac_ipc_util_h) (cpu busy : Nat) (m : XMutex)
    (hb : busy < 256) :
    (∀ i : Nat, i < 2 →
      wlan_mac_high_release_tx_packet_buffer h cpu busy m (i : Int)
        = (if (unlock_pkt_buf_tx h cpu m i).1 = pkt_buf_mutex_status.PKT_BUF_MUTEX_SUCCESS
            then 0 else -1,
           (wlan_mac_high_release_tx_packet_buffer h cpu busy m (i : Int)).2.1,
           (unlock_pkt_buf_tx h cpu m i).2) ∧
      (wlan_mac_high_release_tx_packet_buffer h cpu busy m (i : Int)).2.1.testBit i = false ∧
      (∀ k, k ≠ i →
        (wlan_mac_high_release_tx_packet_buffer h cpu busy m (i : Int)).2.1.testBit k
          = busy.testBit k) ∧
      wlan_mac_high_is_ready_for_tx
        (wlan_mac_high_release_tx_packet_buffer h cpu busy m (i : Int)).2.1 = 1) ∧
    (∀ i : Int, i ≠ 0 → i ≠ 1 →
      wlan_mac_high_release_tx_packet_buffer h cpu busy m i = (-1, busy, m)) := by
  constructor
  · intro i hi
    have hready : ∀ x : Nat, x.testBit i = false →
        wlan_mac_high_is_ready_for_tx x = 1 := by
      intro x hx
      unfold wlan_mac_high_is_ready_for_tx
      have hne : x ≠ 3 := by
        intro h3
        subst h3
        revert hx
        interval_cases i <;> decide
      rw [if_pos hne]
    have hi2 : i = 0 ∨ i = 1 := by omega
    rcases hi2 with hi0 | hi1
    · subst hi0
      have hmask : (wlan_mac_high_release_tx_packet_buffer h cpu busy m ((0 : Nat) : Int)).2.1
          = busy &&& 254 := by
        rw [tx_release_mask]; rfl
      rw [hmask]
      obtain ⟨hc, hk⟩ := and_254_testBit busy hb
      refine ⟨?_, hc, hk, hready _ hc⟩
      unfold wlan_mac_high_release_tx_packet_buffer
      show (match (some (busy &&& 254) : Option Nat) with
        | none => ((-1 : Int), busy, m)
        | some b =>
          if (unlock_pkt_buf_tx h cpu m 0).1 ≠ pkt_buf_mutex_status.PKT_BUF_MUTEX_SUCCESS
          then (-1, b, (unlock_pkt_buf_tx h cpu m 0).2)
          else (0, b, (unlock_pkt_buf_tx h cpu m 0).2)) = _
      by_cases hst : (unlock_pkt_buf_tx h cpu m 0).1 = pkt_buf_mutex_status.PKT_BUF_MUTEX_SUCCESS
      · simp [hst]
      · simp [hst]
    · subst hi1
      have hmask : (wlan_mac_high_release_tx_packet_buffer h cpu busy m ((1 : Nat) : Int)).2.1
          = busy &&& 253 := by
        rw [tx_release_mask]; rfl
      rw [hmask]
      obtain ⟨hc, hk⟩ := and_253_testBit busy hb
      refine ⟨?_, hc, hk, hready _ hc⟩
      unfold wlan_mac_high_release_tx_packet_buffer
      show (match (some (busy &&& 253) : Option Nat) with
        | none => ((-1 : Int), busy, m)
        | some b =>
          if (unlock_pkt_buf_tx h cpu m 1).1 ≠ pkt_buf_mutex_status.PKT_BUF_MUTEX_SUCCESS
          then (-1, b, (unlock_pkt_buf_tx h cpu m 1).2)
          else (0, b, (unlock_pkt_buf_tx h cpu m 1).2)) = _
      by_cases hst : (unlock_pkt_buf_tx h cpu m 1).1 = pkt_buf_mutex_status.PKT_BUF_MUTEX_SUCCESS
      · simp [hst]
      · simp [hst]
  · intro i h0 h1
    unfold wlan_mac_high_release_tx_packet_buffer
    simp [h0, h1]

/-- Witness of C23: both slots busy (mask 3), transmit buffer 0 held by CPU 1;
the release of slot 0 by CPU 1 returns 0, leaves the mask 2 and frees the
buffer, and a release of slot 5 returns -1. -/
theorem tx_release_effect_witness :
    (3 : Nat) < 256 ∧
    (wlan_mac_high_release_tx_packet_buffer ipc_util_h_inst 1 3 XMutex_tx0_held_inst 0).1 = 0 ∧
    (wlan_mac_high_release_tx_packet_buffer ipc_util_h_inst 1 3 XMutex_tx0_held_inst 0).2.1 = 2 ∧
    (wlan_mac_high_release_tx_packet_buffer ipc_util_h_inst 1 3
      XMutex_tx0_held_inst 0).2.2.owner 0 = none ∧
    (wlan_mac_high_release_tx_packet_buffer ipc_util_h_inst 1 3 XMutex_tx0_held_inst
        ((0 : Nat) : Int)
      = (if (unlock_pkt_buf_tx ipc_util_h_inst 1 XMutex_tx0_held_inst 0).1
              = pkt_buf_mutex_status.PKT_BUF_MUTEX_SUCCESS then 0 else -1,
         (wlan_mac_high_release_tx_packet_buffer ipc_util_h_inst 1 3 XMutex_tx0_held_inst
            ((0 : Nat) : Int)).2.1,
         (unlock_pkt_buf_tx ipc_util_h_inst 1 XMutex_tx0_held_inst 0).2) ∧
      (wlan_mac_high_release_tx_packet_buffer ipc_util_h_inst 1 3 XMutex_tx0_held_inst
        ((0 : Nat) : Int)).2.1.testBit 0 = false ∧
      (∀ k, k ≠ 0 →
        (wlan_mac_high_release_tx_packet_buffer ipc_util_h_inst 1 3 XMutex_tx0_held_inst
          ((0 : Nat) : Int)).2.1.testBit k = Nat.testBit 3 k) ∧
      wlan_mac_high_is_ready_for_tx
        (wlan_mac_high_release_tx_packet_buffer ipc_util_h_inst 1 3 XMutex_tx0_held_inst
          ((0 : Nat) : Int)).2.1 = 1) ∧
    wlan_mac_high_release_tx_packet_buffer ipc_util_h_inst 1 3 XMutex_tx0_held_inst 5
      = (-1, 3, XMutex_tx0_held_inst) :=
  ⟨by decide, by decide, by decide, by decide,
    (tx_release_effect ipc_util_h_inst 1 3 XMutex_tx0_held_inst (by decide)).1 0 (by decide),
    (tx_release_effect ipc_util_h_inst 1 3 XMutex_tx0_held_inst (by decide)).2 5
      (by decide) (by decide)⟩

/-- C24. Index validation of the lock layer: for each role, lock, unlock and
status on an index that is not below the number of buffers of the role return
`PKT_BUF_MUTEX_FAIL_INVALID_BUF` and leave the mutex core as it is, without a
call to it; for an index in range lock returns `PKT_BUF_MUTEX_SUCCESS` or
`PKT_BUF_MUTEX_FAIL_ALREADY_LOCKED`, unlock returns `PKT_BUF_MUTEX_SUCCESS` or
`PKT_BUF_MUTEX_FAIL_NOT_LOCK_OWNER`, and status returns
`PKT_BUF_MUTEX_SUCCESS` and changes the owner of no mutex. -/
theorem pkt_buf_index_validation (h : wlan_mac_ipc_util_h) (role : pkt_buf_role)
    (cpu : Nat) (m : XMutex) (ind : Nat) :
    (ind ≥ pkt_buf_count h role →
      lock_pkt_buf h role cpu m ind
        = (pkt_buf_mutex_status.PKT_BUF_MUTEX_FAIL_INVALID_BUF, m) ∧
      unlock_pkt_buf h role cpu m ind
        = (pkt_buf_mutex_status.PKT_BUF_MUTEX_FAIL_INVALID_BUF, m) ∧
      status_pkt_buf h role m ind
        = (pkt_buf_mutex_status.PKT_BUF_MUTEX_FAIL_INVALID_BUF, none, none, m)) ∧
    (ind < pkt_buf_count h role →
      ((lock_pkt_buf h role cpu m ind).1 = pkt_buf_mutex_status.PKT_BUF_MUTEX_SUCCESS ∨
        (lock_pkt_buf h role cpu m ind).1
          = pkt_buf_mutex_status.PKT_BUF_MUTEX_FAIL_ALREADY_LOCKED) ∧
      ((unlock_pkt_buf h role cpu m ind).1 = pkt_buf_mutex_status.PKT_BUF_MUTEX_SUCCESS ∨
        (unlock_pkt_buf h role cpu m ind).1
          = pkt_buf_mutex_status.PKT_BUF_MUTEX_FAIL_NOT_LOCK_OWNER) ∧
      (status_pkt_buf h role m ind).1 = pkt_buf_mutex_status.PKT_BUF_MUTEX_SUCCESS ∧
      (status_pkt_buf h role m ind).2.2.2.owner = m.owner) := by
  constructor
  · intro hge
    refine ⟨?_, ?_, ?_⟩
    · rw [lock_pkt_buf_eq, if_pos hge]
    · rw [unlock_pkt_buf_eq, if_pos hge]
    · cases role
      · exact if_pos hge
      · exact if_pos hge
  · intro hlt
    have hnge : ¬ ind ≥ pkt_buf_count h role := by omega
    refine ⟨?_, ?_, ?_, status_pkt_buf_owner h role m ind⟩
    · rw [lock_pkt_buf_eq, if_neg hnge]
      split
      · left; rfl
      · right; rfl
    · rw [unlock_pkt_buf_eq, if_neg hnge]
      split
      · left; rfl
      · right; rfl
    · cases role
      · exact congrArg Prod.fst
          (if_neg hnge : status_pkt_buf_tx h m ind = _)
      · exact congrArg Prod.fst
          (if_neg hnge : status_pkt_buf_rx h m ind = _)

/-- Witness of C24: with 16 transmit buffers, index 16 is refused by the three
functions, and index 0, held by CPU 1, is in range. -/
theorem pkt_buf_index_validation_witness :
    (16 ≥ pkt_buf_count ipc_util_h_inst pkt_buf_role.tx) ∧
    (0 < pkt_buf_count ipc_util_h_inst pkt_buf_role.tx) ∧
    (lock_pkt_buf ipc_util_h_inst pkt_buf_role.tx 0 XMutex_tx0_held_inst 0).1
      = pkt_buf_mutex_status.PKT_BUF_MUTEX_FAIL_ALREADY_LOCKED ∧
    (lock_pkt_buf ipc_util_h_inst pkt_buf_role.tx 0 XMutex_tx0_held_inst 16
        = (pkt_buf_mutex_status.PKT_BUF_MUTEX_FAIL_INVALID_BUF, XMutex_tx0_held_inst) ∧
      unlock_pkt_buf ipc_util_h_inst pkt_buf_role.tx 0 XMutex_tx0_held_inst 16
        = (pkt_buf_mutex_status.PKT_BUF_MUTEX_FAIL_INVALID_BUF, XMutex_tx0_held_inst) ∧
      status_pkt_buf ipc_util_h_inst pkt_buf_role.tx XMutex_tx0_held_inst 16
        = (pkt_buf_mutex_status.PKT_BUF_MUTEX_FAIL_INVALID_BUF, none, none,
            XMutex_tx0_held_inst)) ∧
    (((lock_pkt_buf ipc_util_h_inst pkt_buf_role.tx 0 XMutex_tx0_held_inst 0).1
          = pkt_buf_mutex_status.PKT_BUF_MUTEX_SUCCESS ∨
        (lock_pkt_buf ipc_util_h_inst pkt_buf_role.tx 0 XMutex_tx0_held_inst 0).1
          = pkt_buf_mutex_status.PKT_BUF_MUTEX_FAIL_ALREADY_LOCKED) ∧
      ((unlock_pkt_buf ipc_util_h_inst pkt_buf_role.tx 0 XMutex_tx0_held_inst 0).1
          = pkt_buf_mutex_status.PKT_BUF_MUTEX_SUCCESS ∨
        (unlock_pkt_buf ipc_util_h_inst pkt_buf_role.tx 0 XMutex_tx0_held_inst 0).1
          = pkt_buf_mutex_status.PKT_BUF_MUTEX_FAIL_NOT_LOCK_OWNER) ∧
      (status_pkt_buf ipc_util_h_inst pkt_buf_role.tx XMutex_tx0_held_inst 0).1
        = pkt_buf_mutex_status.PKT_BUF_MUTEX_SUCCESS ∧
      (status_pkt_buf ipc_util_h_inst pkt_buf_role.tx XMutex_tx0_held_inst 0).2.2.2.owner
        = XMutex_tx0_held_inst.owner) :=
  ⟨by decide, by decide, by decide,
    (pkt_buf_index_validation ipc_util_h_inst pkt_buf_role.tx 0 XMutex_tx0_held_inst 16).1
      (by decide),
    (pkt_buf_index_validation ipc_util_h_inst pkt_buf_role.tx 0 XMutex_tx0_held_inst 0).2
      (by decide)⟩

/-! ### The dispatcher: hardware information -/

theorem not32_testBit (M i : Nat) :
    (not32 M).testBit i = (decide (i < 32) && !(M % 4294967296).testBit i) := by
  unfold not32
  have h : 4294967295 - M % 4294967296 = 2 ^ 32 - (M % 4294967296 + 1) := by omega
  rw [h, Nat.testBit_two_pow_sub_succ (by omega)]

theorem and_not32_disjoint (a b M : Nat) : (a &&& M) &&& (b &&& not32 M) = 0 := by
  apply Nat.eq_of_testBit_eq
  intro i
  rw [Nat.testBit_and, Nat.testBit_and, Nat.testBit_and, not32_testBit, Nat.zero_testBit]
  by_cases hi : i < 32
  · have : (M % 4294967296).testBit i = M.testBit i := by
      have := Nat.testBit_mod_two_pow M 32 i
      simpa [hi] using this
    rw [this]
    cases M.testBit i <;> simp
  · simp [hi]

theorem add_eq_or_of_and_eq_zero32 (x y : Nat) (hx : x < 4294967296) (hy : y < 4294967296)
    (h : x &&& y = 0) : x + y = x ||| y ∧ x + y < 4294967296 := by
  have hX : (BitVec.ofNat 32 x).toNat = x := by simp [BitVec.toNat_ofNat]; omega
  have hY : (BitVec.ofNat 32 y).toNat = y := by simp [BitVec.toNat_ofNat]; omega
  have hz : BitVec.ofNat 32 x &&& BitVec.ofNat 32 y = 0#32 := by
    apply BitVec.eq_of_toNat_eq
    rw [BitVec.toNat_and, hX, hY, h]
    rfl
  have h1 := BitVec.toNat_add_of_and_eq_zero hz
  have h2 := BitVec.add_eq_or_of_and_eq_zero _ _ hz
  have h3 : (BitVec.ofNat 32 x + BitVec.ofNat 32 y).toNat = x ||| y := by
    rw [h2, BitVec.toNat_or, hX, hY]
  rw [hX, hY] at h1
  constructor
  · rw [← h1, h3]
  · rw [← h1]; exact (BitVec.ofNat 32 x + BitVec.ofNat 32 y).isLt

/-- C25. Hardware-info merge: when `wlan_mac_high_process_ipc_msg` handles an
`IPC_MBOX_HW_INFO` message (`WARPNET_TYPE_80211_CPU_LOW_MASK` a 32-bit
constant), it returns, `hw_info.wn_eth_device` has the value it had before,
`hw_info.type` is (payload type AND the mask) OR (previous type AND NOT the
mask), the sum in the code being equal to that OR and below `2^32`, every
other field of `hw_info` is the field of the payload, and nothing else of the
state changes. -/
theorem process_ipc_msg_hw_info (d : wlan_mac_high_ipc_h) (h : wlan_mac_ipc_util_h)
    (cpu : Nat) (msg : wlan_ipc_msg) (s : cpu_high_state)
    (hid : d.IPC_MBOX_MSG_ID_TO_MSG msg.msg_id = d.IPC_MBOX_HW_INFO)
    (hrx : d.IPC_MBOX_HW_INFO ≠ d.IPC_MBOX_RX_MPDU_READY)
    (htx : d.IPC_MBOX_HW_INFO ≠ d.IPC_MBOX_TX_MPDU_DONE)
    (hmask : d.WARPNET_TYPE_80211_CPU_LOW_MASK < 4294967296) :
    wlan_mac_high_process_ipc_msg d h cpu msg s
      = some { s with hw_info :=
          { type := ((d.hw_info_of_words s.ipc_msg_from_low_payload).type
                      &&& d.WARPNET_TYPE_80211_CPU_LOW_MASK)
                    ||| (s.hw_info.type &&& not32 d.WARPNET_TYPE_80211_CPU_LOW_MASK)
            serial_number := (d.hw_info_of_words s.ipc_msg_from_low_payload).serial_number
            fpga_dna := (d.hw_info_of_words s.ipc_msg_from_low_payload).fpga_dna
            wn_eth_device := s.hw_info.wn_eth_device
            hw_addr_wn := (d.hw_info_of_words s.ipc_msg_from_low_payload).hw_addr_wn
            hw_addr_wlan := (d.hw_info_of_words s.ipc_msg_from_low_payload).hw_addr_wlan } } ∧
    ((d.hw_info_of_words s.ipc_msg_from_low_payload).type
        &&& d.WARPNET_TYPE_80211_CPU_LOW_MASK)
      + (s.hw_info.type &&& not32 d.WARPNET_TYPE_80211_CPU_LOW_MASK)
      = ((d.hw_info_of_words s.ipc_msg_from_low_payload).type
          &&& d.WARPNET_TYPE_80211_CPU_LOW_MASK)
        ||| (s.hw_info.type &&& not32 d.WARPNET_TYPE_80211_CPU_LOW_MASK) ∧
    ((d.hw_info_of_words s.ipc_msg_from_low_payload).type
        &&& d.WARPNET_TYPE_80211_CPU_LOW_MASK)
      + (s.hw_info.type &&& not32 d.WARPNET_TYPE_80211_CPU_LOW_MASK) < 4294967296 := by
  have hx : (d.hw_info_of_words s.ipc_msg_from_low_payload).type
      &&& d.WARPNET_TYPE_80211_CPU_LOW_MASK < 4294967296 :=
    Nat.lt_of_le_of_lt Nat.and_le_right hmask
  have hy : s.hw_info.type &&& not32 d.WARPNET_TYPE_80211_CPU_LOW_MASK < 4294967296 := by
    have h1 : s.hw_info.type &&& not32 d.WARPNET_TYPE_80211_CPU_LOW_MASK
        ≤ not32 d.WARPNET_TYPE_80211_CPU_LOW_MASK := Nat.and_le_right
    have h2 : not32 d.WARPNET_TYPE_80211_CPU_LOW_MASK ≤ 4294967295 := by
      unfold not32; omega
    omega
  obtain ⟨hor, hlt⟩ := add_eq_or_of_and_eq_zero32 _ _ hx hy
    (and_not32_disjoint (d.hw_info_of_words s.ipc_msg_from_low_payload).type s.hw_info.type
      d.WARPNET_TYPE_80211_CPU_LOW_MASK)
  refine ⟨?_, hor, hlt⟩
  unfold wlan_mac_high_process_ipc_msg
  simp only [hid, if_neg hrx, if_neg htx, if_true]
  rw [Nat.mod_eq_of_lt hlt, hor]

/-- Witness of C25: previous node type `0x00010203`, payload type
`0xAABBCCDD`, mask `0x0000FF00`: the type after the message is `0x0001CC03`,
the Ethernet device is still 1 and the serial number is that of the
payload. -/
theorem process_ipc_msg_hw_info_witness :
    ipc_h_inst.IPC_MBOX_MSG_ID_TO_MSG (ipc_msg_from_low_inst 4 0 9).msg_id
      = ipc_h_inst.IPC_MBOX_HW_INFO ∧
    ipc_h_inst.IPC_MBOX_HW_INFO ≠ ipc_h_inst.IPC_MBOX_RX_MPDU_READY ∧
    ipc_h_inst.IPC_MBOX_HW_INFO ≠ ipc_h_inst.IPC_MBOX_TX_MPDU_DONE ∧
    ipc_h_inst.WARPNET_TYPE_80211_CPU_LOW_MASK < 4294967296 ∧
    (wlan_mac_high_process_ipc_msg ipc_h_inst ipc_util_h_inst 0 (ipc_msg_from_low_inst 4 0 9)
        cpu_high_state_inst).map (fun s1 => s1.hw_info)
      = some { type := 117763, serial_number := 1234, fpga_dna := [11, 12],
               wn_eth_device := 1, hw_addr_wn := [21, 22], hw_addr_wlan := [31, 32] } ∧
    ((ipc_h_inst.hw_info_of_words cpu_high_state_inst.ipc_msg_from_low_payload).type
        &&& ipc_h_inst.WARPNET_TYPE_80211_CPU_LOW_MASK)
      + (cpu_high_state_inst.hw_info.type &&& not32 ipc_h_inst.WARPNET_TYPE_80211_CPU_LOW_MASK)
      = ((ipc_h_inst.hw_info_of_words cpu_high_state_inst.ipc_msg_from_low_payload).type
          &&& ipc_h_inst.WARPNET_TYPE_80211_CPU_LOW_MASK)
        ||| (cpu_high_state_inst.hw_info.type
          &&& not32 ipc_h_inst.WARPNET_TYPE_80211_CPU_LOW_MASK) :=
  ⟨by decide, by decide, by decide, by decide, by decide,
    (process_ipc_msg_hw_info ipc_h_inst ipc_util_h_inst 0 (ipc_msg_from_low_inst 4 0 9)
      cpu_high_state_inst (by decide) (by decide) (by decide) (by decide)).2.1⟩

/-! ### The dispatcher: receive-ready and transmit-done -/

/-- A lock of a buffer succeeds exactly on a free buffer in range; a failing
lock changes the owner of no mutex, and after a successful lock the unlock by
the same CPU succeeds and leaves every mutex with the owner it had before the
lock. -/
theorem lock_unlock_pkt_buf (h : wlan_mac_ipc_util_h) (role : pkt_buf_role) (cpu : Nat)
    (m : XMutex) (ind : Nat) :
    ((lock_pkt_buf h role cpu m ind).1 = pkt_buf_mutex_status.PKT_BUF_MUTEX_SUCCESS ↔
      (ind < pkt_buf_count h role ∧ m.owner (pkt_buf_mutex_num h role ind) = none)) ∧
    ((lock_pkt_buf h role cpu m ind).1 ≠ pkt_buf_mutex_status.PKT_BUF_MUTEX_SUCCESS →
      ∀ k, (lock_pkt_buf h role cpu m ind).2.owner k = m.owner k) ∧
    ((lock_pkt_buf h role cpu m ind).1 = pkt_buf_mutex_status.PKT_BUF_MUTEX_SUCCESS →
      (lock_pkt_buf h role cpu m ind).2.owner (pkt_buf_mutex_num h role ind) = some cpu ∧
      (unlock_pkt_buf h role cpu (lock_pkt_buf h role cpu m ind).2 ind).1
        = pkt_buf_mutex_status.PKT_BUF_MUTEX_SUCCESS ∧
      ∀ k, (unlock_pkt_buf h role cpu (lock_pkt_buf h role cpu m ind).2 ind).2.owner k
        = m.owner k) := by
  rw [lock_pkt_buf_eq]
  by_cases hge : ind ≥ pkt_buf_count h role
  · rw [if_pos hge]
    refine ⟨⟨fun hc => (by cases hc), fun hc => absurd hc.1 (by omega)⟩, fun _ _ => rfl,
      fun hc => (by cases hc)⟩
  · rw [if_neg hge]
    by_cases hfree : m.owner (pkt_buf_mutex_num h role ind) = none
    · have ht : (XMutex_Trylock m cpu (pkt_buf_mutex_num h role ind)).1 = XST_SUCCESS :=
        (XMutex_Trylock_fst _ _ _).mpr hfree
      rw [if_pos ht]
      have hown : (XMutex_Trylock m cpu (pkt_buf_mutex_num h role ind)).2.owner
          (pkt_buf_mutex_num h role ind) = some cpu := by
        rw [XMutex_Trylock_owner, if_pos ⟨rfl, hfree⟩]
      have hu : (XMutex_Unlock (XMutex_Trylock m cpu (pkt_buf_mutex_num h role ind)).2 cpu
          (pkt_buf_mutex_num h role ind)).1 = XST_SUCCESS :=
        (XMutex_Unlock_fst _ _ _).mpr hown
      refine ⟨⟨fun _ => ⟨by omega, hfree⟩, fun _ => rfl⟩, fun hc => absurd rfl hc,
        fun _ => ⟨hown, ?_, ?_⟩⟩
      · rw [unlock_pkt_buf_eq, if_neg hge, if_pos hu]
      · intro k
        rw [unlock_pkt_buf_eq, if_neg hge, if_pos hu]
        show (XMutex_Unlock (XMutex_Trylock m cpu (pkt_buf_mutex_num h role ind)).2 cpu
          (pkt_buf_mutex_num h role ind)).2.owner k = m.owner k
        rw [XMutex_Unlock_owner]
        by_cases hk : k = pkt_buf_mutex_num h role ind
        · rw [if_pos ⟨hk, hown⟩, hk, hfree]
        · rw [if_neg (fun hc => hk hc.1), XMutex_Trylock_owner, if_neg (fun hc => hk hc.1)]
    · have ht : ¬ (XMutex_Trylock m cpu (pkt_buf_mutex_num h role ind)).1 = XST_SUCCESS :=
        fun hc => hfree ((XMutex_Trylock_fst _ _ _).mp hc)
      rw [if_neg ht]
      refine ⟨⟨fun hc => (by cases hc), fun hc => absurd hc.2 hfree⟩, fun _ k => ?_,
        fun hc => (by cases hc)⟩
      show (XMutex_Trylock m cpu (pkt_buf_mutex_num h role ind)).2.owner k = m.owner k
      rw [XMutex_Trylock_owner, if_neg (fun hc => hfree hc.2)]

/-- C28. Receive-ready dispatch: for an `IPC_MBOX_RX_MPDU_READY` message with
buffer index `b` (`arg0` as an 8-bit value), if `lock_pkt_buf_rx(b)` fails the
dispatcher calls neither `bss_info_rx_process` nor the receive callback and
changes no frame state, no owner of a mutex and nothing else but the record
of the failed lock; if it succeeds the dispatcher calls `bss_info_rx_process`
and then the receive callback, each once for buffer `b`, sets the frame state
of buffer `b` to `RX_MPDU_STATE_EMPTY` and unlocks the buffer with success, so
that every mutex has the owner it had before the message. -/
theorem process_ipc_msg_rx_mpdu_ready (d : wlan_mac_high_ipc_h) (h : wlan_mac_ipc_util_h)
    (cpu : Nat) (msg : wlan_ipc_msg) (s : cpu_high_state)
    (hid : d.IPC_MBOX_MSG_ID_TO_MSG msg.msg_id = d.IPC_MBOX_RX_MPDU_READY) :
    ((lock_pkt_buf_rx h cpu s.pkt_buf_mutex (msg.arg0 % 256)).1
        ≠ pkt_buf_mutex_status.PKT_BUF_MUTEX_SUCCESS →
      ∃ s1, wlan_mac_high_process_ipc_msg d h cpu msg s = some s1 ∧
        s1.trace = s.trace ++ [dispatch_event.lock_pkt_buf_rx (msg.arg0 % 256)
          (lock_pkt_buf_rx h cpu s.pkt_buf_mutex (msg.arg0 % 256)).1] ∧
        s1.rx_mpdu_state = s.rx_mpdu_state ∧
        (∀ k, s1.pkt_buf_mutex.owner k = s.pkt_buf_mutex.owner k) ∧
        s1.tx_pkt_buf_busy_state = s.tx_pkt_buf_busy_state ∧
        s1.hw_info = s.hw_info ∧ s1.unique_seq = s.unique_seq) ∧
    ((lock_pkt_buf_rx h cpu s.pkt_buf_mutex (msg.arg0 % 256)).1
        = pkt_buf_mutex_status.PKT_BUF_MUTEX_SUCCESS →
      ∃ s1, wlan_mac_high_process_ipc_msg d h cpu msg s = some s1 ∧
        s1.trace = s.trace ++
          [dispatch_event.lock_pkt_buf_rx (msg.arg0 % 256)
              pkt_buf_mutex_status.PKT_BUF_MUTEX_SUCCESS,
            dispatch_event.bss_info_rx_process (msg.arg0 % 256),
            dispatch_event.mpdu_rx_callback (msg.arg0 % 256),
            dispatch_event.unlock_pkt_buf_rx (msg.arg0 % 256)
              pkt_buf_mutex_status.PKT_BUF_MUTEX_SUCCESS] ∧
        s1.rx_mpdu_state (msg.arg0 % 256) = d.RX_MPDU_STATE_EMPTY ∧
        (∀ b, b ≠ msg.arg0 % 256 → s1.rx_mpdu_state b = s.rx_mpdu_state b) ∧
        (∀ k, s1.pkt_buf_mutex.owner k = s.pkt_buf_mutex.owner k) ∧
        s1.tx_pkt_buf_busy_state = s.tx_pkt_buf_busy_state ∧
        s1.hw_info = s.hw_info ∧ s1.unique_seq = s.unique_seq) := by
  have key := lock_unlock_pkt_buf h pkt_buf_role.rx cpu s.pkt_buf_mutex (msg.arg0 % 256)
  simp only [lock_pkt_buf, unlock_pkt_buf] at key
  obtain ⟨_, kfail, ksucc⟩ := key
  unfold wlan_mac_high_process_ipc_msg
  simp only [hid, if_true]
  cases hl : lock_pkt_buf_rx h cpu s.pkt_buf_mutex (msg.arg0 % 256) with
  | mk st m1 =>
    rw [hl] at kfail ksucc
    simp only [] at kfail ksucc ⊢
    constructor
    · intro hne
      rw [if_pos hne]
      exact ⟨_, rfl, rfl, rfl, kfail hne, rfl, rfl, rfl⟩
    · intro heq
      subst heq
      obtain ⟨_, hu1, hu2⟩ := ksucc rfl
      cases hu : unlock_pkt_buf_rx h cpu m1 (msg.arg0 % 256) with
      | mk st2 m2 =>
        rw [hu] at hu1 hu2
        simp only [] at hu1 hu2
        subst hu1
        simp only [ne_eq, not_true_eq_false, if_false]
        refine ⟨_, rfl, rfl, ?_, ?_, hu2, rfl, rfl, rfl⟩
        · simp
        · intro b hb
          simp [hb]

/-- Witness of C28: with every buffer free, the message for receive buffer 3
is processed (the two calls, frame state `RX_MPDU_STATE_EMPTY`, buffer free
again), and the message for buffer 200, out of range, only fails to lock. -/
theorem process_ipc_msg_rx_mpdu_ready_witness :
    ipc_h_inst.IPC_MBOX_MSG_ID_TO_MSG (ipc_msg_from_low_inst 0 3 0).msg_id
      = ipc_h_inst.IPC_MBOX_RX_MPDU_READY ∧
    (lock_pkt_buf_rx ipc_util_h_inst 0 cpu_high_state_inst.pkt_buf_mutex
        ((ipc_msg_from_low_inst 0 3 0).arg0 % 256)).1
      = pkt_buf_mutex_status.PKT_BUF_MUTEX_SUCCESS ∧
    (lock_pkt_buf_rx ipc_util_h_inst 0 cpu_high_state_inst.pkt_buf_mutex
        ((ipc_msg_from_low_inst 0 200 0).arg0 % 256)).1
      ≠ pkt_buf_mutex_status.PKT_BUF_MUTEX_SUCCESS ∧
    (wlan_mac_high_process_ipc_msg ipc_h_inst ipc_util_h_inst 0 (ipc_msg_from_low_inst 0 3 0)
        cpu_high_state_inst).map
        (fun s1 => (s1.trace, s1.rx_mpdu_state 3, s1.rx_mpdu_state 4,
          s1.pkt_buf_mutex.owner 19))
      = some ([dispatch_event.lock_pkt_buf_rx 3 pkt_buf_mutex_status.PKT_BUF_MUTEX_SUCCESS,
               dispatch_event.bss_info_rx_process 3, dispatch_event.mpdu_rx_callback 3,
               dispatch_event.unlock_pkt_buf_rx 3 pkt_buf_mutex_status.PKT_BUF_MUTEX_SUCCESS],
              0, 7, none) ∧
    (∃ s1, wlan_mac_high_process_ipc_msg ipc_h_inst ipc_util_h_inst 0
          (ipc_msg_from_low_inst 0 3 0) cpu_high_state_inst = some s1 ∧
        s1.trace = cpu_high_state_inst.trace ++
          [dispatch_event.lock_pkt_buf_rx ((ipc_msg_from_low_inst 0 3 0).arg0 % 256)
              pkt_buf_mutex_status.PKT_BUF_MUTEX_SUCCESS,
            dispatch_event.bss_info_rx_process ((ipc_msg_from_low_inst 0 3 0).arg0 % 256),
            dispatch_event.mpdu_rx_callback ((ipc_msg_from_low_inst 0 3 0).arg0 % 256),
            dispatch_event.unlock_pkt_buf_rx ((ipc_msg_from_low_inst 0 3 0).arg0 % 256)
              pkt_buf_mutex_status.PKT_BUF_MUTEX_SUCCESS] ∧
        s1.rx_mpdu_state ((ipc_msg_from_low_inst 0 3 0).arg0 % 256)
          = ipc_h_inst.RX_MPDU_STATE_EMPTY ∧
        (∀ b, b ≠ (ipc_msg_from_low_inst 0 3 0).arg0 % 256 →
          s1.rx_mpdu_state b = cpu_high_state_inst.rx_mpdu_state b) ∧
        (∀ k, s1.pkt_buf_mutex.owner k = cpu_high_state_inst.pkt_buf_mutex.owner k) ∧
        s1.tx_pkt_buf_busy_state = cpu_high_state_inst.tx_pkt_buf_busy_state ∧
        s1.hw_info = cpu_high_state_inst.hw_info ∧
        s1.unique_seq = cpu_high_state_inst.unique_seq) ∧
    (∃ s1, wlan_mac_high_process_ipc_msg ipc_h_inst ipc_util_h_inst 0
          (ipc_msg_from_low_inst 0 200 0) cpu_high_state_inst = some s1 ∧
        s1.trace = cpu_high_state_inst.trace ++
          [dispatch_event.lock_pkt_buf_rx ((ipc_msg_from_low_inst 0 200 0).arg0 % 256)
            (lock_pkt_buf_rx ipc_util_h_inst 0 cpu_high_state_inst.pkt_buf_mutex
              ((ipc_msg_from_low_inst 0 200 0).arg0 % 256)).1] ∧
        s1.rx_mpdu_state = cpu_high_state_inst.rx_mpdu_state ∧
        (∀ k, s1.pkt_buf_mutex.owner k = cpu_high_state_inst.pkt_buf_mutex.owner k) ∧
        s1.tx_pkt_buf_busy_state = cpu_high_state_inst.tx_pkt_buf_busy_state ∧
        s1.hw_info = cpu_high_state_inst.hw_info ∧
        s1.unique_seq = cpu_high_state_inst.unique_seq) :=
  ⟨by decide, by decide, by decide, by decide,
    (process_ipc_msg_rx_mpdu_ready ipc_h_inst ipc_util_h_inst 0 (ipc_msg_from_low_inst 0 3 0)
      cpu_high_state_inst (by decide)).2 (by decide),
    (process_ipc_msg_rx_mpdu_ready ipc_h_inst ipc_util_h_inst 0 (ipc_msg_from_low_inst 0 200 0)
      cpu_high_state_inst (by decide)).1 (by decide)⟩

theorem tx_release_eq (h : wlan_mac_ipc_util_h) (cpu busy : Nat) (m : XMutex) (i : Nat)
    (hi : i < 2) :
    wlan_mac_high_release_tx_packet_buffer h cpu busy m (i : Int)
      = (if (unlock_pkt_buf_tx h cpu m i).1 = pkt_buf_mutex_status.PKT_BUF_MUTEX_SUCCESS
          then 0 else -1,
         if i = 0 then busy &&& 254 else busy &&& 253,
         (unlock_pkt_buf_tx h cpu m i).2) := by
  have hi2 : i = 0 ∨ i = 1 := by omega
  rcases hi2 with hi0 | hi1
  · subst hi0
    unfold wlan_mac_high_release_tx_packet_buffer
    show (match (some (busy &&& 254) : Option Nat) with
      | none => ((-1 : Int), busy, m)
      | some b =>
        if (unlock_pkt_buf_tx h cpu m 0).1 ≠ pkt_buf_mutex_status.PKT_BUF_MUTEX_SUCCESS
        then (-1, b, (unlock_pkt_buf_tx h cpu m 0).2)
        else (0, b, (unlock_pkt_buf_tx h cpu m 0).2)) = _
    by_cases hst : (unlock_pkt_buf_tx h cpu m 0).1 = pkt_buf_mutex_status.PKT_BUF_MUTEX_SUCCESS
    · simp [hst]
    · simp [hst]
  · subst hi1
    unfold wlan_mac_high_release_tx_packet_buffer
    show (match (some (busy &&& 253) : Option Nat) with
      | none => ((-1 : Int), busy, m)
      | some b =>
        if (unlock_pkt_buf_tx h cpu m 1).1 ≠ pkt_buf_mutex_status.PKT_BUF_MUTEX_SUCCESS
        then (-1, b, (unlock_pkt_buf_tx h cpu m 1).2)
        else (0, b, (unlock_pkt_buf_tx h cpu m 1).2)) = _
    by_cases hst : (unlock_pkt_buf_tx h cpu m 1).1 = pkt_buf_mutex_status.PKT_BUF_MUTEX_SUCCESS
    · simp [hst]
    · simp [hst]

/-- C27, as stated, fails: with 16 transmit buffers, all free, the
`IPC_MBOX_TX_MPDU_DONE` message for buffer 2 is handled by CPU 0: the lock
succeeds, the two callbacks are called, but
`wlan_mac_high_release_tx_packet_buffer(2)` returns -1 and after the message
buffer 2 is still locked by CPU 0. -/
theorem process_ipc_msg_tx_done_leaves_locked :
    ipc_h_inst.IPC_MBOX_MSG_ID_TO_MSG (ipc_msg_from_low_inst 3 2 0).msg_id
      = ipc_h_inst.IPC_MBOX_TX_MPDU_DONE ∧
    (lock_pkt_buf_tx ipc_util_h_inst 0 cpu_high_state_inst.pkt_buf_mutex 2).1
      = pkt_buf_mutex_status.PKT_BUF_MUTEX_SUCCESS ∧
    cpu_high_state_inst.pkt_buf_mutex.owner (2 + ipc_util_h_inst.PKT_BUF_MUTEX_TX_BASE)
      = none ∧
    (wlan_mac_high_process_ipc_msg ipc_h_inst ipc_util_h_inst 0 (ipc_msg_from_low_inst 3 2 0)
        cpu_high_state_inst).map
        (fun s1 => (s1.pkt_buf_mutex.owner (2 + ipc_util_h_inst.PKT_BUF_MUTEX_TX_BASE),
          s1.trace))
      = some (some 0,
          [dispatch_event.lock_pkt_buf_tx 2 pkt_buf_mutex_status.PKT_BUF_MUTEX_SUCCESS,
           dispatch_event.mpdu_tx_done_callback 2 [] 0,
           dispatch_event.release_tx_packet_buffer 2 (-1),
           dispatch_event.tx_poll_callback]) := by
  decide

/-- C27, amended: for an `IPC_MBOX_TX_MPDU_DONE` message with buffer index `i`
(`arg0` as an 8-bit value), if `lock_pkt_buf_tx(i)` fails the dispatcher calls
no callback and changes neither the busy mask nor the owner of a mutex.  If it
succeeds the dispatcher calls the transmit-done callback once, with
`4 * num_payload_words / sizeof(wlan_mac_low_tx_details)` detail records, then
`wlan_mac_high_release_tx_packet_buffer(i)`, then the transmit-poll callback
once.  For `i` in {0, 1} that release returns 0, and after the message buffer
`i` is unlocked, every mutex has the owner it had before, bit `i` of the busy
mask is clear and the other bits are as before.  For `i` of 2 or more the
release returns -1, the busy mask is as before and buffer `i` stays locked by
the CPU. -/
theorem process_ipc_msg_tx_mpdu_done (d : wlan_mac_high_ipc_h) (h : wlan_mac_ipc_util_h)
    (cpu : Nat) (msg : wlan_ipc_msg) (s : cpu_high_state)
    (hid : d.IPC_MBOX_MSG_ID_TO_MSG msg.msg_id = d.IPC_MBOX_TX_MPDU_DONE)
    (hrx : d.IPC_MBOX_TX_MPDU_DONE ≠ d.IPC_MBOX_RX_MPDU_READY)
    (hn : msg.num_payload_words < 256) (hb : s.tx_pkt_buf_busy_state < 256) :
    ((lock_pkt_buf_tx h cpu s.pkt_buf_mutex (msg.arg0 % 256)).1
        ≠ pkt_buf_mutex_status.PKT_BUF_MUTEX_SUCCESS →
      ∃ s1, wlan_mac_high_process_ipc_msg d h cpu msg s = some s1 ∧
        s1.trace = s.trace ++ [dispatch_event.lock_pkt_buf_tx (msg.arg0 % 256)
          (lock_pkt_buf_tx h cpu s.pkt_buf_mutex (msg.arg0 % 256)).1] ∧
        s1.tx_pkt_buf_busy_state = s.tx_pkt_buf_busy_state ∧
        (∀ k, s1.pkt_buf_mutex.owner k = s.pkt_buf_mutex.owner k)) ∧
    ((lock_pkt_buf_tx h cpu s.pkt_buf_mutex (msg.arg0 % 256)).1
        = pkt_buf_mutex_status.PKT_BUF_MUTEX_SUCCESS → msg.arg0 % 256 < 2 →
      ∃ s1, wlan_mac_high_process_ipc_msg d h cpu msg s = some s1 ∧
        s1.trace = s.trace ++
          [dispatch_event.lock_pkt_buf_tx (msg.arg0 % 256)
              pkt_buf_mutex_status.PKT_BUF_MUTEX_SUCCESS,
            dispatch_event.mpdu_tx_done_callback (msg.arg0 % 256) msg.payload_ptr
              (4 * msg.num_payload_words / d.sizeof_wlan_mac_low_tx_details),
            dispatch_event.release_tx_packet_buffer ((msg.arg0 % 256 : Nat) : Int) 0,
            dispatch_event.tx_poll_callback] ∧
        s1.pkt_buf_mutex.owner (msg.arg0 % 256 + h.PKT_BUF_MUTEX_TX_BASE) = none ∧
        (∀ k, s1.pkt_buf_mutex.owner k = s.pkt_buf_mutex.owner k) ∧
        s1.tx_pkt_buf_busy_state.testBit (msg.arg0 % 256) = false ∧
        (∀ k, k ≠ msg.arg0 % 256 →
          s1.tx_pkt_buf_busy_state.testBit k = s.tx_pkt_buf_busy_state.testBit k)) ∧
    ((lock_pkt_buf_tx h cpu s.pkt_buf_mutex (msg.arg0 % 256)).1
        = pkt_buf_mutex_status.PKT_BUF_MUTEX_SUCCESS → 2 ≤ msg.arg0 % 256 →
      ∃ s1, wlan_mac_high_process_ipc_msg d h cpu msg s = some s1 ∧
        s1.trace = s.trace ++
          [dispatch_event.lock_pkt_buf_tx (msg.arg0 % 256)
              pkt_buf_mutex_status.PKT_BUF_MUTEX_SUCCESS,
            dispatch_event.mpdu_tx_done_callback (msg.arg0 % 256) msg.payload_ptr
              (4 * msg.num_payload_words / d.sizeof_wlan_mac_low_tx_details),
            dispatch_event.release_tx_packet_buffer ((msg.arg0 % 256 : Nat) : Int) (-1),
            dispatch_event.tx_poll_callback] ∧
        s1.pkt_buf_mutex.owner (msg.arg0 % 256 + h.PKT_BUF_MUTEX_TX_BASE) = some cpu ∧
        s1.tx_pkt_buf_busy_state = s.tx_pkt_buf_busy_state) := by
  have key := lock_unlock_pkt_buf h pkt_buf_role.tx cpu s.pkt_buf_mutex (msg.arg0 % 256)
  simp only [lock_pkt_buf, unlock_pkt_buf, pkt_buf_mutex_num] at key
  obtain ⟨kiff, kfail, ksucc⟩ := key
  have hmod : (4 * msg.num_payload_words) % 4294967296 = 4 * msg.num_payload_words :=
    Nat.mod_eq_of_lt (by omega)
  unfold wlan_mac_high_process_ipc_msg
  simp only [hid, if_neg hrx, if_true, hmod]
  cases hl : lock_pkt_buf_tx h cpu s.pkt_buf_mutex (msg.arg0 % 256) with
  | mk st m1 =>
    rw [hl] at kiff kfail ksucc
    simp only [] at kiff kfail ksucc ⊢
    refine ⟨?_, ?_, ?_⟩
    · intro hne
      rw [if_pos hne]
      exact ⟨_, rfl, rfl, rfl, kfail hne⟩
    · intro heq hi
      subst heq
      obtain ⟨_, hu1, hu2⟩ := ksucc rfl
      have hrel := tx_release_eq h cpu s.tx_pkt_buf_busy_state m1 (msg.arg0 % 256) hi
      rw [if_pos hu1] at hrel
      simp only [ne_eq, not_true_eq_false, if_false, hrel]
      refine ⟨_, rfl, rfl, ?_, hu2, ?_, ?_⟩
      · show (unlock_pkt_buf_tx h cpu m1 (msg.arg0 % 256)).2.owner
          (msg.arg0 % 256 + h.PKT_BUF_MUTEX_TX_BASE) = none
        rw [hu2]
        exact (kiff.mp rfl).2
      · show (if msg.arg0 % 256 = 0 then s.tx_pkt_buf_busy_state &&& 254
          else s.tx_pkt_buf_busy_state &&& 253).testBit (msg.arg0 % 256) = false
        by_cases h0 : msg.arg0 % 256 = 0
        · rw [if_pos h0, h0]
          exact (and_254_testBit _ hb).1
        · have h1 : msg.arg0 % 256 = 1 := by omega
          rw [if_neg h0, h1]
          exact (and_253_testBit _ hb).1
      · intro k hk
        show (if msg.arg0 % 256 = 0 then s.tx_pkt_buf_busy_state &&& 254
          else s.tx_pkt_buf_busy_state &&& 253).testBit k = _
        by_cases h0 : msg.arg0 % 256 = 0
        · rw [if_pos h0]
          exact (and_254_testBit _ hb).2 k (by omega)
        · have h1 : msg.arg0 % 256 = 1 := by omega
          rw [if_neg h0]
          exact (and_253_testBit _ hb).2 k (by omega)
    · intro heq hi
      subst heq
      obtain ⟨hown, _, _⟩ := ksucc rfl
      have hrel : wlan_mac_high_release_tx_packet_buffer h cpu s.tx_pkt_buf_busy_state m1
          ((msg.arg0 % 256 : Nat) : Int) = (-1, s.tx_pkt_buf_busy_state, m1) := by
        unfold wlan_mac_high_release_tx_packet_buffer
        have h0 : ¬ ((msg.arg0 % 256 : Nat) : Int) = 0 := by omega
        have h1 : ¬ ((msg.arg0 % 256 : Nat) : Int) = 1 := by omega
        simp only [h0, h1, if_false]
      simp only [ne_eq, not_true_eq_false, if_false, hrel]
      exact ⟨_, rfl, rfl, hown, rfl⟩

/-- Witness of the amended C27: both slots busy (mask 3) and every buffer
free; the message for buffer 1 with 12 payload words (2 detail records of 24
bytes) is processed: the callbacks and the release are called in order, the
mask is 1 and buffer 1 is free afterwards. -/
theorem process_ipc_msg_tx_mpdu_done_witness :
    ipc_h_inst.IPC_MBOX_MSG_ID_TO_MSG (ipc_msg_from_low_inst 3 1 12).msg_id
      = ipc_h_inst.IPC_MBOX_TX_MPDU_DONE ∧
    ipc_h_inst.IPC_MBOX_TX_MPDU_DONE ≠ ipc_h_inst.IPC_MBOX_RX_MPDU_READY ∧
    (ipc_msg_from_low_inst 3 1 12).num_payload_words < 256 ∧
    ({ cpu_high_state_inst with tx_pkt_buf_busy_state := 3 } : cpu_high_state
      ).tx_pkt_buf_busy_state < 256 ∧
    (lock_pkt_buf_tx ipc_util_h_inst 0
        ({ cpu_high_state_inst with tx_pkt_buf_busy_state := 3 } : cpu_high_state).pkt_buf_mutex
        ((ipc_msg_from_low_inst 3 1 12).arg0 % 256)).1
      = pkt_buf_mutex_status.PKT_BUF_MUTEX_SUCCESS ∧
    (ipc_msg_from_low_inst 3 1 12).arg0 % 256 < 2 ∧
    (wlan_mac_high_process_ipc_msg ipc_h_inst ipc_util_h_inst 0 (ipc_msg_from_low_inst 3 1 12)
        { cpu_high_state_inst with tx_pkt_buf_busy_state := 3 }).map
        (fun s1 => (s1.tx_pkt_buf_busy_state, s1.pkt_buf_mutex.owner 1, s1.trace))
      = some (1, none,
          [dispatch_event.lock_pkt_buf_tx 1 pkt_buf_mutex_status.PKT_BUF_MUTEX_SUCCESS,
           dispatch_event.mpdu_tx_done_callback 1 (List.replicate 12 0) 2,
           dispatch_event.release_tx_packet_buffer 1 0,
           dispatch_event.tx_poll_callback]) ∧
    ∃ s1, wlan_mac_high_process_ipc_msg ipc_h_inst ipc_util_h_inst 0
        (ipc_msg_from_low_inst 3 1 12)
        { cpu_high_state_inst with tx_pkt_buf_busy_state := 3 } = some s1 ∧
      s1.trace = ({ cpu_high_state_inst with tx_pkt_buf_busy_state := 3 } : cpu_high_state).trace
        ++ [dispatch_event.lock_pkt_buf_tx ((ipc_msg_from_low_inst 3 1 12).arg0 % 256)
              pkt_buf_mutex_status.PKT_BUF_MUTEX_SUCCESS,
            dispatch_event.mpdu_tx_done_callback ((ipc_msg_from_low_inst 3 1 12).arg0 % 256)
              (ipc_msg_from_low_inst 3 1 12).payload_ptr
              (4 * (ipc_msg_from_low_inst 3 1 12).num_payload_words
                / ipc_h_inst.sizeof_wlan_mac_low_tx_details),
            dispatch_event.release_tx_packet_buffer
              (((ipc_msg_from_low_inst 3 1 12).arg0 % 256 : Nat) : Int) 0,
            dispatch_event.tx_poll_callback] ∧
      s1.pkt_buf_mutex.owner ((ipc_msg_from_low_inst 3 1 12).arg0 % 256
          + ipc_util_h_inst.PKT_BUF_MUTEX_TX_BASE) = none ∧
      (∀ k, s1.pkt_buf_mutex.owner k
        = ({ cpu_high_state_inst with tx_pkt_buf_busy_state := 3 } : cpu_high_state
          ).pkt_buf_mutex.owner k) ∧
      s1.tx_pkt_buf_busy_state.testBit ((ipc_msg_from_low_inst 3 1 12).arg0 % 256) = false ∧
      (∀ k, k ≠ (ipc_msg_from_low_inst 3 1 12).arg0 % 256 →
        s1.tx_pkt_buf_busy_state.testBit k
          = ({ cpu_high_state_inst with tx_pkt_buf_busy_state := 3 } : cpu_high_state
            ).tx_pkt_buf_busy_state.testBit k) :=
  ⟨by decide, by decide, by decide, by decide, by decide, by decide, by decide,
    (process_ipc_msg_tx_mpdu_done ipc_h_inst ipc_util_h_inst 0 (ipc_msg_from_low_inst 3 1 12)
      { cpu_high_state_inst with tx_pkt_buf_busy_state := 3 }
      (by decide) (by decide) (by decide) (by decide)).2.1 (by decide) (by decide)⟩

/-! ### The unique sequence number -/

theorem seq_ctrl_bits (sc u : Nat) :
    ((sc &&& 15) ||| ((u &&& 4095) <<< 4)) % 65536 = 16 * (u % 4096) + sc % 16 := by
  have h1 : sc &&& 15 = sc % 16 := Nat.and_pow_two_sub_one_eq_mod sc 4
  have h2 : u &&& 4095 = u % 4096 := Nat.and_pow_two_sub_one_eq_mod u 12
  rw [h1, h2, Nat.shiftLeft_eq, Nat.lor_comm]
  have h3 : u % 4096 * 2 ^ 4 ||| sc % 16 = 2 ^ 4 * (u % 4096) + sc % 16 := by
    rw [Nat.mul_comm]
    exact (Nat.mul_add_lt_is_or (Nat.mod_lt _ (by norm_num)) _).symm
  rw [h3]
  omega

/-- One call of `wlan_mac_high_mpdu_transmit`: what it stores in the transmit
buffer, in the frame of the queue buffer and in `unique_seq`. -/
theorem mpdu_transmit_step (d : wlan_mac_high_ipc_h) (h : wlan_mac_ipc_util_h) (cpu : Nat)
    (s : cpu_high_state) (packet : tx_queue_buffer) (tx_pkt_buf : Int) :
    ((wlan_mac_high_mpdu_transmit d h cpu s packet tx_pkt_buf).1.tx_pkt_buf_mem
        tx_pkt_buf).unique_seq = s.unique_seq ∧
    ((wlan_mac_high_mpdu_transmit d h cpu s packet tx_pkt_buf).1.tx_pkt_buf_mem
        tx_pkt_buf).mpdu.sequence_control
      = 16 * (s.unique_seq % 4096) + packet.frame_info.mpdu.sequence_control % 16 ∧
    (wlan_mac_high_mpdu_transmit d h cpu s packet tx_pkt_buf).2.frame_info.mpdu.sequence_control
      = 16 * (s.unique_seq % 4096) + packet.frame_info.mpdu.sequence_control % 16 ∧
    (wlan_mac_high_mpdu_transmit d h cpu s packet tx_pkt_buf).1.unique_seq
      = (s.unique_seq + 1) % 18446744073709551616 := by
  unfold wlan_mac_high_mpdu_transmit
  cases hu : unlock_pkt_buf_tx h cpu s.pkt_buf_mutex (tx_pkt_buf % 256).toNat with
  | mk st m1 =>
    simp only []
    by_cases hst : st = pkt_buf_mutex_status.PKT_BUF_MUTEX_SUCCESS
    · simp only [hst, ne_eq, not_true_eq_false, if_false, if_true, seq_ctrl_bits]
      refine ⟨?_, ?_, trivial, trivial⟩
      · split_ifs <;> rfl
      · split_ifs <;> rfl
    · simp only [hst, ne_eq, not_false_eq_true, if_true, seq_ctrl_bits]
      refine ⟨?_, ?_, trivial, trivial⟩
      · split_ifs <;> rfl
      · split_ifs <;> rfl

theorem mpdu_transmit_run_stored (d : wlan_mac_high_ipc_h) (h : wlan_mac_ipc_util_h)
    (cpu : Nat) :
    ∀ (calls : List (tx_queue_buffer × Int)) (s : cpu_high_state),
      s.unique_seq + calls.length ≤ 18446744073709551616 →
      (mpdu_transmit_run d h cpu s calls).2 = List.range' s.unique_seq calls.length := by
  intro calls
  induction calls with
  | nil => intro s _; rfl
  | cons c rest ih =>
    intro s hle
    obtain ⟨packet, tx_pkt_buf⟩ := c
    obtain ⟨h1, _, _, h4⟩ := mpdu_transmit_step d h cpu s packet tx_pkt_buf
    show ((wlan_mac_high_mpdu_transmit d h cpu s packet tx_pkt_buf).1.tx_pkt_buf_mem
        tx_pkt_buf).unique_seq ::
      (mpdu_transmit_run d h cpu (wlan_mac_high_mpdu_transmit d h cpu s packet tx_pkt_buf).1
        rest).2 = List.range' s.unique_seq (rest.length + 1)
    rw [h1, List.range'_succ]
    congr 1
    cases rest with
    | nil => rfl
    | cons c2 rest2 =>
      have hlt : s.unique_seq + 1 < 18446744073709551616 := by
        simp only [List.length_cons] at hle
        omega
      rw [Nat.mod_eq_of_lt hlt] at h4
      have := ih (wlan_mac_high_mpdu_transmit d h cpu s packet tx_pkt_buf).1 (by
        rw [h4]
        simp only [List.length_cons] at hle ⊢
        omega)
      rw [this, h4]

/-- C30. Unique sequence number: every call of `wlan_mac_high_mpdu_transmit`,
whatever the final unlock returns, stores the current `unique_seq` in the
`unique_seq` field of the transmit buffer, leaves the `sequence_control` of the
frame (in the queue buffer and in the transmit buffer) with bits 4..15 equal to
`unique_seq mod 4096` and bits 0..3 as before, and increments `unique_seq` by 1
(modulo `2^64`).  Hence, as long as `unique_seq` stays below `2^64`, the values
stored by successive calls are `unique_seq, unique_seq + 1, ...`: strictly
increasing and pairwise distinct. -/
theorem mpdu_transmit_unique_seq (d : wlan_mac_high_ipc_h) (h : wlan_mac_ipc_util_h)
    (cpu : Nat) (s : cpu_high_state) (packet : tx_queue_buffer) (tx_pkt_buf : Int)
    (calls : List (tx_queue_buffer × Int))
    (hle : s.unique_seq + calls.length ≤ 18446744073709551616) :
    ((wlan_mac_high_mpdu_transmit d h cpu s packet tx_pkt_buf).1.tx_pkt_buf_mem
        tx_pkt_buf).unique_seq = s.unique_seq ∧
    ((wlan_mac_high_mpdu_transmit d h cpu s packet tx_pkt_buf).1.tx_pkt_buf_mem
        tx_pkt_buf).mpdu.sequence_control / 16 = s.unique_seq % 4096 ∧
    ((wlan_mac_high_mpdu_transmit d h cpu s packet tx_pkt_buf).1.tx_pkt_buf_mem
        tx_pkt_buf).mpdu.sequence_control % 16
      = packet.frame_info.mpdu.sequence_control % 16 ∧
    (wlan_mac_high_mpdu_transmit d h cpu s packet tx_pkt_buf).2.frame_info.mpdu.sequence_control
      = ((wlan_mac_high_mpdu_transmit d h cpu s packet tx_pkt_buf).1.tx_pkt_buf_mem
          tx_pkt_buf).mpdu.sequence_control ∧
    (wlan_mac_high_mpdu_transmit d h cpu s packet tx_pkt_buf).1.unique_seq
      = (s.unique_seq + 1) % 18446744073709551616 ∧
    (s.unique_seq + 1 < 18446744073709551616 →
      (wlan_mac_high_mpdu_transmit d h cpu s packet tx_pkt_buf).1.unique_seq
        = s.unique_seq + 1) ∧
    (mpdu_transmit_run d h cpu s calls).2 = List.range' s.unique_seq calls.length ∧
    (mpdu_transmit_run d h cpu s calls).2.Pairwise (· < ·) ∧
    (mpdu_transmit_run d h cpu s calls).2.Nodup := by
  obtain ⟨h1, h2, h3, h4⟩ := mpdu_transmit_step d h cpu s packet tx_pkt_buf
  have hrun := mpdu_transmit_run_stored d h cpu calls s hle
  refine ⟨h1, ?_, ?_, ?_, h4, ?_, hrun, ?_, ?_⟩
  · rw [h2]; omega
  · rw [h2]; omega
  · rw [h2, h3]
  · intro hlt
    rw [h4, Nat.mod_eq_of_lt hlt]
  · rw [hrun]
    exact List.pairwise_lt_range' _ _
  · rw [hrun]
    exact List.nodup_range' _ _

/-- Witness of C30: `unique_seq = 4100`, a frame whose `sequence_control` is
`0xABC5`, transmit buffer 0 not held by the CPU (the final unlock fails): the
buffer gets `unique_seq = 4100` and `sequence_control = 16 * 4 + 5`, and three
successive calls store 4100, 4101, 4102. -/
theorem mpdu_transmit_unique_seq_witness :
    cpu_high_state_inst.unique_seq
        + [(tx_queue_buffer_inst, (0 : Int)), (tx_queue_buffer_inst, 1),
            (tx_queue_buffer_inst, 0)].length ≤ 18446744073709551616 ∧
    (unlock_pkt_buf_tx ipc_util_h_inst 0 cpu_high_state_inst.pkt_buf_mutex 0).1
      ≠ pkt_buf_mutex_status.PKT_BUF_MUTEX_SUCCESS ∧
    ((wlan_mac_high_mpdu_transmit ipc_h_inst ipc_util_h_inst 0 cpu_high_state_inst
        tx_queue_buffer_inst 0).1.tx_pkt_buf_mem 0).mpdu.sequence_control = 69 ∧
    (mpdu_transmit_run ipc_h_inst ipc_util_h_inst 0 cpu_high_state_inst
      [(tx_queue_buffer_inst, (0 : Int)), (tx_queue_buffer_inst, 1),
        (tx_queue_buffer_inst, 0)]).2 = [4100, 4101, 4102] ∧
    (((wlan_mac_high_mpdu_transmit ipc_h_inst ipc_util_h_inst 0 cpu_high_state_inst
        tx_queue_buffer_inst 0).1.tx_pkt_buf_mem 0).unique_seq
      = cpu_high_state_inst.unique_seq ∧
    ((wlan_mac_high_mpdu_transmit ipc_h_inst ipc_util_h_inst 0 cpu_high_state_inst
        tx_queue_buffer_inst 0).1.tx_pkt_buf_mem 0).mpdu.sequence_control / 16
      = cpu_high_state_inst.unique_seq % 4096 ∧
    ((wlan_mac_high_mpdu_transmit ipc_h_inst ipc_util_h_inst 0 cpu_high_state_inst
        tx_queue_buffer_inst 0).1.tx_pkt_buf_mem 0).mpdu.sequence_control % 16
      = tx_queue_buffer_inst.frame_info.mpdu.sequence_control % 16 ∧
    (wlan_mac_high_mpdu_transmit ipc_h_inst ipc_util_h_inst 0 cpu_high_state_inst
        tx_queue_buffer_inst 0).2.frame_info.mpdu.sequence_control
      = ((wlan_mac_high_mpdu_transmit ipc_h_inst ipc_util_h_inst 0 cpu_high_state_inst
          tx_queue_buffer_inst 0).1.tx_pkt_buf_mem 0).mpdu.sequence_control ∧
    (wlan_mac_high_mpdu_transmit ipc_h_inst ipc_util_h_inst 0 cpu_high_state_inst
        tx_queue_buffer_inst 0).1.unique_seq
      = (cpu_high_state_inst.unique_seq + 1) % 18446744073709551616 ∧
    (cpu_high_state_inst.unique_seq + 1 < 18446744073709551616 →
      (wlan_mac_high_mpdu_transmit ipc_h_inst ipc_util_h_inst 0 cpu_high_state_inst
          tx_queue_buffer_inst 0).1.unique_seq = cpu_high_state_inst.unique_seq + 1) ∧
    (mpdu_transmit_run ipc_h_inst ipc_util_h_inst 0 cpu_high_state_inst
      [(tx_queue_buffer_inst, (0 : Int)), (tx_queue_buffer_inst, 1),
        (tx_queue_buffer_inst, 0)]).2
      = List.range' cpu_high_state_inst.unique_seq
          [(tx_queue_buffer_inst, (0 : Int)), (tx_queue_buffer_inst, 1),
            (tx_queue_buffer_inst, 0)].length ∧
    (mpdu_transmit_run ipc_h_inst ipc_util_h_inst 0 cpu_high_state_inst
      [(tx_queue_buffer_inst, (0 : Int)), (tx_queue_buffer_inst, 1),
        (tx_queue_buffer_inst, 0)]).2.Pairwise (· < ·) ∧
    (mpdu_transmit_run ipc_h_inst ipc_util_h_inst 0 cpu_high_state_inst
      [(tx_queue_buffer_inst, (0 : Int)), (tx_queue_buffer_inst, 1),
        (tx_queue_buffer_inst, 0)]).2.Nodup) :=
  ⟨by decide, by decide, by decide, by decide,
    mpdu_transmit_unique_seq ipc_h_inst ipc_util_h_inst 0 cpu_high_state_inst
      tx_queue_buffer_inst 0
      [(tx_queue_buffer_inst, (0 : Int)), (tx_queue_buffer_inst, 1), (tx_queue_buffer_inst, 0)]
      (by decide)⟩

/-! ### The order of the statistics table -/

theorem dl_find_split {α : Type} (p : dl_entry α → Bool) (l : dl_list α) :
    ∀ (i : Nat) (e : dl_entry α), dl_find p l = some (i, e) →
      ∃ l1 l2, l = l1 ++ e :: l2 ∧ l1.length = i ∧ (∀ x ∈ l1, p x = false) ∧ p e = true := by
  induction l with
  | nil => intro i e hf; simp [dl_find] at hf
  | cons c rest ih =>
    intro i e hf
    unfold dl_find at hf
    by_cases hc : p c = true
    · rw [if_pos hc] at hf
      injection hf with hf
      injection hf with hi he
      subst hi; subst he
      exact ⟨[], rest, rfl, rfl, fun x hx => absurd hx (List.not_mem_nil x), hc⟩
    · rw [if_neg hc] at hf
      cases hr : dl_find p rest with
      | none => rw [hr] at hf; simp at hf
      | some r =>
        obtain ⟨j, e2⟩ := r
        rw [hr] at hf
        injection hf with hf
        injection hf with hi he
        subst hi; subst he
        obtain ⟨l1, l2, hl, hlen, hno, hpe⟩ := ih j e2 hr
        refine ⟨c :: l1, l2, by rw [hl]; rfl, by rw [List.length_cons, hlen], ?_, hpe⟩
        intro x hx
        rcases List.mem_cons.mp hx with hx | hx
        · subst hx; simpa using hc
        · exact hno x hx

/-- What `wlan_mac_high_find_statistics_ADDR` does to the list: nothing when no
entry has the address; otherwise the first entry with the address is moved to
the front and the other entries keep their order. -/
theorem find_statistics_ADDR_shape (list : dl_list statistics_txrx) (addr : Nat) :
    ((∀ x ∈ list, x.obj.addr ≠ addr) →
      wlan_mac_high_find_statistics_ADDR list addr = (none, list)) ∧
    (∀ (l1 l2 : dl_list statistics_txrx) (e : dl_entry statistics_txrx),
      list = l1 ++ e :: l2 → (∀ x ∈ l1, x.obj.addr ≠ addr) → e.obj.addr = addr →
      wlan_mac_high_find_statistics_ADDR list addr = (some e, e :: (l1 ++ l2))) := by
  constructor
  · intro hno
    unfold wlan_mac_high_find_statistics_ADDR
    have : dl_find (fun c : dl_entry statistics_txrx => wlan_addr_eq c.obj.addr addr) list
        = none := by
      rw [dl_find_none]
      intro x hx
      simpa [wlan_addr_eq] using hno x hx
    rw [this]
  · intro l1 l2 e hl h1 he
    unfold wlan_mac_high_find_statistics_ADDR
    have : dl_find (fun c : dl_entry statistics_txrx => wlan_addr_eq c.obj.addr addr) list
        = some (l1.length, e) := by
      rw [hl]
      apply dl_find_append
      · intro x hx
        simpa [wlan_addr_eq] using h1 x hx
      · simp [wlan_addr_eq, he]
    rw [this]
    simp only [dl_entry_insertBeginning, dl_entry_remove]
    rw [hl, eraseIdx_append_length]

theorem find_statistics_ADDR_perm (list : dl_list statistics_txrx) (addr : Nat) :
    (wlan_mac_high_find_statistics_ADDR list addr).2.Perm list := by
  cases hf : dl_find (fun c : dl_entry statistics_txrx => wlan_addr_eq c.obj.addr addr) list with
  | none =>
    unfold wlan_mac_high_find_statistics_ADDR
    rw [hf]
  | some r =>
    obtain ⟨i, e⟩ := r
    obtain ⟨l1, l2, hl, _, hno, hpe⟩ := dl_find_split _ _ i e hf
    have h1 : ∀ x ∈ l1, x.obj.addr ≠ addr := by
      intro x hx
      simpa [wlan_addr_eq] using hno x hx
    have he : e.obj.addr = addr := by simpa [wlan_addr_eq] using hpe
    rw [(find_statistics_ADDR_shape list addr).2 l1 l2 e hl h1 he, hl]
    exact List.perm_middle.symm

/-- `wlan_mac_high_add_statistics` for an address that has an entry: the entry
is returned, attached to the station if there is one, and moved to the front
of the table. -/
theorem add_statistics_existing (h : wlan_mac_high_h) (s : mac_high_state)
    (station : Option station_info) (addr : Nat)
    (l1 l2 : dl_list statistics_txrx) (e : dl_entry statistics_txrx)
    (hl : s.stat_tbl = l1 ++ e :: l2) (h1 : ∀ x ∈ l1, x.obj.addr ≠ addr)
    (he : e.obj.addr = addr) (hen : station.isSome ∨ s.promiscuous_stats_enabled ≠ 0) :
    wlan_mac_high_add_statistics h s station addr
      = (some e.data, station.map (fun st => { st with stats := e.data }),
          { s with stat_tbl := e :: (l1 ++ l2) }) := by
  have hcond : ¬ (station.isNone ∧ s.promiscuous_stats_enabled = 0) := by
    rintro ⟨h1, h2⟩
    rcases hen with hh | hh
    · cases station <;> simp at h1 hh
    · exact hh h2
  unfold wlan_mac_high_add_statistics
  rw [if_neg hcond, (find_statistics_ADDR_shape s.stat_tbl addr).2 l1 l2 e hl h1 he]

/-- The statistics table after `wlan_mac_high_add_association` for an address
that has a statistics entry: the old table, or the table with that entry moved
to the front and `is_associated` set through its pointer. -/
theorem add_association_stat_tbl_existing (h : wlan_mac_high_h) (s : mac_high_state)
    (addr requested_AID : Nat) (l1 l2 : dl_list statistics_txrx)
    (e : dl_entry statistics_txrx) (hl : s.stat_tbl = l1 ++ e :: l2)
    (h1 : ∀ x ∈ l1, x.obj.addr ≠ addr) (he : e.obj.addr = addr) :
    (wlan_mac_high_add_association h s addr requested_AID).2.stat_tbl = s.stat_tbl ∨
    (wlan_mac_high_add_association h s addr requested_AID).2.stat_tbl
      = stats_set_is_associated (e :: (l1 ++ l2)) e.data 1 := by
  unfold wlan_mac_high_add_association
  cases hby : (if requested_AID ≠ h.ADD_ASSOCIATION_ANY_AID then
      wlan_mac_high_find_station_info_AID s.assoc_tbl requested_AID else none) with
  | some r =>
    obtain ⟨i, entry⟩ := r
    left
    simp only []
    split <;> rfl
  | none =>
    simp only []
    cases hfa : wlan_mac_high_find_station_info_ADDR s.assoc_tbl addr with
    | some r =>
      obtain ⟨i, entry⟩ := r
      left; rfl
    | none =>
      simp only []
      by_cases hlen : s.assoc_tbl.length ≥ s.max_num_associations
      · left; rw [if_pos hlen]
      · rw [if_neg hlen]
        cases hm1 : wlan_mac_high_malloc s.heap with
        | mk r1 heap1 =>
          cases r1 with
          | none => left; rfl
          | some a =>
            simp only []
            cases hm2 : wlan_mac_high_malloc heap1 with
            | mk r2 heap2 =>
              cases r2 with
              | none => left; rfl
              | some p =>
                simp only []
                have hex := add_statistics_existing h { s with heap := heap2 }
                  (some { AID := 0, addr := 0, hostname0 := 0, flags := 0, rx_last_seq := 0,
                          tx := 0, rate_selection_scheme := 0, stats := 0 }) addr l1 l2 e hl h1
                  he (Or.inl rfl)
                rw [hex]
                right
                rfl

/-- C29, as stated, fails: in the table with the entries for the addresses 31,
32, 33, created in this order, `wlan_mac_high_find_statistics_ADDR` for the
address 33 returns the entry and leaves the table in the order 33, 31, 32. -/
theorem find_statistics_ADDR_changes_order :
    mac_high_state_stats_inst.stat_tbl.map (fun x => (x.data, x.obj.addr))
      = [(500, 31), (501, 32), (502, 33)] ∧
    (wlan_mac_high_find_statistics_ADDR mac_high_state_stats_inst.stat_tbl 33).1.map
        (fun x => (x.data, x.obj.addr)) = some (502, 33) ∧
    (wlan_mac_high_find_statistics_ADDR mac_high_state_stats_inst.stat_tbl 33).2.map
        (fun x => (x.data, x.obj.addr)) = [(502, 33), (500, 31), (501, 32)] ∧
    (wlan_mac_high_find_statistics_ADDR mac_high_state_stats_inst.stat_tbl 33).2
      ≠ mac_high_state_stats_inst.stat_tbl := by
  decide

/-- C29, amended: a look-up of an address in the statistics table keeps the
set of entries and the length of the table (the table after it is a
permutation of the table before).  When no entry has the address the table is
unchanged.  When an entry has the address, the first such entry is moved to the
front and the other entries keep their relative order; this is the table after
`wlan_mac_high_find_statistics_ADDR`, after `wlan_mac_high_add_statistics`
(which returns the entry), and after a `wlan_mac_high_add_association` that
adds a station for the address, which also sets `is_associated` of the entry;
any other `wlan_mac_high_add_association` leaves the table as it is. -/
theorem stat_tbl_lookup_moves_to_front (h : wlan_mac_high_h) (s : mac_high_state)
    (station : Option station_info) (addr : Nat) :
    (wlan_mac_high_find_statistics_ADDR s.stat_tbl addr).2.Perm s.stat_tbl ∧
    (wlan_mac_high_find_statistics_ADDR s.stat_tbl addr).2.length = s.stat_tbl.length ∧
    ((∀ x ∈ s.stat_tbl, x.obj.addr ≠ addr) →
      wlan_mac_high_find_statistics_ADDR s.stat_tbl addr = (none, s.stat_tbl)) ∧
    (∀ (l1 l2 : dl_list statistics_txrx) (e : dl_entry statistics_txrx),
      s.stat_tbl = l1 ++ e :: l2 → (∀ x ∈ l1, x.obj.addr ≠ addr) → e.obj.addr = addr →
      wlan_mac_high_find_statistics_ADDR s.stat_tbl addr = (some e, e :: (l1 ++ l2)) ∧
      ((station.isSome ∨ s.promiscuous_stats_enabled ≠ 0) →
        (wlan_mac_high_add_statistics h s station addr).1 = some e.data ∧
        (wlan_mac_high_add_statistics h s station addr).2.2.stat_tbl = e :: (l1 ++ l2)) ∧
      (∀ requested_AID,
        (wlan_mac_high_add_association h s addr requested_AID).2.stat_tbl = s.stat_tbl ∨
        (wlan_mac_high_add_association h s addr requested_AID).2.stat_tbl
          = stats_set_is_associated (e :: (l1 ++ l2)) e.data 1)) := by
  refine ⟨find_statistics_ADDR_perm s.stat_tbl addr,
    (find_statistics_ADDR_perm s.stat_tbl addr).length_eq,
    (find_statistics_ADDR_shape s.stat_tbl addr).1, ?_⟩
  intro l1 l2 e hl h1 he
  refine ⟨(find_statistics_ADDR_shape s.stat_tbl addr).2 l1 l2 e hl h1 he, ?_, ?_⟩
  · intro hen
    rw [add_statistics_existing h s station addr l1 l2 e hl h1 he hen]
    exact ⟨rfl, rfl⟩
  · intro r
    exact add_association_stat_tbl_existing h s addr r l1 l2 e hl h1 he

/-- Witness of the amended C29: the table with the entries for 31, 32, 33 and
a look-up of 33, by `wlan_mac_high_find_statistics_ADDR` and by
`wlan_mac_high_add_statistics` without a station (promiscuous statistics
enabled); a look-up of 40 finds nothing and changes nothing. -/
theorem stat_tbl_lookup_moves_to_front_witness :
    (∀ x ∈ mac_high_state_stats_inst.stat_tbl, x.obj.addr ≠ 40) ∧
    mac_high_state_stats_inst.stat_tbl
      = [stats_entry_inst 500 31 1 10, stats_entry_inst 501 32 0 20]
        ++ stats_entry_inst 502 33 0 30 :: [] ∧
    (∀ x ∈ [stats_entry_inst 500 31 1 10, stats_entry_inst 501 32 0 20], x.obj.addr ≠ 33) ∧
    (stats_entry_inst 502 33 0 30).obj.addr = 33 ∧
    ((none : Option station_info).isSome ∨
      mac_high_state_stats_inst.promiscuous_stats_enabled ≠ 0) ∧
    wlan_mac_high_find_statistics_ADDR mac_high_state_stats_inst.stat_tbl 40
      = (none, mac_high_state_stats_inst.stat_tbl) ∧
    wlan_mac_high_find_statistics_ADDR mac_high_state_stats_inst.stat_tbl 33
      = (some (stats_entry_inst 502 33 0 30),
          stats_entry_inst 502 33 0 30 ::
            ([stats_entry_inst 500 31 1 10, stats_entry_inst 501 32 0 20] ++ [])) ∧
    ((wlan_mac_high_add_statistics mac_high_h_inst mac_high_state_stats_inst none 33).1
        = some (stats_entry_inst 502 33 0 30).data ∧
      (wlan_mac_high_add_statistics mac_high_h_inst mac_high_state_stats_inst none 33).2.2.stat_tbl
        = stats_entry_inst 502 33 0 30 ::
            ([stats_entry_inst 500 31 1 10, stats_entry_inst 501 32 0 20] ++ [])) ∧
    (wlan_mac_high_find_statistics_ADDR mac_high_state_stats_inst.stat_tbl 33).2.Perm
      mac_high_state_stats_inst.stat_tbl :=
  ⟨by decide, by decide, by decide, by decide, by decide,
    (stat_tbl_lookup_moves_to_front mac_high_h_inst mac_high_state_stats_inst none 40).2.2.1
      (by decide),
    ((stat_tbl_lookup_moves_to_front mac_high_h_inst mac_high_state_stats_inst none 33).2.2.2
      [stats_entry_inst 500 31 1 10, stats_entry_inst 501 32 0 20] []
      (stats_entry_inst 502 33 0 30) (by decide) (by decide) (by decide)).1,
    ((stat_tbl_lookup_moves_to_front mac_high_h_inst mac_high_state_stats_inst none 33).2.2.2
      [stats_entry_inst 500 31 1 10, stats_entry_inst 501 32 0 20] []
      (stats_entry_inst 502 33 0 30) (by decide) (by decide) (by decide)).2.1 (by decide),
    (stat_tbl_lookup_moves_to_front mac_high_h_inst mac_high_state_stats_inst none 33).1⟩

/-! ### The cross-link between the association table and the statistics table -/

/-- The loop for `ADD_ASSOCIATION_ANY_AID` on a table of 16-bit AIDs leaves the
station and the list as they are, or links the station in once, with an AID
other than 0. -/
theorem add_association_any_loop_shape (p : Nat) (st : station_info) :
    ∀ (l : dl_list station_info) (curr : Nat), (∀ a ∈ assoc_AIDs l, a < 65536) →
      add_association_any_loop p st l curr = (st, l) ∨
      ∃ l1 l2 a, l = l1 ++ l2 ∧ a ≠ 0 ∧ a < 65536 ∧
        add_association_any_loop p st l curr
          = ({ st with AID := a }, l1 ++ { data := p, obj := { st with AID := a } } :: l2) := by
  intro l
  induction l with
  | nil => intro curr _; left; rfl
  | cons c rest ih =>
    intro curr hb
    rw [assoc_AIDs_cons] at hb
    have hc : c.obj.AID < 65536 := hb _ (List.mem_cons_self _ _)
    have hrest : ∀ a ∈ assoc_AIDs rest, a < 65536 :=
      fun a ha => hb a (List.mem_cons_of_mem _ ha)
    by_cases hgap : ((c.obj.AID : Int) - (curr : Int)) > 1
    · right
      have hmod : (c.obj.AID - 1) % 65536 = c.obj.AID - 1 := Nat.mod_eq_of_lt (by omega)
      refine ⟨[], c :: rest, c.obj.AID - 1, rfl, by omega, by omega, ?_⟩
      rw [add_association_any_loop, if_pos hgap, hmod]
      rfl
    · have hloop : add_association_any_loop p st (c :: rest) curr
          = ((add_association_any_loop p st rest c.obj.AID).1,
              c :: (add_association_any_loop p st rest c.obj.AID).2) := by
        rw [add_association_any_loop, if_neg hgap]
      rw [hloop]
      rcases ih c.obj.AID hrest with heq | ⟨l1, l2, a, hl, ha0, ha, heq⟩
      · left; rw [heq]
      · right
        refine ⟨c :: l1, l2, a, by rw [hl]; rfl, ha0, ha, ?_⟩
        rw [heq]
        rfl

/-- The loop for a requested AID that is smaller than the AID of at most one
entry leaves the station and the list as they are (no larger AID), or links
the station in once. -/
theorem add_association_requested_loop_shape (p requested_AID : Nat) :
    ∀ (l : dl_list station_info) (st : station_info),
      assoc_count_larger l requested_AID ≤ 1 →
      (assoc_count_larger l requested_AID = 0 ∧
        add_association_requested_loop p requested_AID st l = (st, l)) ∨
      ∃ l1 l2, l = l1 ++ l2 ∧
        add_association_requested_loop p requested_AID st l
          = ({ st with AID := requested_AID },
              l1 ++ { data := p, obj := { st with AID := requested_AID } } :: l2) := by
  intro l
  induction l with
  | nil => intro st _; left; exact ⟨rfl, rfl⟩
  | cons c rest ih =>
    intro st hcnt
    rw [assoc_count_larger_cons] at hcnt
    by_cases hgt : c.obj.AID > requested_AID
    · rw [if_pos hgt] at hcnt
      have hz : assoc_count_larger rest requested_AID = 0 := by omega
      have hno : ∀ x ∈ rest, ¬ x.obj.AID > requested_AID := by
        intro x hx
        unfold assoc_count_larger at hz
        rw [List.countP_eq_zero] at hz
        simpa using hz x hx
      right
      refine ⟨[], c :: rest, rfl, ?_⟩
      rw [add_association_requested_loop, if_pos hgt]
      simp only [add_association_requested_relink_none requested_AID rest _ hno,
        List.nil_append]
    · rw [if_neg hgt] at hcnt
      have hloop : add_association_requested_loop p requested_AID st (c :: rest)
          = ((add_association_requested_loop p requested_AID st rest).1,
              c :: (add_association_requested_loop p requested_AID st rest).2) := by
        rw [add_association_requested_loop, if_neg hgt]
      rw [hloop, assoc_count_larger_cons, if_neg hgt]
      rcases ih st (by omega) with ⟨hz, heq⟩ | ⟨l1, l2, hl, heq⟩
      · left
        exact ⟨by omega, by rw [heq]⟩
      · right
        refine ⟨c :: l1, l2, by rw [hl]; rfl, ?_⟩
        rw [heq]
        rfl

/-- The AID set-up with `ADD_ASSOCIATION_ANY_AID`, or with a requested 16-bit
AID other than 0 that is smaller than the AID of at most one entry, on a table
of 16-bit AIDs: the new station is linked in once, with a 16-bit AID. -/
theorem add_association_place_shape (h : wlan_mac_high_h) (tbl : dl_list station_info)
    (p : Nat) (st : station_info) (requested_AID : Nat) (hst : st.AID = 0)
    (hb : ∀ a ∈ assoc_AIDs tbl, a < 65536)
    (hr : requested_AID = h.ADD_ASSOCIATION_ANY_AID ∨
      (requested_AID ≠ 0 ∧ requested_AID < 65536 ∧
        assoc_count_larger tbl requested_AID ≤ 1)) :
    ∃ l1 l2 a, tbl = l1 ++ l2 ∧ a < 65536 ∧
      add_association_place h tbl p st requested_AID
        = l1 ++ { data := p, obj := { st with AID := a } } :: l2 := by
  unfold add_association_place
  by_cases hany : requested_AID = h.ADD_ASSOCIATION_ANY_AID
  · rw [if_pos hany]
    rcases add_association_any_loop_shape p st tbl 0 hb with heq | ⟨l1, l2, a, hl, ha0, ha, heq⟩
    · simp only [heq, hst, if_true, dl_entry_insertEnd]
      by_cases hlen : tbl.length = 0
      · refine ⟨tbl, [], 1, (List.append_nil _).symm, by omega, ?_⟩
        rw [if_pos hlen]
      · rw [if_neg hlen]
        cases hlast : tbl.getLast? with
        | none =>
          refine ⟨tbl, [], 0, (List.append_nil _).symm, by omega, ?_⟩
          simp only []
          congr 3
          cases st
          simp only [] at hst
          subst hst
          rfl
        | some last =>
          exact ⟨tbl, [], (last.obj.AID + 1) % 65536, (List.append_nil _).symm,
            Nat.mod_lt _ (by norm_num), rfl⟩
    · have hne : ¬ ({ st with AID := a } : station_info).AID = 0 := ha0
      simp only [heq, hne, if_false]
      exact ⟨l1, l2, a, hl, ha, rfl⟩
  · rw [if_neg hany]
    rcases hr with hr | ⟨hr0, hrlt, hcnt⟩
    · exact absurd hr hany
    · rcases add_association_requested_loop_shape p requested_AID tbl st hcnt with
        ⟨hz, heq⟩ | ⟨l1, l2, hl, heq⟩
      · have hall : ∀ x ∈ tbl, ¬ x.obj.AID > requested_AID := by
          intro x hx
          have := (List.countP_eq_zero.mp hz) x hx
          simpa using this
        simp only [heq, hst, if_true, dl_entry_insertEnd,
          add_association_requested_front_none requested_AID tbl hall]
        exact ⟨tbl, [], requested_AID, (List.append_nil _).symm, hrlt, rfl⟩
      · have hne : ¬ ({ st with AID := requested_AID } : station_info).AID = 0 := hr0
        simp only [heq, hne, if_false]
        exact ⟨l1, l2, requested_AID, hl, hrlt, rfl⟩

theorem nodup_fresh_sublist (H H2 D1 D2 : List Nat) (hH : List.Sublist H2 H)
    (hD : List.Sublist D2 D1) (hn : (H ++ D1).Nodup) : (H2 ++ D2).Nodup :=
  List.Nodup.sublist (List.Sublist.append hH hD) hn

theorem nodup_fresh_step (H H2 D1 D2 : List Nat) (p : Nat) (hH : List.Sublist (p :: H2) H)
    (hD : List.Sublist D2 D1) (hn : (H ++ D1).Nodup) : (H2 ++ (D2 ++ [p])).Nodup := by
  have h1 : (p :: (H2 ++ D2)).Nodup :=
    List.Nodup.sublist (List.Sublist.append hH hD) hn
  have h2 : List.Perm (H2 ++ (D2 ++ [p])) (p :: (H2 ++ D2)) := by
    rw [← List.append_assoc]
    exact List.perm_append_singleton _ _
  exact h2.nodup_iff.mpr h1

/-- The eviction step of `wlan_mac_high_add_statistics`: the table after it is
the table without at most one entry, and every associated entry is kept. -/
theorem stat_evict_facts (h : wlan_mac_high_h) (tbl : dl_list statistics_txrx) :
    List.Sublist
      (if tbl.length ≥ h.WLAN_MAC_HIGH_MAX_PROMISC_STATS then
          match oldest_statistics_scan 0 tbl none with
          | none => tbl
          | some (opos, _) => dl_entry_remove tbl opos
        else tbl) tbl ∧
    ∀ x ∈ tbl, x.obj.is_associated ≠ 0 →
      x ∈ (if tbl.length ≥ h.WLAN_MAC_HIGH_MAX_PROMISC_STATS then
          match oldest_statistics_scan 0 tbl none with
          | none => tbl
          | some (opos, _) => dl_entry_remove tbl opos
        else tbl) := by
  by_cases hlen : tbl.length ≥ h.WLAN_MAC_HIGH_MAX_PROMISC_STATS
  · rw [if_pos hlen]
    by_cases hall : ∀ x ∈ tbl, x.obj.is_associated ≠ 0
    · rw [(oldest_statistics_scan_none tbl 0).1 hall]
      exact ⟨List.Sublist.refl _, fun x hx _ => hx⟩
    · have hex : ∃ x ∈ tbl, x.obj.is_associated = 0 := by
        by_contra hc
        apply hall
        intro x hx hx0
        exact hc ⟨x, hx, hx0⟩
      obtain ⟨k, e, hscan, hk, he0, _⟩ := (oldest_statistics_scan_none tbl 0).2 hex
      rw [hscan]
      simp only [dl_entry_remove]
      refine ⟨List.eraseIdx_sublist _ _, ?_⟩
      intro x hx hx0
      obtain ⟨i, hi⟩ := List.mem_iff_getElem?.mp hx
      rw [List.mem_eraseIdx_iff_getElem?]
      refine ⟨i, ?_, hi⟩
      intro hik
      rw [hik, Nat.zero_add, hk] at hi
      injection hi with hi
      rw [hi] at he0
      exact hx0 he0
  · rw [if_neg hlen]
    exact ⟨List.Sublist.refl _, fun x hx _ => hx⟩

/-- What `wlan_mac_high_add_statistics` keeps: the pointers stay distinct,
every associated entry of the statistics table stays in the table, and the
structure returned is in the table and has the address. -/
theorem add_statistics_frame (h : wlan_mac_high_h) (s : mac_high_state)
    (station : Option station_info) (addr : Nat) (hfresh : stat_ptrs_fresh s) :
    stat_ptrs_fresh (wlan_mac_high_add_statistics h s station addr).2.2 ∧
    (∀ x ∈ s.stat_tbl, x.obj.is_associated ≠ 0 →
      x ∈ (wlan_mac_high_add_statistics h s station addr).2.2.stat_tbl) ∧
    (∀ q, (wlan_mac_high_add_statistics h s station addr).1 = some q →
      ∃ y ∈ (wlan_mac_high_add_statistics h s station addr).2.2.stat_tbl,
        y.data = q ∧ y.obj.addr = addr) := by
  unfold stat_ptrs_fresh at hfresh ⊢
  unfold wlan_mac_high_add_statistics
  split
  · exact ⟨hfresh, fun x hx _ => hx, fun q hq => by cases hq⟩
  · cases hfd : dl_find (fun c : dl_entry statistics_txrx => wlan_addr_eq c.obj.addr addr)
        s.stat_tbl with
    | some r =>
      obtain ⟨i, e⟩ := r
      obtain ⟨l1, l2, hl, _, hno, hpe⟩ := dl_find_split _ _ i e hfd
      have h1 : ∀ x ∈ l1, x.obj.addr ≠ addr := by
        intro x hx
        simpa [wlan_addr_eq] using hno x hx
      have he : e.obj.addr = addr := by simpa [wlan_addr_eq] using hpe
      rw [(find_statistics_ADDR_shape s.stat_tbl addr).2 l1 l2 e hl h1 he]
      simp only []
      have hperm : List.Perm (e :: (l1 ++ l2)) s.stat_tbl := by
        rw [hl]; exact List.perm_middle.symm
      refine ⟨?_, ?_, ?_⟩
      · exact ((List.Perm.append_left _ (hperm.map _)).nodup_iff).mpr hfresh
      · intro x hx _
        exact hperm.mem_iff.mpr hx
      · intro q hq
        injection hq with hq
        exact ⟨e, List.mem_cons_self _ _, hq, he⟩
    | none =>
      have hno : ∀ x ∈ s.stat_tbl, x.obj.addr ≠ addr := by
        intro x hx
        have := (dl_find_none _ _).mp hfd x hx
        simpa [wlan_addr_eq] using this
      rw [(find_statistics_ADDR_shape s.stat_tbl addr).1 hno]
      simp only []
      obtain ⟨hsub, hkeep⟩ := stat_evict_facts h s.stat_tbl
      generalize (if s.stat_tbl.length ≥ h.WLAN_MAC_HIGH_MAX_PROMISC_STATS then
          match oldest_statistics_scan 0 s.stat_tbl none with
          | none => s.stat_tbl
          | some (opos, _) => dl_entry_remove s.stat_tbl opos
        else s.stat_tbl) = T2 at hsub hkeep ⊢
      cases hheap : s.heap with
      | nil =>
        rw [hheap] at hfresh
        simp only [wlan_mac_high_malloc]
        exact ⟨nodup_fresh_sublist _ _ _ _ (List.Sublist.refl _) (hsub.map _) hfresh, hkeep,
          fun q hq => by cases hq⟩
      | cons r1 rest1 =>
        rw [hheap] at hfresh
        have hs1 : List.Sublist (rest1.filterMap id) ((r1 :: rest1).filterMap id) :=
          (List.sublist_cons_self r1 rest1).filterMap id
        cases r1 with
        | none =>
          simp only [wlan_mac_high_malloc]
          exact ⟨nodup_fresh_sublist _ _ _ _ hs1 (hsub.map _) hfresh, hkeep,
            fun q hq => by cases hq⟩
        | some a =>
          simp only [wlan_mac_high_malloc, wlan_mac_high_calloc]
          cases rest1 with
          | nil =>
            simp only []
            exact ⟨nodup_fresh_sublist _ _ _ _ hs1 (hsub.map _) hfresh, hkeep,
              fun q hq => by cases hq⟩
          | cons r2 rest2 =>
            have hs2 : List.Sublist ((r2 :: rest2).filterMap id)
                ((some a :: r2 :: rest2).filterMap id) := hs1
            cases r2 with
            | none =>
              simp only []
              exact ⟨nodup_fresh_sublist _ _ _ _
                (List.Sublist.trans ((List.sublist_cons_self none rest2).filterMap id) hs2)
                (hsub.map _) hfresh, hkeep, fun q hq => by cases hq⟩
            | some q2 =>
              simp only [dl_entry_insertEnd]
              refine ⟨?_, ?_, ?_⟩
              · rw [List.map_append]
                exact nodup_fresh_step _ _ _ _ q2 hs2 (hsub.map _) hfresh
              · intro x hx hx0
                exact List.mem_append_left _ (hkeep x hx hx0)
              · intro q hq
                injection hq with hq
                exact ⟨_, List.mem_append_right _ (List.mem_singleton_self _), hq, rfl⟩

theorem stats_set_is_associated_data (tbl : dl_list statistics_txrx) (p v : Nat) :
    (stats_set_is_associated tbl p v).map (fun x => x.data) = tbl.map (fun x => x.data) := by
  unfold stats_set_is_associated
  rw [List.map_map]
  apply List.map_congr_left
  intro x _
  show (if x.data = p then { x with obj := { x.obj with is_associated := v } } else x).data
    = x.data
  split <;> rfl

theorem stats_set_is_associated_mem (tbl : dl_list statistics_txrx) (p v : Nat)
    (x : dl_entry statistics_txrx) (hx : x ∈ tbl) :
    ∃ y ∈ stats_set_is_associated tbl p v, y.data = x.data ∧ y.obj.addr = x.obj.addr ∧
      (x.data = p → y.obj.is_associated = v) ∧ (x.data ≠ p → y = x) := by
  unfold stats_set_is_associated
  refine ⟨_, List.mem_map_of_mem _ hx, ?_⟩
  by_cases hp : x.data = p
  · rw [if_pos hp]
    exact ⟨rfl, rfl, fun _ => rfl, fun hne => absurd hp hne⟩
  · rw [if_neg hp]
    exact ⟨rfl, rfl, fun hc => absurd hc hp, fun _ => rfl⟩

theorem malloc_sublist (heap : heap_t) :
    List.Sublist ((wlan_mac_high_malloc heap).2.filterMap id) (heap.filterMap id) := by
  cases heap with
  | nil => exact List.Sublist.refl _
  | cons r rest => exact (List.sublist_cons_self r rest).filterMap id

/-- The invariant of the tables does not depend on the blocks that a failed or
unrelated `malloc` has taken from the heap. -/
theorem tables_inv_heap (s : mac_high_state) (heap1 : heap_t)
    (hsub : List.Sublist (heap1.filterMap id) (s.heap.filterMap id)) (hinv : tables_inv s) :
    tables_inv { s with heap := heap1 } := by
  obtain ⟨h1, h2, h3, h4⟩ := hinv
  refine ⟨h1, ?_, h3, h4⟩
  unfold stat_ptrs_fresh at h2 ⊢
  exact nodup_fresh_sublist _ _ _ _ hsub (List.Sublist.refl _) h2

theorem assoc_addrs_append (l1 l2 : dl_list station_info) :
    assoc_addrs (l1 ++ l2) = assoc_addrs l1 ++ assoc_addrs l2 := by
  unfold assoc_addrs
  exact List.map_append _ _ _

/-- An add that links the new station in once keeps the invariant of the
tables. -/
theorem add_association_keeps_inv (h : wlan_mac_high_h) (s : mac_high_state)
    (addr requested_AID : Nat) (hinv : tables_inv s)
    (hr : requested_AID = h.ADD_ASSOCIATION_ANY_AID ∨
      (requested_AID ≠ 0 ∧ requested_AID < 65536 ∧
        assoc_count_larger s.assoc_tbl requested_AID ≤ 1)) :
    tables_inv (wlan_mac_high_add_association h s addr requested_AID).2 := by
  unfold wlan_mac_high_add_association
  cases hby : (if requested_AID ≠ h.ADD_ASSOCIATION_ANY_AID then
      wlan_mac_high_find_station_info_AID s.assoc_tbl requested_AID else none) with
  | some r =>
    obtain ⟨i, entry⟩ := r
    simp only []
    split <;> exact hinv
  | none =>
    simp only []
    cases hfa : wlan_mac_high_find_station_info_ADDR s.assoc_tbl addr with
    | some r =>
      obtain ⟨i, entry⟩ := r
      exact hinv
    | none =>
      simp only []
      by_cases hlen : s.assoc_tbl.length ≥ s.max_num_associations
      · rw [if_pos hlen]; exact hinv
      · rw [if_neg hlen]
        have hsub1 := malloc_sublist s.heap
        cases hm1 : wlan_mac_high_malloc s.heap with
        | mk r1 heap1 =>
          rw [hm1] at hsub1
          cases r1 with
          | none => exact tables_inv_heap s heap1 hsub1 hinv
          | some a =>
            simp only []
            have hsub2 := malloc_sublist heap1
            cases hm2 : wlan_mac_high_malloc heap1 with
            | mk r2 heap2 =>
              rw [hm2] at hsub2
              have hsub12 : List.Sublist (heap2.filterMap id) (s.heap.filterMap id) :=
                List.Sublist.trans hsub2 hsub1
              cases r2 with
              | none => exact tables_inv_heap s heap2 hsub12 hinv
              | some p =>
                simp only []
                have hinv2 := tables_inv_heap s heap2 hsub12 hinv
                obtain ⟨hlink, hfresh, haddr, haid⟩ := hinv2
                have hat := add_statistics_assoc_tbl h { s with heap := heap2 }
                  (some { AID := 0, addr := 0, hostname0 := 0, flags := 0, rx_last_seq := 0,
                          tx := 0, rate_selection_scheme := 0, stats := 0 }) addr
                obtain ⟨hf1, hf2, hf3⟩ := add_statistics_frame h { s with heap := heap2 }
                  (some { AID := 0, addr := 0, hostname0 := 0, flags := 0, rx_last_seq := 0,
                          tx := 0, rate_selection_scheme := 0, stats := 0 }) addr hfresh
                cases hs : wlan_mac_high_add_statistics h { s with heap := heap2 }
                  (some { AID := 0, addr := 0, hostname0 := 0, flags := 0, rx_last_seq := 0,
                          tx := 0, rate_selection_scheme := 0, stats := 0 }) addr with
                | mk r3 rest3 =>
                  obtain ⟨st3, s1⟩ := rest3
                  rw [hs] at hat hf1 hf2 hf3
                  simp only [] at hat hf1 hf2 hf3
                  have hlink1 : ∀ e ∈ s.assoc_tbl, ∃ x ∈ s1.stat_tbl,
                      x.data = e.obj.stats ∧ x.obj.addr = e.obj.addr ∧
                        x.obj.is_associated ≠ 0 := by
                    intro e he
                    obtain ⟨x, hx, hx1, hx2, hx3⟩ := hlink e he
                    exact ⟨x, hf2 x hx hx3, hx1, hx2, hx3⟩
                  cases r3 with
                  | none =>
                    refine ⟨?_, hf1, ?_, ?_⟩
                    · intro e he
                      rw [hat] at he
                      exact hlink1 e he
                    · rw [hat]; exact haddr
                    · rw [hat]; exact haid
                  | some q =>
                    obtain ⟨y, hy, hyq, hya⟩ := hf3 q rfl
                    have hnoaddr : addr ∉ assoc_addrs s.assoc_tbl := by
                      intro hmem
                      unfold assoc_addrs at hmem
                      obtain ⟨e, he, hea⟩ := List.mem_map.mp hmem
                      unfold wlan_mac_high_find_station_info_ADDR at hfa
                      have := (dl_find_none _ _).mp hfa e he
                      simp [wlan_addr_eq, hea] at this
                    obtain ⟨l1, l2, a2, hl, ha2, hplace⟩ := add_association_place_shape h
                      s.assoc_tbl p
                      { AID := 0, addr := addr, hostname0 := 0,
                        flags := if h.wlan_mac_addr_is_warp addr then
                            0 ||| h.STATION_INFO_FLAG_DISABLE_ASSOC_CHECK
                          else 0,
                        rx_last_seq := 65535, tx := s.default_unicast_data_tx_params,
                        rate_selection_scheme := h.RATE_SELECTION_SCHEME_STATIC, stats := q }
                      requested_AID rfl haid hr
                    show tables_inv { s1 with
                      stat_tbl := stats_set_is_associated s1.stat_tbl q 1
                      assoc_tbl := add_association_place h s1.assoc_tbl p
                        { AID := 0, addr := addr, hostname0 := 0,
                          flags := if h.wlan_mac_addr_is_warp addr then
                              0 ||| h.STATION_INFO_FLAG_DISABLE_ASSOC_CHECK
                            else 0,
                          rx_last_seq := 65535, tx := s.default_unicast_data_tx_params,
                          rate_selection_scheme := h.RATE_SELECTION_SCHEME_STATIC, stats := q }
                        requested_AID }
                    rw [hat, hplace]
                    refine ⟨?_, ?_, ?_, ?_⟩
                    · intro e he
                      have he2 : e ∈ l1 ++ { data := p, obj :=
                          { AID := a2, addr := addr, hostname0 := 0,
                            flags := if h.wlan_mac_addr_is_warp addr then
                                0 ||| h.STATION_INFO_FLAG_DISABLE_ASSOC_CHECK
                              else 0,
                            rx_last_seq := 65535, tx := s.default_unicast_data_tx_params,
                            rate_selection_scheme := h.RATE_SELECTION_SCHEME_STATIC,
                            stats := q } } :: l2 := he
                      have hcase : e ∈ s.assoc_tbl ∨ (e.obj.stats = q ∧ e.obj.addr = addr) := by
                        rcases List.mem_append.mp he2 with hm | hm
                        · left; rw [hl]; exact List.mem_append_left _ hm
                        · rcases List.mem_cons.mp hm with hm | hm
                          · right; rw [hm]; exact ⟨rfl, rfl⟩
                          · left; rw [hl]; exact List.mem_append_right _ hm
                      rcases hcase with hold | ⟨hes, hea⟩
                      · obtain ⟨x, hx, hx1, hx2, hx3⟩ := hlink1 e hold
                        obtain ⟨x2, hx2m, hd, hads, hset, hsame⟩ :=
                          stats_set_is_associated_mem s1.stat_tbl q 1 x hx
                        refine ⟨x2, hx2m, by rw [hd, hx1], by rw [hads, hx2], ?_⟩
                        by_cases hq : x.data = q
                        · rw [hset hq]; decide
                        · rw [hsame hq]; exact hx3
                      · obtain ⟨x2, hx2m, hd, hads, hset, _⟩ :=
                          stats_set_is_associated_mem s1.stat_tbl q 1 y hy
                        refine ⟨x2, hx2m, by rw [hd, hyq, hes], by rw [hads, hya, hea], ?_⟩
                        rw [hset hyq]; decide
                    · unfold stat_ptrs_fresh at hf1 ⊢
                      show (s1.heap.filterMap id
                        ++ (stats_set_is_associated s1.stat_tbl q 1).map (fun x => x.data)).Nodup
                      rw [stats_set_is_associated_data]
                      exact hf1
                    · show (assoc_addrs (l1 ++ { data := p, obj :=
                          { AID := a2, addr := addr, hostname0 := 0,
                            flags := if h.wlan_mac_addr_is_warp addr then
                                0 ||| h.STATION_INFO_FLAG_DISABLE_ASSOC_CHECK
                              else 0,
                            rx_last_seq := 65535, tx := s.default_unicast_data_tx_params,
                            rate_selection_scheme := h.RATE_SELECTION_SCHEME_STATIC,
                            stats := q } } :: l2)).Nodup
                      have haddr2 : (assoc_addrs (l1 ++ l2)).Nodup := by rw [← hl]; exact haddr
                      have hno2 : addr ∉ assoc_addrs (l1 ++ l2) := by rw [← hl]; exact hnoaddr
                      rw [assoc_addrs_append] at haddr2 hno2 ⊢
                      show (assoc_addrs l1 ++ addr :: assoc_addrs l2).Nodup
                      exact List.nodup_middle.mpr (List.nodup_cons.mpr ⟨hno2, haddr2⟩)
                    · intro b hb
                      have hb2 : b ∈ assoc_AIDs (l1 ++ { data := p, obj :=
                          { AID := a2, addr := addr, hostname0 := 0,
                            flags := if h.wlan_mac_addr_is_warp addr then
                                0 ||| h.STATION_INFO_FLAG_DISABLE_ASSOC_CHECK
                              else 0,
                            rx_last_seq := 65535, tx := s.default_unicast_data_tx_params,
                            rate_selection_scheme := h.RATE_SELECTION_SCHEME_STATIC,
                            stats := q } } :: l2) := hb
                      rw [assoc_AIDs_append, assoc_AIDs_cons] at hb2
                      rw [hl, assoc_AIDs_append] at haid
                      rcases List.mem_append.mp hb2 with hm | hm
                      · exact haid b (List.mem_append_left _ hm)
                      · rcases List.mem_cons.mp hm with hm | hm
                        · rw [hm]; exact ha2
                        · exact haid b (List.mem_append_right _ hm)

/-- A remove keeps the invariant of the tables. -/
theorem remove_association_keeps_inv (h : wlan_mac_high_h) (s : mac_high_state) (addr : Nat)
    (hinv : tables_inv s) : tables_inv (wlan_mac_high_remove_association h s addr).2 := by
  obtain ⟨hlink, hfresh, haddr, haid⟩ := hinv
  unfold wlan_mac_high_remove_association
  cases hf : wlan_mac_high_find_station_info_ADDR s.assoc_tbl addr with
  | none => exact ⟨hlink, hfresh, haddr, haid⟩
  | some r =>
    obtain ⟨pos, entry⟩ := r
    unfold wlan_mac_high_find_station_info_ADDR at hf
    obtain ⟨l1, l2, hl, hpos, _, hpe⟩ := dl_find_split _ _ pos entry hf
    have hea : entry.obj.addr = addr := by simpa [wlan_addr_eq] using hpe
    have herase : dl_entry_remove s.assoc_tbl pos = l1 ++ l2 := by
      rw [hl, ← hpos]; exact eraseIdx_append_length l1 entry l2
    have hmid : (assoc_addrs (l1 ++ entry :: l2)).Nodup := by rw [← hl]; exact haddr
    rw [assoc_addrs_append] at hmid
    have hmid2 : (assoc_addrs l1 ++ entry.obj.addr :: assoc_addrs l2).Nodup := hmid
    obtain ⟨hnotin, hnd⟩ := List.nodup_cons.mp (List.nodup_middle.mp hmid2)
    have hother : ∀ e ∈ l1 ++ l2, e.obj.addr ≠ addr := by
      intro e he hc
      apply hnotin
      rw [← assoc_addrs_append, hea, ← hc]
      unfold assoc_addrs
      exact List.mem_map_of_mem _ he
    have hold : ∀ e ∈ l1 ++ l2, e ∈ s.assoc_tbl := by
      intro e he
      rw [hl]
      rcases List.mem_append.mp he with hm | hm
      · exact List.mem_append_left _ hm
      · exact List.mem_append_right _ (List.mem_cons_of_mem _ hm)
    have haid2 : ∀ a ∈ assoc_AIDs (l1 ++ l2), a < 65536 := by
      intro a ha
      unfold assoc_AIDs at ha
      obtain ⟨e, he, hae⟩ := List.mem_map.mp ha
      apply haid
      unfold assoc_AIDs
      exact List.mem_map.mpr ⟨e, hold e he, hae⟩
    have haddr2 : (assoc_addrs (l1 ++ l2)).Nodup := by
      rw [assoc_addrs_append]; exact hnd
    have hdata : (s.stat_tbl.map (fun x => x.data)).Nodup := by
      unfold stat_ptrs_fresh at hfresh
      exact List.Nodup.of_append_right hfresh
    simp only []
    split
    · rw [herase]
      split
      · -- promiscuous statistics: the statistics entry is kept, `is_associated := 0`
        refine ⟨?_, ?_, haddr2, haid2⟩
        · intro e he
          have he2 : e ∈ l1 ++ l2 := he
          obtain ⟨x, hx, hx1, hx2, hx3⟩ := hlink e (hold e he2)
          obtain ⟨xe, hxe, hxe1, hxe2, _⟩ := hlink entry (by
            rw [hl]; exact List.mem_append_right _ (List.mem_cons_self _ _))
          have hne : x.data ≠ entry.obj.stats := by
            intro hc
            have hxx : x = xe :=
              List.inj_on_of_nodup_map hdata hx hxe (by rw [hc, hxe1])
            apply hother e he2
            rw [← hx2, hxx, hxe2, hea]
          obtain ⟨y, hy, _, _, _, hsame⟩ :=
            stats_set_is_associated_mem s.stat_tbl entry.obj.stats 0 x hx
          rw [hsame hne] at hy
          exact ⟨x, hy, hx1, hx2, hx3⟩
        · unfold stat_ptrs_fresh at hfresh ⊢
          show (s.heap.filterMap id
            ++ (stats_set_is_associated s.stat_tbl entry.obj.stats 0).map
              (fun x => x.data)).Nodup
          rw [stats_set_is_associated_data]
          exact hfresh
      · -- no promiscuous statistics: the statistics entry is removed
        cases hfd : dl_find (fun c : dl_entry statistics_txrx => wlan_addr_eq c.obj.addr addr)
            s.stat_tbl with
        | none =>
          have hno : ∀ x ∈ s.stat_tbl, x.obj.addr ≠ addr := by
            intro x hx
            have := (dl_find_none _ _).mp hfd x hx
            simpa [wlan_addr_eq] using this
          rw [(find_statistics_ADDR_shape s.stat_tbl addr).1 hno]
          simp only []
          refine ⟨?_, hfresh, haddr2, haid2⟩
          intro e he
          exact hlink e (hold e he)
        | some r2 =>
          obtain ⟨i, f⟩ := r2
          obtain ⟨m1, m2, hm, _, hno, hpf⟩ := dl_find_split _ _ i f hfd
          have h1 : ∀ x ∈ m1, x.obj.addr ≠ addr := by
            intro x hx
            simpa [wlan_addr_eq] using hno x hx
          have hfa : f.obj.addr = addr := by simpa [wlan_addr_eq] using hpf
          rw [(find_statistics_ADDR_shape s.stat_tbl addr).2 m1 m2 f hm h1 hfa]
          simp only []
          have hrem : dl_entry_remove (f :: (m1 ++ m2)) 0 = m1 ++ m2 := rfl
          rw [hrem]
          refine ⟨?_, ?_, haddr2, haid2⟩
          · intro e he
            have he2 : e ∈ l1 ++ l2 := he
            obtain ⟨x, hx, hx1, hx2, hx3⟩ := hlink e (hold e he2)
            refine ⟨x, ?_, hx1, hx2, hx3⟩
            rw [hm] at hx
            show x ∈ m1 ++ m2
            rcases List.mem_append.mp hx with hx | hx
            · exact List.mem_append_left _ hx
            · rcases List.mem_cons.mp hx with hx | hx
              · exfalso
                apply hother e he2
                rw [← hx2, hx, hfa]
              · exact List.mem_append_right _ hx
          · unfold stat_ptrs_fresh at hfresh ⊢
            show (s.heap.filterMap id ++ (m1 ++ m2).map (fun x => x.data)).Nodup
            rw [hm] at hfresh
            exact nodup_fresh_sublist _ _ _ _ (List.Sublist.refl _)
              ((List.Sublist.append (List.Sublist.refl m1)
                (List.sublist_cons_self f m2)).map _) hfresh
    · exact ⟨hlink, hfresh, haddr, haid⟩

theorem reset_statistics_loop_mem (l : dl_list statistics_txrx) :
    (∀ x ∈ l, x.obj.is_associated ≠ 0 →
      ∃ y ∈ reset_statistics_loop l, y.data = x.data ∧ y.obj.addr = x.obj.addr ∧
        y.obj.is_associated ≠ 0) ∧
    List.Sublist ((reset_statistics_loop l).map (fun x => x.data))
      (l.map (fun x => x.data)) := by
  induction l with
  | nil =>
    exact ⟨fun x hx => absurd hx (List.not_mem_nil x), List.Sublist.refl _⟩
  | cons c rest ih =>
    obtain ⟨ih1, ih2⟩ := ih
    by_cases hc : c.obj.is_associated = 0
    · have hloop : reset_statistics_loop (c :: rest) = reset_statistics_loop rest := by
        rw [reset_statistics_loop]
        simp only [hc, if_true]
      rw [hloop]
      constructor
      · intro x hx hx0
        rcases List.mem_cons.mp hx with hx | hx
        · rw [hx] at hx0; exact absurd hc hx0
        · exact ih1 x hx hx0
      · exact List.Sublist.cons _ ih2
    · have hloop : reset_statistics_loop (c :: rest)
          = { c with obj := { c.obj with data := frame_statistics_txrx_zero,
                                          mgmt := frame_statistics_txrx_zero } }
            :: reset_statistics_loop rest := by
        rw [reset_statistics_loop]
        simp only [hc, if_false]
      rw [hloop]
      constructor
      · intro x hx hx0
        rcases List.mem_cons.mp hx with hx | hx
        · rw [hx]
          exact ⟨_, List.mem_cons_self _ _, rfl, rfl, hc⟩
        · obtain ⟨y, hy, h1, h2, h3⟩ := ih1 x hx hx0
          exact ⟨y, List.mem_cons_of_mem _ hy, h1, h2, h3⟩
      · exact List.Sublist.cons₂ _ ih2

/-- One call on the tables that does not link a station in twice keeps the
invariant of the tables. -/
theorem table_step_keeps_inv (h : wlan_mac_high_h) (s : mac_high_state) (c : table_call)
    (hinv : tables_inv s) (hc : table_call_single h s c) :
    tables_inv (table_step h s c) := by
  cases c with
  | add_association addr r => exact add_association_keeps_inv h s addr r hinv hc
  | remove_association addr => exact remove_association_keeps_inv h s addr hinv
  | add_statistics addr =>
    obtain ⟨hlink, hfresh, haddr, haid⟩ := hinv
    obtain ⟨hf1, hf2, _⟩ := add_statistics_frame h s none addr hfresh
    have hat := add_statistics_assoc_tbl h s none addr
    show tables_inv (wlan_mac_high_add_statistics h s none addr).2.2
    refine ⟨?_, hf1, by rw [hat]; exact haddr, by rw [hat]; exact haid⟩
    intro e he
    rw [hat] at he
    obtain ⟨x, hx, hx1, hx2, hx3⟩ := hlink e he
    exact ⟨x, hf2 x hx hx3, hx1, hx2, hx3⟩
  | reset_statistics =>
    obtain ⟨hlink, hfresh, haddr, haid⟩ := hinv
    obtain ⟨hr1, hr2⟩ := reset_statistics_loop_mem s.stat_tbl
    show tables_inv (wlan_mac_high_reset_statistics s)
    unfold wlan_mac_high_reset_statistics
    refine ⟨?_, ?_, haddr, haid⟩
    · intro e he
      obtain ⟨x, hx, hx1, hx2, hx3⟩ := hlink e he
      obtain ⟨y, hy, hy1, hy2, hy3⟩ := hr1 x hx hx3
      exact ⟨y, hy, by rw [hy1, hx1], by rw [hy2, hx2], hy3⟩
    · unfold stat_ptrs_fresh at hfresh ⊢
      exact nodup_fresh_sublist _ _ _ _ (List.Sublist.refl _) hr2 hfresh
  | set_promiscuous_stats_enabled v => exact hinv

theorem table_run_keeps_inv (h : wlan_mac_high_h) (calls : List table_call) :
    ∀ s : mac_high_state, tables_inv s → table_run_single h s calls →
      tables_inv (table_run h s calls) := by
  induction calls with
  | nil => intro s hinv _; exact hinv
  | cons c cs ih =>
    intro s hinv hrun
    exact ih _ (table_step_keeps_inv h s c hinv hrun.1) hrun.2

/-- The cross-link between the tables without the double insertion: from empty
tables and a heap whose blocks are distinct, every sequence of adds, removes,
`wlan_mac_high_add_statistics` for peers without a station, resets and stores
to `promiscuous_stats_enabled` in which no add links its station in twice
leads to a state in which every station of the association table references
a statistics structure that is in the statistics table, has the address of
the station and has `is_associated` set. -/
theorem assoc_stats_linked_single (h : wlan_mac_high_h) (s0 : mac_high_state)
    (calls : List table_call) (hassoc : s0.assoc_tbl = []) (hstat : s0.stat_tbl = [])
    (hheap : (s0.heap.filterMap id).Nodup) (hrun : table_run_single h s0 calls) :
    assoc_stats_linked (table_run h s0 calls) := by
  have hinv : tables_inv s0 := by
    refine ⟨?_, ?_, ?_, ?_⟩
    · intro e he
      rw [hassoc] at he
      exact absurd he (List.not_mem_nil e)
    · unfold stat_ptrs_fresh
      rw [hstat, List.map_nil, List.append_nil]
      exact hheap
    · rw [hassoc]; exact List.nodup_nil
    · intro a ha
      rw [hassoc] at ha
      exact absurd ha (List.not_mem_nil a)
  exact (table_run_keeps_inv h calls s0 hinv hrun).1

/-! ### The order of the association table -/

namespace Linked

theorem mem_find_filter_ne {α : Type} (m : mem_t α) (a b : Nat) (h : b ≠ a) :
    (m.filter (fun x => x.1 != a)).find? (fun x => x.1 == b) = m.find? (fun x => x.1 == b) := by
  induction m with
  | nil => rfl
  | cons x m ih =>
    by_cases hxa : x.1 = a
    · have hxb : ¬ x.1 = b := fun hb => h (hb.symm.trans hxa)
      rw [List.filter_cons_of_neg (by simp [hxa]), List.find?_cons_of_neg _ (by simp [hxb])]
      exact ih
    · rw [List.filter_cons_of_pos (by simp [hxa])]
      by_cases hxb : x.1 = b
      · rw [List.find?_cons_of_pos _ (by simp [hxb]), List.find?_cons_of_pos _ (by simp [hxb])]
      · rw [List.find?_cons_of_neg _ (by simp [hxb]), List.find?_cons_of_neg _ (by simp [hxb])]
        exact ih

theorem mem_read_write {α : Type} (m : mem_t α) (a b : Nat) (v : α) :
    mem_read (mem_write m a v) b = if b = a then some v else mem_read m b := by
  unfold mem_read mem_write
  by_cases h : b = a
  · rw [if_pos h, List.find?_cons_of_pos _ (by simp [h])]
  · rw [if_neg h, List.find?_cons_of_neg _ (by simp; exact fun hh => h hh.symm),
      mem_find_filter_ne m a b h]

theorem dl_entry_at_set_next (L : dl_list) (x y : Nat) (v : Option Nat) :
    dl_entry_at (dl_entry_set_next L x v) y
      = if y = x then { dl_entry_at L x with next := v } else dl_entry_at L y := by
  by_cases h : y = x
  · rw [if_pos h]
    conv_lhs => unfold dl_entry_at dl_entry_set_next
    simp only [mem_read_write, h, if_true]
  · rw [if_neg h]
    conv_lhs => unfold dl_entry_at dl_entry_set_next
    simp only [mem_read_write, h, if_false]
    rfl

theorem dl_entry_at_set_prev (L : dl_list) (x y : Nat) (v : Option Nat) :
    dl_entry_at (dl_entry_set_prev L x v) y
      = if y = x then { dl_entry_at L x with prev := v } else dl_entry_at L y := by
  by_cases h : y = x
  · rw [if_pos h]
    conv_lhs => unfold dl_entry_at dl_entry_set_prev
    simp only [mem_read_write, h, if_true]
  · rw [if_neg h]
    conv_lhs => unfold dl_entry_at dl_entry_set_prev
    simp only [mem_read_write, h, if_false]
    rfl

theorem dl_entry_next_set_next (L : dl_list) (x y : Nat) (v : Option Nat) :
    dl_entry_next (dl_entry_set_next L x v) y = if y = x then v else dl_entry_next L y := by
  unfold dl_entry_next
  rw [dl_entry_at_set_next]
  by_cases h : y = x <;> simp [h]

theorem dl_entry_next_set_prev (L : dl_list) (x y : Nat) (v : Option Nat) :
    dl_entry_next (dl_entry_set_prev L x v) y = dl_entry_next L y := by
  unfold dl_entry_next
  rw [dl_entry_at_set_prev]
  by_cases h : y = x <;> simp [h]

theorem dl_entry_prev_set_prev (L : dl_list) (x y : Nat) (v : Option Nat) :
    dl_entry_prev (dl_entry_set_prev L x v) y = if y = x then v else dl_entry_prev L y := by
  unfold dl_entry_prev
  rw [dl_entry_at_set_prev]
  by_cases h : y = x <;> simp [h]

theorem dl_entry_prev_set_next (L : dl_list) (x y : Nat) (v : Option Nat) :
    dl_entry_prev (dl_entry_set_next L x v) y = dl_entry_prev L y := by
  unfold dl_entry_prev
  rw [dl_entry_at_set_next]
  by_cases h : y = x <;> simp [h]

theorem dl_entry_data_set_next (L : dl_list) (x y : Nat) (v : Option Nat) :
    dl_entry_data (dl_entry_set_next L x v) y = dl_entry_data L y := by
  unfold dl_entry_data
  rw [dl_entry_at_set_next]
  by_cases h : y = x <;> simp [h]

theorem dl_entry_data_set_prev (L : dl_list) (x y : Nat) (v : Option Nat) :
    dl_entry_data (dl_entry_set_prev L x v) y = dl_entry_data L y := by
  unfold dl_entry_data
  rw [dl_entry_at_set_prev]
  by_cases h : y = x <;> simp [h]

/-- What `dl_entry_insertBefore` does to the pointers, for an entry other than
the new one whose `prev` pointer does not point at the new one. -/
theorem dl_entry_insertBefore_spec (L : dl_list) (entry entry_new : Nat)
    (hne : entry ≠ entry_new) (hp : dl_entry_prev L entry ≠ some entry_new) :
    (∀ y, dl_entry_next (dl_entry_insertBefore L entry entry_new) y
      = if y = entry_new then some entry
        else if dl_entry_prev L entry = some y then some entry_new
        else dl_entry_next L y) ∧
    (∀ y, dl_entry_prev (dl_entry_insertBefore L entry entry_new) y
      = if y = entry then some entry_new
        else if y = entry_new then dl_entry_prev L entry
        else dl_entry_prev L y) ∧
    (∀ y, dl_entry_data (dl_entry_insertBefore L entry entry_new) y = dl_entry_data L y) ∧
    (dl_entry_insertBefore L entry entry_new).first
      = (if dl_entry_prev L entry = none then some entry_new else L.first) ∧
    (dl_entry_insertBefore L entry entry_new).last = L.last ∧
    (dl_entry_insertBefore L entry entry_new).length = L.length + 1 := by
  have hp2 : dl_entry_prev
      (dl_entry_set_next (dl_entry_set_prev L entry_new (dl_entry_prev L entry)) entry_new
        (some entry)) entry = dl_entry_prev L entry := by
    rw [dl_entry_prev_set_next, dl_entry_prev_set_prev, if_neg hne]
  unfold dl_entry_insertBefore
  simp only [hp2]
  cases hq : dl_entry_prev L entry with
  | none =>
    simp only []
    refine ⟨?_, ?_, ?_, ?_, ?_, ?_⟩
    · intro y
      show dl_entry_next (dl_entry_set_prev { dl_entry_set_next _ _ _ with first := _ } _ _) y = _
      rw [dl_entry_next_set_prev]
      show dl_entry_next (dl_entry_set_next _ _ _) y = _
      rw [dl_entry_next_set_next, dl_entry_next_set_prev]
      by_cases h1 : y = entry_new
      · simp [h1]
      · simp [h1]
    · intro y
      show dl_entry_prev (dl_entry_set_prev { dl_entry_set_next _ _ _ with first := _ } _ _) y = _
      rw [dl_entry_prev_set_prev]
      by_cases h1 : y = entry
      · simp [h1]
      · rw [if_neg h1, if_neg h1]
        show dl_entry_prev (dl_entry_set_next _ _ _) y = _
        rw [dl_entry_prev_set_next, dl_entry_prev_set_prev]
    · intro y
      show dl_entry_data (dl_entry_set_prev { dl_entry_set_next _ _ _ with first := _ } _ _) y = _
      rw [dl_entry_data_set_prev]
      show dl_entry_data (dl_entry_set_next _ _ _) y = _
      rw [dl_entry_data_set_next, dl_entry_data_set_prev]
    · rfl
    · rfl
    · rfl
  | some q =>
    have hqn : q ≠ entry_new := fun h => hp (by rw [hq, h])
    simp only []
    refine ⟨?_, ?_, ?_, ?_, ?_, ?_⟩
    · intro y
      show dl_entry_next (dl_entry_set_prev _ _ _) y = _
      rw [dl_entry_next_set_prev, dl_entry_next_set_next, dl_entry_next_set_next,
        dl_entry_next_set_prev]
      by_cases h1 : y = entry_new
      · have h2 : ¬ y = q := fun h => hqn (h.symm.trans h1)
        have h3 : ¬ entry_new = q := fun h => hqn h.symm
        simp [h1, h3]
      · by_cases h2 : y = q
        · simp [h2, hqn]
        · have h3 : ¬ q = y := fun h => h2 h.symm
          simp [h1, h2, h3]
    · intro y
      show dl_entry_prev (dl_entry_set_prev _ _ _) y = _
      rw [dl_entry_prev_set_prev]
      by_cases h1 : y = entry
      · simp [h1]
      · rw [if_neg h1, if_neg h1, dl_entry_prev_set_next, dl_entry_prev_set_next,
          dl_entry_prev_set_prev]
    · intro y
      show dl_entry_data (dl_entry_set_prev _ _ _) y = _
      rw [dl_entry_data_set_prev, dl_entry_data_set_next, dl_entry_data_set_next,
        dl_entry_data_set_prev]
    · rfl
    · rfl
    · rfl


theorem linked_to_append (L : dl_list) :
    ∀ (xs ys : List Nat) (start stop : Option Nat),
      linked_to L start (xs ++ ys) stop ↔
        ∃ m, linked_to L start xs m ∧ linked_to L m ys stop := by
  intro xs
  induction xs with
  | nil =>
    intro ys start stop
    constructor
    · intro h; exact ⟨start, rfl, h⟩
    · rintro ⟨m, h1, h2⟩
      have h1' : start = m := h1
      rw [h1']; exact h2
  | cons x xs ih =>
    intro ys start stop
    constructor
    · intro h
      have h' : start = some x ∧ linked_to L (dl_entry_next L x) (xs ++ ys) stop := h
      obtain ⟨m, h1, h2⟩ := (ih ys _ stop).mp h'.2
      exact ⟨m, ⟨h'.1, h1⟩, h2⟩
    · rintro ⟨m, h1, h2⟩
      have h1' : start = some x ∧ linked_to L (dl_entry_next L x) xs m := h1
      exact ⟨h1'.1, (ih ys _ stop).mpr ⟨m, h1'.2, h2⟩⟩

theorem linked_to_congr (L L2 : dl_list) :
    ∀ (xs : List Nat) (start stop : Option Nat),
      (∀ x ∈ xs, dl_entry_next L2 x = dl_entry_next L x) →
      linked_to L start xs stop → linked_to L2 start xs stop := by
  intro xs
  induction xs with
  | nil => intro start stop _ h; exact h
  | cons x xs ih =>
    intro start stop hn h
    have h' : start = some x ∧ linked_to L (dl_entry_next L x) xs stop := h
    refine ⟨h'.1, ?_⟩
    rw [hn x (List.mem_cons_self _ _)]
    exact ih _ stop (fun y hy => hn y (List.mem_cons_of_mem _ hy)) h'.2

theorem prev_from_congr (L L2 : dl_list) :
    ∀ (xs : List Nat) (p : Option Nat),
      (∀ x ∈ xs, dl_entry_prev L2 x = dl_entry_prev L x) →
      prev_from L p xs → prev_from L2 p xs := by
  intro xs
  induction xs with
  | nil => intro p _ _; trivial
  | cons x xs ih =>
    intro p hn h
    have h' : dl_entry_prev L x = p ∧ prev_from L (some x) xs := h
    refine ⟨?_, ih _ (fun y hy => hn y (List.mem_cons_of_mem _ hy)) h'.2⟩
    rw [hn x (List.mem_cons_self _ _)]
    exact h'.1

theorem linked_to_head (L : dl_list) (xs : List Nat) (start stop : Option Nat)
    (h : linked_to L start xs stop) : start = (xs.head?).or stop := by
  cases xs with
  | nil => exact h
  | cons x xs =>
    have h' : start = some x ∧ _ := h
    exact h'.1

theorem dl_walk_linked (L : dl_list) :
    ∀ (xs : List Nat) (start : Option Nat) (fuel : Nat),
      linked_to L start xs none → xs.length ≤ fuel → dl_walk L fuel start = some xs := by
  intro xs
  induction xs with
  | nil =>
    intro start fuel h _
    have h' : start = none := h
    rw [h']
    cases fuel <;> rfl
  | cons x xs ih =>
    intro start fuel h hf
    have h' : start = some x ∧ linked_to L (dl_entry_next L x) xs none := h
    rw [h'.1]
    cases fuel with
    | zero => simp at hf
    | succ f =>
      rw [dl_walk, ih _ f h'.2 (by simp only [List.length_cons] at hf; omega)]

theorem station_at_set_AID (s : mac_high_state) (p v q : Nat) :
    station_at (station_set_AID s p v) q
      = if q = p then { station_at s p with AID := v } else station_at s q := by
  by_cases h : q = p
  · rw [if_pos h]
    conv_lhs => unfold station_at station_set_AID
    simp only [mem_read_write, h, if_true]
  · rw [if_neg h]
    conv_lhs => unfold station_at station_set_AID
    simp only [mem_read_write, h, if_false]
    rfl


theorem frame_refl (station : Nat) (s : mac_high_state) : frame station s s :=
  ⟨fun _ => rfl, fun _ _ => rfl, rfl, fun _ h => h, rfl, rfl, rfl, rfl, rfl, rfl⟩

theorem frame_trans (station : Nat) (s s2 s3 : mac_high_state) (h1 : frame station s s2)
    (h2 : frame station s2 s3) : frame station s s3 := by
  obtain ⟨a1, a2, a3, a4, a5, a6, a7, a8, a9, a10⟩ := h1
  obtain ⟨b1, b2, b3, b4, b5, b6, b7, b8, b9, b10⟩ := h2
  exact ⟨fun y => (b1 y).trans (a1 y), fun q hq => (b2 q hq).trans (a2 q hq), b3.trans a3,
    fun y h => b4 y (a4 y h), b5.trans a5, b6.trans a6, b7.trans a7, b8.trans a8, b9.trans a9,
    b10.trans a10⟩

theorem mem_read_set_next_isSome (L : dl_list) (x y : Nat) (v : Option Nat)
    (h : (mem_read L.mem y).isSome) : (mem_read (dl_entry_set_next L x v).mem y).isSome := by
  unfold dl_entry_set_next
  simp only [mem_read_write]
  by_cases hy : y = x
  · simp [hy]
  · simp [hy, h]

theorem mem_read_set_prev_isSome (L : dl_list) (x y : Nat) (v : Option Nat)
    (h : (mem_read L.mem y).isSome) : (mem_read (dl_entry_set_prev L x v).mem y).isSome := by
  unfold dl_entry_set_prev
  simp only [mem_read_write]
  by_cases hy : y = x
  · simp [hy]
  · simp [hy, h]

theorem mem_read_insertBefore_isSome (L : dl_list) (entry entry_new y : Nat)
    (h : (mem_read L.mem y).isSome) :
    (mem_read (dl_entry_insertBefore L entry entry_new).mem y).isSome := by
  unfold dl_entry_insertBefore
  simp only []
  apply mem_read_set_prev_isSome
  split
  · exact mem_read_set_next_isSome _ _ _ _ (mem_read_set_prev_isSome _ _ _ _ h)
  · exact mem_read_set_next_isSome _ _ _ _
      (mem_read_set_next_isSome _ _ _ _ (mem_read_set_prev_isSome _ _ _ _ h))

theorem add_association_requested_loop_succ (entry station requested_AID fuel : Nat)
    (s : mac_high_state) (curr : Nat) :
    add_association_requested_loop entry station requested_AID (fuel + 1) s (some curr)
      = add_association_requested_loop entry station requested_AID fuel
          (requested_step entry station requested_AID s curr)
          (dl_entry_next (requested_step entry station requested_AID s curr).assoc_tbl curr) := by
  rw [add_association_requested_loop]
  unfold requested_step
  by_cases h : (station_at s (dl_entry_data s.assoc_tbl curr)).AID > requested_AID
  · simp only [h, if_true]
    rfl
  · simp only [h, if_false]


theorem requested_step_larger (entry station requested_AID : Nat) (s : mac_high_state)
    (curr : Nat)
    (hl : (station_at s (dl_entry_data s.assoc_tbl curr)).AID > requested_AID)
    (hne : curr ≠ entry) (hp : dl_entry_prev s.assoc_tbl curr ≠ some entry) :
    (∀ y, dl_entry_next (requested_step entry station requested_AID s curr).assoc_tbl y
      = if y = entry then some curr
        else if dl_entry_prev s.assoc_tbl curr = some y then some entry
        else dl_entry_next s.assoc_tbl y) ∧
    (∀ y, dl_entry_prev (requested_step entry station requested_AID s curr).assoc_tbl y
      = if y = curr then some entry
        else if y = entry then dl_entry_prev s.assoc_tbl curr
        else dl_entry_prev s.assoc_tbl y) ∧
    (requested_step entry station requested_AID s curr).assoc_tbl.first
      = (if dl_entry_prev s.assoc_tbl curr = none then some entry else s.assoc_tbl.first) ∧
    frame station s (requested_step entry station requested_AID s curr) ∧
    station_at (requested_step entry station requested_AID s curr) station
      = { station_at s station with AID := requested_AID } := by
  obtain ⟨h1, h2, h3, h4, h5, _⟩ := dl_entry_insertBefore_spec s.assoc_tbl curr entry hne hp
  have hs : requested_step entry station requested_AID s curr
      = { station_set_AID s station requested_AID with
          assoc_tbl := dl_entry_insertBefore s.assoc_tbl curr entry } := by
    unfold requested_step
    rw [if_pos hl]
  have hst : ∀ q, station_at (requested_step entry station requested_AID s curr) q
      = station_at (station_set_AID s station requested_AID) q := by
    intro q
    rw [hs]
    rfl
  refine ⟨?_, ?_, ?_, ?_, ?_⟩
  · intro y; rw [hs]; exact h1 y
  · intro y; rw [hs]; exact h2 y
  · rw [hs]; exact h4
  · refine ⟨?_, ?_, ?_, ?_, ?_, ?_, ?_, ?_, ?_, ?_⟩
    · intro y; rw [hs]; exact h3 y
    · intro q hq
      rw [hst, station_at_set_AID, if_neg hq]
    · rw [hs]; exact h5
    · intro y hy; rw [hs]; exact mem_read_insertBefore_isSome _ _ _ _ hy
    all_goals (rw [hs]; rfl)
  · rw [hst, station_at_set_AID, if_pos rfl]

theorem requested_step_not_larger (entry station requested_AID : Nat) (s : mac_high_state)
    (curr : Nat)
    (hl : ¬ (station_at s (dl_entry_data s.assoc_tbl curr)).AID > requested_AID) :
    requested_step entry station requested_AID s curr = s := by
  unfold requested_step
  rw [if_neg hl]

/-- The rest of the loop for a requested AID in memory, once the new entry is
linked in: the walk from `first` reads the entries `l1`, the new entry, and
the entries `mid ++ d :: rem`, of which `rem` are still to visit.  After the
loop the walk reads `l1`, the new entry, and the entries from the last entry
of `rem` with a larger AID on. -/
theorem requested_loop_relinks (entry station requested_AID : Nat) (larger : Nat → Bool) :
    ∀ (rem : List Nat) (s : mac_high_state) (l1 mid : List Nat) (d fuel : Nat),
      (l1 ++ entry :: (mid ++ d :: rem)).Nodup →
      linked_to s.assoc_tbl s.assoc_tbl.first (l1 ++ entry :: (mid ++ d :: rem)) none →
      prev_from s.assoc_tbl (some d) rem →
      (∀ e ∈ rem, dl_entry_data s.assoc_tbl e ≠ station) →
      (∀ e ∈ rem,
        decide ((station_at s (dl_entry_data s.assoc_tbl e)).AID > requested_AID) = larger e) →
      rem.length ≤ fuel →
      ∃ s2, add_association_requested_loop entry station requested_AID fuel s rem.head?
          = some s2 ∧
        linked_to s2.assoc_tbl s2.assoc_tbl.first
          (l1 ++ entry :: relink_entries larger (mid ++ d :: rem) rem) none ∧
        frame station s s2 ∧
        station_at s2 station
          = (if rem.any larger then { station_at s station with AID := requested_AID }
             else station_at s station) := by
  intro rem
  induction rem with
  | nil =>
    intro s l1 mid d fuel _ hlink _ _ _ _
    refine ⟨s, ?_, hlink, frame_refl station s, rfl⟩
    cases fuel <;> rfl
  | cons e rem ih =>
    intro s l1 mid d fuel hnd hlink hprev hdata hlarger hfuel
    cases fuel with
    | zero => simp at hfuel
    | succ fuel =>
      have hfuel2 : rem.length ≤ fuel := by
        simp only [List.length_cons] at hfuel; omega
      have hprev2 : dl_entry_prev s.assoc_tbl e = some d ∧ prev_from s.assoc_tbl (some e) rem :=
        hprev
      -- the entries are pairwise different
      have hnd1 := List.nodup_append.mp hnd
      have hnd2 := List.nodup_cons.mp hnd1.2.1
      have hnd3 := List.nodup_append.mp hnd2.2
      have hnd4 := List.nodup_cons.mp hnd3.2.1
      have hnd5 := List.nodup_cons.mp hnd4.2
      have he_ne_entry : e ≠ entry := by
        intro h
        exact hnd2.1 (by rw [← h]; simp)
      have hd_ne_entry : d ≠ entry := by
        intro h
        exact hnd2.1 (by rw [← h]; simp)
      have he_ne_d : e ≠ d := by
        intro h
        exact hnd4.1 (by rw [← h]; simp)
      -- the walk up to `e`
      have hlink1 := (linked_to_append s.assoc_tbl l1 (entry :: (mid ++ d :: e :: rem)) _ none).mp
        hlink
      obtain ⟨m1, hl1, hrest⟩ := hlink1
      have hrest1 : m1 = some entry ∧
          linked_to s.assoc_tbl (dl_entry_next s.assoc_tbl entry) (mid ++ d :: e :: rem) none :=
        hrest
      have hrest2 := (linked_to_append s.assoc_tbl (mid ++ [d]) (e :: rem) _ none).mp
        (by rw [List.append_assoc]; exact hrest1.2)
      obtain ⟨m2, hmid, he⟩ := hrest2
      have he1 : m2 = some e ∧ linked_to s.assoc_tbl (dl_entry_next s.assoc_tbl e) rem none := he
      have hnext_e : dl_entry_next s.assoc_tbl e = rem.head? := by
        have := linked_to_head _ _ _ _ he1.2
        simpa using this
      rw [List.head?_cons, add_association_requested_loop_succ]
      by_cases hl : (station_at s (dl_entry_data s.assoc_tbl e)).AID > requested_AID
      · -- the entry is linked in again, before `e`
        have hle : larger e = true := by
          rw [← hlarger e (List.mem_cons_self _ _)]
          exact decide_eq_true hl
        obtain ⟨hn, hp, hf, hfr, hst⟩ := requested_step_larger entry station requested_AID s e
          hl he_ne_entry (by rw [hprev2.1]; intro h; exact hd_ne_entry (Option.some.inj h))
        have hn2 : ∀ y, y ≠ entry → y ≠ d →
            dl_entry_next (requested_step entry station requested_AID s e).assoc_tbl y
              = dl_entry_next s.assoc_tbl y := by
          intro y h1 h2
          rw [hn y, if_neg h1, hprev2.1, if_neg (fun h => h2 (Option.some.inj h).symm)]
        have hnd_new : (l1 ++ entry :: ([] ++ e :: rem)).Nodup := by
          refine List.Nodup.sublist ?_ hnd
          apply List.Sublist.append (List.Sublist.refl _)
          apply List.Sublist.cons₂
          rw [List.nil_append]
          exact List.sublist_append_of_sublist_right (List.sublist_cons_self _ _)
        have hlink_new : linked_to (requested_step entry station requested_AID s e).assoc_tbl
            (requested_step entry station requested_AID s e).assoc_tbl.first
            (l1 ++ entry :: ([] ++ e :: rem)) none := by
          rw [hf, hprev2.1, if_neg (by simp)]
          rw [linked_to_append]
          refine ⟨some entry, ?_, ?_⟩
          · apply linked_to_congr s.assoc_tbl _ l1 _ _ _ (by rw [← hrest1.1]; exact hl1)
            intro y hy
            apply hn2
            · intro h; exact hnd1.2.2 hy (by rw [h]; simp) 
            · intro h; exact hnd1.2.2 hy (by rw [h]; simp)
          · refine ⟨rfl, ?_⟩
            rw [hn entry, if_pos rfl, List.nil_append]
            refine ⟨rfl, ?_⟩
            rw [hn2 e he_ne_entry he_ne_d]
            apply linked_to_congr s.assoc_tbl _ rem _ _ _ he1.2
            intro y hy
            apply hn2
            · intro h; exact hnd2.1 (by rw [← h]; simp [hy])
            · intro h; exact hnd4.1 (by rw [← h]; simp [hy])
        have hprev_new : prev_from (requested_step entry station requested_AID s e).assoc_tbl
            (some e) rem := by
          apply prev_from_congr s.assoc_tbl _ rem _ _ hprev2.2
          intro y hy
          rw [hp y, if_neg (fun h => hnd5.1 (by rw [← h]; exact hy)),
            if_neg (fun h => hnd2.1 (by rw [← h]; simp [hy]))]
        have hdata_new : ∀ x ∈ rem,
            dl_entry_data (requested_step entry station requested_AID s e).assoc_tbl x
              ≠ station := by
          intro x hx
          rw [hfr.1 x]
          exact hdata x (List.mem_cons_of_mem _ hx)
        have hlarger_new : ∀ x ∈ rem,
            decide ((station_at (requested_step entry station requested_AID s e)
              (dl_entry_data (requested_step entry station requested_AID s e).assoc_tbl x)).AID
                > requested_AID) = larger x := by
          intro x hx
          rw [hfr.1 x, hfr.2.1 _ (hdata x (List.mem_cons_of_mem _ hx))]
          exact hlarger x (List.mem_cons_of_mem _ hx)
        obtain ⟨s2, hloop, hlink2, hfr2, hst2⟩ := ih _ l1 [] e fuel hnd_new hlink_new hprev_new
          hdata_new hlarger_new hfuel2
        refine ⟨s2, ?_, ?_, frame_trans station _ _ _ hfr hfr2, ?_⟩
        · rw [hn2 e he_ne_entry he_ne_d, hnext_e]
          exact hloop
        · have : relink_entries larger (mid ++ d :: e :: rem) (e :: rem)
              = relink_entries larger ([] ++ e :: rem) rem := by
            rw [relink_entries, if_pos hle]
            rfl
          rw [this]
          exact hlink2
        · rw [hst2, hst]
          have : (e :: rem).any larger = true := by
            simp [hle]
          rw [this, if_pos rfl]
          split <;> rfl
      · -- the loop passes `e`
        have hle : larger e = false := by
          rw [← hlarger e (List.mem_cons_self _ _)]
          exact decide_eq_false hl
        rw [requested_step_not_larger entry station requested_AID s e hl, hnext_e]
        have hnd_new : (l1 ++ entry :: ((mid ++ [d]) ++ e :: rem)).Nodup := by
          rw [List.append_assoc]; exact hnd
        obtain ⟨s2, hloop, hlink2, hfr2, hst2⟩ := ih s l1 (mid ++ [d]) e fuel hnd_new
          (by rw [List.append_assoc]; exact hlink) hprev2.2
          (fun x hx => hdata x (List.mem_cons_of_mem _ hx))
          (fun x hx => hlarger x (List.mem_cons_of_mem _ hx)) hfuel2
        refine ⟨s2, hloop, ?_, hfr2, ?_⟩
        · have : relink_entries larger (mid ++ d :: e :: rem) (e :: rem)
              = relink_entries larger ((mid ++ [d]) ++ e :: rem) rem := by
            rw [relink_entries, if_neg (by rw [hle]; simp), List.append_assoc]
            rfl
          rw [this]
          exact hlink2
        · rw [hst2]
          have : (e :: rem).any larger = rem.any larger := by
            simp [hle]
          rw [this]


/-- The loop for a requested AID in memory, from a list whose entries are
linked in once: the walk from `first` reads `done ++ rem`, of which `rem` are
still to visit.  After the loop the walk reads `done` and then what the loop
has made of `rem` (`requested_walk`). -/
theorem requested_loop_links (entry station requested_AID : Nat) (larger : Nat → Bool) :
    ∀ (rem : List Nat) (s : mac_high_state) (done : List Nat) (fuel : Nat),
      (entry :: (done ++ rem)).Nodup →
      linked_to s.assoc_tbl s.assoc_tbl.first (done ++ rem) none →
      prev_from s.assoc_tbl done.getLast? rem →
      (∀ e ∈ rem, dl_entry_data s.assoc_tbl e ≠ station) →
      (∀ e ∈ rem,
        decide ((station_at s (dl_entry_data s.assoc_tbl e)).AID > requested_AID) = larger e) →
      rem.length ≤ fuel →
      ∃ s2, add_association_requested_loop entry station requested_AID fuel s rem.head?
          = some s2 ∧
        linked_to s2.assoc_tbl s2.assoc_tbl.first
          (done ++ requested_walk larger entry rem) none ∧
        frame station s s2 ∧
        station_at s2 station
          = (if rem.any larger then { station_at s station with AID := requested_AID }
             else station_at s station) := by
  intro rem
  induction rem with
  | nil =>
    intro s done fuel _ hlink _ _ _ _
    refine ⟨s, ?_, hlink, frame_refl station s, rfl⟩
    cases fuel <;> rfl
  | cons e rem ih =>
    intro s done fuel hnd hlink hprev hdata hlarger hfuel
    cases fuel with
    | zero => simp at hfuel
    | succ fuel =>
      have hfuel2 : rem.length ≤ fuel := by
        simp only [List.length_cons] at hfuel; omega
      have hprev2 : dl_entry_prev s.assoc_tbl e = done.getLast? ∧
          prev_from s.assoc_tbl (some e) rem := hprev
      have hnd1 := List.nodup_cons.mp hnd
      have hnd2 := List.nodup_append.mp hnd1.2
      have hnd3 := List.nodup_cons.mp hnd2.2.1
      have he_ne_entry : e ≠ entry := by
        intro h
        exact hnd1.1 (by rw [← h]; simp)
      have hentry_done : entry ∉ done := fun h => hnd1.1 (List.mem_append_left _ h)
      have hentry_rem : entry ∉ rem :=
        fun h => hnd1.1 (List.mem_append_right _ (List.mem_cons_of_mem _ h))
      have he_done : e ∉ done := fun h => hnd2.2.2 h (List.mem_cons_self _ _)
      obtain ⟨m1, hl1, hrest⟩ := (linked_to_append s.assoc_tbl done (e :: rem) _ none).mp hlink
      have hrest1 : m1 = some e ∧ linked_to s.assoc_tbl (dl_entry_next s.assoc_tbl e) rem none :=
        hrest
      have hnext_e : dl_entry_next s.assoc_tbl e = rem.head? := by
        have := linked_to_head _ _ _ _ hrest1.2
        simpa using this
      rw [List.head?_cons, add_association_requested_loop_succ]
      by_cases hl : (station_at s (dl_entry_data s.assoc_tbl e)).AID > requested_AID
      · have hle : larger e = true := by
          rw [← hlarger e (List.mem_cons_self _ _)]
          exact decide_eq_true hl
        have hlast_ne : done.getLast? ≠ some entry := by
          intro h
          exact hentry_done (List.mem_of_getLast?_eq_some h)
        obtain ⟨hn, hp, hf, hfr, hst⟩ := requested_step_larger entry station requested_AID s e
          hl he_ne_entry (by rw [hprev2.1]; exact hlast_ne)
        have hn2 : ∀ y, y ≠ entry → done.getLast? ≠ some y →
            dl_entry_next (requested_step entry station requested_AID s e).assoc_tbl y
              = dl_entry_next s.assoc_tbl y := by
          intro y h1 h2
          rw [hn y, if_neg h1, hprev2.1, if_neg h2]
        have hnot_last : ∀ y ∈ e :: rem, done.getLast? ≠ some y := by
          intro y hy h
          exact hnd2.2.2 (List.mem_of_getLast?_eq_some h) hy
        have hnd_new : (done ++ entry :: ([] ++ e :: rem)).Nodup := by
          rw [List.nil_append]
          have hperm : List.Perm (entry :: (done ++ e :: rem)) (done ++ entry :: e :: rem) :=
            List.perm_middle.symm
          exact hperm.nodup_iff.mp hnd
        have htail : linked_to (requested_step entry station requested_AID s e).assoc_tbl
            (some entry) (entry :: ([] ++ e :: rem)) none := by
          refine ⟨rfl, ?_⟩
          rw [hn entry, if_pos rfl, List.nil_append]
          refine ⟨rfl, ?_⟩
          rw [hn2 e he_ne_entry (hnot_last e (List.mem_cons_self _ _))]
          apply linked_to_congr s.assoc_tbl _ rem _ _ _ hrest1.2
          intro y hy
          apply hn2
          · intro h; exact hentry_rem (by rw [← h]; exact hy)
          · exact hnot_last y (List.mem_cons_of_mem _ hy)
        have hlink_new : linked_to (requested_step entry station requested_AID s e).assoc_tbl
            (requested_step entry station requested_AID s e).assoc_tbl.first
            (done ++ entry :: ([] ++ e :: rem)) none := by
          rw [hf, hprev2.1]
          rcases List.eq_nil_or_concat done with hdn | ⟨done1, q, hdq⟩
          · subst hdn
            rw [List.getLast?_nil, if_pos rfl, List.nil_append]
            exact htail
          · rw [List.concat_eq_append] at hdq
            subst hdq
            have hq_ne_entry : q ≠ entry := by
              intro h
              exact hentry_done (by rw [← h]; simp)
            have hlast : (done1 ++ [q]).getLast? = some q := by simp
            rw [hlast, if_neg (by simp)]
            rw [linked_to_append]
            refine ⟨some entry, ?_, htail⟩
            obtain ⟨m0, hd1, hq⟩ := (linked_to_append s.assoc_tbl done1 [q] _ m1).mp hl1
            have hq1 : m0 = some q ∧ dl_entry_next s.assoc_tbl q = m1 := hq
            rw [linked_to_append]
            refine ⟨some q, ?_, rfl, ?_⟩
            · rw [← hq1.1]
              apply linked_to_congr s.assoc_tbl _ done1 _ _ _ hd1
              intro y hy
              apply hn2
              · intro h; exact hentry_done (by rw [← h]; simp [hy])
              · rw [hlast]
                intro h
                have hyq : q = y := Option.some.inj h
                have := (List.nodup_append.mp hnd2.1).2.2 hy (by rw [← hyq]; simp)
                exact this
            · show dl_entry_next _ q = some entry
              rw [hn q, if_neg hq_ne_entry, hprev2.1, hlast, if_pos rfl]
        have hprev_new : prev_from (requested_step entry station requested_AID s e).assoc_tbl
            (some e) rem := by
          apply prev_from_congr s.assoc_tbl _ rem _ _ hprev2.2
          intro y hy
          rw [hp y, if_neg (fun h => hnd3.1 (by rw [← h]; exact hy)),
            if_neg (fun h => hentry_rem (by rw [← h]; exact hy))]
        have hdata_new : ∀ x ∈ rem,
            dl_entry_data (requested_step entry station requested_AID s e).assoc_tbl x
              ≠ station := by
          intro x hx
          rw [hfr.1 x]
          exact hdata x (List.mem_cons_of_mem _ hx)
        have hlarger_new : ∀ x ∈ rem,
            decide ((station_at (requested_step entry station requested_AID s e)
              (dl_entry_data (requested_step entry station requested_AID s e).assoc_tbl x)).AID
                > requested_AID) = larger x := by
          intro x hx
          rw [hfr.1 x, hfr.2.1 _ (hdata x (List.mem_cons_of_mem _ hx))]
          exact hlarger x (List.mem_cons_of_mem _ hx)
        obtain ⟨s2, hloop, hlink2, hfr2, hst2⟩ := requested_loop_relinks entry station
          requested_AID larger rem _ done [] e fuel hnd_new hlink_new hprev_new hdata_new
          hlarger_new hfuel2
        refine ⟨s2, ?_, ?_, frame_trans station _ _ _ hfr hfr2, ?_⟩
        · rw [hn2 e he_ne_entry (hnot_last e (List.mem_cons_self _ _)), hnext_e]
          exact hloop
        · have : requested_walk larger entry (e :: rem)
              = entry :: relink_entries larger ([] ++ e :: rem) rem := by
            rw [requested_walk, if_pos hle]
            rfl
          rw [this]
          exact hlink2
        · rw [hst2, hst]
          have : (e :: rem).any larger = true := by
            simp [hle]
          rw [this, if_pos rfl]
          split <;> rfl
      · have hle : larger e = false := by
          rw [← hlarger e (List.mem_cons_self _ _)]
          exact decide_eq_false hl
        rw [requested_step_not_larger entry station requested_AID s e hl, hnext_e]
        obtain ⟨s2, hloop, hlink2, hfr2, hst2⟩ := ih s (done ++ [e]) fuel
          (by rw [List.append_assoc]; exact hnd)
          (by rw [List.append_assoc]; exact hlink)
          (by rw [List.getLast?_concat]; exact hprev2.2)
          (fun x hx => hdata x (List.mem_cons_of_mem _ hx))
          (fun x hx => hlarger x (List.mem_cons_of_mem _ hx)) hfuel2
        refine ⟨s2, hloop, ?_, hfr2, ?_⟩
        · have : done ++ requested_walk larger entry (e :: rem)
              = (done ++ [e]) ++ requested_walk larger entry rem := by
            rw [requested_walk, if_neg (by rw [hle]; simp), List.append_assoc]
            rfl
          rw [this]
          exact hlink2
        · rw [hst2]
          have : (e :: rem).any larger = rem.any larger := by
            simp [hle]
          rw [this]


theorem relink_entries_map (requested_AID : Nat) (larger : Nat → Bool)
    (f : Nat → Dcf.dl_entry station_info) :
    ∀ (rem succ : List Nat),
      (∀ e ∈ rem, decide ((f e).obj.AID > requested_AID) = larger e) →
      (relink_entries larger succ rem).map f
        = add_association_requested_relink requested_AID (succ.map f) (rem.map f) := by
  intro rem
  induction rem with
  | nil => intro succ _; rfl
  | cons c rest ih =>
    intro succ hl
    have hc := hl c (List.mem_cons_self _ _)
    have hrest : ∀ e ∈ rest, decide ((f e).obj.AID > requested_AID) = larger e :=
      fun e he => hl e (List.mem_cons_of_mem _ he)
    rw [List.map_cons, relink_entries, add_association_requested_relink]
    by_cases hg : (f c).obj.AID > requested_AID
    · have hlc : larger c = true := by rw [← hc]; exact decide_eq_true hg
      rw [if_pos hlc, if_pos hg, ih (c :: rest) hrest]
      rfl
    · have hlc : ¬ larger c = true := by rw [← hc]; simpa using hg
      rw [if_neg hlc, if_neg hg, ih succ hrest]

theorem requested_walk_map (p requested_AID : Nat) (larger : Nat → Bool)
    (f : Nat → Dcf.dl_entry station_info) (entry : Nat) (st : station_info) :
    ∀ (es : List Nat),
      (es.any larger = true →
        f entry = { data := p, obj := { st with AID := requested_AID } }) →
      (∀ e ∈ es, decide ((f e).obj.AID > requested_AID) = larger e) →
      (requested_walk larger entry es).map f
          = (Dcf.add_association_requested_loop p requested_AID st (es.map f)).2 ∧
        (Dcf.add_association_requested_loop p requested_AID st (es.map f)).1
          = (if es.any larger then { st with AID := requested_AID } else st) := by
  intro es
  induction es with
  | nil => intro _ _; exact ⟨rfl, rfl⟩
  | cons c rest ih =>
    intro hentry hl
    have hc := hl c (List.mem_cons_self _ _)
    have hrest : ∀ e ∈ rest, decide ((f e).obj.AID > requested_AID) = larger e :=
      fun e he => hl e (List.mem_cons_of_mem _ he)
    rw [List.map_cons, requested_walk, Dcf.add_association_requested_loop]
    by_cases hg : (f c).obj.AID > requested_AID
    · have hlc : larger c = true := by rw [← hc]; exact decide_eq_true hg
      have hany : (c :: rest).any larger = true := by simp [hlc]
      rw [if_pos hlc, if_pos hg]
      constructor
      · rw [List.map_cons, hentry hany,
          relink_entries_map requested_AID larger f rest (c :: rest) hrest]
        rfl
      · rw [hany, if_pos rfl]
    · have hlc : larger c = false := by rw [← hc]; exact decide_eq_false hg
      rw [if_neg (by rw [hlc]; simp), if_neg hg]
      obtain ⟨h1, h2⟩ := ih (fun h => hentry (by simp [h])) hrest
      constructor
      · rw [List.map_cons, h1]
      · have : (c :: rest).any larger = rest.any larger := by simp [hlc]
        rw [this]
        exact h2

theorem relink_entries_mem (larger : Nat → Bool) :
    ∀ (rem succ : List Nat) (x : Nat), x ∈ relink_entries larger succ rem → x ∈ succ ∨ x ∈ rem := by
  intro rem
  induction rem with
  | nil => intro succ x hx; left; exact hx
  | cons c rest ih =>
    intro succ x hx
    rw [relink_entries] at hx
    split at hx
    · right
      rcases ih _ x hx with h | h
      · exact h
      · exact List.mem_cons_of_mem _ h
    · rcases ih _ x hx with h | h
      · left; exact h
      · right; exact List.mem_cons_of_mem _ h

theorem relink_entries_nodup (larger : Nat → Bool) :
    ∀ (rem succ : List Nat), succ.Nodup → rem.Nodup →
      (relink_entries larger succ rem).Nodup := by
  intro rem
  induction rem with
  | nil => intro succ hs _; exact hs
  | cons c rest ih =>
    intro succ hs hr
    rw [relink_entries]
    split
    · exact ih _ hr (List.nodup_cons.mp hr).2
    · exact ih _ hs (List.nodup_cons.mp hr).2

theorem requested_walk_mem (larger : Nat → Bool) (entry : Nat) :
    ∀ (es : List Nat) (x : Nat), x ∈ requested_walk larger entry es → x = entry ∨ x ∈ es := by
  intro es
  induction es with
  | nil => intro x hx; exact absurd hx (List.not_mem_nil x)
  | cons c rest ih =>
    intro x hx
    rw [requested_walk] at hx
    split at hx
    · rcases List.mem_cons.mp hx with h | h
      · left; exact h
      · right
        rcases relink_entries_mem larger rest (c :: rest) x h with h | h
        · exact h
        · exact List.mem_cons_of_mem _ h
    · rcases List.mem_cons.mp hx with h | h
      · right; rw [h]; exact List.mem_cons_self _ _
      · rcases ih x h with h | h
        · left; exact h
        · right; exact List.mem_cons_of_mem _ h

theorem requested_walk_nodup (larger : Nat → Bool) (entry : Nat) :
    ∀ (es : List Nat), (entry :: es).Nodup → (requested_walk larger entry es).Nodup := by
  intro es
  induction es with
  | nil => intro _; exact List.nodup_nil
  | cons c rest ih =>
    intro hnd
    have h1 := List.nodup_cons.mp hnd
    have h2 := List.nodup_cons.mp h1.2
    rw [requested_walk]
    split
    · rw [List.nodup_cons]
      refine ⟨?_, relink_entries_nodup larger rest (c :: rest) h1.2 h2.2⟩
      intro hx
      rcases relink_entries_mem larger rest (c :: rest) entry hx with h | h
      · exact h1.1 h
      · exact h1.1 (List.mem_cons_of_mem _ h)
    · rw [List.nodup_cons]
      refine ⟨?_, ih (List.nodup_cons.mpr ⟨fun h => h1.1 (List.mem_cons_of_mem _ h), h2.2⟩)⟩
      intro hx
      rcases requested_walk_mem larger entry rest c hx with h | h
      · exact h1.1 (by rw [← h]; exact List.mem_cons_self _ _)
      · exact h2.1 h

theorem mem_read_isSome_key {α : Type} (m : mem_t α) (a : Nat) (h : (mem_read m a).isSome) :
    a ∈ m.map Prod.fst := by
  unfold mem_read at h
  cases hf : m.find? (fun x => x.1 == a) with
  | none => rw [hf] at h; exact absurd h (by simp)
  | some x =>
    have hx := List.mem_of_find?_eq_some hf
    have hk := List.find?_some hf
    simp only [beq_iff_eq] at hk
    rw [← hk]
    exact List.mem_map_of_mem _ hx

theorem mem_length_of_nodup {α : Type} (m : mem_t α) (xs : List Nat) (hnd : xs.Nodup)
    (h : ∀ x ∈ xs, (mem_read m x).isSome) : xs.length ≤ m.length := by
  have hsub : xs ⊆ m.map Prod.fst := fun x hx => mem_read_isSome_key m x (h x hx)
  have := (List.subperm_of_subset hnd hsub).length_le
  simpa using this


theorem assoc_tbl_walk_linked (s : mac_high_state) (xs : List Nat) (hnd : xs.Nodup)
    (hlink : linked_to s.assoc_tbl s.assoc_tbl.first xs none)
    (halloc : ∀ x ∈ xs, (mem_read s.assoc_tbl.mem x).isSome) :
    assoc_tbl_walk s = some (xs.map (entry_view s)) := by
  have hlen : xs.length ≤ walk_fuel s := by
    have := mem_length_of_nodup s.assoc_tbl.mem xs hnd halloc
    unfold walk_fuel
    omega
  unfold assoc_tbl_walk
  rw [dl_walk_linked s.assoc_tbl xs _ _ hlink hlen]
  rfl

/-- The loop for a requested AID on the list in memory and on the sequence of
entries.  For every doubly linked list in memory whose entries `es` are linked
in once and every new entry that is not in the list and whose `data` pointer
is the new station, the loop in memory, a literal rendering of
wlan_mac_high.c:2653-2664 with the `dl_entry_insertBefore` of the usual doubly
linked list, ends; the walk from `first` then reads the table that
`Dcf.add_association_requested_loop` gives for the table that the walk read
before, and the station has the contents it gives. -/
theorem requested_loop_refines (s : mac_high_state) (es : List Nat)
    (entry station requested_AID : Nat) (hwf : list_wf s.assoc_tbl es) (hentry : entry ∉ es)
    (halloc : (mem_read s.assoc_tbl.mem entry).isSome)
    (hdata_entry : dl_entry_data s.assoc_tbl entry = station)
    (hdata : ∀ e ∈ es, dl_entry_data s.assoc_tbl e ≠ station) :
    assoc_tbl_walk s = some (es.map (entry_view s)) ∧
    ∃ s2,
      add_association_requested_loop entry station requested_AID (walk_fuel s) s
          s.assoc_tbl.first = some s2 ∧
      assoc_tbl_walk s2
        = some (Dcf.add_association_requested_loop station requested_AID (station_at s station)
            (es.map (entry_view s))).2 ∧
      station_at s2 station
        = (Dcf.add_association_requested_loop station requested_AID (station_at s station)
            (es.map (entry_view s))).1 ∧
      frame station s s2 := by
  obtain ⟨hnd, hlink, hprev, _, _, hall⟩ := hwf
  refine ⟨assoc_tbl_walk_linked s es hnd hlink hall, ?_⟩
  have hfirst : s.assoc_tbl.first = es.head? := by
    have := linked_to_head _ _ _ _ hlink
    simpa using this
  have hfuel : es.length ≤ walk_fuel s := by
    have := mem_length_of_nodup s.assoc_tbl.mem es hnd hall
    unfold walk_fuel
    omega
  obtain ⟨s2, hloop, hlink2, hfr, hst⟩ := requested_loop_links entry station requested_AID
    (fun e => decide ((station_at s (dl_entry_data s.assoc_tbl e)).AID > requested_AID))
    es s [] (walk_fuel s)
    (by rw [List.nil_append]; exact List.nodup_cons.mpr ⟨hentry, hnd⟩)
    (by rw [List.nil_append]; exact hlink) hprev hdata (fun _ _ => rfl) hfuel
  rw [List.nil_append] at hlink2
  have hview : ∀ e ∈ es, entry_view s2 e = entry_view s e := by
    intro e he
    unfold entry_view
    rw [hfr.1 e, hfr.2.1 _ (hdata e he)]
  have hmap := requested_walk_map station requested_AID
    (fun e => decide ((station_at s (dl_entry_data s.assoc_tbl e)).AID > requested_AID))
    (entry_view s2) entry (station_at s station) es
    (by
      intro hany
      unfold entry_view
      rw [hfr.1 entry, hdata_entry, hst, if_pos hany])
    (by
      intro e he
      rw [hview e he]
      rfl)
  have hmap_es : es.map (entry_view s2) = es.map (entry_view s) :=
    List.map_congr_left hview
  rw [hmap_es] at hmap
  refine ⟨s2, ?_, ?_, ?_, hfr⟩
  · rw [hfirst]; exact hloop
  · rw [← hmap.1]
    apply assoc_tbl_walk_linked s2 _
      (requested_walk_nodup _ entry es (List.nodup_cons.mpr ⟨hentry, hnd⟩)) hlink2
    intro x hx
    apply hfr.2.2.2.1
    rcases requested_walk_mem _ entry es x hx with h | h
    · rw [h]; exact halloc
    · exact hall x h
  · rw [hst, hmap.2]


/-- What `dl_entry_insertAfter` does to the pointers when `entry` is the last
entry of the walk (its `next` pointer is NULL) and is not the new entry. -/
theorem dl_entry_insertAfter_last (L : dl_list) (entry entry_new : Nat)
    (hne : entry ≠ entry_new) (hlast : dl_entry_next L entry = none) :
    (∀ y, dl_entry_next (dl_entry_insertAfter L entry entry_new) y
      = if y = entry then some entry_new
        else if y = entry_new then none
        else dl_entry_next L y) ∧
    (∀ y, dl_entry_data (dl_entry_insertAfter L entry entry_new) y = dl_entry_data L y) ∧
    (dl_entry_insertAfter L entry entry_new).first = L.first ∧
    (∀ y, (mem_read L.mem y).isSome →
      (mem_read (dl_entry_insertAfter L entry entry_new).mem y).isSome) := by
  have h1 : dl_entry_next (dl_entry_set_prev L entry_new (some entry)) entry = none := by
    rw [dl_entry_next_set_prev]; exact hlast
  have h2 : dl_entry_next
      (dl_entry_set_next (dl_entry_set_prev L entry_new (some entry)) entry_new none) entry
        = none := by
    rw [dl_entry_next_set_next, if_neg hne, dl_entry_next_set_prev]; exact hlast
  unfold dl_entry_insertAfter
  simp only [h1, h2]
  refine ⟨?_, ?_, ?_, ?_⟩
  · intro y
    show dl_entry_next (dl_entry_set_next { dl_entry_set_next _ _ _ with last := _ } _ _) y = _
    rw [dl_entry_next_set_next]
    by_cases hy : y = entry
    · rw [if_pos hy, if_pos hy]
    · rw [if_neg hy, if_neg hy]
      show dl_entry_next (dl_entry_set_next _ _ _) y = _
      rw [dl_entry_next_set_next, dl_entry_next_set_prev]
  · intro y
    show dl_entry_data (dl_entry_set_next { dl_entry_set_next _ _ _ with last := _ } _ _) y = _
    rw [dl_entry_data_set_next]
    show dl_entry_data (dl_entry_set_next _ _ _) y = _
    rw [dl_entry_data_set_next, dl_entry_data_set_prev]
  · rfl
  · intro y hy
    show (mem_read (dl_entry_set_next { dl_entry_set_next _ _ _ with last := _ } _ _).mem y).isSome
    apply mem_read_set_next_isSome
    show (mem_read (dl_entry_set_next _ _ _).mem y).isSome
    exact mem_read_set_next_isSome _ _ _ _ (mem_read_set_prev_isSome _ _ _ _ hy)

/-- What `dl_entry_insertBeginning` does to an empty list. -/
theorem dl_entry_insertBeginning_empty (L : dl_list) (entry_new : Nat) (hfirst : L.first = none) :
    dl_entry_next (dl_entry_insertBeginning L entry_new) entry_new = none ∧
    (∀ y, dl_entry_data (dl_entry_insertBeginning L entry_new) y = dl_entry_data L y) ∧
    (dl_entry_insertBeginning L entry_new).first = some entry_new ∧
    (∀ y, (mem_read L.mem y).isSome →
      (mem_read (dl_entry_insertBeginning L entry_new).mem y).isSome) := by
  unfold dl_entry_insertBeginning
  rw [hfirst]
  simp only []
  refine ⟨?_, ?_, ?_, ?_⟩
  · show dl_entry_next (dl_entry_set_next _ _ _) entry_new = _
    rw [dl_entry_next_set_next, if_pos rfl]
  · intro y
    show dl_entry_data (dl_entry_set_next (dl_entry_set_prev _ _ _) _ _) y = _
    rw [dl_entry_data_set_next, dl_entry_data_set_prev]
    rfl
  · rfl
  · intro y hy
    show (mem_read (dl_entry_set_next (dl_entry_set_prev _ _ _) _ _).mem y).isSome
    exact mem_read_set_next_isSome _ _ _ _ (mem_read_set_prev_isSome _ _ _ _ hy)

theorem linked_to_last (L : dl_list) :
    ∀ (xs : List Nat) (start stop : Option Nat) (la : Nat),
      linked_to L start (xs ++ [la]) stop → dl_entry_next L la = stop := by
  intro xs start stop la h
  obtain ⟨m, _, h2⟩ := (linked_to_append L xs [la] start stop).mp h
  have h3 : m = some la ∧ dl_entry_next L la = stop := h2
  exact h3.2

theorem requested_walk_none (larger : Nat → Bool) (entry : Nat) :
    ∀ (es : List Nat), es.any larger = false → requested_walk larger entry es = es := by
  intro es
  induction es with
  | nil => intro _; rfl
  | cons c rest ih =>
    intro h
    simp only [List.any_cons, Bool.or_eq_false_iff] at h
    rw [requested_walk, if_neg (by rw [h.1]; simp), ih h.2]

theorem relink_entries_suffix (larger : Nat → Bool) :
    ∀ (rem succ : List Nat), succ ≠ [] → (∃ k, succ = k ++ rem) →
      ∃ k2, succ = k2 ++ relink_entries larger succ rem ∧
        relink_entries larger succ rem ≠ [] := by
  intro rem
  induction rem with
  | nil => intro succ hs _; exact ⟨[], rfl, hs⟩
  | cons c rest ih =>
    intro succ hs hk
    obtain ⟨k, hk⟩ := hk
    rw [relink_entries]
    split
    · obtain ⟨k2, h1, h2⟩ := ih (c :: rest) (List.cons_ne_nil _ _) ⟨[c], rfl⟩
      refine ⟨k ++ k2, ?_, h2⟩
      rw [List.append_assoc, ← h1]
      exact hk
    · exact ih succ hs ⟨k ++ [c], by rw [hk]; simp⟩

theorem relink_entries_last (larger : Nat → Bool) (c : Nat) (rest : List Nat) :
    relink_entries larger (c :: rest) rest ≠ [] ∧
      (relink_entries larger (c :: rest) rest).getLast? = (c :: rest).getLast? := by
  obtain ⟨k2, h1, h2⟩ := relink_entries_suffix larger rest (c :: rest) (List.cons_ne_nil _ _)
    ⟨[c], rfl⟩
  refine ⟨h2, ?_⟩
  conv_rhs => rw [h1]
  rw [List.getLast?_append_of_ne_nil _ h2]

/-- With an entry of larger AID in the list, the walk after the loop is the
entries in front of the first such entry, the new entry, and a part of the
list that ends with its last entry. -/
theorem requested_walk_shape (larger : Nat → Bool) (entry : Nat) :
    ∀ (es : List Nat), es.any larger = true →
      ∃ S, requested_walk larger entry es
          = es.takeWhile (fun e => !larger e) ++ entry :: S ∧
        S ≠ [] ∧ S.getLast? = es.getLast? ∧ ∀ x ∈ S, x ∈ es := by
  intro es
  induction es with
  | nil => intro h; simp at h
  | cons c rest ih =>
    intro h
    by_cases hc : larger c = true
    · refine ⟨relink_entries larger (c :: rest) rest, ?_, ?_, ?_, ?_⟩
      · rw [requested_walk, if_pos hc, List.takeWhile_cons]
        simp [hc]
      · exact (relink_entries_last larger c rest).1
      · exact (relink_entries_last larger c rest).2
      · intro x hx
        rcases relink_entries_mem larger rest (c :: rest) x hx with h | h
        · exact h
        · exact List.mem_cons_of_mem _ h
    · have hrest : rest.any larger = true := by
        simp only [List.any_cons, Bool.or_eq_true] at h
        rcases h with h | h
        · exact absurd h hc
        · exact h
      obtain ⟨S, h1, h2, h3, h4⟩ := ih hrest
      refine ⟨S, ?_, h2, ?_, fun x hx => List.mem_cons_of_mem _ (h4 x hx)⟩
      · rw [requested_walk, if_neg hc, h1, List.takeWhile_cons]
        simp [hc]
      · rw [h3]
        cases rest with
        | nil => simp at hrest
        | cons d r => simp


/-- What the walk reads after `station->AID = requested_AID` and a
`dl_entry_insertEnd` that leaves the `data` pointers alone. -/
theorem entry_view_place_end (s s1 : mac_high_state)
    (es : List Nat) (entry station requested_AID : Nat) (hfr : frame station s s1)
    (hL2 : ∀ y, dl_entry_data (dl_entry_insertEnd s1.assoc_tbl entry) y
      = dl_entry_data s1.assoc_tbl y)
    (hdata_entry : dl_entry_data s.assoc_tbl entry = station)
    (hdata : ∀ e ∈ es, dl_entry_data s.assoc_tbl e ≠ station) :
    (∀ e ∈ es, entry_view (place_end s1 entry station requested_AID) e = entry_view s e) ∧
    entry_view (place_end s1 entry station requested_AID) entry
      = { data := station, obj := { station_at s1 station with AID := requested_AID } } := by
  have hst : ∀ q, station_at (place_end s1 entry station requested_AID) q
      = station_at (station_set_AID s1 station requested_AID) q := fun _ => rfl
  have hd : ∀ y, dl_entry_data (place_end s1 entry station requested_AID).assoc_tbl y
      = dl_entry_data s1.assoc_tbl y := hL2
  constructor
  · intro e he
    unfold entry_view
    rw [hd e, hfr.1 e, hst, station_at_set_AID, if_neg (hdata e he), hfr.2.1 _ (hdata e he)]
  · unfold entry_view
    rw [hd entry, hfr.1 entry, hdata_entry, hst, station_at_set_AID, if_pos rfl]

/-- The AID set-up for a requested AID on the list in memory and on the
sequence of entries (wlan_mac_high.c:2649-2673).  For every doubly linked list
in memory whose entries `es` are linked in once and every new entry that is
not in the list and whose `data` pointer is the new station, with AID 0: the
loop and the `dl_entry_insertEnd` that may follow it end, and the walk from
`first` then reads the table that `Dcf.add_association_place` gives for the
table that the walk read before. -/
theorem requested_place_refines (h : wlan_mac_high_h) (s : mac_high_state) (es : List Nat)
    (entry station requested_AID : Nat) (hany : requested_AID ≠ h.ADD_ASSOCIATION_ANY_AID)
    (hwf : list_wf s.assoc_tbl es) (hentry : entry ∉ es)
    (halloc : (mem_read s.assoc_tbl.mem entry).isSome)
    (hdata_entry : dl_entry_data s.assoc_tbl entry = station)
    (hdata : ∀ e ∈ es, dl_entry_data s.assoc_tbl e ≠ station)
    (hst0 : (station_at s station).AID = 0) :
    assoc_tbl_walk s = some (es.map (entry_view s)) ∧
    ∃ s2, add_association_place h s entry station requested_AID = some s2 ∧
      assoc_tbl_walk s2
        = some (Dcf.add_association_place h (es.map (entry_view s)) station
            (station_at s station) requested_AID) := by
  obtain ⟨hw0, s1, hloop, hw1, hst1, hfr⟩ := requested_loop_refines s es entry station
    requested_AID hwf hentry halloc hdata_entry hdata
  refine ⟨hw0, ?_⟩
  obtain ⟨hnd, hlink, hprev, hlast, _, hall⟩ := hwf
  have hfirst : s.assoc_tbl.first = es.head? := by
    have := linked_to_head _ _ _ _ hlink
    simpa using this
  have hfuel : es.length ≤ walk_fuel s := by
    have := mem_length_of_nodup s.assoc_tbl.mem es hnd hall
    unfold walk_fuel
    omega
  obtain ⟨s1b, hloopb, hlink1, _, hstb⟩ := requested_loop_links entry station requested_AID
    (fun e => decide ((station_at s (dl_entry_data s.assoc_tbl e)).AID > requested_AID))
    es s [] (walk_fuel s)
    (by rw [List.nil_append]; exact List.nodup_cons.mpr ⟨hentry, hnd⟩)
    (by rw [List.nil_append]; exact hlink) hprev hdata (fun _ _ => rfl) hfuel
  rw [← hfirst, hloop] at hloopb
  have hs1 : s1b = s1 := (Option.some.inj hloopb).symm
  subst hs1
  rw [List.nil_append] at hlink1
  have hndW := requested_walk_nodup
    (fun e => decide ((station_at s (dl_entry_data s.assoc_tbl e)).AID > requested_AID))
    entry es (List.nodup_cons.mpr ⟨hentry, hnd⟩)
  have hlast1 : s1b.assoc_tbl.last = es.getLast? := hfr.2.2.1.trans hlast
  have hall1 : ∀ x, x = entry ∨ x ∈ es → (mem_read s1b.assoc_tbl.mem x).isSome := by
    intro x hx
    apply hfr.2.2.2.1
    rcases hx with hx | hx
    · rw [hx]; exact halloc
    · exact hall x hx
  -- the sequence model
  have hlarger_view : ∀ e : Nat,
      decide (((entry_view s) e).obj.AID > requested_AID)
        = decide ((station_at s (dl_entry_data s.assoc_tbl e)).AID > requested_AID) :=
    fun _ => rfl
  unfold add_association_place Dcf.add_association_place
  rw [if_neg hany, if_neg hany, hloop]
  simp only []
  by_cases hany_l : es.any
      (fun e => decide ((station_at s (dl_entry_data s.assoc_tbl e)).AID > requested_AID)) = true
  · -- an entry has a larger AID: the station has been linked in
    rw [if_pos hany_l] at hstb
    by_cases hr0 : requested_AID = 0
    · -- the requested AID is 0: `dl_entry_insertEnd` links the entry once more
      have hz1 : (station_at s1b station).AID = 0 := by rw [hstb]; exact hr0
      have hz2 : (Dcf.add_association_requested_loop station requested_AID (station_at s station)
          (es.map (entry_view s))).1.AID = 0 := by rw [← hst1]; exact hz1
      rw [if_pos hz1, if_pos hz2]
      obtain ⟨S, hW, hSne, hSlast, hSmem⟩ := requested_walk_shape
        (fun e => decide ((station_at s (dl_entry_data s.assoc_tbl e)).AID > requested_AID))
        entry es hany_l
      rw [hW] at hlink1 hndW
      obtain ⟨S1, la, hS⟩ : ∃ S1 la, S = S1 ++ [la] := by
        rcases List.eq_nil_or_concat S with h | ⟨S1, la, h⟩
        · exact absurd h hSne
        · exact ⟨S1, la, by rw [h, List.concat_eq_append]⟩
      have hla : es.getLast? = some la := by
        rw [← hSlast, hS]; simp
      have hla_es : la ∈ es := List.mem_of_getLast?_eq_some hla
      have hla_ne : la ≠ entry := fun hh => hentry (by rw [← hh]; exact hla_es)
      have hnext_la : dl_entry_next s1b.assoc_tbl la = none := by
        apply linked_to_last s1b.assoc_tbl
          (es.takeWhile (fun e => !decide ((station_at s (dl_entry_data s.assoc_tbl e)).AID
            > requested_AID)) ++ entry :: S1) s1b.assoc_tbl.first none la
        rw [List.append_assoc, List.cons_append, ← hS]
        exact hlink1
      obtain ⟨hn, hd, hf, ha⟩ := dl_entry_insertAfter_last s1b.assoc_tbl la entry hla_ne hnext_la
      have hend : dl_entry_insertEnd s1b.assoc_tbl entry
          = dl_entry_insertAfter s1b.assoc_tbl la entry := by
        unfold dl_entry_insertEnd
        rw [hlast1, hla]
      have hviews := entry_view_place_end s s1b es entry
        station requested_AID hfr (by rw [hend]; exact hd) hdata_entry hdata
      obtain ⟨m1, hl1, hrest⟩ := (linked_to_append s1b.assoc_tbl _ (entry :: S) _ none).mp hlink1
      have hrest1 : m1 = some entry ∧ _ := hrest
      have hdisj := (List.nodup_append.mp hndW).2.2
      have hlinkF : linked_to (place_end s1b entry station requested_AID).assoc_tbl
          (place_end s1b entry station requested_AID).assoc_tbl.first
          (es.takeWhile (fun e => !decide ((station_at s (dl_entry_data s.assoc_tbl e)).AID
            > requested_AID)) ++ [entry]) none := by
        show linked_to (dl_entry_insertEnd s1b.assoc_tbl entry)
          (dl_entry_insertEnd s1b.assoc_tbl entry).first _ none
        rw [hend, hf, linked_to_append]
        refine ⟨some entry, ?_, rfl, ?_⟩
        · rw [← hrest1.1]
          apply linked_to_congr s1b.assoc_tbl _ _ _ _ _ hl1
          intro y hy
          rw [hn y, if_neg, if_neg]
          · intro hh; exact hdisj hy (by rw [hh]; exact List.mem_cons_self _ _)
          · intro hh
            exact hdisj hy (by rw [hh, hS]; simp)
        · show dl_entry_next _ entry = none
          rw [hn entry, if_neg (fun hh => hla_ne hh.symm), if_pos rfl]
      have htw_sub : ∀ x ∈ es.takeWhile
          (fun e => !decide ((station_at s (dl_entry_data s.assoc_tbl e)).AID > requested_AID)),
          x ∈ es := fun x hx => (List.takeWhile_sublist _).subset hx
      have hndF := List.Nodup.sublist
          (List.Sublist.append (List.Sublist.refl _)
            (List.Sublist.cons₂ _ (List.nil_sublist _))) hndW
      have hallF : ∀ x ∈ es.takeWhile
          (fun e => !decide ((station_at s (dl_entry_data s.assoc_tbl e)).AID > requested_AID))
            ++ [entry],
          (mem_read (place_end s1b entry station requested_AID).assoc_tbl.mem x).isSome := by
        intro x hx
        show (mem_read (dl_entry_insertEnd s1b.assoc_tbl entry).mem x).isSome
        rw [hend]
        apply ha
        apply hall1
        rcases List.mem_append.mp hx with hx | hx
        · right; exact htw_sub x hx
        · left; simpa using hx
      refine ⟨place_end s1b entry station requested_AID, rfl, ?_⟩
      rw [assoc_tbl_walk_linked _ _ hndF hlinkF hallF]
      rw [List.map_append, List.map_cons, List.map_nil, hviews.2, ← hst1]
      unfold Dcf.dl_entry_insertEnd Dcf.add_association_requested_front
      rw [List.takeWhile_map]
      congr 2
      apply List.map_congr_left
      intro e he
      exact hviews.1 e (htw_sub e he)
    · -- the station has its AID: nothing follows the loop
      have hz1 : ¬ (station_at s1b station).AID = 0 := by rw [hstb]; exact hr0
      have hz2 : ¬ (Dcf.add_association_requested_loop station requested_AID
          (station_at s station) (es.map (entry_view s))).1.AID = 0 := by
        rw [← hst1]; exact hz1
      rw [if_neg hz1, if_neg hz2]
      exact ⟨s1b, rfl, hw1⟩
  · -- no entry has a larger AID: `dl_entry_insertEnd` links the entry in
    have hany_f : es.any
        (fun e => decide ((station_at s (dl_entry_data s.assoc_tbl e)).AID > requested_AID))
          = false := by
      simpa using hany_l
    rw [if_neg hany_l] at hstb
    have hz1 : (station_at s1b station).AID = 0 := by rw [hstb]; exact hst0
    have hz2 : (Dcf.add_association_requested_loop station requested_AID (station_at s station)
        (es.map (entry_view s))).1.AID = 0 := by rw [← hst1]; exact hz1
    rw [if_pos hz1, if_pos hz2]
    rw [requested_walk_none _ entry es hany_f] at hlink1
    have hfront : Dcf.add_association_requested_front requested_AID (es.map (entry_view s))
        = es.map (entry_view s) := by
      apply Dcf.add_association_requested_front_none
      intro x hx
      obtain ⟨e, he, rfl⟩ := List.mem_map.mp hx
      have := List.any_eq_false.mp hany_f e he
      simpa using this
    rw [hfront]
    rcases List.eq_nil_or_concat es with hes | ⟨es1, la, hes⟩
    · -- the list is empty
      subst hes
      have hfirst1 : s1b.assoc_tbl.first = none := hlink1
      have hend : dl_entry_insertEnd s1b.assoc_tbl entry
          = dl_entry_insertBeginning s1b.assoc_tbl entry := by
        unfold dl_entry_insertEnd
        rw [hlast1]
        rfl
      obtain ⟨hn, hd, hf, ha⟩ := dl_entry_insertBeginning_empty s1b.assoc_tbl entry hfirst1
      have hviews := entry_view_place_end s s1b []
        entry station requested_AID hfr (by rw [hend]; exact hd) hdata_entry hdata
      have hlinkF : linked_to (place_end s1b entry station requested_AID).assoc_tbl
          (place_end s1b entry station requested_AID).assoc_tbl.first [entry] none := by
        show linked_to (dl_entry_insertEnd s1b.assoc_tbl entry)
          (dl_entry_insertEnd s1b.assoc_tbl entry).first [entry] none
        rw [hend, hf]
        exact ⟨rfl, hn⟩
      have hallF : ∀ x ∈ [entry],
          (mem_read (place_end s1b entry station requested_AID).assoc_tbl.mem x).isSome := by
        intro x hx
        show (mem_read (dl_entry_insertEnd s1b.assoc_tbl entry).mem x).isSome
        rw [hend]
        apply ha
        apply hall1
        left; simpa using hx
      refine ⟨place_end s1b entry station requested_AID, rfl, ?_⟩
      rw [assoc_tbl_walk_linked _ [entry] (List.nodup_singleton _) hlinkF hallF]
      rw [List.map_cons, List.map_nil, hviews.2, ← hst1]
      rfl
    · -- the entry is linked in behind the last entry
      rw [List.concat_eq_append] at hes
      have hla : es.getLast? = some la := by rw [hes]; simp
      have hla_es : la ∈ es := List.mem_of_getLast?_eq_some hla
      have hla_ne : la ≠ entry := fun hh => hentry (by rw [← hh]; exact hla_es)
      have hnext_la : dl_entry_next s1b.assoc_tbl la = none := by
        apply linked_to_last s1b.assoc_tbl es1 s1b.assoc_tbl.first none la
        rw [← hes]; exact hlink1
      obtain ⟨hn, hd, hf, ha⟩ := dl_entry_insertAfter_last s1b.assoc_tbl la entry hla_ne hnext_la
      have hend : dl_entry_insertEnd s1b.assoc_tbl entry
          = dl_entry_insertAfter s1b.assoc_tbl la entry := by
        unfold dl_entry_insertEnd
        rw [hlast1, hla]
      have hviews := entry_view_place_end s s1b es entry
        station requested_AID hfr (by rw [hend]; exact hd) hdata_entry hdata
      have hnd_es1 : es1.Nodup ∧ la ∉ es1 := by
        rw [hes] at hnd
        have := List.nodup_append.mp hnd
        exact ⟨this.1, fun hh => this.2.2 hh (List.mem_singleton_self _)⟩
      have hlinkF : linked_to (place_end s1b entry station requested_AID).assoc_tbl
          (place_end s1b entry station requested_AID).assoc_tbl.first (es ++ [entry]) none := by
        show linked_to (dl_entry_insertEnd s1b.assoc_tbl entry)
          (dl_entry_insertEnd s1b.assoc_tbl entry).first (es ++ [entry]) none
        rw [hend, hf, hes, linked_to_append]
        refine ⟨some entry, ?_, rfl, ?_⟩
        · obtain ⟨m0, h1, h2⟩ := (linked_to_append s1b.assoc_tbl es1 [la] _ none).mp
            (by rw [← hes]; exact hlink1)
          have h2b : m0 = some la ∧ _ := h2
          rw [linked_to_append]
          refine ⟨some la, ?_, rfl, ?_⟩
          · rw [← h2b.1]
            apply linked_to_congr s1b.assoc_tbl _ _ _ _ _ h1
            intro y hy
            rw [hn y, if_neg, if_neg]
            · intro hh
              exact hentry (by rw [← hh, hes]; exact List.mem_append_left _ hy)
            · intro hh; exact hnd_es1.2 (by rw [← hh]; exact hy)
          · show dl_entry_next _ la = some entry
            rw [hn la, if_pos rfl]
        · show dl_entry_next _ entry = none
          rw [hn entry, if_neg (fun hh => hla_ne hh.symm), if_pos rfl]
      have hndF : (es ++ [entry]).Nodup := by
        have hperm : List.Perm (es ++ [entry]) (entry :: es) := List.perm_append_singleton _ _
        exact hperm.nodup_iff.mpr (List.nodup_cons.mpr ⟨hentry, hnd⟩)
      have hallF : ∀ x ∈ es ++ [entry],
          (mem_read (place_end s1b entry station requested_AID).assoc_tbl.mem x).isSome := by
        intro x hx
        show (mem_read (dl_entry_insertEnd s1b.assoc_tbl entry).mem x).isSome
        rw [hend]
        apply ha
        apply hall1
        rcases List.mem_append.mp hx with hx | hx
        · right; exact hx
        · left; simpa using hx
      refine ⟨place_end s1b entry station requested_AID, rfl, ?_⟩
      rw [assoc_tbl_walk_linked _ _ hndF hlinkF hallF]
      rw [List.map_append, List.map_cons, List.map_nil, hviews.2, ← hst1]
      unfold Dcf.dl_entry_insertEnd
      congr 2
      exact List.map_congr_left hviews.1

end Linked

/-- The AID set-up in memory at a concrete list: the table B@2, C@3 with the
new entry at 1008 and the new station at 1009 meets the conditions of
`Linked.requested_place_refines` for the requested AIDs 1, 4 and 2 (before
both entries, behind both, between them); for the requested AID 1 the walk
reads the new station and C. -/
theorem requested_place_refines_inst :
    Linked.list_wf mac_high_linked_mid_inst.assoc_tbl [1000, 1004] ∧
    1008 ∉ [1000, 1004] ∧
    (Linked.mem_read mac_high_linked_mid_inst.assoc_tbl.mem 1008).isSome ∧
    Linked.dl_entry_data mac_high_linked_mid_inst.assoc_tbl 1008 = 1009 ∧
    (∀ e ∈ [1000, 1004], Linked.dl_entry_data mac_high_linked_mid_inst.assoc_tbl e ≠ 1009) ∧
    (Linked.station_at mac_high_linked_mid_inst 1009).AID = 0 ∧
    ((Linked.add_association_place mac_high_h_inst mac_high_linked_mid_inst 1008 1009 1).bind
        Linked.assoc_tbl_walk).map assoc_view = some [(1, 10), (3, 12)] ∧
    (∀ requested_AID ∈ [1, 4, 2],
      ∃ s2, Linked.add_association_place mac_high_h_inst mac_high_linked_mid_inst 1008 1009
          requested_AID = some s2 ∧
        Linked.assoc_tbl_walk s2
          = some (add_association_place mac_high_h_inst
              ([1000, 1004].map (Linked.entry_view mac_high_linked_mid_inst)) 1009
              (Linked.station_at mac_high_linked_mid_inst 1009) requested_AID)) :=
  ⟨by decide, by decide, by decide, by decide, by decide, by decide, by decide,
    fun requested_AID hr =>
      (Linked.requested_place_refines mac_high_h_inst mac_high_linked_mid_inst [1000, 1004]
        1008 1009 requested_AID
        (by
          rcases List.mem_cons.mp hr with h | hr
          · rw [h]; decide
          · rcases List.mem_cons.mp hr with h | hr
            · rw [h]; decide
            · rw [List.mem_singleton.mp hr]; decide)
        (by decide) (by decide) (by decide) (by decide) (by decide) (by decide)).2⟩

/-! ### The requested AID on the linked list in memory -/

/-- The two representations of the association table agree on the sequences of
calls of `table_calls_agree_inst` and `table_calls_agree_any_inst`, among them
the adds that pass one entry to `dl_entry_insertBefore` two and three times:
the walk from `first` of the list in memory is the table of the sequence
model.  They part when an entry that has been linked in twice is removed:
`first` of the list in memory keeps pointing at the removed entry. -/
theorem linked_models_agree_inst :
    (∀ calls ∈ table_calls_agree_inst,
      Linked.models_agree mac_high_h_inst mac_high_linked_heap_inst mac_high_state_heap_inst
        calls) ∧
    (∀ calls ∈ table_calls_agree_any_inst,
      Linked.models_agree mac_high_h_any_inst mac_high_linked_heap_inst
        mac_high_state_heap_inst calls) ∧
    ¬ Linked.models_agree mac_high_h_inst mac_high_linked_heap_inst mac_high_state_heap_inst
        table_calls_relink_inst := by
  decide

/-- C7 at the failing input, on the list as it lies in memory: the table
B@2, C@3 is a list of two entries with `length` 2, below the maximum 8;
address 10 and AID 1 are new.  `wlan_mac_high_add_association` with the
requested AID 1 returns the new station (at 1009) with AID 1, but the loop has
called `dl_entry_insertBefore` with the one new entry (at 1008) before B and
again before C: `length` is 4, not 3; the walk from `first` reads the new
station and C, and B (entry 1000) is not in it any more; the `prev` pointers
of the new entry and of B point at each other and `next` of B points at the
new entry.  The sequence model gives the same walk. -/
theorem add_association_requested_relinks_entry :
    (mac_high_linked_23_inst.bind Linked.assoc_tbl_walk).map assoc_view
      = some [(2, 11), (3, 12)] ∧
    mac_high_linked_23_inst.map (fun s => (s.assoc_tbl.length, s.max_num_associations))
      = some (2, 8) ∧
    mac_high_linked_add_inst.map (fun r => r.1) = some (some 1009) ∧
    mac_high_linked_add_inst.map (fun r => (Linked.station_at r.2 1009).AID) = some 1 ∧
    mac_high_linked_add_inst.map (fun r => r.2.assoc_tbl.length) = some 4 ∧
    (mac_high_linked_add_inst.bind (fun r => Linked.assoc_tbl_walk r.2)).map assoc_view
      = some [(1, 10), (3, 12)] ∧
    mac_high_linked_add_inst.bind
        (fun r => Linked.dl_walk r.2.assoc_tbl (Linked.walk_fuel r.2) r.2.assoc_tbl.first)
      = some [1008, 1004] ∧
    mac_high_linked_add_inst.map
        (fun r => (Linked.dl_entry_prev r.2.assoc_tbl 1008, Linked.dl_entry_prev r.2.assoc_tbl 1000,
          Linked.dl_entry_next r.2.assoc_tbl 1000))
      = some (some 1000, some 1008, some 1008) ∧
    assoc_view (wlan_mac_high_add_association mac_high_h_inst mac_high_state_23_inst 10 1).2.assoc_tbl
      = [(1, 10), (3, 12)] := by
  decide

/-- C26 at the failing input, on the list as it lies in memory: from the empty
tables the stations 11 and 12 are added with the requested AIDs 2 and 3,
station 10 is added with the requested AID 1, which links its entry in before
both entries, and station 10 is removed.  Before the remove the cross-link
holds for the stations the walk reads.  The remove finds the entry of station
10 (at 1008) with a `prev` pointer that is not NULL, so `dl_entry_remove`
leaves `first` alone: after the remove `first` still points at that entry,
which has been freed together with its station (at 1009).  The walk of the
table still reads station 10, whose statistics structure (at 1011) has
`is_associated = 0`; with promiscuous statistics disabled before the remove,
that statistics structure is not in the statistics table any more and has
been freed. -/
theorem assoc_first_dangles_after_remove :
    (Linked.table_run mac_high_h_inst mac_high_linked_empty_inst
        table_calls_relink_inst.dropLast).map (fun s => decide (Linked.assoc_stats_linked s))
      = some true ∧
    (Linked.table_run mac_high_h_inst mac_high_linked_empty_inst table_calls_relink_inst).map
        (fun s => (s.assoc_tbl.first, Linked.dl_entry_data s.assoc_tbl 1008, s.freed))
      = some (some 1008, 1009, [1009, 1008]) ∧
    ((Linked.table_run mac_high_h_inst mac_high_linked_empty_inst table_calls_relink_inst).bind
        Linked.assoc_tbl_walk).map
        (fun l => l.head?.map (fun e => (e.data, e.obj.AID, e.obj.addr, e.obj.stats)))
      = some (some (1009, 1, 10, 1011)) ∧
    (Linked.table_run mac_high_h_inst mac_high_linked_empty_inst table_calls_relink_inst).map
        (fun s => s.stat_tbl.map (fun x => (x.data, x.obj.addr, x.obj.is_associated)))
      = some [(1003, 11, 1), (1007, 12, 1), (1011, 10, 0)] ∧
    (Linked.table_run mac_high_h_inst mac_high_linked_empty_inst table_calls_relink_inst).map
        (fun s => decide (Linked.assoc_stats_linked s))
      = some false ∧
    (Linked.table_run mac_high_h_inst mac_high_linked_empty_inst
        table_calls_relink_off_inst).map
        (fun s => (s.assoc_tbl.first, s.freed,
          s.stat_tbl.map (fun x => (x.data, x.obj.addr, x.obj.is_associated))))
      = some (some 1008, [1009, 1008, 1011], [(1003, 11, 1), (1007, 12, 1)]) ∧
    ((Linked.table_run mac_high_h_inst mac_high_linked_empty_inst
        table_calls_relink_off_inst).bind Linked.assoc_tbl_walk).map
        (fun l => l.head?.map (fun e => (e.data, e.obj.AID, e.obj.addr, e.obj.stats)))
      = some (some (1009, 1, 10, 1011)) ∧
    (Linked.table_run mac_high_h_inst mac_high_linked_empty_inst
        table_calls_relink_off_inst).map (fun s => decide (Linked.assoc_stats_linked s))
      = some false :=
  ⟨rfl, rfl, rfl, rfl, rfl, rfl, rfl, rfl⟩

end Dcf
